import Mathlib

/-!
Event log tailer of the Zabbix agent (`src/zabbix_agent/eventlog.c`).

A shallow embedding of the two event log back ends of the agent:

* the legacy back end (`zbx_open_eventlog`, `seek_eventlog`,
  `zbx_parse_eventlog_message`, `process_eventslog`), and
* the modern back end (`zbx_open_eventlog6`, `zbx_get_handle_eventlog6`,
  `initialize_eventlog6`, `zbx_parse_eventlog_message6`, `process_eventslog6`).

Machine integers are natural numbers reduced modulo `2^32` (`DWORD`) or `2^64`
(`zbx_uint64_t`) wherever the C code can wrap.  The counters `s_count`,
`p_count`, `rate` and `metric->refresh` are C `int`s and are modelled as
integers.  The operating system (the event log service, the registry, the
message DLLs) is not part of the program; it is modelled as explicit state with
a list of injected faults, so that every read error the code handles can be
produced.
-/

namespace Eventlog

/-! ## Constants of the C headers -/

def SUCCEED : Int := 0

def FAIL : Int := -1

def ERROR_SUCCESS : Nat := 0

def ERROR_HANDLE_EOF : Nat := 38

def ERROR_INVALID_PARAMETER : Nat := 87

def ERROR_INSUFFICIENT_BUFFER : Nat := 122

def ERROR_NO_MORE_ITEMS : Nat := 259

def EVENTLOG_SEQUENTIAL_READ : Nat := 1

def EVENTLOG_SEEK_READ : Nat := 2

def EVENTLOG_FORWARDS_READ : Nat := 4

def EVENTLOG_BACKWARDS_READ : Nat := 8

def EVENTLOG_SUCCESS : Nat := 0

def EVENTLOG_ERROR_TYPE : Nat := 1

def EVENTLOG_WARNING_TYPE : Nat := 2

def EVENTLOG_INFORMATION_TYPE : Nat := 4

def EVENTLOG_AUDIT_SUCCESS : Nat := 8

def EVENTLOG_AUDIT_FAILURE : Nat := 16

def WINEVENT_LEVEL_LOG_ALWAYS : Nat := 0

def WINEVENT_LEVEL_CRITICAL : Nat := 1

def WINEVENT_LEVEL_ERROR : Nat := 2

def WINEVENT_LEVEL_WARNING : Nat := 3

def WINEVENT_LEVEL_INFO : Nat := 4

def WINEVENT_LEVEL_VERBOSE : Nat := 5

def WINEVENT_KEYWORD_AUDIT_FAILURE : Nat := 0x10000000000000

def WINEVENT_KEYWORD_AUDIT_SUCCESS : Nat := 0x20000000000000

def ITEM_LOGTYPE_INFORMATION : Nat := 1

def ITEM_LOGTYPE_WARNING : Nat := 2

def ITEM_LOGTYPE_ERROR : Nat := 4

def ITEM_LOGTYPE_FAILURE_AUDIT : Nat := 7

def ITEM_LOGTYPE_SUCCESS_AUDIT : Nat := 8

def ITEM_LOGTYPE_CRITICAL : Nat := 9

def ITEM_LOGTYPE_VERBOSE : Nat := 10

def INFORMATION_TYPE : String := "Information"

def WARNING_TYPE : String := "Warning"

def ERROR_TYPE : String := "Error"

def AUDIT_FAILURE : String := "Failure Audit"

def AUDIT_SUCCESS : String := "Success Audit"

def CRITICAL_TYPE : String := "Critical"

def VERBOSE_TYPE : String := "Verbose"

def ZBX_KIBIBYTE : Nat := 1024

def EVT_ARRAY_SIZE : Nat := 100

def ZBX_CASE_SENSITIVE : Nat := 1

def ZBX_IGNORE_CASE : Nat := 0

/-! ## Machine arithmetic -/

/-- Conversion `(DWORD)x` of a 64-bit value. -/
def toDWORD (x : Nat) : Nat := x % 2 ^ 32

/-- Addition of two `zbx_uint64_t` values. -/
def add64 (a b : Nat) : Nat := (a + b) % 2 ^ 64

/-- Subtraction of two `zbx_uint64_t` values. -/
def sub64 (a b : Nat) : Nat := (a + 2 ^ 64 - b % 2 ^ 64) % 2 ^ 64

/-- A value reduced to the range of the C type `int` (32 bits, two's
complement): what the compiled code holds after an `int` operation whose
mathematical result is `x`. -/
def toInt32 (x : Int) : Int := (x + 2 ^ 31) % 2 ^ 32 - 2 ^ 31

/-- The product of two `int` values, computed in `int`. -/
def mul_int (a b : Int) : Int := toInt32 (a * b)

/-- The expression `rate * metric->refresh` (lines 871 and 1394), an `int`. -/
def sent_budget (rate refresh : Int) : Int := mul_int rate refresh

/-- The expression `4 * rate * metric->refresh` (lines 875 and 1398), an
`int` computed from left to right. -/
def processed_budget (rate refresh : Int) : Int := mul_int (mul_int 4 rate) refresh

/-! ## Data model -/

/-- One raw record of the legacy log.  The header fields are those of
`EVENTLOGRECORD`; `source` is the source name stored after the header,
`strings` are the insert strings, and `resolved` is what the loop over the
message files of `zbx_parse_eventlog_message` (lines 1099-1122) produces for
this record: `none` when no candidate yields a formatted message. -/
structure EVENTLOGRECORD where
  Length : Nat
  RecordNumber : Nat
  TimeGenerated : Nat
  EventID : Nat
  EventType : Nat
  source : String
  strings : List String
  resolved : Option String
  deriving DecidableEq, Repr

/-- What the sink callback `process_value_cb` receives for one record (the
arguments that vary from record to record). -/
structure SinkCall where
  value : String
  lastlogsize : Nat
  timestamp : Nat
  source : String
  severity : Nat
  logeventid : Nat
  deriving DecidableEq, Repr

/-- The fields of `ZBX_ACTIVE_METRIC` the tailer reads or writes. -/
structure ZBX_ACTIVE_METRIC where
  lastlogsize : Nat
  skip_old_data : Nat
  refresh : Int
  deriving DecidableEq, Repr

/-- The four filter patterns of an item key. -/
structure FilterSpec where
  pattern : String
  key_severity : String
  key_source : String
  key_logeventid : String
  deriving DecidableEq, Repr

/-- One record that went through decode and filter, as observed from outside:
the id the back end reports for the record (`RecordNumber`, `EventRecordID`),
the event offered to the filter (with the checkpoint value it carries), the
severity name matched against `key_severity`, whether the four predicates
matched, and the value of `send_err` after the record. -/
structure Step where
  id : Nat
  call : SinkCall
  str_severity : String
  matched : Bool
  send_err : Int
  deriving DecidableEq, Repr

/-- The variables of the dispatch loop that live across records (they are
locals of `process_eventslog` and `process_eventslog6`, together with
`metric->lastlogsize` and `*lastlogsize_sent`), and two observations: `calls`
lists the invocations of the sink so far, `steps` the records processed so far. -/
structure Dispatch where
  metric_lastlogsize : Nat
  lastlogsize_sent : Nat
  s_count : Int
  p_count : Int
  send_err : Int
  str_severity : String
  calls : List SinkCall
  steps : List Step
  deriving DecidableEq, Repr

/-- The environment of a cycle that is not the log itself: the regular
expression evaluator (a black box), the sink callback (its first argument
lists the earlier invocations of the cycle, which stands for the state of the
sink), the patterns, the rate and the formatter of system error codes. -/
structure Env where
  regexp_match_ex : String → String → Nat → Int
  process_value_cb : List SinkCall → SinkCall → Int
  filter : FilterSpec
  rate : Int
  strerror_from_system : Nat → String

/-! ## Filter and dispatch of one decoded record

Lines 1356-1399 of `process_eventslog` and lines 832-876 of
`process_eventslog6` are the same code up to the names of the locals; they are
embedded once. -/

/-- The call `zbx_snprintf(str_logeventid, sizeof(str_logeventid), "%lu", id)`
with `char str_logeventid[8]`: at most seven characters are kept. -/
def str_logeventid (logeventid : Nat) : String :=
  String.mk ((Nat.toDigits 10 logeventid).take 7)

/-- The conjunction of the four evaluator calls. -/
def filter_match (env : Env) (value str_severity source : String) (logeventid : Nat) : Bool :=
  decide (SUCCEED = env.regexp_match_ex value env.filter.pattern ZBX_CASE_SENSITIVE) &&
  decide (SUCCEED = env.regexp_match_ex str_severity env.filter.key_severity ZBX_IGNORE_CASE) &&
  decide (SUCCEED = env.regexp_match_ex source env.filter.key_source ZBX_IGNORE_CASE) &&
  decide (SUCCEED = env.regexp_match_ex (str_logeventid logeventid) env.filter.key_logeventid
    ZBX_CASE_SENSITIVE)

/-- How the loop over a batch goes on after a record. -/
inductive Flow where
  | next
  | stop
  deriving DecidableEq, Repr

/-- Filter, send and count one decoded record.  `ev` carries the decoded
fields and the checkpoint value `lastlogsize` of the record, `id` is the id
the back end reports for it.  The two budgets the counters are compared with
are products of `int` values, computed in `int`. -/
def dispatch_record (env : Env) (refresh : Int) (d : Dispatch) (id : Nat) (ev : SinkCall)
    (str_severity : String) : Dispatch × Flow :=
  let m := filter_match env ev.value str_severity ev.source ev.logeventid
  let send_err := if m then env.process_value_cb d.calls ev else d.send_err
  let calls := if m then d.calls ++ [ev] else d.calls
  let sent_ok := m && decide (SUCCEED = send_err)
  let lastlogsize_sent := if sent_ok then ev.lastlogsize else d.lastlogsize_sent
  let s_count := if sent_ok then d.s_count + 1 else d.s_count
  let p_count := d.p_count + 1
  let step : Step := ⟨id, ev, str_severity, m, send_err⟩
  if SUCCEED = send_err then
    let d1 : Dispatch := ⟨ev.lastlogsize, lastlogsize_sent, s_count, p_count, send_err,
      str_severity, calls, d.steps ++ [step]⟩
    if s_count ≥ sent_budget env.rate refresh then (d1, Flow.stop)
    else if p_count ≥ processed_budget env.rate refresh then (d1, Flow.stop)
    else (d1, Flow.next)
  else
    (⟨d.metric_lastlogsize, lastlogsize_sent, s_count, p_count, send_err,
      str_severity, calls, d.steps ++ [step]⟩, Flow.stop)

/-! ## The operating system's side of the legacy API

`ReadEventLog`, `OpenEventLog`, `GetNumberOfEventLogRecords` and
`GetOldestEventLogRecord` belong to the operating system.  The model keeps the
records of the log (oldest first), the two numbers the system reports for the
log, the read position of the handle and a list of injected faults: the n-th
call of `ReadEventLog` fails with the n-th entry when that entry is `some`. -/

/-- An injected failure of `ReadEventLog`: the value of `GetLastError()` and
the value stored in `dwNeeded`. -/
structure Fault where
  code : Nat
  dwNeeded : Nat
  deriving DecidableEq, Repr

/-- State of the event log service for one log.  `cur` is the read position of
the handle: `none` for a handle that has not been read yet, otherwise the index
of the record a sequential read returns first (`-1` is the position before the
oldest record, `records.length` the position after the newest one). -/
structure EventLogOS where
  open_err : Option Nat
  dwNumRecords : Nat
  dwOldestRecord : Nat
  records : List EVENTLOGRECORD
  cur : Option Int
  faults : List (Option Fault)
  deriving DecidableEq, Repr

/-- Result of one call of `ReadEventLog`. -/
inductive ReadOutcome where
  | ok (batch : List EVENTLOGRECORD)
  | fail (err : Nat) (dwNeeded : Nat)
  deriving DecidableEq, Repr

/-- The longest run of whole records that fits into `room` bytes. -/
def fit : Nat → List EVENTLOGRECORD → List EVENTLOGRECORD
  | _, [] => []
  | room, r :: rs => if r.Length ≤ room then r :: fit (room - r.Length) rs else []

/-- Number of bytes of a batch (the value stored in `dwRead`). -/
def bytes : List EVENTLOGRECORD → Nat
  | [] => 0
  | r :: rs => r.Length + bytes rs

/-- Index of the first record carrying the given record number. -/
def find_record (dwRecordNumber : Nat) : List EVENTLOGRECORD → Option Nat
  | [] => none
  | r :: rs =>
    if r.RecordNumber = dwRecordNumber then some 0
    else (find_record dwRecordNumber rs).map (· + 1)

/-- The records a read starting at index `i` walks over, in reading order. -/
def records_from (records : List EVENTLOGRECORD) (backwards : Bool) (i : Nat) :
    List EVENTLOGRECORD :=
  if backwards then (records.take (i + 1)).reverse else records.drop i

/-- The read position after `k` records were read starting at index `i`. -/
def moved (backwards : Bool) (i k : Nat) : Int :=
  if backwards then (i : Int) - k else (i : Int) + k

/-- A read that starts at index `i` with a buffer of `nBytes` bytes. -/
def read_at (os : EventLogOS) (backwards : Bool) (i : Nat) (nBytes : Nat) :
    ReadOutcome × EventLogOS :=
  match records_from os.records backwards i with
  | [] => (ReadOutcome.fail ERROR_HANDLE_EOF 0, os)
  | r :: rs =>
    if nBytes < r.Length then (ReadOutcome.fail ERROR_INSUFFICIENT_BUFFER r.Length, os)
    else
      (ReadOutcome.ok (fit nBytes (r :: rs)),
        { os with cur := some (moved backwards i (fit nBytes (r :: rs)).length) })

/-- The system call `ReadEventLog(handle, flags, dwRecordOffset, buf, nBytes,
&dwRead, &dwNeeded)` when no fault is injected.  A seek read of a record
number that is not in the log fails with `ERROR_INVALID_PARAMETER`. -/
def ReadEventLog_normal (os : EventLogOS) (flags dwRecordOffset nBytes : Nat) :
    ReadOutcome × EventLogOS :=
  let backwards := decide (flags &&& EVENTLOG_BACKWARDS_READ ≠ 0)
  if flags &&& EVENTLOG_SEEK_READ ≠ 0 then
    match find_record dwRecordOffset os.records with
    | none => (ReadOutcome.fail ERROR_INVALID_PARAMETER 0, os)
    | some i => read_at os backwards i nBytes
  else
    match os.cur with
    | none =>
      if backwards then
        (if os.records.length = 0 then (ReadOutcome.fail ERROR_HANDLE_EOF 0, os)
         else read_at os backwards (os.records.length - 1) nBytes)
      else read_at os backwards 0 nBytes
    | some c =>
      if backwards then
        (if c < 0 then (ReadOutcome.fail ERROR_HANDLE_EOF 0, os)
         else read_at os backwards (min c.toNat (os.records.length - 1)) nBytes)
      else read_at os backwards c.toNat nBytes

/-- The system call `ReadEventLog` with fault injection. -/
def ReadEventLog (os : EventLogOS) (flags dwRecordOffset nBytes : Nat) :
    ReadOutcome × EventLogOS :=
  match os.faults with
  | some f :: fs => (ReadOutcome.fail f.code f.dwNeeded, { os with faults := fs })
  | none :: fs => ReadEventLog_normal { os with faults := fs } flags dwRecordOffset nBytes
  | [] => ReadEventLog_normal os flags dwRecordOffset nBytes

/-! ## Legacy back end -/

/-- The function `zbx_open_eventlog`: on success the window `(FirstID, LastID)`,
otherwise the error code.  The C expression `dwOldestRecord + dwNumRecords - 1`
is evaluated in `DWORD` arithmetic before it is stored in the 64-bit `*LastID`. -/
def zbx_open_eventlog (os : EventLogOS) : Except Nat (Nat × Nat) :=
  match os.open_err with
  | some e => Except.error e
  | none =>
    Except.ok (toDWORD os.dwOldestRecord,
      toDWORD (toDWORD os.dwOldestRecord + toDWORD os.dwNumRecords + 2 ^ 32 - 1))

/-- The locals of `process_eventslog` that `seek_eventlog` reads and writes
through pointers.  `pELRs` holds the records of the last successful read. -/
structure ReadState where
  os : EventLogOS
  buffer_size : Nat
  pELRs : List EVENTLOGRECORD
  dwRead : Nat
  dwErr : Nat
  error : Option String
  deriving DecidableEq, Repr

/-- The text `Cannot read eventlog '%s': %s.`. -/
def cannot_read (env : Env) (eventlog_name : String) (dwErr : Nat) : String :=
  "Cannot read eventlog '" ++ eventlog_name ++ "': " ++ env.strerror_from_system dwErr ++ "."

/-- How the first loop of `seek_eventlog` ends: with a `return`, or by
leaving the loop towards the fallback code. -/
inductive SeekExit where
  | returned (ret : Int)
  | fallthrough
  deriving DecidableEq, Repr

/-- First loop of `seek_eventlog` (lines 962-992): the direct positioned
read, retried after a growth of the buffer. -/
def seek_direct (env : Env) (eventlog_name : String) (dwRecordNumber : Nat) :
    Nat → ReadState → Option (SeekExit × ReadState)
  | 0, _ => none
  | fuel + 1, st =>
    match ReadEventLog st.os (EVENTLOG_SEEK_READ ||| EVENTLOG_FORWARDS_READ) dwRecordNumber
        st.buffer_size with
    | (ReadOutcome.ok batch, os1) =>
      some (SeekExit.returned SUCCEED, { st with os := os1, pELRs := batch, dwRead := bytes batch })
    | (ReadOutcome.fail err dwNeeded, os1) =>
      if err = ERROR_INVALID_PARAMETER then
        some (SeekExit.fallthrough, { st with os := os1, dwErr := err })
      else if err = ERROR_HANDLE_EOF then
        some (SeekExit.returned SUCCEED, { st with os := os1, dwErr := err })
      else if err = ERROR_INSUFFICIENT_BUFFER then
        seek_direct env eventlog_name dwRecordNumber fuel
          { st with os := os1, buffer_size := dwNeeded, dwErr := ERROR_SUCCESS }
      else
        some (SeekExit.returned FAIL,
          { st with os := os1, dwErr := err, error := some (cannot_read env eventlog_name err) })

/-- Inner loop of the fallback (lines 1032-1038): count the records of one
batch down from `skip_count`, which is positive on entry. -/
def skip_records : Nat → List EVENTLOGRECORD → Nat
  | skip_count, [] => skip_count
  | skip_count, _ :: rs => if skip_count - 1 = 0 then 0 else skip_records (skip_count - 1) rs

/-- Second loop of `seek_eventlog` (lines 1008-1039), entered with
`ReadDirection = EVENTLOG_BACKWARDS_READ`. -/
def seek_fallback (env : Env) (eventlog_name : String) (ReadDirection : Nat) :
    Nat → Nat → ReadState → Option (Int × ReadState)
  | 0, _, _ => none
  | fuel + 1, skip_count, st =>
    if 0 < skip_count ∧ ERROR_SUCCESS = st.dwErr ∧ EVENTLOG_BACKWARDS_READ = ReadDirection then
      match ReadEventLog st.os (EVENTLOG_SEQUENTIAL_READ ||| ReadDirection) 0 st.buffer_size with
      | (ReadOutcome.fail err dwNeeded, os1) =>
        if err = ERROR_INSUFFICIENT_BUFFER then
          seek_fallback env eventlog_name ReadDirection fuel skip_count
            { st with os := os1, buffer_size := dwNeeded, dwErr := ERROR_SUCCESS }
        else if err ≠ ERROR_HANDLE_EOF then
          -- `break`, then line 1041 does not apply and the function returns SUCCEED
          some (SUCCEED, { st with os := os1, dwErr := err })
        else
          some (FAIL,
            { st with os := os1, dwErr := err, error := some (cannot_read env eventlog_name err) })
      | (ReadOutcome.ok batch, os1) =>
        seek_fallback env eventlog_name ReadDirection fuel (skip_records skip_count batch)
          { st with os := os1, pELRs := batch, dwRead := 0 }
    else
      some (SUCCEED,
        if EVENTLOG_BACKWARDS_READ = ReadDirection ∧ ERROR_HANDLE_EOF = st.dwErr then
          { st with dwErr := ERROR_SUCCESS } else st)

/-- The function `seek_eventlog`.  `FirstID` is the id of the record to
position at. -/
def seek_eventlog (env : Env) (eventlog_name : String) (fuel : Nat) (FirstID ReadDirection
    LastID : Nat) (st : ReadState) : Option (Int × ReadState) :=
  match seek_direct env eventlog_name (toDWORD FirstID) fuel { st with dwErr := ERROR_SUCCESS } with
  | none => none
  | some (SeekExit.returned ret, st1) => some (ret, st1)
  | some (SeekExit.fallthrough, st1) =>
    let skip_count :=
      if ERROR_INVALID_PARAMETER = st1.dwErr ∧ EVENTLOG_BACKWARDS_READ = ReadDirection then
        (if LastID = FirstID then 1 else sub64 LastID FirstID)
      else 0
    seek_fallback env eventlog_name ReadDirection fuel skip_count { st1 with dwErr := ERROR_SUCCESS }

/-- Decimal text of a number, as printed by the conversion `%lu`. -/
def dec (n : Nat) : String := String.mk (Nat.toDigits 10 n)

/-- The dump of the insert strings appended to the fallback message (lines
1140-1150): the strings in order, with `"; "` before every string but the first. -/
def join_strings : List String → String
  | [] => ""
  | [s] => s
  | s :: t :: rest => s ++ "; " ++ join_strings (t :: rest)

/-- Fallback message of `zbx_parse_eventlog_message` (lines 1127-1152). -/
def fallback_message (out_eventid : Nat) (out_source : String) (strings : List String) : String :=
  let head := "The description for Event ID:" ++ dec out_eventid ++ " in Source:'" ++ out_source ++
    "' cannot be found. The local computer may not have the necessary registry" ++
    " information or message DLL files to display messages from a remote computer."
  if 0 < strings.length then
    head ++ " The following information is part of the event: " ++ join_strings strings
  else head

/-- The decoded fields of a legacy record. -/
structure Parsed where
  out_source : String
  out_message : String
  out_severity : Nat
  out_timestamp : Nat
  out_eventid : Nat
  deriving DecidableEq, Repr

/-- The function `zbx_parse_eventlog_message`. -/
def zbx_parse_eventlog_message (pELR : EVENTLOGRECORD) : Parsed :=
  let out_eventid := pELR.EventID &&& 0xffff
  { out_source := pELR.source
    out_message :=
      match pELR.resolved with
      | some m => m
      | none => fallback_message out_eventid pELR.source pELR.strings
    out_severity := pELR.EventType
    out_timestamp := pELR.TimeGenerated
    out_eventid := out_eventid }

/-- The `switch (severity)` of `process_eventslog` (lines 1331-1354).  It has
no `default` label: for any other event type both variables keep the value
they had, which for `str_severity` is the one left by the previous record. -/
def severity_switch (severity : Nat) (str_severity : String) : Nat × String :=
  if severity = EVENTLOG_SUCCESS ∨ severity = EVENTLOG_INFORMATION_TYPE then
    (ITEM_LOGTYPE_INFORMATION, INFORMATION_TYPE)
  else if severity = EVENTLOG_WARNING_TYPE then (ITEM_LOGTYPE_WARNING, WARNING_TYPE)
  else if severity = EVENTLOG_ERROR_TYPE then (ITEM_LOGTYPE_ERROR, ERROR_TYPE)
  else if severity = EVENTLOG_AUDIT_FAILURE then (ITEM_LOGTYPE_FAILURE_AUDIT, AUDIT_FAILURE)
  else if severity = EVENTLOG_AUDIT_SUCCESS then (ITEM_LOGTYPE_SUCCESS_AUDIT, AUDIT_SUCCESS)
  else (severity, str_severity)

/-- The locals `lastlogsize` and `timestamp` of `process_eventslog` together
with the dispatch variables. -/
structure Locals where
  lastlogsize : Nat
  timestamp : Nat
  d : Dispatch
  deriving DecidableEq, Repr

/-- The arguments the sink receives for a legacy record that was given the
checkpoint value `lastlogsize` (lines 1328-1354 and 1366-1369). -/
def legacy_event (pELR : EVENTLOGRECORD) (lastlogsize : Nat) (str_severity : String) :
    SinkCall :=
  let p := zbx_parse_eventlog_message pELR
  ⟨p.out_message, lastlogsize, p.out_timestamp, p.out_source,
    (severity_switch p.out_severity str_severity).1, p.out_eventid⟩

/-- The body of the `if` at line 1319: one record is numbered, decoded,
filtered and sent (lines 1321-1399). -/
def process_record (env : Env) (refresh : Int) (FirstID : Nat) (pELR : EVENTLOGRECORD)
    (l : Locals) : Locals × Flow :=
  let lastlogsize := if 0 = l.timestamp then FirstID else add64 l.lastlogsize 1
  let p := zbx_parse_eventlog_message pELR
  let r := dispatch_record env refresh l.d pELR.RecordNumber
    (legacy_event pELR lastlogsize l.d.str_severity)
    (severity_switch p.out_severity l.d.str_severity).2
  (⟨lastlogsize, p.out_timestamp, r.1⟩, r.2)

/-- The loop over the records of one buffer (lines 1315-1403).  `FirstID` is
the id of the start record.  The result says whether the loop ran to the end
of the buffer (`Flow.next`) or was left by a `break` (`Flow.stop`). -/
def parse_buffer (env : Env) (refresh : Int) (FirstID : Nat) :
    List EVENTLOGRECORD → Locals → Locals × Flow
  | [], l => (l, Flow.next)
  | pELR :: rest, l =>
    if 0 ≠ l.timestamp ∨ toDWORD FirstID = pELR.RecordNumber then
      match process_record env refresh FirstID pELR l with
      | (l1, Flow.stop) => (l1, Flow.stop)
      | (l1, Flow.next) => parse_buffer env refresh FirstID rest l1
    else parse_buffer env refresh FirstID rest l

/-- Result of a cycle. -/
structure Outcome where
  ret : Int
  error : Option String
  metric : ZBX_ACTIVE_METRIC
  lastlogsize_sent : Nat
  s_count : Int
  p_count : Int
  calls : List SinkCall
  steps : List Step
  buffer_size : Nat
  deriving DecidableEq, Repr

/-- The main read loop of `process_eventslog` (lines 1287-1407).  The result
is `(ret, error, locals, buffer_size)`. -/
def read_loop (env : Env) (eventlog_name : String) (refresh : Int) (FirstID : Nat) :
    Nat → ReadState → Locals → Option (Int × ReadState × Locals)
  | 0, _, _ => none
  | fuel + 1, st, l =>
    if ERROR_SUCCESS = st.dwErr then
      if 0 = st.dwRead then
        match ReadEventLog st.os (EVENTLOG_SEQUENTIAL_READ ||| EVENTLOG_FORWARDS_READ) 0
            st.buffer_size with
        | (ReadOutcome.fail err dwNeeded, os1) =>
          if err = ERROR_INSUFFICIENT_BUFFER then
            read_loop env eventlog_name refresh FirstID fuel
              { st with os := os1, buffer_size := dwNeeded, dwErr := ERROR_SUCCESS } l
          else if err = ERROR_HANDLE_EOF then
            some (SUCCEED, { st with os := os1, dwErr := err }, l)
          else
            some (FAIL,
              { st with os := os1, dwErr := err, error := some (cannot_read env eventlog_name err) },
              l)
        | (ReadOutcome.ok batch, os1) =>
          match parse_buffer env refresh FirstID batch l with
          | (l1, Flow.stop) =>
            some (SUCCEED,
              { st with os := os1, pELRs := batch, dwRead := 0, dwErr := ERROR_NO_MORE_ITEMS }, l1)
          | (l1, Flow.next) =>
            read_loop env eventlog_name refresh FirstID fuel
              { st with os := os1, pELRs := batch, dwRead := 0 } l1
      else
        match parse_buffer env refresh FirstID st.pELRs l with
        | (l1, Flow.stop) => some (SUCCEED, { st with dwRead := 0, dwErr := ERROR_NO_MORE_ITEMS }, l1)
        | (l1, Flow.next) =>
          read_loop env eventlog_name refresh FirstID fuel { st with dwRead := 0 } l1
    else some (SUCCEED, st, l)

/-- Lines 1240-1256 of `process_eventslog`: the working checkpoint
`lastlogsize`, the id `FirstID` of the first record to read and the read
direction (`0` after a reset), from the window and the stored checkpoint. -/
def normalise (FirstID LastID lastlogsize : Nat) : Nat × Nat × Nat :=
  let lastlogsize := if lastlogsize > LastID then toDWORD lastlogsize else lastlogsize
  let ReadDirection :=
    if sub64 LastID FirstID / 2 > lastlogsize then EVENTLOG_FORWARDS_READ
    else EVENTLOG_BACKWARDS_READ
  if lastlogsize > LastID ∨ lastlogsize < FirstID then (FirstID, FirstID, 0)
  else (lastlogsize, add64 lastlogsize 1, ReadDirection)

/-- Number of loop iterations that is enough for every loop of a cycle on the
given log: every iteration consumes an injected fault, grows the buffer for
the record under the read position, or moves the read position. -/
def enough (os : EventLogOS) : Nat := 2 * os.faults.length + 2 * os.records.length + 4

/-- The function `process_eventslog`.  `eventlog_name = none` stands for a
null pointer, `error` and `lastlogsize_sent` are the values of the output
parameters on entry, `str_severity0` is the indeterminate initial value of the
local `str_severity`.  The result is `none` only if a loop does not end
within `enough os` iterations. -/
def process_eventslog (env : Env) (os : EventLogOS) (eventlog_name : Option String)
    (metric : ZBX_ACTIVE_METRIC) (lastlogsize_sent : Nat) (error : Option String)
    (str_severity0 : String) : Option Outcome :=
  let buffer_size := 64 * ZBX_KIBIBYTE
  let quit (ret : Int) (error : Option String) (metric : ZBX_ACTIVE_METRIC) (bs : Nat) :
      Option Outcome := some ⟨ret, error, metric, lastlogsize_sent, 0, 0, [], [], bs⟩
  match eventlog_name with
  | none => quit FAIL (some "Cannot open eventlog with empty name.") metric buffer_size
  | some name =>
    if name = "" then quit FAIL (some "Cannot open eventlog with empty name.") metric buffer_size
    else
      match zbx_open_eventlog os with
      | Except.error dwErr =>
        quit FAIL (some ("Cannot open eventlog '" ++ name ++ "': " ++
          env.strerror_from_system dwErr ++ ".")) metric buffer_size
      | Except.ok (FirstID0, LastID) =>
        if 1 = metric.skip_old_data then
          quit SUCCEED error { metric with lastlogsize := LastID, skip_old_data := 0 } buffer_size
        else
          let n := normalise FirstID0 LastID metric.lastlogsize
          let lastlogsize := n.1
          let FirstID := n.2.1
          let ReadDirection := n.2.2
          let st0 : ReadState := ⟨{ os with cur := none }, buffer_size, [], 0, ERROR_SUCCESS, error⟩
          let sought : Option (Int × ReadState) :=
            if 0 = ReadDirection then some (SUCCEED, { st0 with dwErr := ERROR_SUCCESS })
            else if LastID < FirstID then some (SUCCEED, { st0 with dwErr := ERROR_HANDLE_EOF })
            else seek_eventlog env name (enough os) FirstID ReadDirection LastID st0
          match sought with
          | none => none
          | some (ret, st1) =>
            if ret ≠ SUCCEED then quit FAIL st1.error metric st1.buffer_size
            else if ERROR_HANDLE_EOF = st1.dwErr then
              quit SUCCEED st1.error metric st1.buffer_size
            else
              let d0 : Dispatch := ⟨metric.lastlogsize, lastlogsize_sent, 0, 0, SUCCEED,
                str_severity0, [], []⟩
              match read_loop env name metric.refresh FirstID (enough os) st1 ⟨lastlogsize, 0, d0⟩ with
              | none => none
              | some (ret, st2, l) =>
                some ⟨ret, st2.error, { metric with lastlogsize := l.d.metric_lastlogsize },
                  l.d.lastlogsize_sent, l.d.s_count, l.d.p_count, l.d.calls, l.d.steps,
                  st2.buffer_size⟩

/-! ## The operating system's side of the modern API -/

/-- The value rendered for `/Event/EventData/Data`: a single string (which may
be a null pointer), an array of strings (whose entries may be null pointers),
or a value of another type. -/
inductive EventData where
  | other
  | string (s : Option String)
  | array (xs : List (Option String))
  deriving DecidableEq, Repr

/-- One event of the modern log: the values `EvtRender` yields for
`RENDER_ITEMS`, the outcome of `EvtRender` itself (`render_err = some e` when
it fails with a code other than `ERROR_INSUFFICIENT_BUFFER`, or fails again
after the buffer was grown) and the text `expand_message6` returns (`none`
for a null pointer). -/
structure EVENT6 where
  ProviderName : String
  SourceName : Option String
  EventRecordID : Nat
  EventID : Nat
  Level : Nat
  Keywords : Nat
  TimeCreated : Nat
  data : EventData
  render_err : Option Nat
  expanded : Option String
  deriving DecidableEq, Repr

/-- State of the event log service for one channel.  Each `…_err` field makes
the corresponding system call fail with that code (`first_next_err` is for
the `EvtNext` call of `zbx_open_eventlog6`, which also fails when the channel
holds no event); `faults` are injected failures of the successive `EvtNext`
calls of `process_eventslog6`. -/
structure EventLog6OS where
  open_err : Option Nat
  info_err : Option Nat
  numIDs : Nat
  context_err : Option Nat
  query_all_err : Option Nat
  first_next_err : Option Nat
  query_err : Option Nat
  events : List EVENT6
  faults : List (Option Nat)
  deriving DecidableEq, Repr

/-! ## Modern back end -/

/-- What `zbx_open_eventlog6` leaves in its output parameters. -/
structure Open6 where
  ret : Int
  lastlogsize : Nat
  FirstID : Nat
  LastID : Nat
  error : Option String
  deriving DecidableEq, Repr

/-- The function `zbx_open_eventlog6`.  When the first `EvtNext` fails, for
whatever reason, the code takes the channel to be empty (lines 344-354). -/
def zbx_open_eventlog6 (env : Env) (os : EventLog6OS) (wsource : String) (lastlogsize : Nat)
    (error : Option String) : Open6 :=
  match os.open_err with
  | some status =>
    ⟨FAIL, lastlogsize, 0, 0,
      some ("cannot open eventlog '" ++ wsource ++ "':" ++ env.strerror_from_system status)⟩
  | none =>
  match os.info_err with
  | some e => ⟨FAIL, lastlogsize, 0, 0, some ("EvtGetLogInfo failed:" ++ env.strerror_from_system e)⟩
  | none =>
  let numIDs := os.numIDs % 2 ^ 64
  match os.context_err with
  | some e =>
    ⟨FAIL, lastlogsize, 0, 0, some ("EvtCreateRenderContext failed:" ++ env.strerror_from_system e)⟩
  | none =>
  match os.query_all_err with
  | some status =>
    ⟨FAIL, lastlogsize, 0, 0,
      some ((if status = 15007 then "EvtQuery channel missed:" else "EvtQuery failed:") ++
        env.strerror_from_system status)⟩
  | none =>
  match os.first_next_err with
  | some _ => ⟨SUCCEED, 0, 1, 1, error⟩
  | none =>
  match os.events with
  | [] => ⟨SUCCEED, 0, 1, 1, error⟩
  | e :: _ =>
    match e.render_err with
    | some status =>
      ⟨FAIL, lastlogsize, 0, 0, some ("EvtRender failed:" ++ env.strerror_from_system status)⟩
    | none =>
      let FirstID := e.EventRecordID % 2 ^ 64
      let LastID := add64 FirstID numIDs
      if lastlogsize ≥ LastID then ⟨SUCCEED, sub64 FirstID 1, FirstID, LastID, error⟩
      else ⟨SUCCEED, lastlogsize, FirstID, LastID, error⟩

/-- The function `zbx_get_handle_eventlog6`: the query
`Event/System[EventRecordID>lastlogsize]`, or the error text. -/
def zbx_get_handle_eventlog6 (env : Env) (os : EventLog6OS) (lastlogsize : Nat) :
    Except String (List EVENT6) :=
  match os.query_err with
  | some status =>
    Except.error ((if status = 15007 then "EvtQuery channel missed:" else "EvtQuery failed:") ++
      env.strerror_from_system status)
  | none => Except.ok (os.events.filter (fun e => decide (e.EventRecordID % 2 ^ 64 > lastlogsize)))

/-- What `initialize_eventlog6` leaves in its output parameters; `query = none`
is a null handle. -/
structure Init6 where
  ret : Int
  lastlogsize : Nat
  FirstID : Nat
  LastID : Nat
  query : Option (List EVENT6)
  error : Option String
  deriving DecidableEq, Repr

/-- The function `initialize_eventlog6`.  `FirstID0`, `LastID0` and `query0`
are the values of the output parameters on entry; `*query` is written by
`zbx_get_handle_eventlog6` only. -/
def initialize_eventlog6 (env : Env) (os : EventLog6OS) (source : Option String)
    (lastlogsize FirstID0 LastID0 : Nat) (query0 : Option (List EVENT6))
    (error : Option String) : Init6 :=
  match source with
  | none =>
    ⟨FAIL, lastlogsize, FirstID0, LastID0, query0, some "cannot open eventlog with empty name."⟩
  | some name =>
    if name = "" then
      ⟨FAIL, lastlogsize, FirstID0, LastID0, query0, some "cannot open eventlog with empty name."⟩
    else
      let o := zbx_open_eventlog6 env os name lastlogsize error
      if o.ret ≠ SUCCEED then ⟨FAIL, o.lastlogsize, o.FirstID, o.LastID, query0, o.error⟩
      else
        match zbx_get_handle_eventlog6 env os o.lastlogsize with
        | Except.error msg => ⟨FAIL, o.lastlogsize, o.FirstID, o.LastID, none, some msg⟩
        | Except.ok q => ⟨SUCCEED, o.lastlogsize, o.FirstID, o.LastID, some q, o.error⟩

/-- The loop over the entries of an event data array (lines 650-662): entry
`i` is appended when it is not null, preceded by `"; "` when `0 < i`. -/
def append_array (i : Nat) : List (Option String) → String → String
  | [], msg => msg
  | none :: rest, msg => append_array (i + 1) rest msg
  | some data :: rest, msg =>
    append_array (i + 1) rest ((if 0 < i then msg ++ "; " else msg) ++ data)

/-- Fallback message of `zbx_parse_eventlog_message6` (lines 630-672).  An
array without entries takes the `else if` branch, where its pointer is read as
a string pointer; the model takes that pointer to be null. -/
def fallback_message6 (out_eventid : Nat) (out_provider : String) (data : EventData) : String :=
  let head := "The description for Event ID:" ++ dec out_eventid ++ " in Source:'" ++
    out_provider ++ "' cannot be found. Either the component that raises this event is not" ++
    " installed on your local computer or the installation is corrupted. You can install or" ++
    " repair the component on the local computer. If the event originated on another computer," ++
    " the display information had to be saved with the event."
  match data with
  | EventData.other => head
  | EventData.array (x :: xs) =>
    append_array 0 (x :: xs) (head ++ " The following information was included with the event: ")
  | EventData.array [] => head
  | EventData.string none => head
  | EventData.string (some d) =>
    head ++ "The following information was included with the event: " ++ d

/-- The decoded fields of a modern record; `which` is the record id stored
back through the pointer `which`. -/
structure Parsed6 where
  which : Nat
  out_severity : Nat
  out_timestamp : Nat
  out_provider : String
  out_source : Option String
  out_message : String
  out_eventid : Nat
  out_keywords : Nat
  deriving DecidableEq, Repr

/-- The function `zbx_parse_eventlog_message6`: the decoded record, or the
error text when `EvtRender` fails. -/
def zbx_parse_eventlog_message6 (env : Env) (e : EVENT6) (which : Nat) : Except String Parsed6 :=
  match e.render_err with
  | some dwErr => Except.error ("EvtRender failed: " ++ env.strerror_from_system dwErr)
  | none =>
    let sec_1970 := 116444736000000000
    let success_audit := 0x20000000000000
    let failure_audit := 0x10000000000000
    let out_eventid := e.EventID % 2 ^ 16
    let record := e.EventRecordID % 2 ^ 64
    Except.ok
      { which := if record ≠ which then record else which
        out_severity := e.Level % 2 ^ 8
        out_timestamp := (sub64 (e.TimeCreated % 2 ^ 64) sec_1970 / 10000000) % 2 ^ 32
        out_provider := e.ProviderName
        out_source := e.SourceName
        out_message :=
          match e.expanded with
          | some m => m
          | none => fallback_message6 out_eventid e.ProviderName e.data
        out_eventid := out_eventid
        out_keywords := (e.Keywords % 2 ^ 64) &&& (success_audit ||| failure_audit) }

/-- The `switch (evt_severity)` of `process_eventslog6` (lines 794-830), which
has no `default` label. -/
def severity_switch6 (evt_severity keywords : Nat) (str_severity : String) : Nat × String :=
  if evt_severity = WINEVENT_LEVEL_LOG_ALWAYS ∨ evt_severity = WINEVENT_LEVEL_INFO then
    if 0 ≠ keywords &&& WINEVENT_KEYWORD_AUDIT_FAILURE then
      (ITEM_LOGTYPE_FAILURE_AUDIT, AUDIT_FAILURE)
    else if 0 ≠ keywords &&& WINEVENT_KEYWORD_AUDIT_SUCCESS then
      (ITEM_LOGTYPE_SUCCESS_AUDIT, AUDIT_SUCCESS)
    else (ITEM_LOGTYPE_INFORMATION, INFORMATION_TYPE)
  else if evt_severity = WINEVENT_LEVEL_WARNING then (ITEM_LOGTYPE_WARNING, WARNING_TYPE)
  else if evt_severity = WINEVENT_LEVEL_ERROR then (ITEM_LOGTYPE_ERROR, ERROR_TYPE)
  else if evt_severity = WINEVENT_LEVEL_CRITICAL then (ITEM_LOGTYPE_CRITICAL, CRITICAL_TYPE)
  else if evt_severity = WINEVENT_LEVEL_VERBOSE then (ITEM_LOGTYPE_VERBOSE, VERBOSE_TYPE)
  else (evt_severity, str_severity)

/-- The locals of `process_eventslog6` that live across records: the
parameter `lastlogsize`, the error text and the dispatch variables. -/
structure Locals6 where
  lastlogsize : Nat
  error : Option String
  d : Dispatch
  deriving DecidableEq, Repr

/-- How the `for` loop over one batch ends: at the end of the batch, by a
`break`, or by `goto out` after a failed decode. -/
inductive Flow6 where
  | next
  | stop
  | out
  deriving DecidableEq, Repr

/-- The arguments the sink receives for a decoded modern record (lines
794-830 and 842-845). -/
def modern_event (p : Parsed6) (str_severity : String) : SinkCall :=
  ⟨p.out_message, p.which, p.out_timestamp, p.out_provider,
    (severity_switch6 p.out_severity p.out_keywords str_severity).1, p.out_eventid⟩

/-- The body of the `for` loop (lines 785-876): one event is numbered,
decoded, filtered and sent. -/
def process_event6 (env : Env) (refresh : Int) (e : EVENT6) (l : Locals6) : Locals6 × Flow6 :=
  let lastlogsize := add64 l.lastlogsize 1
  match zbx_parse_eventlog_message6 env e lastlogsize with
  | Except.error msg => (⟨lastlogsize, some msg, l.d⟩, Flow6.out)
  | Except.ok p =>
    match dispatch_record env refresh l.d e.EventRecordID (modern_event p l.d.str_severity)
      (severity_switch6 p.out_severity p.out_keywords l.d.str_severity).2 with
    | (d1, Flow.stop) => (⟨p.which, l.error, d1⟩, Flow6.stop)
    | (d1, Flow.next) => (⟨p.which, l.error, d1⟩, Flow6.next)

/-- The `for` loop over the events of one batch (lines 783-877). -/
def parse_batch6 (env : Env) (refresh : Int) : List EVENT6 → Locals6 → Locals6 × Flow6
  | [], l => (l, Flow6.next)
  | e :: rest, l =>
    match process_event6 env refresh e l with
    | (l1, Flow6.next) => parse_batch6 env refresh rest l1
    | (l1, f) => (l1, f)

/-- The system call `EvtNext(query, EVT_ARRAY_SIZE, …)`: up to 100 events of
the query, `ERROR_NO_MORE_ITEMS` when none is left, or an injected failure. -/
def EvtNext (query : List EVENT6) (faults : List (Option Nat)) :
    Except Nat (List EVENT6) × List EVENT6 × List (Option Nat) :=
  match faults with
  | some e :: fs => (Except.error e, query, fs)
  | _ =>
    match query with
    | [] => (Except.error ERROR_NO_MORE_ITEMS, query, faults.tail)
    | _ :: _ => (Except.ok (query.take EVT_ARRAY_SIZE), query.drop EVT_ARRAY_SIZE, faults.tail)

/-- The `while` loop of `process_eventslog6` (lines 766-881). -/
def read_loop6 (env : Env) (refresh : Int) :
    Nat → List EVENT6 → List (Option Nat) → Locals6 → Option (Int × Locals6)
  | 0, _, _, _ => none
  | fuel + 1, query, faults, l =>
    match EvtNext query faults with
    | (Except.error dwErr, _, _) =>
      if ERROR_NO_MORE_ITEMS = dwErr then some (SUCCEED, l)
      else
        some (FAIL, { l with error := some ("EvtNext failed: " ++ env.strerror_from_system dwErr ++
          ", EventRecordID:" ++ dec (add64 l.lastlogsize 1)) })
    | (Except.ok batch, query1, faults1) =>
      match parse_batch6 env refresh batch l with
      | (l1, Flow6.out) => some (FAIL, l1)
      | (l1, Flow6.stop) => some (SUCCEED, l1)
      | (l1, Flow6.next) => read_loop6 env refresh fuel query1 faults1 l1

/-- Lines 756-759 of `process_eventslog6`: the id the local
`reading_startpoint` receives. -/
def reading_startpoint (lastlogsize FirstID LastID : Nat) : Nat :=
  if lastlogsize ≥ FirstID ∧ lastlogsize < LastID then add64 lastlogsize 1 else FirstID

/-- The function `process_eventslog6`.  `query = none` is a null handle. -/
def process_eventslog6 (env : Env) (os : EventLog6OS) (query : Option (List EVENT6))
    (lastlogsize FirstID LastID : Nat) (metric : ZBX_ACTIVE_METRIC) (lastlogsize_sent : Nat)
    (error : Option String) (str_severity0 : String) : Option Outcome :=
  if 1 = metric.skip_old_data then
    some ⟨SUCCEED, error, { metric with lastlogsize := sub64 LastID 1, skip_old_data := 0 },
      lastlogsize_sent, 0, 0, [], [], 0⟩
  else
    match query with
    | none => some ⟨FAIL, error, metric, lastlogsize_sent, 0, 0, [], [], 0⟩
    | some q =>
      if reading_startpoint lastlogsize FirstID LastID = LastID then
        some ⟨SUCCEED, error, metric, lastlogsize_sent, 0, 0, [], [], 0⟩
      else
        let d0 : Dispatch := ⟨metric.lastlogsize, lastlogsize_sent, 0, 0, SUCCEED, str_severity0,
          [], []⟩
        match read_loop6 env metric.refresh (q.length + 1) q os.faults ⟨lastlogsize, error, d0⟩ with
        | none => none
        | some (ret, l) =>
          some ⟨ret, l.error, { metric with lastlogsize := l.d.metric_lastlogsize },
            l.d.lastlogsize_sent, l.d.s_count, l.d.p_count, l.d.calls, l.d.steps, 0⟩

/-- Modelled from the spec: the caller of the modern back end is not among the
sources.  Following the control flow of section 2 (open the session, compute
the window, then run the dispatch loop from the checkpoint), one cycle calls
`initialize_eventlog6` on `metric->lastlogsize` and, when that succeeds,
`process_eventslog6` with the value it left there. -/
def eventlog6_cycle (env : Env) (os : EventLog6OS) (source : Option String)
    (metric : ZBX_ACTIVE_METRIC) (lastlogsize_sent : Nat) (error : Option String)
    (str_severity0 : String) : Option Outcome :=
  let i := initialize_eventlog6 env os source metric.lastlogsize 0 0 none error
  let metric1 := { metric with lastlogsize := i.lastlogsize }
  if i.ret ≠ SUCCEED then some ⟨FAIL, i.error, metric1, lastlogsize_sent, 0, 0, [], [], 0⟩
  else
    process_eventslog6 env os i.query i.lastlogsize i.FirstID i.LastID metric1 lastlogsize_sent
      i.error str_severity0

/-- What a run of a seek loop preserves, as a relation between the state
before and after: the records of the log stay, no fault is added, and the
buffer holds records of the log (or is the buffer it was before). -/
def Preserved (st st1 : ReadState) : Prop :=
  st1.os.records = st.os.records ∧
  st1.os.faults.length ≤ st.os.faults.length ∧
  (∀ r ∈ st1.pELRs, r ∈ st.os.records ∨ r ∈ st.pELRs)

/-- The dispatch variables at the start of the record loop. -/
def dispatch0 (metric : ZBX_ACTIVE_METRIC) (lastlogsize_sent : Nat) (str_severity0 : String) :
    Dispatch :=
  ⟨metric.lastlogsize, lastlogsize_sent, 0, 0, SUCCEED, str_severity0, [], []⟩

/-- The result of a cycle, read off the locals at the end of the record loop. -/
def outcome_of (metric : ZBX_ACTIVE_METRIC) (ret : Int) (error : Option String) (d : Dispatch)
    (buffer_size : Nat) : Outcome :=
  ⟨ret, error, { metric with lastlogsize := d.metric_lastlogsize }, d.lastlogsize_sent, d.s_count,
    d.p_count, d.calls, d.steps, buffer_size⟩

/-! ## Measures for the loops of the legacy back end -/

/-- Index of the record a forward sequential read starts at. -/
def fpos (os : EventLogOS) : Nat :=
  match os.cur with
  | none => 0
  | some c => c.toNat

/-- Whether the record under the forward read position is larger than the buffer. -/
def too_small (os : EventLogOS) (buffer_size : Nat) : Nat :=
  match os.records.drop (fpos os) with
  | [] => 0
  | r :: _ => if buffer_size < r.Length then 1 else 0

/-- The quantity the main read loop decreases. -/
def loop_measure (st : ReadState) : Nat :=
  2 * st.os.faults.length + 2 * (st.os.records.length - fpos st.os) +
    too_small st.os st.buffer_size + (if st.dwRead = 0 then 0 else 1)

/-- Index of the record a backward sequential read starts at, if any. -/
def bpos (os : EventLogOS) : Option Nat :=
  match os.cur with
  | none => if os.records.length = 0 then none else some (os.records.length - 1)
  | some c => if c < 0 then none else some (min c.toNat (os.records.length - 1))

/-- Whether the record a positioned read finds is larger than the buffer. -/
def seek_small (records : List EVENTLOGRECORD) (num b : Nat) : Nat :=
  match find_record num records with
  | none => 0
  | some i =>
    match records.drop i with
    | [] => 0
    | r :: _ => if b < r.Length then 1 else 0

/-- Number of records a backward sequential read can still return. -/
def back_room (os : EventLogOS) : Nat :=
  match bpos os with
  | none => 0
  | some i => i + 1

/-- Whether the record under the backward read position is larger than the buffer. -/
def back_small (os : EventLogOS) (b : Nat) : Nat :=
  match bpos os with
  | none => 0
  | some i =>
    match (os.records.take (i + 1)).reverse with
    | [] => 0
    | r :: _ => if b < r.Length then 1 else 0

/-! ## The result of the sink for one record -/

/-- Value of `send_err` after a record: the result of the sink when the four
predicates match, otherwise the value it had. -/
def send_result (env : Env) (d : Dispatch) (ev : SinkCall) (sev : String) : Int :=
  if filter_match env ev.value sev ev.source ev.logeventid then env.process_value_cb d.calls ev
  else d.send_err

/-- How the result of a cycle relates to the dispatch variables `d` at the end
of the record loop. -/
def ReadsOff (metric : ZBX_ACTIVE_METRIC) (sent : Nat) (sev0 : String) (o : Outcome)
    (d : Dispatch) : Prop :=
  o.steps = d.steps ∧ o.calls = d.calls ∧ o.s_count = d.s_count ∧ o.p_count = d.p_count ∧
  o.lastlogsize_sent = d.lastlogsize_sent ∧
  (o.metric.lastlogsize = d.metric_lastlogsize ∨
    (1 = metric.skip_old_data ∧ d = dispatch0 metric sent sev0))

/-! ## Filter semantics: predicates and example environment -/

/-- The four evaluator calls made for a processed record all succeed. -/
def four_predicates (env : Env) (s : Step) : Prop :=
  SUCCEED = env.regexp_match_ex s.call.value env.filter.pattern ZBX_CASE_SENSITIVE ∧
  SUCCEED = env.regexp_match_ex s.str_severity env.filter.key_severity ZBX_IGNORE_CASE ∧
  SUCCEED = env.regexp_match_ex s.call.source env.filter.key_source ZBX_IGNORE_CASE ∧
  SUCCEED = env.regexp_match_ex (str_logeventid s.call.logeventid) env.filter.key_logeventid
    ZBX_CASE_SENSITIVE

/-- The sink was invoked exactly for the processed records whose four
evaluator calls succeeded, in order. -/
def FilterFaithful (env : Env) (calls : List SinkCall) (steps : List Step) : Prop :=
  calls = (steps.filter (fun s => s.matched)).map (fun s => s.call) ∧
  ∀ s ∈ steps, (s.matched = true ↔ four_predicates env s)

/-- A small evaluator used to exercise the filter: an empty pattern matches
everything, `disk.*` matches the two texts of the example that start with
`disk`, any other pattern matches the text equal to it. -/
def demo_regexp (text pattern : String) (_case_sensitive : Nat) : Int :=
  if pattern = "" then SUCCEED
  else if pattern = "disk.*" then (if text = "disk full" ∨ text = "diskmon" then SUCCEED else FAIL)
  else if text = pattern then SUCCEED else FAIL

/-- An environment around `demo_regexp` with a sink that always succeeds. -/
def demo_env (filter : FilterSpec) (rate : Int) : Env :=
  ⟨demo_regexp, fun _ _ => SUCCEED, filter, rate, fun _ => "error"⟩

/-! ## Rate budget: predicates -/

/-- Number of processed records the sink accepted. -/
def sent_count (steps : List Step) : Nat :=
  (steps.filter (fun s => s.matched && decide (SUCCEED = s.send_err))).length

/-- No `int` operation of the two budget expressions overflows: `rate *
refresh`, `4 * rate` and `4 * rate * refresh` are in the range of `int`. -/
def IntFits (rate refresh : Int) : Prop :=
  -2 ^ 31 ≤ rate * refresh ∧ rate * refresh < 2 ^ 31 ∧
  -2 ^ 31 ≤ 4 * rate ∧ 4 * rate < 2 ^ 31 ∧
  -2 ^ 31 ≤ 4 * rate * refresh ∧ 4 * rate * refresh < 2 ^ 31

/-- The bounds a cycle keeps: the counters count the accepted and the
processed records, and neither exceeds its budget (the value of the `int`
expression the code compares it with), except that the first record of a
cycle is always processed. -/
def Budget (env : Env) (metric : ZBX_ACTIVE_METRIC) (o : Outcome) : Prop :=
  o.s_count = sent_count o.steps ∧ o.p_count = o.steps.length ∧
  o.s_count ≤ max 1 (sent_budget env.rate metric.refresh) ∧
  o.p_count ≤ max 1 (processed_budget env.rate metric.refresh)

/-- The counters while the record loop goes on. -/
def BudgetRunning (env : Env) (refresh : Int) (d : Dispatch) : Prop :=
  d.s_count = sent_count d.steps ∧ d.p_count = d.steps.length ∧
  (d.steps = [] ∨
    (d.s_count < sent_budget env.rate refresh ∧ d.p_count < processed_budget env.rate refresh))

/-- The counters after the record loop. -/
def BudgetFinal (env : Env) (refresh : Int) (d : Dispatch) : Prop :=
  d.s_count = sent_count d.steps ∧ d.p_count = d.steps.length ∧
  d.s_count ≤ max 1 (sent_budget env.rate refresh) ∧
  d.p_count ≤ max 1 (processed_budget env.rate refresh)

/-! ## Example logs -/

/-- A legacy record of 100 bytes with the given record number and time. -/
def demo_record (n ts : Nat) : EVENTLOGRECORD :=
  ⟨100, n, ts, 7, EVENTLOG_ERROR_TYPE, "diskmon", [], some "disk full"⟩

/-- The records `first, first + 1, …` of a legacy log, `count` of them. -/
def demo_log (first count : Nat) : List EVENTLOGRECORD :=
  (List.range count).map (fun i => demo_record (first + i) (1000 + i))

/-- A legacy log with `count` records numbered from `first`. -/
def demo_os (first count : Nat) (faults : List (Option Fault)) : EventLogOS :=
  ⟨none, count, first, demo_log first count, none, faults⟩

/-- A modern event with the given record id. -/
def demo_event6 (n : Nat) : EVENT6 :=
  ⟨"diskmon", none, n, 7, WINEVENT_LEVEL_ERROR, 0, 116444736000000000 + 10000000 * n,
    EventData.other, none, some "disk full"⟩

/-- A modern log with `count` events numbered from `first`. -/
def demo_os6 (first count : Nat) (faults : List (Option Nat)) : EventLog6OS :=
  ⟨none, none, count, none, none, none, none,
    (List.range count).map (fun i => demo_event6 (first + i)),
    faults⟩

/-- The checkpoint values given to the processed records of a cycle. -/
def ids (o : Outcome) : List Nat := o.steps.map (fun s => s.call.lastlogsize)

/-! ## Back-pressure: predicates -/

/-- The checkpoint value of the last of the given processed records, or `m0`
when there is none. -/
def last_id (m0 : Nat) (steps : List Step) : Nat :=
  match steps.getLast? with
  | some s => s.call.lastlogsize
  | none => m0

/-- The back-pressure contract for a cycle entered with the stored checkpoint
`m0`: a record on which the sink fails is the last processed record of the
cycle and the last invocation of the sink, the cycle returns `SUCCEED`, and
the stored checkpoint is that of the record processed before it. -/
def BackPressure (m0 : Nat) (o : Outcome) : Prop :=
  ∀ pre s post, o.steps = pre ++ s :: post → SUCCEED ≠ s.send_err →
    post = [] ∧ s.matched = true ∧ o.calls.getLast? = some s.call ∧ o.ret = SUCCEED ∧
    o.metric.lastlogsize = last_id m0 pre

/-- The dispatch variables while no sink call has failed. -/
def Flowing (m0 : Nat) (d : Dispatch) : Prop :=
  SUCCEED = d.send_err ∧ (∀ s ∈ d.steps, SUCCEED = s.send_err) ∧
  d.metric_lastlogsize = last_id m0 d.steps

/-- The dispatch variables after a `break`: nothing failed, or the sink failed
on the last processed record. -/
def Halted (m0 : Nat) (d : Dispatch) : Prop :=
  Flowing m0 d ∨
  ∃ pre s, d.steps = pre ++ [s] ∧ s.matched = true ∧ SUCCEED ≠ s.send_err ∧
    (∀ x ∈ pre, SUCCEED = x.send_err) ∧ d.metric_lastlogsize = last_id m0 pre ∧
    d.calls.getLast? = some s.call

/-- An environment whose sink accepts five records and fails on the sixth. -/
def demo_env_full (rate : Int) : Env :=
  ⟨demo_regexp, fun calls _ => if calls.length = 5 then FAIL else SUCCEED, ⟨"", "", "", ""⟩, rate,
    fun _ => "error"⟩

/-- The locals of the legacy loop while it goes on, for a cycle that started
inside the window with the checkpoint `c`. -/
def Climbing (env : Env) (refresh : Int) (c : Nat) (l : Locals) : Prop :=
  c ≤ l.d.metric_lastlogsize ∧ c ≤ l.lastlogsize ∧
  (l.lastlogsize : Int) ≤ c + 1 + l.d.p_count ∧ 0 ≤ l.d.p_count ∧
  (l.d.p_count = 0 ∨ l.d.p_count < processed_budget env.rate refresh)

/-- The records a fault-free main loop still has before it: the buffer handed
over by the seek, if any, then the log from the read position on. -/
def ahead (st : ReadState) : List EVENTLOGRECORD :=
  (if st.dwRead = 0 then [] else st.pELRs) ++ st.os.records.drop (fpos st.os)

/-! ## Well-kept logs -/

/-- A legacy log as the event log service keeps it: the log opens, it reports
its oldest record number `F` and its record count `n`, its `n` records carry
the contiguous record numbers `F, F + 1, …` below `2^32` (no wraparound inside
the log), and every record has a positive length. -/
structure Sound (os : EventLogOS) (F n : Nat) : Prop where
  open_ok : os.open_err = none
  oldest : os.dwOldestRecord = F
  count : os.dwNumRecords = n
  numbered : os.records.map (fun r => r.RecordNumber) = List.range' F n
  below : F + n < 2 ^ 32
  sized : ∀ r ∈ os.records, 0 < r.Length

/-- What the main loop needs from a successful seek: no fault is pending, no
error is set, the log is unchanged, and the records ahead are the log from
some index `p` on. -/
def Positioned (st0 st1 : ReadState) (p : Nat) : Prop :=
  st1.os.faults = [] ∧ st1.os.records = st0.os.records ∧ st1.dwErr = ERROR_SUCCESS ∧
  st1.error = st0.error ∧ ahead st1 = st0.os.records.drop p

/-- The read position of a handle of which `a` records are still before the
backward read position: a fresh handle with `a` the length of the log, or a
handle positioned on the record of index `a - 1`. -/
def CurAt (os : EventLogOS) (a : Nat) : Prop :=
  (os.cur = none ∧ a = os.records.length) ∨
  (os.cur = some ((a : Int) - 1) ∧ a ≤ os.records.length)

/-- The two ways the system answers the positioned read of a cycle: it accepts
it (no fault), or rejects it with `ERROR_INVALID_PARAMETER`. -/
def SeekAnswer (os : EventLogOS) : Prop :=
  os.faults = [] ∨ ∃ k, os.faults = [some ⟨ERROR_INVALID_PARAMETER, k⟩]

/-! ## Cycles in which every record is sent: predicates -/

/-- The two budgets of a cycle are `m` sent records and `4 * m` processed
records. -/
def Budgeted (env : Env) (refresh : Int) (m : Nat) : Prop :=
  sent_budget env.rate refresh = (m : Int) ∧ processed_budget env.rate refresh = 4 * (m : Int)

/-- An environment in which every record passes the filter and the sink
never fails. -/
structure Willing (env : Env) : Prop where
  pass : ∀ value sev source id, filter_match env value sev source id = true
  sink : ∀ calls ev, env.process_value_cb calls ev = SUCCEED

/-- The locals of the legacy loop after the `i` records numbered
`t, …, t + i - 1` were processed and sent one after the other, in a cycle
that was entered with the stored checkpoint `c0`. -/
structure Delivered (t c0 i : Nat) (l : Locals) : Prop where
  s_count : l.d.s_count = i
  p_count : l.d.p_count = i
  ids : l.d.steps.map (fun s => s.call.lastlogsize) = List.range' t i
  numbers : l.d.steps.map (fun s => s.id) = List.range' t i
  calls : l.d.calls.map (fun c => c.lastlogsize) = List.range' t i
  idle : i = 0 → l.timestamp = 0 ∧ l.d.metric_lastlogsize = c0
  going : 0 < i → l.timestamp ≠ 0 ∧ l.lastlogsize = t + i - 1 ∧
    l.d.metric_lastlogsize = t + i - 1

/-- The dispatch variables after the `i` records with the ids
`t, …, t + i - 1` were sent one after the other, in a cycle entered with the
stored checkpoint `c0`. -/
structure Sent (t c0 i : Nat) (d : Dispatch) : Prop where
  s_count : d.s_count = i
  p_count : d.p_count = i
  ids : d.steps.map (fun s => s.call.lastlogsize) = List.range' t i
  numbers : d.steps.map (fun s => s.id) = List.range' t i
  calls : d.calls.map (fun c => c.lastlogsize) = List.range' t i
  idle : i = 0 → d.metric_lastlogsize = c0
  going : 0 < i → d.metric_lastlogsize = t + i - 1

/-- A well-kept channel of the modern service: every call succeeds, the `n`
events carry the contiguous record ids `F, …, F + n - 1`, the service reports
`n` as their number, and every event can be rendered. -/
structure Sound6 (os : EventLog6OS) (F n : Nat) : Prop where
  open_ok : os.open_err = none
  info_ok : os.info_err = none
  context_ok : os.context_err = none
  query_all_ok : os.query_all_err = none
  first_next_ok : os.first_next_err = none
  query_ok : os.query_err = none
  count : os.numIDs = n
  numbered : os.events.map (fun e => e.EventRecordID) = List.range' F n
  below : F + n < 2 ^ 64
  rendered : ∀ e ∈ os.events, e.render_err = none
  quiet : os.faults = []

/-- What a willing cycle reports when it sent the `k` records
`t, …, t + k - 1`. -/
structure Report (o : Outcome) (t k : Nat) : Prop where
  ret : o.ret = SUCCEED
  ids : o.steps.map (fun s => s.call.lastlogsize) = List.range' t k
  numbers : o.steps.map (fun s => s.id) = List.range' t k
  calls : o.calls.map (fun c => c.lastlogsize) = List.range' t k
  s_count : o.s_count = k
  checkpoint : o.metric.lastlogsize = t + k - 1

/-! ## Example logs with a record generated at time 0 and with wrapping numbers -/

/-- The example log in which the record numbered `z` was generated at time 0
(1 January 1970, 00:00:00). -/
def demo_os_zero (first count z : Nat) : EventLogOS :=
  ⟨none, count, first, (demo_log first count).map
    (fun r => if r.RecordNumber = z then { r with TimeGenerated := 0 } else r), none, []⟩

/-- A legacy log whose record numbers are 32-bit: record `i` carries the
number `(first + i) mod 2^32`. -/
def demo_os_wrap (first count : Nat) : EventLogOS :=
  ⟨none, count, first,
    (List.range count).map (fun i => demo_record (toDWORD (first + i)) (1000 + i)), none, []⟩

/-! ## Wraparound: the trace of one cycle -/

/-- The locals of the legacy loop are those left by the last processed
record, and each processed record that follows one with a non-zero time was
given the checkpoint value of its predecessor plus one, in 64 bits. -/
def Tied (l : Locals) : Prop :=
  (∀ pre a b post, l.d.steps = pre ++ a :: b :: post → a.call.timestamp ≠ 0 →
    b.call.lastlogsize = add64 a.call.lastlogsize 1) ∧
  (∀ pre s, l.d.steps = pre ++ [s] →
    s.call.lastlogsize = l.lastlogsize ∧ s.call.timestamp = l.timestamp)

/-! ## Example channel whose reading query cannot be created -/

/-- The example channel when the `EvtQuery` call of `zbx_get_handle_eventlog6`
fails with the given code. -/
def demo_os6_noquery (first count status : Nat) : EventLog6OS :=
  { demo_os6 first count [] with query_err := some status }

/-- The example channel when the first `EvtNext` of `zbx_open_eventlog6` fails
with the given code although the channel holds events. -/
def demo_os6_nonext (first count status : Nat) : EventLog6OS :=
  { demo_os6 first count [] with first_next_err := some status }

/-- The calls of `zbx_open_eventlog6` whose failure makes it return `FAIL`:
`EvtOpenLog`, `EvtGetLogInfo`, `EvtCreateRenderContext`, `EvtQuery`, and
`EvtRender` on the first event. -/
def OpenFails (os : EventLog6OS) : Prop :=
  os.open_err ≠ none ∨ os.info_err ≠ none ∨ os.context_err ≠ none ∨ os.query_all_err ≠ none ∨
  (os.first_next_err = none ∧ ∃ e rest, os.events = e :: rest ∧ e.render_err ≠ none)

/-! ## Example log with records that fill the read buffer -/

/-- A legacy log with `count` records of 40000 bytes numbered from `first`:
the initial buffer of 64 KiB holds one of them. -/
def demo_big_os (first count : Nat) (faults : List (Option Fault)) : EventLogOS :=
  ⟨none, count, first,
    (List.range count).map (fun i =>
      ⟨40000, first + i, 1000 + i, 7, EVENTLOG_ERROR_TYPE, "diskmon", [], some "disk full"⟩),
    none, faults⟩

/-! ## Example log whose older records are gone -/

/-- A legacy log for which the system reports the oldest record number `first`
and `count` records, while only the newest `kept` of them can still be read. -/
def demo_os_stale (first count kept : Nat) : EventLogOS :=
  ⟨none, count, first, demo_log (first + count - kept) kept, none, []⟩

/-! ## Record ids: example log and invariants -/

/-- A legacy log with two records whose numbers are `first` and `first + 2`. -/
def demo_os_gap (first : Nat) : EventLogOS :=
  ⟨none, 2, first, [demo_record first 1000, demo_record (first + 2) 1001], none, []⟩

/-- Every processed record of the modern back end carries its own record id
as checkpoint value. -/
def OwnId (d : Dispatch) : Prop := ∀ s ∈ d.steps, s.call.lastlogsize = s.id % 2 ^ 64

/-- The first processed record of the legacy loop, and every processed record
that follows a record with the time 0, is a start record: the low 32 bits of
its checkpoint value are its record number.  Before the first processed record
the local `timestamp` is 0. -/
def Rooted (l : Locals) : Prop :=
  (l.d.steps = [] → l.timestamp = 0) ∧
  (∀ pre s post, l.d.steps = pre ++ s :: post →
    (pre = [] ∨ ∃ pre1 p, pre = pre1 ++ [p] ∧ p.call.timestamp = 0) →
    toDWORD s.call.lastlogsize = s.id)

/-! ## Severity classification: example logs -/

/-- A legacy log with the two records 121 and 122, which are alike except
for their `EventType`. -/
def demo_os_types (t1 t2 : Nat) : EventLogOS :=
  ⟨none, 2, 121, [⟨100, 121, 1000, 7, t1, "diskmon", [], some "disk full"⟩,
    ⟨100, 122, 1001, 7, t2, "diskmon", [], some "disk full"⟩], none, []⟩

/-- A modern log with the two events 121 and 122, which are alike except for
their `Level`. -/
def demo_os6_levels (l1 l2 : Nat) : EventLog6OS :=
  ⟨none, none, 2, none, none, none, none,
    [⟨"diskmon", none, 121, 7, l1, 0, 116444736000000000, EventData.other, none,
      some "disk full"⟩,
     ⟨"diskmon", none, 122, 7, l2, 0, 116444736000000000, EventData.other, none,
      some "disk full"⟩], []⟩

/-- The seven values of the unified severity enumeration. -/
def unified_severities : List Nat :=
  [ITEM_LOGTYPE_INFORMATION, ITEM_LOGTYPE_WARNING, ITEM_LOGTYPE_ERROR,
    ITEM_LOGTYPE_FAILURE_AUDIT, ITEM_LOGTYPE_SUCCESS_AUDIT, ITEM_LOGTYPE_CRITICAL,
    ITEM_LOGTYPE_VERBOSE]

/-- Severity and severity name of every processed record of a cycle. -/
def severities (o : Outcome) : List (Nat × String) :=
  o.steps.map (fun s => (s.call.severity, s.str_severity))

/-! ## Transient read failures: predicates and example log -/

/-- No injected failure of `ReadEventLog` is an insufficient-buffer result:
every such result comes from the log itself, which reports the length of the
record under the read position. -/
def Genuine (os : EventLogOS) : Prop :=
  ∀ f, some f ∈ os.faults → f.code ≠ ERROR_INSUFFICIENT_BUFFER

/-- The capacity `b1` is the capacity `b`, or it is larger than `b` and is the
length of a record of the log. -/
def Grown (records : List EVENTLOGRECORD) (b b1 : Nat) : Prop :=
  b1 = b ∨ (b < b1 ∧ ∃ r ∈ records, b1 = r.Length)

/-- A legacy log with `count` records numbered from `first`, of which the
record with the index `big` is 70000 bytes long. -/
def demo_long_os (first count big : Nat) (faults : List (Option Fault)) : EventLogOS :=
  ⟨none, count, first,
    (List.range count).map (fun i =>
      ⟨if i = big then 70000 else 100, first + i, 1000 + i, 7, EVENTLOG_ERROR_TYPE, "diskmon", [],
        some "disk full"⟩),
    none, faults⟩

/-! ## Parameter substitution

The message is the list of its characters before the terminating NUL; an
index into it is a `size_t`.  The parameter message file is the function
`lookup`: `lookup id` is what `zbx_format_message(hLib, id, NULL)` returns
(`none` for a null pointer; the text may be empty, because
`zbx_format_message` trims trailing line ends and blanks). -/

/-- The call `strstr(p, "%%")` of the C library, where `p` points to the
character with index `i` and `s` are the characters from there on: the index
of the first `%%`, or `none` for a null pointer. -/
def strstr_percent : List Char → Nat → Option Nat
  | [], _ => none
  | c :: rest, i =>
    if c = '%' ∧ rest.head? = some '%' then some i else strstr_percent rest (i + 1)

/-- The test `isdigit` of the C library. -/
def isdigit (c : Char) : Bool := decide (48 ≤ c.toNat ∧ c.toNat ≤ 57)

/-- The test `isspace` of the C library. -/
def isspace (c : Char) : Bool := decide (c.toNat = 32 ∨ (9 ≤ c.toNat ∧ c.toNat ≤ 13))

/-- Value of the leading decimal digits of `s`, continuing the value `acc`. -/
def atoi_digits : List Char → Nat → Nat
  | [], acc => acc
  | c :: rest, acc => if isdigit c then atoi_digits rest (10 * acc + (c.toNat - 48)) else acc

/-- The function `atoi` of the C library for numbers an `int` holds: white
space is skipped, a sign is read, then the decimal digits. -/
def atoi (s : List Char) : Int :=
  match s.dropWhile isspace with
  | [] => 0
  | c :: rest =>
    if c = '-' then -(atoi_digits rest 0 : Int)
    else if c = '+' then (atoi_digits rest 0 : Int)
    else (atoi_digits (c :: rest) 0 : Int)

/-- Modelled from the spec: the helper `zbx_replace_string(data, l, &r, value)`
is not among the sources.  It replaces the characters with the indices `l` to
`r` by `value` and stores in `r` the index of the last inserted character,
which is `l + strlen(value) - 1` in `size_t` arithmetic. -/
def zbx_replace_string (data : List Char) (l r : Nat) (value : List Char) : List Char × Nat :=
  (data.take l ++ value ++ data.drop (r + 1), (l + value.length + 2 ^ 64 - 1) % 2 ^ 64)

/-- How `zbx_translate_message_params` ends: it returns with the message, or
it hands `strstr` the pointer `*message + offset` with an offset that is not
an index of the message. -/
inductive Translated where
  | done (message : List Char)
  | outside (message : List Char) (offset : Nat)
  deriving DecidableEq, Repr

/-- The loop of `zbx_translate_message_params` (lines 255-275), entered with
the local `offset`. -/
def translate_loop (lookup : Int → Option (List Char)) :
    Nat → List Char → Nat → Option Translated
  | 0, _, _ => none
  | fuel + 1, message, offset =>
    if message.length < offset then some (Translated.outside message offset)
    else
      match strstr_percent (message.drop offset) offset with
      | none => some (Translated.done message)
      | some pstart =>
        let pend := pstart + 2
        let dwMessageId := atoi (message.drop pend)
        let pend := pend + ((message.drop pend).takeWhile isdigit).length
        let offset := pend - 1
        match lookup dwMessageId with
        | none => translate_loop lookup fuel message offset
        | some param =>
          let r := zbx_replace_string message pstart offset param
          translate_loop lookup fuel r.1 r.2

/-- The function `zbx_translate_message_params`.  Every pass of the loop in
which the offset is an index of the message brings the offset closer to the
end of the message, so `message.length + 1` passes are enough. -/
def zbx_translate_message_params (lookup : Int → Option (List Char)) (message : List Char) :
    Option Translated :=
  translate_loop lookup (message.length + 1) message 0

/-- A parameter message file: message 1 is a line end only, which
`zbx_format_message` trims to the empty text; message 2 is `C:`; message 3
contains a parameter token itself. -/
def demo_params (id : Int) : Option (List Char) :=
  if id = 1 then some []
  else if id = 2 then some "C:".toList
  else if id = 3 then some "%%2".toList
  else none

/-! ## Filtered-out records: predicates -/

/-- The dispatch variables with respect to the records that did not pass the
filter: every processed record is counted, a record that did not pass left
`send_err` at `SUCCEED`, and as long as no record passed, nothing was sent. -/
def Passing (sent : Nat) (d : Dispatch) : Prop :=
  d.p_count = d.steps.length ∧
  (∀ s ∈ d.steps, s.matched = false → SUCCEED = s.send_err) ∧
  ((∀ s ∈ d.steps, s.matched = false) →
    d.calls = [] ∧ d.s_count = 0 ∧ d.lastlogsize_sent = sent)

/-- What a cycle entered with the stored checkpoint `metric.lastlogsize` and
`*lastlogsize_sent = sent` does with the records that do not pass the filter:
every processed record counts as processed, the sink is invoked for the
records that passed and for no other, a record that did not pass never ends
the cycle with a failure, the stored checkpoint of a cycle without sink
failure is the checkpoint value of the last processed record, and when no
record passed nothing was sent and `*lastlogsize_sent` is as it was. -/
def FilteredAdvance (metric : ZBX_ACTIVE_METRIC) (sent : Nat) (o : Outcome) : Prop :=
  o.p_count = o.steps.length ∧
  o.calls = (o.steps.filter (fun s => s.matched)).map (fun s => s.call) ∧
  (∀ s ∈ o.steps, s.matched = false → SUCCEED = s.send_err) ∧
  ((∀ s ∈ o.steps, SUCCEED = s.send_err) → ¬ 1 = metric.skip_old_data →
    o.metric.lastlogsize = last_id metric.lastlogsize o.steps) ∧
  ((∀ s ∈ o.steps, s.matched = false) →
    o.calls = [] ∧ o.s_count = 0 ∧ o.lastlogsize_sent = sent ∧
    (¬ 1 = metric.skip_old_data →
      o.metric.lastlogsize = last_id metric.lastlogsize o.steps))

/-! ## Checkpoint values and record numbers: examples and predicates -/

/-- A legacy log with three records whose numbers are `first`, `first + 2`
and `first + 3`. -/
def demo_os_sparse (first : Nat) : EventLogOS :=
  ⟨none, 3, first,
    [demo_record first 1000, demo_record (first + 2) 1001, demo_record (first + 3) 1002], none,
    []⟩

/-- An environment whose sink accepts two records and fails on the third. -/
def demo_env_third (rate : Int) : Env :=
  ⟨demo_regexp, fun calls _ => if calls.length = 2 then FAIL else SUCCEED, ⟨"", "", "", ""⟩, rate,
    fun _ => "error"⟩

/-- The locals of the legacy loop after `i` records numbered `t`, `t + 1`, …
with non-zero times were processed: every processed record was given its own
record number as checkpoint value. -/
structure Aligned (t i : Nat) (l : Locals) : Prop where
  own : ∀ s ∈ l.d.steps, s.call.lastlogsize = s.id
  idle : i = 0 → l.timestamp = 0
  going : 0 < i → l.timestamp ≠ 0 ∧ l.lastlogsize = t + i - 1

/-- Back-pressure in terms of record numbers, for a cycle of the legacy back
end entered with the stored checkpoint `m0`: when the sink fails on the first
processed record the stored checkpoint is still `m0`, and when it fails on a
later record the stored checkpoint is the `RecordNumber` of the record
processed immediately before it. -/
def PrecedingNumber (m0 : Nat) (o : Outcome) : Prop :=
  (∀ s post, o.steps = s :: post → SUCCEED ≠ s.send_err → o.metric.lastlogsize = m0) ∧
  (∀ pre p s post, o.steps = pre ++ p :: s :: post → SUCCEED ≠ s.send_err →
    o.metric.lastlogsize = p.id)

/-- Back-pressure in terms of record ids, for a call of the modern back end
entered with the stored checkpoint `m0`: when the sink fails on the first
processed record the stored checkpoint is still `m0`, and when it fails on a
later record the stored checkpoint is the `EventRecordID`, a 64-bit value, of
the record processed immediately before it. -/
def PrecedingId6 (m0 : Nat) (o : Outcome) : Prop :=
  (∀ s post, o.steps = s :: post → SUCCEED ≠ s.send_err → o.metric.lastlogsize = m0) ∧
  (∀ pre p s post, o.steps = pre ++ p :: s :: post → SUCCEED ≠ s.send_err →
    o.metric.lastlogsize = p.id % 2 ^ 64)

/-- The end of a cycle of the legacy back end in terms of record numbers:
when no sink call failed and `skip_old_data` is off, the stored checkpoint is
the `RecordNumber` of the last processed record. -/
def EndsAtNumber (metric : ZBX_ACTIVE_METRIC) (o : Outcome) : Prop :=
  ∀ pre p, o.steps = pre ++ [p] → (∀ s ∈ o.steps, SUCCEED = s.send_err) →
    ¬ 1 = metric.skip_old_data → o.metric.lastlogsize = p.id

/-- The end of a call of the modern back end in terms of record ids: when no
sink call failed and `skip_old_data` is off, the stored checkpoint is the
`EventRecordID`, a 64-bit value, of the last processed record. -/
def EndsAtId6 (metric : ZBX_ACTIVE_METRIC) (o : Outcome) : Prop :=
  ∀ pre p, o.steps = pre ++ [p] → (∀ s ∈ o.steps, SUCCEED = s.send_err) →
    ¬ 1 = metric.skip_old_data → o.metric.lastlogsize = p.id % 2 ^ 64

/-! # Theorems -/

/-! ## Products in the type `int` -/

theorem toInt32_lt (x : Int) : toInt32 x < 2 ^ 31 := by
  unfold toInt32
  have := Int.emod_lt_of_pos (x + 2 ^ 31) (by norm_num : (0 : Int) < 2 ^ 32)
  omega

theorem toInt32_ge (x : Int) : -2 ^ 31 ≤ toInt32 x := by
  unfold toInt32
  have := Int.emod_nonneg (x + 2 ^ 31) (by norm_num : (2 : Int) ^ 32 ≠ 0)
  omega

/-- A value in the range of `int` is kept. -/
theorem toInt32_fits (x : Int) (h1 : -2 ^ 31 ≤ x) (h2 : x < 2 ^ 31) : toInt32 x = x := by
  unfold toInt32
  rw [Int.emod_eq_of_lt (by omega) (by omega)]
  omega

/-- Reducing a factor to 32 bits does not change the reduced product. -/
theorem toInt32_mul_left (a b : Int) : toInt32 (toInt32 a * b) = toInt32 (a * b) := by
  unfold toInt32
  have h : (a + 2 ^ 31) % 2 ^ 32 - 2 ^ 31 = a - 2 ^ 32 * ((a + 2 ^ 31) / 2 ^ 32) := by
    have := Int.emod_add_ediv (a + 2 ^ 31) (2 ^ 32)
    omega
  rw [h]
  have h2 : (a - 2 ^ 32 * ((a + 2 ^ 31) / 2 ^ 32)) * b + 2 ^ 31 =
      (a * b + 2 ^ 31) + 2 ^ 32 * (-((a + 2 ^ 31) / 2 ^ 32) * b) := by ring
  rw [h2, Int.add_mul_emod_self_left]

theorem processed_budget_eq (rate refresh : Int) :
    processed_budget rate refresh = toInt32 (4 * rate * refresh) := by
  unfold processed_budget mul_int
  exact toInt32_mul_left _ _

/-- The two budgets when `4 * rate * refresh` does not overflow. -/
theorem budgets_fit (rate refresh : Int) (m : Nat) (hR : rate * refresh = (m : Int))
    (hfit : 4 * (m : Int) < 2 ^ 31) :
    sent_budget rate refresh = (m : Int) ∧ processed_budget rate refresh = 4 * (m : Int) := by
  constructor
  · unfold sent_budget mul_int
    rw [hR]
    exact toInt32_fits _ (by omega) (by omega)
  · rw [processed_budget_eq, mul_assoc, hR]
    exact toInt32_fits _ (by omega) (by omega)


/-! ## Invariants of the loops

Every property of a cycle that holds "whatever happens" is an invariant of the
record loop.  The lemmas below lift a fact about the processing of one record
to the loops: `P` holds while the loop goes on, `Q` after a `break`. -/

/-- Lifting through the loop over one buffer of the legacy back end. -/
theorem parse_buffer_inv (env : Env) (refresh : Int) (FirstID : Nat) (P Q : Locals → Prop) (R : EVENTLOGRECORD → Prop)
    (hstep : ∀ r l, R r → P l → (0 ≠ l.timestamp ∨ toDWORD FirstID = r.RecordNumber) →
      ((process_record env refresh FirstID r l).2 = Flow.next →
        P (process_record env refresh FirstID r l).1) ∧
      ((process_record env refresh FirstID r l).2 = Flow.stop →
        Q (process_record env refresh FirstID r l).1)) :
    ∀ (batch : List EVENTLOGRECORD) (l : Locals), (∀ r ∈ batch, R r) → P l →
      ((parse_buffer env refresh FirstID batch l).2 = Flow.next →
        P (parse_buffer env refresh FirstID batch l).1) ∧
      ((parse_buffer env refresh FirstID batch l).2 = Flow.stop →
        Q (parse_buffer env refresh FirstID batch l).1) := by
  intro batch
  induction batch with
  | nil => intro l _ hP; simp [parse_buffer, hP]
  | cons r rest ih =>
    intro l hR hP
    have hr : R r := hR r (List.mem_cons_self _ _)
    have hrest : ∀ x ∈ rest, R x := fun x hx => hR x (List.mem_cons_of_mem _ hx)
    unfold parse_buffer
    by_cases hc : 0 ≠ l.timestamp ∨ toDWORD FirstID = r.RecordNumber
    · rw [if_pos hc]
      have h := hstep r l hr hP hc
      rcases hx : process_record env refresh FirstID r l with ⟨l1, f⟩
      rw [hx] at h
      cases f with
      | next => exact ih l1 hrest (h.1 rfl)
      | stop => simp; exact h.2 rfl
    · rw [if_neg hc]
      exact ih l hrest hP

/-- The records of a batch are records of the log. -/
theorem fit_subset : ∀ (rs : List EVENTLOGRECORD) (room : Nat), ∀ r ∈ fit room rs, r ∈ rs := by
  intro rs
  induction rs with
  | nil => intro room r h; simp [fit] at h
  | cons x xs ih =>
    intro room r h
    unfold fit at h
    split_ifs at h with hx
    · rcases List.mem_cons.1 h with h1 | h1
      · exact h1 ▸ List.mem_cons_self _ _
      · exact List.mem_cons_of_mem _ (ih _ r h1)
    · simp at h

theorem records_from_subset (records : List EVENTLOGRECORD) (b : Bool) (i : Nat) :
    ∀ r ∈ records_from records b i, r ∈ records := by
  intro r h
  unfold records_from at h
  split_ifs at h
  · exact List.mem_of_mem_take (List.mem_reverse.1 h)
  · exact List.mem_of_mem_drop h

theorem read_at_spec (os : EventLogOS) (b : Bool) (i nBytes : Nat) :
    (read_at os b i nBytes).2.records = os.records ∧
    (read_at os b i nBytes).2.faults = os.faults ∧
    (∀ batch, (read_at os b i nBytes).1 = ReadOutcome.ok batch → ∀ r ∈ batch, r ∈ os.records) := by
  unfold read_at
  split
  · simp
  · rename_i r rs hrf
    by_cases h : nBytes < r.Length
    · simp [h]
    · rw [if_neg h]
      refine ⟨rfl, rfl, ?_⟩
      intro batch hb r0 hr0
      simp only [ReadOutcome.ok.injEq] at hb
      subst hb
      have := fit_subset (r :: rs) nBytes r0 hr0
      rw [← hrf] at this
      exact records_from_subset _ _ _ _ this

theorem ReadEventLog_normal_spec (os : EventLogOS) (flags off nBytes : Nat) :
    (ReadEventLog_normal os flags off nBytes).2.records = os.records ∧
    (ReadEventLog_normal os flags off nBytes).2.faults = os.faults ∧
    (∀ batch, (ReadEventLog_normal os flags off nBytes).1 = ReadOutcome.ok batch →
      ∀ r ∈ batch, r ∈ os.records) := by
  unfold ReadEventLog_normal
  simp only
  split_ifs <;> (try split) <;> (try split_ifs) <;>
    first
    | exact read_at_spec _ _ _ _
    | simp

/-- What every call of `ReadEventLog` preserves: the records of the log stay,
the list of pending faults loses its head, and a batch holds records of the log. -/
theorem ReadEventLog_spec (os : EventLogOS) (flags off nBytes : Nat) :
    (ReadEventLog os flags off nBytes).2.records = os.records ∧
    (ReadEventLog os flags off nBytes).2.faults = os.faults.tail ∧
    (∀ batch, (ReadEventLog os flags off nBytes).1 = ReadOutcome.ok batch →
      ∀ r ∈ batch, r ∈ os.records) := by
  unfold ReadEventLog
  split
  · simp_all
  · rename_i fs hf
    have h := ReadEventLog_normal_spec { os with faults := fs } flags off nBytes
    simp_all
  · rename_i hf
    have h := ReadEventLog_normal_spec os flags off nBytes
    simp_all

/-- Lifting through the main read loop of the legacy back end: when the loop
ends, either `P` holds, or the loop was left by a `break`, `Q` holds and the
result is `SUCCEED`. -/
theorem read_loop_inv (env : Env) (name : String) (refresh : Int) (FirstID : Nat)
    (P Q : Locals → Prop) (R : EVENTLOGRECORD → Prop)
    (hstep : ∀ r l, R r → P l → (0 ≠ l.timestamp ∨ toDWORD FirstID = r.RecordNumber) →
      ((process_record env refresh FirstID r l).2 = Flow.next →
        P (process_record env refresh FirstID r l).1) ∧
      ((process_record env refresh FirstID r l).2 = Flow.stop →
        Q (process_record env refresh FirstID r l).1)) :
    ∀ (fuel : Nat) (st : ReadState) (l : Locals) (ret : Int) (st' : ReadState) (l' : Locals),
      (∀ r ∈ st.os.records, R r) → (∀ r ∈ st.pELRs, R r) → P l →
      read_loop env name refresh FirstID fuel st l = some (ret, st', l') →
      P l' ∨ (Q l' ∧ ret = SUCCEED) := by
  intro fuel
  induction fuel with
  | zero => intro st l ret st' l' _ _ _ h; simp [read_loop] at h
  | succ n ih =>
    intro st l ret st' l' hrec hbuf hP h
    unfold read_loop at h
    by_cases h1 : ERROR_SUCCESS = st.dwErr
    · rw [if_pos h1] at h
      by_cases h2 : 0 = st.dwRead
      · rw [if_pos h2] at h
        have hspec := ReadEventLog_spec st.os
          (EVENTLOG_SEQUENTIAL_READ ||| EVENTLOG_FORWARDS_READ) 0 st.buffer_size
        rcases hx : ReadEventLog st.os (EVENTLOG_SEQUENTIAL_READ ||| EVENTLOG_FORWARDS_READ) 0
          st.buffer_size with ⟨out, os1⟩
        rw [hx] at h hspec
        have hr1 : os1.records = st.os.records := hspec.1
        have hrec1 : ∀ r ∈ os1.records, R r := fun r hr => hrec r (hr1 ▸ hr)
        cases out with
        | fail err dwNeeded =>
          simp only at h
          split_ifs at h with h3 h4
          · exact ih _ _ _ _ _ (by exact hrec1) (by exact hbuf) (by exact hP) h
          · simp only [Option.some.injEq, Prod.mk.injEq] at h
            exact Or.inl (h.2.2 ▸ hP)
          · simp only [Option.some.injEq, Prod.mk.injEq] at h
            exact Or.inl (h.2.2 ▸ hP)
        | ok batch =>
          simp only at h
          have hb : ∀ r ∈ batch, R r := fun r hr => hrec r (hspec.2.2 batch rfl r hr)
          have hp := parse_buffer_inv env refresh FirstID P Q R hstep batch l hb hP
          rcases hy : parse_buffer env refresh FirstID batch l with ⟨l1, f⟩
          rw [hy] at h hp
          cases f with
          | stop =>
            simp only [Option.some.injEq, Prod.mk.injEq] at h
            exact Or.inr ⟨h.2.2 ▸ hp.2 rfl, h.1.symm⟩
          | next =>
            simp only at h
            exact ih _ _ _ _ _ (by exact hrec1) (by exact hb) (by exact hp.1 rfl) h
      · rw [if_neg h2] at h
        have hp := parse_buffer_inv env refresh FirstID P Q R hstep st.pELRs l hbuf hP
        rcases hy : parse_buffer env refresh FirstID st.pELRs l with ⟨l1, f⟩
        rw [hy] at h hp
        cases f with
        | stop =>
          simp only [Option.some.injEq, Prod.mk.injEq] at h
          exact Or.inr ⟨h.2.2 ▸ hp.2 rfl, h.1.symm⟩
        | next =>
          simp only at h
          exact ih _ _ _ _ _ (by exact hrec) (by exact hbuf) (by exact hp.1 rfl) h
    · rw [if_neg h1] at h
      simp only [Option.some.injEq, Prod.mk.injEq] at h
      exact Or.inl (h.2.2 ▸ hP)

theorem Preserved.refl (st : ReadState) : Preserved st st :=
  ⟨rfl, le_refl _, fun _ h => Or.inr h⟩

theorem Preserved.trans {a b c : ReadState} (h1 : Preserved a b) (h2 : Preserved b c) :
    Preserved a c := by
  refine ⟨h2.1.trans h1.1, le_trans h2.2.1 h1.2.1, ?_⟩
  intro r hr
  rcases h2.2.2 r hr with h | h
  · exact Or.inl (h1.1 ▸ h)
  · exact h1.2.2 r h

theorem seek_direct_preserved (env : Env) (name : String) (num : Nat) :
    ∀ (fuel : Nat) (st : ReadState) (e : SeekExit) (st1 : ReadState),
      seek_direct env name num fuel st = some (e, st1) → Preserved st st1 := by
  intro fuel
  induction fuel with
  | zero => intro st e st1 h; simp [seek_direct] at h
  | succ n ih =>
    intro st e st1 h
    unfold seek_direct at h
    have hspec := ReadEventLog_spec st.os (EVENTLOG_SEEK_READ ||| EVENTLOG_FORWARDS_READ) num
      st.buffer_size
    rcases hx : ReadEventLog st.os (EVENTLOG_SEEK_READ ||| EVENTLOG_FORWARDS_READ) num
      st.buffer_size with ⟨out, os1⟩
    rw [hx] at h hspec
    have hr1 : os1.records = st.os.records := hspec.1
    have hf1 : os1.faults.length ≤ st.os.faults.length := by
      have : os1.faults = st.os.faults.tail := hspec.2.1
      rw [this]; simp
    cases out with
    | ok batch =>
      simp only [Option.some.injEq, Prod.mk.injEq] at h
      rw [← h.2]
      exact ⟨hr1, hf1, fun r hr => Or.inl (hspec.2.2 batch rfl r hr)⟩
    | fail err dwNeeded =>
      simp only at h
      split_ifs at h with h3 h4 h5
      · simp only [Option.some.injEq, Prod.mk.injEq] at h
        rw [← h.2]; exact ⟨hr1, hf1, fun r hr => Or.inr hr⟩
      · simp only [Option.some.injEq, Prod.mk.injEq] at h
        rw [← h.2]; exact ⟨hr1, hf1, fun r hr => Or.inr hr⟩
      · have := ih _ _ _ h
        refine Preserved.trans ?_ this
        exact ⟨hr1, hf1, fun r hr => Or.inr hr⟩
      · simp only [Option.some.injEq, Prod.mk.injEq] at h
        rw [← h.2]; exact ⟨hr1, hf1, fun r hr => Or.inr hr⟩

theorem seek_fallback_preserved (env : Env) (name : String) (dir : Nat) :
    ∀ (fuel skip : Nat) (st : ReadState) (ret : Int) (st1 : ReadState),
      seek_fallback env name dir fuel skip st = some (ret, st1) → Preserved st st1 := by
  intro fuel
  induction fuel with
  | zero => intro skip st ret st1 h; simp [seek_fallback] at h
  | succ n ih =>
    intro skip st ret st1 h
    unfold seek_fallback at h
    split_ifs at h with hc h6
    · have hspec := ReadEventLog_spec st.os (EVENTLOG_SEQUENTIAL_READ ||| dir) 0 st.buffer_size
      rcases hx : ReadEventLog st.os (EVENTLOG_SEQUENTIAL_READ ||| dir) 0 st.buffer_size
        with ⟨out, os1⟩
      rw [hx] at h hspec
      have hr1 : os1.records = st.os.records := hspec.1
      have hf1 : os1.faults.length ≤ st.os.faults.length := by
        have : os1.faults = st.os.faults.tail := hspec.2.1
        rw [this]; simp
      cases out with
      | ok batch =>
        simp only at h
        have := ih _ _ _ _ h
        refine Preserved.trans ?_ this
        exact ⟨hr1, hf1, fun r hr => Or.inl (hspec.2.2 batch rfl r hr)⟩
      | fail err dwNeeded =>
        simp only at h
        split_ifs at h with h3 h4
        · have := ih _ _ _ _ h
          refine Preserved.trans ?_ this
          exact ⟨hr1, hf1, fun r hr => Or.inr hr⟩
        · simp only [Option.some.injEq, Prod.mk.injEq] at h
          rw [← h.2]; exact ⟨hr1, hf1, fun r hr => Or.inr hr⟩
        · simp only [Option.some.injEq, Prod.mk.injEq] at h
          rw [← h.2]; exact ⟨hr1, hf1, fun r hr => Or.inr hr⟩
    · simp only [Option.some.injEq, Prod.mk.injEq] at h
      rw [← h.2]; exact ⟨rfl, le_refl _, fun r hr => Or.inr hr⟩
    · simp only [Option.some.injEq, Prod.mk.injEq] at h
      rw [← h.2]; exact Preserved.refl _

theorem seek_eventlog_preserved (env : Env) (name : String) (fuel FirstID dir LastID : Nat)
    (st : ReadState) (ret : Int) (st1 : ReadState)
    (h : seek_eventlog env name fuel FirstID dir LastID st = some (ret, st1)) :
    Preserved st st1 := by
  unfold seek_eventlog at h
  split at h
  · simp at h
  · rename_i r s hd
    simp only [Option.some.injEq, Prod.mk.injEq] at h
    have := seek_direct_preserved _ _ _ _ _ _ _ hd
    rw [← h.2]
    refine Preserved.trans ?_ this
    exact Preserved.refl st
  · rename_i s hd
    have h1 := seek_direct_preserved _ _ _ _ _ _ _ hd
    have h2 := seek_fallback_preserved _ _ _ _ _ _ _ _ h
    refine Preserved.trans ?_ (Preserved.trans h1 (Preserved.trans ?_ h2))
    · exact Preserved.refl st
    · exact Preserved.refl s

/-- The two shapes of a cycle of the legacy back end: either no record was
processed (and the stored checkpoint is untouched unless old data are
skipped), or the result is read off the end of the record loop, which was
entered with the normalised checkpoint. -/
theorem process_eventslog_shape (env : Env) (os : EventLogOS) (name : Option String)
    (metric : ZBX_ACTIVE_METRIC) (sent : Nat) (error : Option String) (sev0 : String)
    (o : Outcome) (h : process_eventslog env os name metric sent error sev0 = some o) :
    (o.steps = [] ∧ o.calls = [] ∧ o.s_count = 0 ∧ o.p_count = 0 ∧ o.lastlogsize_sent = sent ∧
      (o.metric = metric ∨
        (1 = metric.skip_old_data ∧ o.ret = SUCCEED ∧ ∃ F0 L,
          zbx_open_eventlog os = Except.ok (F0, L) ∧
          o.metric = { metric with lastlogsize := L, skip_old_data := 0 }))) ∨
    (∃ nm F0 L st1 ret st2 l,
      name = some nm ∧ zbx_open_eventlog os = Except.ok (F0, L) ∧ ¬ 1 = metric.skip_old_data ∧
      st1.os.records = os.records ∧ st1.os.faults.length ≤ os.faults.length ∧
      (∀ r ∈ st1.pELRs, r ∈ os.records) ∧
      read_loop env nm metric.refresh (normalise F0 L metric.lastlogsize).2.1 (enough os) st1
        ⟨(normalise F0 L metric.lastlogsize).1, 0, dispatch0 metric sent sev0⟩ =
        some (ret, st2, l) ∧
      o = outcome_of metric ret st2.error l.d st2.buffer_size) := by
  unfold process_eventslog at h
  simp only at h
  split at h
  · simp only [Option.some.injEq] at h; subst h; simp
  · rename_i nm
    by_cases h0 : nm = ""
    · rw [if_pos h0] at h
      simp only [Option.some.injEq] at h; subst h; simp
    · rw [if_neg h0] at h
      split at h
      · simp only [Option.some.injEq] at h; subst h; simp
      · rename_i F0 L hopen
        by_cases hskip : 1 = metric.skip_old_data
        · rw [if_pos hskip] at h
          simp only [Option.some.injEq] at h; subst h
          left
          exact ⟨rfl, rfl, rfl, rfl, rfl, Or.inr ⟨hskip, rfl, F0, L, hopen, rfl⟩⟩
        · rw [if_neg hskip] at h
          split at h
          · simp at h
          · rename_i ret st1 hseek
            have hpres : Preserved
                (⟨{ os with cur := none }, 64 * ZBX_KIBIBYTE, [], 0, ERROR_SUCCESS, error⟩ :
                  ReadState) st1 := by
              split_ifs at hseek with h1 h2
              · simp only [Option.some.injEq, Prod.mk.injEq] at hseek
                rw [← hseek.2]; exact ⟨rfl, le_refl _, fun r hr => Or.inr hr⟩
              · simp only [Option.some.injEq, Prod.mk.injEq] at hseek
                rw [← hseek.2]; exact ⟨rfl, le_refl _, fun r hr => Or.inr hr⟩
              · exact seek_eventlog_preserved _ _ _ _ _ _ _ _ _ hseek
            split_ifs at h with h3 h4
            · simp only [Option.some.injEq] at h; subst h; simp
            · simp only [Option.some.injEq] at h; subst h; simp
            · split at h
              · simp at h
              · rename_i ret2 st2 l hloop
                simp only [Option.some.injEq] at h
                right
                refine ⟨nm, F0, L, st1, ret2, st2, l, rfl, hopen, hskip, hpres.1, hpres.2.1, ?_,
                  hloop, h.symm⟩
                intro r hr
                rcases hpres.2.2 r hr with h5 | h5
                · exact h5
                · simp at h5

/-! ## Termination of the loops of the legacy back end -/

theorem flags_forward_seek :
    (EVENTLOG_SEQUENTIAL_READ ||| EVENTLOG_FORWARDS_READ) &&& EVENTLOG_SEEK_READ = 0 := by decide

theorem flags_forward_backwards :
    (EVENTLOG_SEQUENTIAL_READ ||| EVENTLOG_FORWARDS_READ) &&& EVENTLOG_BACKWARDS_READ = 0 := by
  decide

theorem flags_backward_seek :
    (EVENTLOG_SEQUENTIAL_READ ||| EVENTLOG_BACKWARDS_READ) &&& EVENTLOG_SEEK_READ = 0 := by decide

theorem flags_backward_backwards :
    (EVENTLOG_SEQUENTIAL_READ ||| EVENTLOG_BACKWARDS_READ) &&& EVENTLOG_BACKWARDS_READ = 8 := by
  decide

theorem flags_seek_seek :
    (EVENTLOG_SEEK_READ ||| EVENTLOG_FORWARDS_READ) &&& EVENTLOG_SEEK_READ = 2 := by decide

theorem flags_seek_backwards :
    (EVENTLOG_SEEK_READ ||| EVENTLOG_FORWARDS_READ) &&& EVENTLOG_BACKWARDS_READ = 0 := by decide

/-- A forward sequential read without injected fault reads at `fpos`. -/
theorem ReadEventLog_normal_forward (os : EventLogOS) (nBytes : Nat) :
    ReadEventLog_normal os (EVENTLOG_SEQUENTIAL_READ ||| EVENTLOG_FORWARDS_READ) 0 nBytes =
      read_at os false (fpos os) nBytes := by
  unfold ReadEventLog_normal fpos
  simp only [flags_forward_seek, flags_forward_backwards]
  cases os.cur <;> simp

theorem fit_length_pos (r : EVENTLOGRECORD) (rs : List EVENTLOGRECORD) (room : Nat)
    (h : ¬ room < r.Length) : 0 < (fit room (r :: rs)).length := by
  unfold fit
  rw [if_pos (Nat.le_of_not_lt h)]
  simp

theorem fit_length_le : ∀ (rs : List EVENTLOGRECORD) (room : Nat),
    (fit room rs).length ≤ rs.length := by
  intro rs
  induction rs with
  | nil => intro room; simp [fit]
  | cons x xs ih =>
    intro room
    unfold fit
    split_ifs
    · simp; exact ih _
    · simp

theorem too_small_le (os : EventLogOS) (b : Nat) : too_small os b ≤ 1 := by
  unfold too_small
  split
  · exact Nat.zero_le _
  · split_ifs <;> simp

/-- The possible results of one forward sequential read: an injected fault,
end of log, a record larger than the buffer, or a batch that starts at the
read position and moves it. -/
theorem forward_read_cases (os : EventLogOS) (b : Nat) :
    (ReadEventLog os (EVENTLOG_SEQUENTIAL_READ ||| EVENTLOG_FORWARDS_READ) 0 b).2.records =
      os.records ∧
    (ReadEventLog os (EVENTLOG_SEQUENTIAL_READ ||| EVENTLOG_FORWARDS_READ) 0 b).2.faults =
      os.faults.tail ∧
    ((∃ f, os.faults.head? = some (some f) ∧
        ReadEventLog os (EVENTLOG_SEQUENTIAL_READ ||| EVENTLOG_FORWARDS_READ) 0 b =
          (ReadOutcome.fail f.code f.dwNeeded, { os with faults := os.faults.tail })) ∨
      (os.faults.head? ≠ none → os.faults.head? = some none) ∧
      ((os.records.drop (fpos os) = [] ∧
        ReadEventLog os (EVENTLOG_SEQUENTIAL_READ ||| EVENTLOG_FORWARDS_READ) 0 b =
          (ReadOutcome.fail ERROR_HANDLE_EOF 0, { os with faults := os.faults.tail })) ∨
      (∃ r rs, os.records.drop (fpos os) = r :: rs ∧ b < r.Length ∧
        ReadEventLog os (EVENTLOG_SEQUENTIAL_READ ||| EVENTLOG_FORWARDS_READ) 0 b =
          (ReadOutcome.fail ERROR_INSUFFICIENT_BUFFER r.Length,
            { os with faults := os.faults.tail })) ∨
      (∃ r rs, os.records.drop (fpos os) = r :: rs ∧ ¬ b < r.Length ∧
        ReadEventLog os (EVENTLOG_SEQUENTIAL_READ ||| EVENTLOG_FORWARDS_READ) 0 b =
          (ReadOutcome.ok (fit b (r :: rs)),
            { os with faults := os.faults.tail,
                      cur := some ((fpos os : Int) + (fit b (r :: rs)).length) })))) := by
  have key : ∀ os0 : EventLogOS,
      (os0.records.drop (fpos os0) = [] ∧
        ReadEventLog_normal os0 (EVENTLOG_SEQUENTIAL_READ ||| EVENTLOG_FORWARDS_READ) 0 b =
          (ReadOutcome.fail ERROR_HANDLE_EOF 0, os0)) ∨
      (∃ r rs, os0.records.drop (fpos os0) = r :: rs ∧ b < r.Length ∧
        ReadEventLog_normal os0 (EVENTLOG_SEQUENTIAL_READ ||| EVENTLOG_FORWARDS_READ) 0 b =
          (ReadOutcome.fail ERROR_INSUFFICIENT_BUFFER r.Length, os0)) ∨
      (∃ r rs, os0.records.drop (fpos os0) = r :: rs ∧ ¬ b < r.Length ∧
        ReadEventLog_normal os0 (EVENTLOG_SEQUENTIAL_READ ||| EVENTLOG_FORWARDS_READ) 0 b =
          (ReadOutcome.ok (fit b (r :: rs)),
            { os0 with cur := some ((fpos os0 : Int) + (fit b (r :: rs)).length) })) := by
    intro os0
    rw [ReadEventLog_normal_forward]
    unfold read_at records_from moved
    simp only [Bool.false_eq_true, if_false]
    rcases hd : os0.records.drop (fpos os0) with _ | ⟨r, rs⟩
    · left; simp
    · right
      by_cases hb : b < r.Length
      · left; exact ⟨r, rs, rfl, hb, by simp [hb]⟩
      · right; exact ⟨r, rs, rfl, hb, by simp [hb]⟩
  rcases hfa : os.faults with _ | ⟨f, fs⟩
  · have h1 : ReadEventLog os (EVENTLOG_SEQUENTIAL_READ ||| EVENTLOG_FORWARDS_READ) 0 b =
        ReadEventLog_normal os (EVENTLOG_SEQUENTIAL_READ ||| EVENTLOG_FORWARDS_READ) 0 b := by
      unfold ReadEventLog; rw [hfa]
    have h2 : ({ os with faults := ([] : List (Option Fault)).tail } : EventLogOS) = os := by
      cases os; simp_all
    rw [h1]
    have hk := key os
    have hs := ReadEventLog_normal_spec os (EVENTLOG_SEQUENTIAL_READ ||| EVENTLOG_FORWARDS_READ) 0 b
    refine ⟨hs.1, by rw [hs.2.1, hfa]; rfl, Or.inr ⟨by simp, ?_⟩⟩
    rcases hk with hk | ⟨r, rs, hk⟩ | ⟨r, rs, hk⟩
    · left; rw [h2]; exact hk
    · right; left; rw [h2]; exact ⟨r, rs, hk⟩
    · right; right; refine ⟨r, rs, hk.1, hk.2.1, ?_⟩
      rw [hk.2.2]; cases os; simp_all
  · cases f with
    | some f =>
      have h1 : ReadEventLog os (EVENTLOG_SEQUENTIAL_READ ||| EVENTLOG_FORWARDS_READ) 0 b =
          (ReadOutcome.fail f.code f.dwNeeded, { os with faults := fs }) := by
        unfold ReadEventLog; rw [hfa]
      rw [h1]
      exact ⟨rfl, rfl, Or.inl ⟨f, by simp, rfl⟩⟩
    | none =>
      have h1 : ReadEventLog os (EVENTLOG_SEQUENTIAL_READ ||| EVENTLOG_FORWARDS_READ) 0 b =
          ReadEventLog_normal { os with faults := fs }
            (EVENTLOG_SEQUENTIAL_READ ||| EVENTLOG_FORWARDS_READ) 0 b := by
        unfold ReadEventLog; rw [hfa]
      rw [h1]
      have hk := key { os with faults := fs }
      have hs := ReadEventLog_normal_spec { os with faults := fs }
        (EVENTLOG_SEQUENTIAL_READ ||| EVENTLOG_FORWARDS_READ) 0 b
      refine ⟨hs.1, hs.2.1, Or.inr ⟨by simp, ?_⟩⟩
      have hp : fpos { os with faults := fs } = fpos os := rfl
      rw [hp] at hk
      simp only [List.tail_cons]
      exact hk

theorem drop_cons_lt {α : Type} (xs : List α) (i : Nat) (r : α) (rs : List α)
    (h : xs.drop i = r :: rs) : i < xs.length := by
  by_contra hlt
  rw [List.drop_eq_nil_of_le (Nat.le_of_not_lt hlt)] at h
  simp at h

theorem fpos_mk (a : Option Nat) (b c : Nat) (d : List EVENTLOGRECORD) (cur : Option Int)
    (f : List (Option Fault)) :
    fpos ⟨a, b, c, d, cur, f⟩ = (match cur with | none => 0 | some c => c.toNat) := rfl

theorem fpos_moved (os : EventLogOS) (k : Nat) (fs : List (Option Fault)) :
    fpos ⟨os.open_err, os.dwNumRecords, os.dwOldestRecord, os.records,
      some ((fpos os : Int) + k), fs⟩ = fpos os + k := by
  rw [fpos_mk]
  simp only
  omega

theorem fpos_faults (os : EventLogOS) (fs : List (Option Fault)) :
    fpos ⟨os.open_err, os.dwNumRecords, os.dwOldestRecord, os.records, os.cur, fs⟩ = fpos os :=
  rfl

theorem loop_measure_mk (os : EventLogOS) (b : Nat) (p : List EVENTLOGRECORD) (dr de : Nat)
    (er : Option String) :
    loop_measure ⟨os, b, p, dr, de, er⟩ =
      2 * os.faults.length + 2 * (os.records.length - fpos os) + too_small os b +
        (if dr = 0 then 0 else 1) := rfl

/-- The main read loop ends when its fuel exceeds the measure of its state. -/
theorem read_loop_total (env : Env) (name : String) (refresh : Int) (FirstID : Nat) :
    ∀ (fuel : Nat) (st : ReadState) (l : Locals), loop_measure st < fuel →
      ∃ r, read_loop env name refresh FirstID fuel st l = some r := by
  intro fuel
  induction fuel with
  | zero => intro st l h; omega
  | succ n ih =>
    intro st l hm
    unfold read_loop
    by_cases h1 : ERROR_SUCCESS = st.dwErr
    swap
    · rw [if_neg h1]; exact ⟨_, rfl⟩
    rw [if_pos h1]
    by_cases h2 : 0 = st.dwRead
    swap
    · rw [if_neg h2]
      rcases hy : parse_buffer env refresh FirstID st.pELRs l with ⟨l1, f⟩
      cases f with
      | stop => exact ⟨_, rfl⟩
      | next =>
        simp only
        apply ih
        rw [loop_measure_mk]
        unfold loop_measure at hm
        rw [if_neg (fun h => h2 h.symm)] at hm
        simp only [if_true]
        omega
    rw [if_pos h2]
    have hc := forward_read_cases st.os st.buffer_size
    have hts : ∀ os b, too_small os b ≤ 1 := too_small_le
    have hd0 : (if st.dwRead = 0 then 0 else 1) = 0 := by rw [if_pos h2.symm]
    have h7 : st.os.faults.tail.length ≤ st.os.faults.length := by simp
    unfold loop_measure at hm
    rw [hd0] at hm
    rcases hc with ⟨_, _, ⟨f, hf, he⟩ | ⟨_, ⟨hd, he⟩ | ⟨r, rs, hd, hb, he⟩ | ⟨r, rs, hd, hb, he⟩⟩⟩
    · rw [he]
      simp only
      have hlen : st.os.faults.length = st.os.faults.tail.length + 1 := by
        cases hfa : st.os.faults with
        | nil => rw [hfa] at hf; simp at hf
        | cons a t => simp
      split_ifs
      · apply ih
        rw [loop_measure_mk]
        simp only [fpos_faults, hd0]
        have h9 := hts ⟨st.os.open_err, st.os.dwNumRecords, st.os.dwOldestRecord,
          st.os.records, st.os.cur, st.os.faults.tail⟩ f.dwNeeded
        omega
      · exact ⟨_, rfl⟩
      · exact ⟨_, rfl⟩
    · rw [he]
      simp only [ERROR_HANDLE_EOF, ERROR_INSUFFICIENT_BUFFER]
      simp
    · rw [he]
      simp only [if_true]
      apply ih
      rw [loop_measure_mk]
      have h5 : too_small ⟨st.os.open_err, st.os.dwNumRecords, st.os.dwOldestRecord,
          st.os.records, st.os.cur, st.os.faults.tail⟩ r.Length = 0 := by
        unfold too_small; simp only [fpos_faults, hd, lt_irrefl, if_false]
      have h6 : too_small st.os st.buffer_size = 1 := by
        unfold too_small; simp only [hd, if_pos hb]
      simp only [fpos_faults, hd0, h5, h6] at hm ⊢
      omega
    · rw [he]
      simp only
      rcases hy : parse_buffer env refresh FirstID (fit st.buffer_size (r :: rs)) l with ⟨l1, f⟩
      cases f with
      | stop => exact ⟨_, rfl⟩
      | next =>
        simp only
        apply ih
        have hk := fit_length_pos r rs st.buffer_size hb
        have hlt := drop_cons_lt _ _ _ _ hd
        rw [loop_measure_mk]
        simp only [fpos_moved, if_true]
        have h8 := hts ⟨st.os.open_err, st.os.dwNumRecords, st.os.dwOldestRecord,
          st.os.records, some ((fpos st.os : Int) + (fit st.buffer_size (r :: rs)).length),
          st.os.faults.tail⟩ st.buffer_size
        omega

/-- A call of `ReadEventLog` either fails with the injected fault, or is the
fault-free call on the log with the head of the fault list removed. -/
theorem ReadEventLog_eq (os : EventLogOS) (flags off b : Nat) :
    (∃ f, os.faults.head? = some (some f) ∧
      ReadEventLog os flags off b =
        (ReadOutcome.fail f.code f.dwNeeded,
          ⟨os.open_err, os.dwNumRecords, os.dwOldestRecord, os.records, os.cur,
            os.faults.tail⟩)) ∨
    ((os.faults.head? ≠ none → os.faults.head? = some none) ∧
      ReadEventLog os flags off b =
        ReadEventLog_normal ⟨os.open_err, os.dwNumRecords, os.dwOldestRecord, os.records, os.cur,
          os.faults.tail⟩ flags off b) := by
  rcases hfa : os.faults with _ | ⟨f, fs⟩
  · right
    refine ⟨by simp, ?_⟩
    unfold ReadEventLog
    rw [hfa]
    simp only [List.tail_nil]
    congr 1
    cases os; simp_all
  · cases f with
    | some f =>
      left
      refine ⟨f, by simp, ?_⟩
      unfold ReadEventLog
      rw [hfa]
      rfl
    | none =>
      right
      refine ⟨by simp, ?_⟩
      unfold ReadEventLog
      rw [hfa]
      rfl

/-- The results of a fault-free positioned read. -/
theorem seek_normal_cases (os : EventLogOS) (num b : Nat) :
    (find_record num os.records = none ∧
      ReadEventLog_normal os (EVENTLOG_SEEK_READ ||| EVENTLOG_FORWARDS_READ) num b =
        (ReadOutcome.fail ERROR_INVALID_PARAMETER 0, os)) ∨
    (∃ i, find_record num os.records = some i ∧ os.records.drop i = [] ∧
      ReadEventLog_normal os (EVENTLOG_SEEK_READ ||| EVENTLOG_FORWARDS_READ) num b =
        (ReadOutcome.fail ERROR_HANDLE_EOF 0, os)) ∨
    (∃ i r rs, find_record num os.records = some i ∧ os.records.drop i = r :: rs ∧
      b < r.Length ∧
      ReadEventLog_normal os (EVENTLOG_SEEK_READ ||| EVENTLOG_FORWARDS_READ) num b =
        (ReadOutcome.fail ERROR_INSUFFICIENT_BUFFER r.Length, os)) ∨
    (∃ i r rs, find_record num os.records = some i ∧ os.records.drop i = r :: rs ∧
      ¬ b < r.Length ∧
      ReadEventLog_normal os (EVENTLOG_SEEK_READ ||| EVENTLOG_FORWARDS_READ) num b =
        (ReadOutcome.ok (fit b (r :: rs)),
          ⟨os.open_err, os.dwNumRecords, os.dwOldestRecord, os.records,
            some ((i : Int) + (fit b (r :: rs)).length), os.faults⟩)) := by
  unfold ReadEventLog_normal
  simp only [flags_seek_seek, flags_seek_backwards]
  rcases hf : find_record num os.records with _ | i
  · left; simp
  · right
    simp only [ne_eq, OfNat.ofNat_ne_zero, not_false_eq_true, if_true, not_true_eq_false,
      decide_False]
    unfold read_at records_from moved
    simp only [Bool.false_eq_true, if_false]
    rcases hd : List.drop i os.records with _ | ⟨r, rs⟩
    · left; exact ⟨i, rfl, hd, rfl⟩
    · right
      by_cases hb : b < r.Length
      · left; exact ⟨i, r, rs, rfl, hd, hb, by simp [hb]⟩
      · right; exact ⟨i, r, rs, rfl, hd, hb, by simp [hb]⟩

/-- The results of a fault-free backward sequential read. -/
theorem backward_normal_cases (os : EventLogOS) (b : Nat) :
    ((bpos os = none ∨ ∃ i, bpos os = some i ∧ (os.records.take (i + 1)).reverse = []) ∧
      ReadEventLog_normal os (EVENTLOG_SEQUENTIAL_READ ||| EVENTLOG_BACKWARDS_READ) 0 b =
        (ReadOutcome.fail ERROR_HANDLE_EOF 0, os)) ∨
    (∃ i r rs, bpos os = some i ∧ (os.records.take (i + 1)).reverse = r :: rs ∧ b < r.Length ∧
      ReadEventLog_normal os (EVENTLOG_SEQUENTIAL_READ ||| EVENTLOG_BACKWARDS_READ) 0 b =
        (ReadOutcome.fail ERROR_INSUFFICIENT_BUFFER r.Length, os)) ∨
    (∃ i r rs, bpos os = some i ∧ (os.records.take (i + 1)).reverse = r :: rs ∧
      ¬ b < r.Length ∧
      ReadEventLog_normal os (EVENTLOG_SEQUENTIAL_READ ||| EVENTLOG_BACKWARDS_READ) 0 b =
        (ReadOutcome.ok (fit b (r :: rs)),
          ⟨os.open_err, os.dwNumRecords, os.dwOldestRecord, os.records,
            some ((i : Int) - (fit b (r :: rs)).length), os.faults⟩)) := by
  have key : ∀ i,
      ((os.records.take (i + 1)).reverse = [] ∧
        read_at os true i b = (ReadOutcome.fail ERROR_HANDLE_EOF 0, os)) ∨
      (∃ r rs, (os.records.take (i + 1)).reverse = r :: rs ∧ b < r.Length ∧
        read_at os true i b = (ReadOutcome.fail ERROR_INSUFFICIENT_BUFFER r.Length, os)) ∨
      (∃ r rs, (os.records.take (i + 1)).reverse = r :: rs ∧
        ¬ b < r.Length ∧
        read_at os true i b = (ReadOutcome.ok (fit b (r :: rs)),
          ⟨os.open_err, os.dwNumRecords, os.dwOldestRecord, os.records,
            some ((i : Int) - (fit b (r :: rs)).length), os.faults⟩)) := by
    intro i
    unfold read_at records_from moved
    simp only [if_true]
    rcases hd : (List.take (i + 1) os.records).reverse with _ | ⟨r, rs⟩
    · left; exact ⟨rfl, rfl⟩
    · right
      by_cases hb : b < r.Length
      · left; exact ⟨r, rs, rfl, hb, by simp [hb]⟩
      · right; exact ⟨r, rs, rfl, hb, by simp [hb]⟩
  unfold ReadEventLog_normal
  simp only [flags_backward_seek, flags_backward_backwards]
  simp only [ne_eq, OfNat.ofNat_ne_zero, not_false_eq_true, not_true_eq_false, if_false,
    decide_True, if_true]
  rcases hc : os.cur with _ | c
  · simp only
    by_cases hn : os.records.length = 0
    · left
      rw [if_pos hn]
      exact ⟨Or.inl (by unfold bpos; rw [hc]; simp [hn]), rfl⟩
    · rw [if_neg hn]
      have hi : bpos os = some (os.records.length - 1) := by unfold bpos; rw [hc]; simp [hn]
      rcases key _ with h | ⟨r, rs, h⟩ | ⟨r, rs, h⟩
      · left; exact ⟨Or.inr ⟨_, hi, h.1⟩, h.2⟩
      · right; left; exact ⟨_, r, rs, hi, h⟩
      · right; right; exact ⟨_, r, rs, hi, h⟩
  · simp only
    by_cases hn : c < 0
    · left
      rw [if_pos hn]
      exact ⟨Or.inl (by unfold bpos; rw [hc]; simp [hn]), rfl⟩
    · rw [if_neg hn]
      have hi : bpos os = some (min c.toNat (os.records.length - 1)) := by
        unfold bpos; rw [hc]; simp [hn]
      rcases key _ with h | ⟨r, rs, h⟩ | ⟨r, rs, h⟩
      · left; exact ⟨Or.inr ⟨_, hi, h.1⟩, h.2⟩
      · right; left; exact ⟨_, r, rs, hi, h⟩
      · right; right; exact ⟨_, r, rs, hi, h⟩

theorem seek_small_le (records : List EVENTLOGRECORD) (num b : Nat) :
    seek_small records num b ≤ 1 := by
  unfold seek_small
  split
  · exact Nat.zero_le _
  · split
    · exact Nat.zero_le _
    · split_ifs <;> simp

/-- The first loop of `seek_eventlog` ends: every retry consumes an injected
fault or follows a growth of the buffer to the size of the record sought. -/
theorem seek_direct_total (env : Env) (name : String) (num : Nat) :
    ∀ (fuel : Nat) (st : ReadState),
      2 * st.os.faults.length + seek_small st.os.records num st.buffer_size < fuel →
      ∃ r, seek_direct env name num fuel st = some r := by
  intro fuel
  induction fuel with
  | zero => intro st h; omega
  | succ n ih =>
    intro st hm
    unfold seek_direct
    have h7 : st.os.faults.tail.length ≤ st.os.faults.length := by simp
    rcases ReadEventLog_eq st.os (EVENTLOG_SEEK_READ ||| EVENTLOG_FORWARDS_READ) num
      st.buffer_size with ⟨f, hf, he⟩ | ⟨_, he⟩
    · rw [he]
      simp only
      have hlen : st.os.faults.length = st.os.faults.tail.length + 1 := by
        cases hfa : st.os.faults with
        | nil => rw [hfa] at hf; simp at hf
        | cons a t => simp
      split_ifs
      · exact ⟨_, rfl⟩
      · exact ⟨_, rfl⟩
      · apply ih
        have := seek_small_le st.os.records num f.dwNeeded
        simp only
        omega
      · exact ⟨_, rfl⟩
    · rw [he]
      rcases seek_normal_cases ⟨st.os.open_err, st.os.dwNumRecords, st.os.dwOldestRecord,
        st.os.records, st.os.cur, st.os.faults.tail⟩ num st.buffer_size with
        ⟨_, h⟩ | ⟨i, _, _, h⟩ | ⟨i, r, rs, hfi, hd, hb, h⟩ | ⟨i, r, rs, _, _, _, h⟩
      · rw [h]; simp only [if_true]; exact ⟨_, rfl⟩
      · rw [h]; simp only [ERROR_HANDLE_EOF, ERROR_INVALID_PARAMETER]; simp
      · rw [h]
        simp only [ERROR_INSUFFICIENT_BUFFER, ERROR_HANDLE_EOF, ERROR_INVALID_PARAMETER]
        simp only [Nat.reduceEqDiff, if_false, if_true]
        apply ih
        simp only at hfi hd ⊢
        have h1 : seek_small st.os.records num r.Length = 0 := by
          unfold seek_small; simp only [hfi, hd, lt_irrefl, if_false]
        have h2 : seek_small st.os.records num st.buffer_size = 1 := by
          unfold seek_small; simp only [hfi, hd, if_pos hb]
        omega
      · rw [h]; exact ⟨_, rfl⟩

theorem back_small_le (os : EventLogOS) (b : Nat) : back_small os b ≤ 1 := by
  unfold back_small
  split
  · exact Nat.zero_le _
  · split
    · exact Nat.zero_le _
    · split_ifs <;> simp

theorem bpos_mk (a : Option Nat) (b c : Nat) (d : List EVENTLOGRECORD) (cur : Option Int)
    (f : List (Option Fault)) :
    bpos ⟨a, b, c, d, cur, f⟩ =
      (match cur with
        | none => if d.length = 0 then none else some (d.length - 1)
        | some c => if c < 0 then none else some (min c.toNat (d.length - 1))) := rfl

theorem bpos_faults (os : EventLogOS) (fs : List (Option Fault)) :
    bpos ⟨os.open_err, os.dwNumRecords, os.dwOldestRecord, os.records, os.cur, fs⟩ = bpos os :=
  rfl

theorem back_room_faults (os : EventLogOS) (fs : List (Option Fault)) :
    back_room ⟨os.open_err, os.dwNumRecords, os.dwOldestRecord, os.records, os.cur, fs⟩ =
      back_room os := rfl

theorem back_small_faults (os : EventLogOS) (fs : List (Option Fault)) (b : Nat) :
    back_small ⟨os.open_err, os.dwNumRecords, os.dwOldestRecord, os.records, os.cur, fs⟩ b =
      back_small os b := rfl

/-- After a backward read of `k ≥ 1` records from index `i`, fewer records are left. -/
theorem back_room_moved (os : EventLogOS) (i k : Nat) (fs : List (Option Fault))
    (hi : bpos os = some i) (hk : 0 < k) :
    back_room ⟨os.open_err, os.dwNumRecords, os.dwOldestRecord, os.records,
      some ((i : Int) - k), fs⟩ < back_room os := by
  unfold back_room
  rw [hi, bpos_mk]
  simp only
  split_ifs with h
  · simp
  · simp only
    have : ((i : Int) - k).toNat ⊓ (os.records.length - 1) ≤ ((i : Int) - k).toNat :=
      Nat.min_le_left _ _
    omega

/-- The fallback loop of `seek_eventlog` ends. -/
theorem seek_fallback_total (env : Env) (name : String) (dir : Nat) :
    ∀ (fuel skip : Nat) (st : ReadState),
      2 * st.os.faults.length + 2 * back_room st.os + back_small st.os st.buffer_size < fuel →
      ∃ r, seek_fallback env name dir fuel skip st = some r := by
  intro fuel
  induction fuel with
  | zero => intro skip st h; omega
  | succ n ih =>
    intro skip st hm
    unfold seek_fallback
    by_cases hc : 0 < skip ∧ ERROR_SUCCESS = st.dwErr ∧ EVENTLOG_BACKWARDS_READ = dir
    swap
    · rw [if_neg hc]; exact ⟨_, rfl⟩
    rw [if_pos hc]
    obtain ⟨_, _, hdir⟩ := hc
    subst hdir
    have h7 : st.os.faults.tail.length ≤ st.os.faults.length := by simp
    rcases ReadEventLog_eq st.os (EVENTLOG_SEQUENTIAL_READ ||| EVENTLOG_BACKWARDS_READ) 0
      st.buffer_size with ⟨f, hf, he⟩ | ⟨_, he⟩
    · rw [he]
      simp only
      have hlen : st.os.faults.length = st.os.faults.tail.length + 1 := by
        cases hfa : st.os.faults with
        | nil => rw [hfa] at hf; simp at hf
        | cons a t => simp
      split_ifs
      · apply ih
        simp only [back_room_faults, back_small_faults]
        have := back_small_le st.os f.dwNeeded
        omega
      · exact ⟨_, rfl⟩
      · exact ⟨_, rfl⟩
    · rw [he]
      rcases backward_normal_cases ⟨st.os.open_err, st.os.dwNumRecords, st.os.dwOldestRecord,
        st.os.records, st.os.cur, st.os.faults.tail⟩ st.buffer_size with
        ⟨_, h⟩ | ⟨i, r, rs, hi, hd, hb, h⟩ | ⟨i, r, rs, hi, hd, hb, h⟩
      · rw [h]; simp only [ERROR_HANDLE_EOF, ERROR_INSUFFICIENT_BUFFER]; simp
      · rw [h]
        simp only [if_true]
        apply ih
        simp only [back_room_faults, back_small_faults]
        rw [bpos_faults] at hi
        simp only at hd
        have h1 : back_small st.os r.Length = 0 := by
          unfold back_small; simp only [hi, hd, lt_irrefl, if_false]
        have h2 : back_small st.os st.buffer_size = 1 := by
          unfold back_small; simp only [hi, hd, if_pos hb]
        omega
      · rw [h]
        simp only
        apply ih
        rw [bpos_faults] at hi
        have hk := fit_length_pos r rs st.buffer_size hb
        have h1 := back_room_moved st.os i (fit st.buffer_size (r :: rs)).length
          st.os.faults.tail hi hk
        have h2 := back_small_le ⟨st.os.open_err, st.os.dwNumRecords, st.os.dwOldestRecord,
          st.os.records, some ((i : Int) - (fit st.buffer_size (r :: rs)).length),
          st.os.faults.tail⟩ st.buffer_size
        simp only at h1 h2 ⊢
        omega

theorem back_room_le (os : EventLogOS) : back_room os ≤ os.records.length + 1 := by
  unfold back_room bpos
  rcases os.cur with _ | c
  · simp only
    split_ifs with h
    · simp
    · simp only; omega
  · simp only
    split_ifs with h
    · simp
    · simp only
      have : c.toNat ⊓ (os.records.length - 1) ≤ os.records.length - 1 := Nat.min_le_right _ _
      omega

/-- The function `seek_eventlog` returns. -/
theorem seek_eventlog_total (env : Env) (name : String) (fuel FirstID dir LastID : Nat)
    (st : ReadState) (hm : 2 * st.os.faults.length + 2 * st.os.records.length + 3 < fuel) :
    ∃ r, seek_eventlog env name fuel FirstID dir LastID st = some r := by
  unfold seek_eventlog
  have h1 := seek_small_le st.os.records (toDWORD FirstID) st.buffer_size
  obtain ⟨⟨e, st1⟩, hd⟩ := seek_direct_total env name (toDWORD FirstID) fuel
    { st with dwErr := ERROR_SUCCESS } (by simp only; omega)
  rw [hd]
  cases e with
  | returned ret => exact ⟨_, rfl⟩
  | fallthrough =>
    simp only
    have hp := seek_direct_preserved _ _ _ _ _ _ _ hd
    apply seek_fallback_total
    have h2 := back_room_le st1.os
    have h3 := back_small_le st1.os st1.buffer_size
    have h4 : st1.os.records.length = st.os.records.length := by rw [hp.1]
    have h5 : st1.os.faults.length ≤ st.os.faults.length := hp.2.1
    simp only
    omega

theorem loop_measure_le (st : ReadState) :
    loop_measure st ≤ 2 * st.os.faults.length + 2 * st.os.records.length + 2 := by
  unfold loop_measure
  have := too_small_le st.os st.buffer_size
  split_ifs <;> omega

/-- Every cycle of the legacy back end returns: no loop runs out of fuel. -/
theorem process_eventslog_total (env : Env) (os : EventLogOS) (name : Option String)
    (metric : ZBX_ACTIVE_METRIC) (sent : Nat) (error : Option String) (sev0 : String) :
    ∃ o, process_eventslog env os name metric sent error sev0 = some o := by
  unfold process_eventslog
  simp only
  split
  · exact ⟨_, rfl⟩
  · rename_i nm
    by_cases h0 : nm = ""
    · rw [if_pos h0]; exact ⟨_, rfl⟩
    · rw [if_neg h0]
      split
      · exact ⟨_, rfl⟩
      · rename_i F0 L hopen
        by_cases hskip : 1 = metric.skip_old_data
        · rw [if_pos hskip]; exact ⟨_, rfl⟩
        · rw [if_neg hskip]
          have hsought : ∃ r st1, (if 0 = (normalise F0 L metric.lastlogsize).2.2 then
                some (SUCCEED, ({ (⟨{ os with cur := none }, 64 * ZBX_KIBIBYTE, [], 0,
                  ERROR_SUCCESS, error⟩ : ReadState) with dwErr := ERROR_SUCCESS }))
              else if L < (normalise F0 L metric.lastlogsize).2.1 then
                some (SUCCEED, ({ (⟨{ os with cur := none }, 64 * ZBX_KIBIBYTE, [], 0,
                  ERROR_SUCCESS, error⟩ : ReadState) with dwErr := ERROR_HANDLE_EOF }))
              else seek_eventlog env nm (enough os) (normalise F0 L metric.lastlogsize).2.1
                (normalise F0 L metric.lastlogsize).2.2 L
                ⟨{ os with cur := none }, 64 * ZBX_KIBIBYTE, [], 0, ERROR_SUCCESS, error⟩) =
              some (r, st1) ∧ st1.os.records = os.records ∧
                st1.os.faults.length ≤ os.faults.length := by
            split_ifs
            · exact ⟨_, _, rfl, rfl, le_refl _⟩
            · exact ⟨_, _, rfl, rfl, le_refl _⟩
            · obtain ⟨⟨r, st1⟩, hs⟩ := seek_eventlog_total env nm (enough os)
                (normalise F0 L metric.lastlogsize).2.1 (normalise F0 L metric.lastlogsize).2.2 L
                ⟨{ os with cur := none }, 64 * ZBX_KIBIBYTE, [], 0, ERROR_SUCCESS, error⟩
                (by unfold enough; simp only; omega)
              have hp := seek_eventlog_preserved _ _ _ _ _ _ _ _ _ hs
              exact ⟨r, st1, hs, hp.1, hp.2.1⟩
          obtain ⟨r, st1, hs, hrec, hfl⟩ := hsought
          rw [hs]
          simp only
          split_ifs
          · exact ⟨_, rfl⟩
          · exact ⟨_, rfl⟩
          · obtain ⟨⟨ret, st2, l⟩, hl⟩ := read_loop_total env nm metric.refresh
              (normalise F0 L metric.lastlogsize).2.1 (enough os) st1
              ⟨(normalise F0 L metric.lastlogsize).1, 0,
                ⟨metric.lastlogsize, sent, 0, 0, SUCCEED, sev0, [], []⟩⟩
              (by
                have := loop_measure_le st1
                have h4 : st1.os.records.length = os.records.length := by rw [hrec]
                unfold enough
                omega)
            rw [hl]
            exact ⟨_, rfl⟩

/-! ## Loops of the modern back end -/

/-- Lifting through the loop over one batch of the modern back end: `P` holds
while the loop goes on, `Q` after a `break`, `O` after a failed decode. -/
theorem parse_batch6_inv (env : Env) (refresh : Int) (P Q O : Locals6 → Prop)
    (R : EVENT6 → Prop)
    (hstep : ∀ e l, R e → P l →
      ((process_event6 env refresh e l).2 = Flow6.next → P (process_event6 env refresh e l).1) ∧
      ((process_event6 env refresh e l).2 = Flow6.stop → Q (process_event6 env refresh e l).1) ∧
      ((process_event6 env refresh e l).2 = Flow6.out → O (process_event6 env refresh e l).1)) :
    ∀ (batch : List EVENT6) (l : Locals6), (∀ e ∈ batch, R e) → P l →
      ((parse_batch6 env refresh batch l).2 = Flow6.next → P (parse_batch6 env refresh batch l).1) ∧
      ((parse_batch6 env refresh batch l).2 = Flow6.stop → Q (parse_batch6 env refresh batch l).1) ∧
      ((parse_batch6 env refresh batch l).2 = Flow6.out → O (parse_batch6 env refresh batch l).1) := by
  intro batch
  induction batch with
  | nil => intro l _ hP; simp [parse_batch6, hP]
  | cons e rest ih =>
    intro l hR hP
    have he : R e := hR e (List.mem_cons_self _ _)
    have hrest : ∀ x ∈ rest, R x := fun x hx => hR x (List.mem_cons_of_mem _ hx)
    unfold parse_batch6
    have h := hstep e l he hP
    rcases hx : process_event6 env refresh e l with ⟨l1, f⟩
    rw [hx] at h
    cases f with
    | next => exact ih l1 hrest (h.1 rfl)
    | stop => simp; exact h.2.1 rfl
    | out => simp; exact h.2.2 rfl

theorem EvtNext_spec (query : List EVENT6) (faults : List (Option Nat)) :
    (∀ batch, (EvtNext query faults).1 = Except.ok batch → ∀ e ∈ batch, e ∈ query) ∧
    (∀ e ∈ (EvtNext query faults).2.1, e ∈ query) ∧
    (∀ batch, (EvtNext query faults).1 = Except.ok batch →
      (EvtNext query faults).2.1.length < query.length) := by
  unfold EvtNext
  split
  · simp
  · split
    · simp
    · rename_i x xs
      refine ⟨?_, ?_, ?_⟩
      · intro batch hb e he
        simp only [Except.ok.injEq] at hb
        subst hb
        exact List.mem_of_mem_take he
      · intro e he
        exact List.mem_of_mem_drop he
      · intro batch _
        simp only [EVT_ARRAY_SIZE, List.length_drop, List.length_cons]
        omega

/-- Lifting through the `while` loop of the modern back end. -/
theorem read_loop6_inv (env : Env) (refresh : Int) (P Q O : Locals6 → Prop) (R : EVENT6 → Prop)
    (hstep : ∀ e l, R e → P l →
      ((process_event6 env refresh e l).2 = Flow6.next → P (process_event6 env refresh e l).1) ∧
      ((process_event6 env refresh e l).2 = Flow6.stop → Q (process_event6 env refresh e l).1) ∧
      ((process_event6 env refresh e l).2 = Flow6.out → O (process_event6 env refresh e l).1))
    (herr : ∀ l msg, P l → P { l with error := msg }) :
    ∀ (fuel : Nat) (query : List EVENT6) (faults : List (Option Nat)) (l : Locals6) (ret : Int)
      (l' : Locals6), (∀ e ∈ query, R e) → P l →
      read_loop6 env refresh fuel query faults l = some (ret, l') →
      P l' ∨ (Q l' ∧ ret = SUCCEED) ∨ (O l' ∧ ret = FAIL) := by
  intro fuel
  induction fuel with
  | zero => intro q fs l ret l' _ _ h; simp [read_loop6] at h
  | succ n ih =>
    intro q fs l ret l' hR hP h
    unfold read_loop6 at h
    have hspec := EvtNext_spec q fs
    rcases hx : EvtNext q fs with ⟨out, q1, fs1⟩
    rw [hx] at h hspec
    cases out with
    | error dwErr =>
      simp only at h
      split_ifs at h
      · simp only [Option.some.injEq, Prod.mk.injEq] at h
        exact Or.inl (h.2 ▸ hP)
      · simp only [Option.some.injEq, Prod.mk.injEq] at h
        exact Or.inl (h.2 ▸ herr l _ hP)
    | ok batch =>
      simp only at h
      have hb : ∀ e ∈ batch, R e := fun e he => hR e (hspec.1 batch rfl e he)
      have hq1 : ∀ e ∈ q1, R e := fun e he => hR e (hspec.2.1 e he)
      have hp := parse_batch6_inv env refresh P Q O R hstep batch l hb hP
      rcases hy : parse_batch6 env refresh batch l with ⟨l1, f⟩
      rw [hy] at h hp
      cases f with
      | out =>
        simp only [Option.some.injEq, Prod.mk.injEq] at h
        exact Or.inr (Or.inr ⟨h.2 ▸ hp.2.2 rfl, h.1.symm⟩)
      | stop =>
        simp only [Option.some.injEq, Prod.mk.injEq] at h
        exact Or.inr (Or.inl ⟨h.2 ▸ hp.2.1 rfl, h.1.symm⟩)
      | next =>
        simp only at h
        exact ih _ _ _ _ _ (by exact hq1) (by exact hp.1 rfl) h

/-- The `while` loop of the modern back end ends. -/
theorem read_loop6_total (env : Env) (refresh : Int) :
    ∀ (fuel : Nat) (query : List EVENT6) (faults : List (Option Nat)) (l : Locals6),
      query.length < fuel → ∃ r, read_loop6 env refresh fuel query faults l = some r := by
  intro fuel
  induction fuel with
  | zero => intro q fs l h; omega
  | succ n ih =>
    intro q fs l hm
    unfold read_loop6
    have hspec := EvtNext_spec q fs
    rcases hx : EvtNext q fs with ⟨out, q1, fs1⟩
    rw [hx] at hspec
    cases out with
    | error dwErr =>
      simp only
      split_ifs
      · exact ⟨_, rfl⟩
      · exact ⟨_, rfl⟩
    | ok batch =>
      simp only
      rcases hy : parse_batch6 env refresh batch l with ⟨l1, f⟩
      cases f with
      | out => exact ⟨_, rfl⟩
      | stop => exact ⟨_, rfl⟩
      | next =>
        simp only
        apply ih
        have := hspec.2.2 batch rfl
        simp only at this
        omega

/-- Every call of `process_eventslog6` returns. -/
theorem process_eventslog6_total (env : Env) (os : EventLog6OS) (query : Option (List EVENT6))
    (lastlogsize FirstID LastID : Nat) (metric : ZBX_ACTIVE_METRIC) (sent : Nat)
    (error : Option String) (sev0 : String) :
    ∃ o, process_eventslog6 env os query lastlogsize FirstID LastID metric sent error sev0 =
      some o := by
  unfold process_eventslog6
  by_cases hskip : 1 = metric.skip_old_data
  · rw [if_pos hskip]; exact ⟨_, rfl⟩
  · rw [if_neg hskip]
    split
    · exact ⟨_, rfl⟩
    · rename_i q
      simp only
      split_ifs
      · exact ⟨_, rfl⟩
      · obtain ⟨⟨ret, l⟩, hl⟩ := read_loop6_total env metric.refresh (q.length + 1) q os.faults
          ⟨lastlogsize, error, ⟨metric.lastlogsize, sent, 0, 0, SUCCEED, sev0, [], []⟩⟩
          (Nat.lt_succ_self _)
        rw [hl]
        exact ⟨_, rfl⟩

/-- Every cycle of the modern back end returns. -/
theorem eventlog6_cycle_total (env : Env) (os : EventLog6OS) (source : Option String)
    (metric : ZBX_ACTIVE_METRIC) (sent : Nat) (error : Option String) (sev0 : String) :
    ∃ o, eventlog6_cycle env os source metric sent error sev0 = some o := by
  unfold eventlog6_cycle
  simp only
  split_ifs
  · exact ⟨_, rfl⟩
  · exact process_eventslog6_total _ _ _ _ _ _ _ _ _ _

/-- The two shapes of a call of `process_eventslog6`: either no record was
processed, or the result is read off the end of the `while` loop. -/
theorem process_eventslog6_shape (env : Env) (os : EventLog6OS) (query : Option (List EVENT6))
    (lastlogsize FirstID LastID : Nat) (metric : ZBX_ACTIVE_METRIC) (sent : Nat)
    (error : Option String) (sev0 : String) (o : Outcome)
    (h : process_eventslog6 env os query lastlogsize FirstID LastID metric sent error sev0 =
      some o) :
    (o.steps = [] ∧ o.calls = [] ∧ o.s_count = 0 ∧ o.p_count = 0 ∧ o.lastlogsize_sent = sent ∧
      o.error = error ∧
      ((o.metric = metric ∧ (o.ret = SUCCEED ∨ query = none)) ∨
        (1 = metric.skip_old_data ∧ o.ret = SUCCEED ∧
          o.metric = { metric with lastlogsize := sub64 LastID 1, skip_old_data := 0 }))) ∨
    (∃ q ret l, query = some q ∧ ¬ 1 = metric.skip_old_data ∧
      read_loop6 env metric.refresh (q.length + 1) q os.faults
        ⟨lastlogsize, error, dispatch0 metric sent sev0⟩ = some (ret, l) ∧
      o = outcome_of metric ret l.error l.d 0) := by
  unfold process_eventslog6 at h
  by_cases hskip : 1 = metric.skip_old_data
  · rw [if_pos hskip] at h
    simp only [Option.some.injEq] at h; subst h
    left
    exact ⟨rfl, rfl, rfl, rfl, rfl, rfl, Or.inr ⟨hskip, rfl, rfl⟩⟩
  · rw [if_neg hskip] at h
    split at h
    · simp only [Option.some.injEq] at h; subst h
      left
      exact ⟨rfl, rfl, rfl, rfl, rfl, rfl, Or.inl ⟨rfl, Or.inr rfl⟩⟩
    · rename_i q
      simp only at h
      split_ifs at h
      · simp only [Option.some.injEq] at h; subst h
        left
        exact ⟨rfl, rfl, rfl, rfl, rfl, rfl, Or.inl ⟨rfl, Or.inl rfl⟩⟩
      · split at h
        · simp at h
        · rename_i ret l hl
          simp only [Option.some.injEq] at h
          right
          exact ⟨q, ret, l, rfl, hskip, hl, h.symm⟩

/-! ## One record through filter and sink -/

/-- Everything `dispatch_record` does, field by field. -/
theorem dispatch_record_facts (env : Env) (refresh : Int) (d : Dispatch) (id : Nat)
    (ev : SinkCall) (sev : String) :
    (dispatch_record env refresh d id ev sev).1.steps =
      d.steps ++ [⟨id, ev, sev, filter_match env ev.value sev ev.source ev.logeventid,
        send_result env d ev sev⟩] ∧
    (dispatch_record env refresh d id ev sev).1.calls =
      (if filter_match env ev.value sev ev.source ev.logeventid then d.calls ++ [ev]
        else d.calls) ∧
    (dispatch_record env refresh d id ev sev).1.p_count = d.p_count + 1 ∧
    (dispatch_record env refresh d id ev sev).1.s_count =
      (if filter_match env ev.value sev ev.source ev.logeventid = true ∧
          SUCCEED = send_result env d ev sev then d.s_count + 1 else d.s_count) ∧
    (dispatch_record env refresh d id ev sev).1.send_err = send_result env d ev sev ∧
    (dispatch_record env refresh d id ev sev).1.metric_lastlogsize =
      (if SUCCEED = send_result env d ev sev then ev.lastlogsize else d.metric_lastlogsize) ∧
    (dispatch_record env refresh d id ev sev).1.lastlogsize_sent =
      (if filter_match env ev.value sev ev.source ev.logeventid = true ∧
          SUCCEED = send_result env d ev sev then ev.lastlogsize else d.lastlogsize_sent) ∧
    (dispatch_record env refresh d id ev sev).1.str_severity = sev ∧
    ((dispatch_record env refresh d id ev sev).2 = Flow.next ↔
      (SUCCEED = send_result env d ev sev ∧
        (dispatch_record env refresh d id ev sev).1.s_count < sent_budget env.rate refresh ∧
        (dispatch_record env refresh d id ev sev).1.p_count < processed_budget env.rate refresh)) := by
  unfold dispatch_record send_result
  simp only
  by_cases hm : filter_match env ev.value sev ev.source ev.logeventid = true
  · simp only [hm, if_true, Bool.true_and, true_and, decide_eq_true_eq]
    by_cases he : SUCCEED = env.process_value_cb d.calls ev
    · rw [← he]
      simp only [if_true]
      split_ifs with h1 h2
      · simp; intro _; omega
      · simp; omega
      · simp; omega
    · simp [he]
  · simp only [hm, Bool.false_eq_true, if_false, Bool.false_and, false_and]
    by_cases he : SUCCEED = d.send_err
    · rw [← he]
      simp only [if_true]
      split_ifs with h1 h2
      · simp; intro _; omega
      · simp; omega
      · simp; omega
    · simp [he]

/-- Lifting of an invariant of the dispatch variables to a cycle of the legacy
back end: `PD` holds at the start and is kept by every record after which the
loop goes on, `QD` holds after a record that ends the loop by `break`. -/
theorem process_eventslog_inv (env : Env) (os : EventLogOS) (name : Option String)
    (metric : ZBX_ACTIVE_METRIC) (sent : Nat) (error : Option String) (sev0 : String)
    (o : Outcome) (PD QD : Dispatch → Prop)
    (hD : ∀ d id ev sev, PD d →
      ((dispatch_record env metric.refresh d id ev sev).2 = Flow.next →
        PD (dispatch_record env metric.refresh d id ev sev).1) ∧
      ((dispatch_record env metric.refresh d id ev sev).2 = Flow.stop →
        QD (dispatch_record env metric.refresh d id ev sev).1))
    (h0 : PD (dispatch0 metric sent sev0))
    (h : process_eventslog env os name metric sent error sev0 = some o) :
    ∃ d, (PD d ∨ (QD d ∧ o.ret = SUCCEED)) ∧ ReadsOff metric sent sev0 o d := by
  rcases process_eventslog_shape env os name metric sent error sev0 o h with
    ⟨h1, h2, h3, h4, h5, h6⟩ | ⟨nm, F0, L, st1, ret, st2, l, _, _, _, hrec, _, hbuf, hloop, ho⟩
  · refine ⟨dispatch0 metric sent sev0, Or.inl h0, h1, h2, h3, h4, h5, ?_⟩
    rcases h6 with h6 | h6
    · left; rw [h6]; rfl
    · right; exact ⟨h6.1, rfl⟩
  · have := read_loop_inv env nm metric.refresh (normalise F0 L metric.lastlogsize).2.1
      (fun l => PD l.d) (fun l => QD l.d) (fun _ => True)
      (fun r l _ hP _ => hD l.d r.RecordNumber _ _ hP)
      (enough os) st1 _ ret st2 l (fun _ _ => trivial) (fun _ _ => trivial) h0 hloop
    subst ho
    exact ⟨l.d, this, rfl, rfl, rfl, rfl, rfl, Or.inl rfl⟩

theorem process_event6_d (env : Env) (refresh : Int) (e : EVENT6) (l : Locals6) :
    ((process_event6 env refresh e l).2 = Flow6.out ∧ (process_event6 env refresh e l).1.d = l.d) ∨
    (∃ id ev sev,
      (process_event6 env refresh e l).1.d = (dispatch_record env refresh l.d id ev sev).1 ∧
      ((process_event6 env refresh e l).2 = Flow6.next ∧
          (dispatch_record env refresh l.d id ev sev).2 = Flow.next ∨
        (process_event6 env refresh e l).2 = Flow6.stop ∧
          (dispatch_record env refresh l.d id ev sev).2 = Flow.stop)) := by
  unfold process_event6
  simp only
  split
  · left; exact ⟨rfl, rfl⟩
  · rename_i p hp
    right
    refine ⟨e.EventRecordID, modern_event p l.d.str_severity,
      (severity_switch6 p.out_severity p.out_keywords l.d.str_severity).2, ?_⟩
    split
    · rename_i d1 hd
      rw [hd]; exact ⟨rfl, Or.inr ⟨rfl, rfl⟩⟩
    · rename_i d1 hd
      rw [hd]; exact ⟨rfl, Or.inl ⟨rfl, rfl⟩⟩

/-- Lifting of an invariant of the dispatch variables to `process_eventslog6`. -/
theorem process_eventslog6_inv (env : Env) (os : EventLog6OS) (query : Option (List EVENT6))
    (lastlogsize FirstID LastID : Nat) (metric : ZBX_ACTIVE_METRIC) (sent : Nat)
    (error : Option String) (sev0 : String) (o : Outcome) (PD QD : Dispatch → Prop)
    (hD : ∀ d id ev sev, PD d →
      ((dispatch_record env metric.refresh d id ev sev).2 = Flow.next →
        PD (dispatch_record env metric.refresh d id ev sev).1) ∧
      ((dispatch_record env metric.refresh d id ev sev).2 = Flow.stop →
        QD (dispatch_record env metric.refresh d id ev sev).1))
    (h0 : PD (dispatch0 metric sent sev0))
    (h : process_eventslog6 env os query lastlogsize FirstID LastID metric sent error sev0 =
      some o) :
    ∃ d, (PD d ∨ (QD d ∧ o.ret = SUCCEED)) ∧ ReadsOff metric sent sev0 o d := by
  rcases process_eventslog6_shape env os query lastlogsize FirstID LastID metric sent error sev0
    o h with ⟨h1, h2, h3, h4, h5, _, h6⟩ | ⟨q, ret, l, _, _, hloop, ho⟩
  · refine ⟨dispatch0 metric sent sev0, Or.inl h0, h1, h2, h3, h4, h5, ?_⟩
    rcases h6 with h6 | h6
    · left; rw [h6.1]; rfl
    · right; exact ⟨h6.1, rfl⟩
  · have hstep : ∀ e l, True → PD l.d →
        ((process_event6 env metric.refresh e l).2 = Flow6.next →
          PD (process_event6 env metric.refresh e l).1.d) ∧
        ((process_event6 env metric.refresh e l).2 = Flow6.stop →
          QD (process_event6 env metric.refresh e l).1.d) ∧
        ((process_event6 env metric.refresh e l).2 = Flow6.out →
          PD (process_event6 env metric.refresh e l).1.d) := by
      intro e l _ hP
      rcases process_event6_d env metric.refresh e l with ⟨hf, hd⟩ | ⟨id, ev, sev, hd, hf⟩
      · rw [hf, hd]; simp [hP]
      · have := hD l.d id ev sev hP
        rcases hf with ⟨hf, hg⟩ | ⟨hf, hg⟩
        · rw [hf, hd]; simp; exact this.1 hg
        · rw [hf, hd]; simp; exact this.2 hg
    have := read_loop6_inv env metric.refresh (fun l => PD l.d) (fun l => QD l.d)
      (fun l => PD l.d) (fun _ => True) hstep (fun _ _ hP => hP)
      (q.length + 1) q os.faults _ ret l (fun _ _ => trivial) h0 hloop
    subst ho
    refine ⟨l.d, ?_, rfl, rfl, rfl, rfl, rfl, Or.inl rfl⟩
    rcases this with h | h | h
    · exact Or.inl h
    · exact Or.inr h
    · exact Or.inl h.1

/-! ## Filter semantics (C6) -/

theorem filter_match_iff (env : Env) (value sev source : String) (id : Nat) :
    filter_match env value sev source id = true ↔
      (SUCCEED = env.regexp_match_ex value env.filter.pattern ZBX_CASE_SENSITIVE ∧
        SUCCEED = env.regexp_match_ex sev env.filter.key_severity ZBX_IGNORE_CASE ∧
        SUCCEED = env.regexp_match_ex source env.filter.key_source ZBX_IGNORE_CASE ∧
        SUCCEED = env.regexp_match_ex (str_logeventid id) env.filter.key_logeventid
          ZBX_CASE_SENSITIVE) := by
  unfold filter_match
  simp only [Bool.and_eq_true, decide_eq_true_eq, and_assoc]

theorem dispatch_record_filter (env : Env) (refresh : Int) (d : Dispatch) (id : Nat)
    (ev : SinkCall) (sev : String) (h : FilterFaithful env d.calls d.steps) :
    FilterFaithful env (dispatch_record env refresh d id ev sev).1.calls
      (dispatch_record env refresh d id ev sev).1.steps := by
  obtain ⟨hs, hc, -⟩ := dispatch_record_facts env refresh d id ev sev
  rw [hs, hc]
  constructor
  · rw [List.filter_append, List.map_append, ← h.1]
    by_cases hm : filter_match env ev.value sev ev.source ev.logeventid = true
    · simp [hm]
    · simp [hm]
  · intro s hmem
    rcases List.mem_append.1 hmem with h1 | h1
    · exact h.2 s h1
    · simp only [List.mem_singleton] at h1
      subst h1
      exact filter_match_iff env ev.value sev ev.source ev.logeventid

theorem str_logeventid_seven : str_logeventid 7 = "7" := by decide

/-- C6. Filter AND semantics: in every cycle of `process_eventslog` and every
call of `process_eventslog6` the sink is invoked exactly for the decoded
records for which all four evaluator calls succeed (message against
`pattern`, severity name against `key_severity`, source against `key_source`,
the text of the event id against `key_logeventid`), in order.  With an
evaluator for which an empty pattern always matches and which matches
`disk full` and `diskmon` against `disk.*` and `7` against `7` but not against
`8`, the event (`disk full`, `Error`, `diskmon`, 7) is sent under the patterns
(`disk.*`, empty, `disk.*`, `7`) and is not sent when the last pattern is `8`. -/
theorem filter_and_semantics (env : Env) (refresh : Int) (d : Dispatch) (id lastlogsize ts : Nat)
    (h_empty : ∀ text cs, env.regexp_match_ex text "" cs = SUCCEED)
    (h_msg : env.regexp_match_ex "disk full" "disk.*" ZBX_CASE_SENSITIVE = SUCCEED)
    (h_src : env.regexp_match_ex "diskmon" "disk.*" ZBX_IGNORE_CASE = SUCCEED)
    (h_id7 : env.regexp_match_ex "7" "7" ZBX_CASE_SENSITIVE = SUCCEED)
    (h_id8 : env.regexp_match_ex "7" "8" ZBX_CASE_SENSITIVE ≠ SUCCEED) :
    (∀ os name metric sent error sev0, ∃ o,
      process_eventslog env os name metric sent error sev0 = some o ∧
      FilterFaithful env o.calls o.steps) ∧
    (∀ os query checkpoint FirstID LastID metric sent error sev0, ∃ o,
      process_eventslog6 env os query checkpoint FirstID LastID metric sent error sev0 = some o ∧
      FilterFaithful env o.calls o.steps) ∧
    (dispatch_record { env with filter := ⟨"disk.*", "", "disk.*", "7"⟩ } refresh d id
        ⟨"disk full", lastlogsize, ts, "diskmon", ITEM_LOGTYPE_ERROR, 7⟩ ERROR_TYPE).1.calls =
      d.calls ++ [⟨"disk full", lastlogsize, ts, "diskmon", ITEM_LOGTYPE_ERROR, 7⟩] ∧
    (dispatch_record { env with filter := ⟨"disk.*", "", "disk.*", "8"⟩ } refresh d id
        ⟨"disk full", lastlogsize, ts, "diskmon", ITEM_LOGTYPE_ERROR, 7⟩ ERROR_TYPE).1.calls =
      d.calls := by
  refine ⟨?_, ?_, ?_, ?_⟩
  · intro os name metric sent error sev0
    obtain ⟨o, ho⟩ := process_eventslog_total env os name metric sent error sev0
    refine ⟨o, ho, ?_⟩
    obtain ⟨dd, hdd, hs, hc, -⟩ := process_eventslog_inv env os name metric sent error sev0 o
      (fun d => FilterFaithful env d.calls d.steps) (fun d => FilterFaithful env d.calls d.steps)
      (fun d id ev sev hP => ⟨fun _ => dispatch_record_filter env _ d id ev sev hP,
        fun _ => dispatch_record_filter env _ d id ev sev hP⟩)
      ⟨rfl, fun _ h => by simp [dispatch0] at h⟩ ho
    rw [hs, hc]
    rcases hdd with h | h
    · exact h
    · exact h.1
  · intro os query checkpoint FirstID LastID metric sent error sev0
    obtain ⟨o, ho⟩ := process_eventslog6_total env os query checkpoint FirstID LastID metric
      sent error sev0
    refine ⟨o, ho, ?_⟩
    obtain ⟨dd, hdd, hs, hc, -⟩ := process_eventslog6_inv env os query checkpoint FirstID LastID
      metric sent error sev0 o
      (fun d => FilterFaithful env d.calls d.steps) (fun d => FilterFaithful env d.calls d.steps)
      (fun d id ev sev hP => ⟨fun _ => dispatch_record_filter env _ d id ev sev hP,
        fun _ => dispatch_record_filter env _ d id ev sev hP⟩)
      ⟨rfl, fun _ h => by simp [dispatch0] at h⟩ ho
    rw [hs, hc]
    rcases hdd with h | h
    · exact h
    · exact h.1
  · have hm : filter_match { env with filter := ⟨"disk.*", "", "disk.*", "7"⟩ } "disk full"
        ERROR_TYPE "diskmon" 7 = true := by
      rw [filter_match_iff]
      simp only [str_logeventid_seven]
      exact ⟨h_msg.symm, (h_empty _ _).symm, h_src.symm, h_id7.symm⟩
    rw [(dispatch_record_facts _ refresh d id _ ERROR_TYPE).2.1]
    simp only [hm, if_true]
  · have hm : ¬ filter_match { env with filter := ⟨"disk.*", "", "disk.*", "8"⟩ } "disk full"
        ERROR_TYPE "diskmon" 7 = true := by
      rw [filter_match_iff]
      simp only [str_logeventid_seven]
      intro h
      exact h_id8 h.2.2.2.symm
    rw [(dispatch_record_facts _ refresh d id _ ERROR_TYPE).2.1]
    simp only [hm, if_false]
    simp

/-- Witness for `filter_and_semantics`: the demo evaluator satisfies the
assumptions on the evaluator. -/
theorem filter_and_semantics_witness :
    (∀ os name metric sent error sev0, ∃ o,
      process_eventslog (demo_env ⟨"", "", "", ""⟩ 10) os name metric sent error sev0 = some o ∧
      FilterFaithful (demo_env ⟨"", "", "", ""⟩ 10) o.calls o.steps) ∧
    (∀ os query checkpoint FirstID LastID metric sent error sev0, ∃ o,
      process_eventslog6 (demo_env ⟨"", "", "", ""⟩ 10) os query checkpoint FirstID LastID metric
        sent error sev0 = some o ∧
      FilterFaithful (demo_env ⟨"", "", "", ""⟩ 10) o.calls o.steps) ∧
    (dispatch_record { demo_env ⟨"", "", "", ""⟩ 10 with filter := ⟨"disk.*", "", "disk.*", "7"⟩ }
        1 (dispatch0 ⟨0, 0, 1⟩ 0 "") 1 ⟨"disk full", 1, 0, "diskmon", ITEM_LOGTYPE_ERROR, 7⟩
        ERROR_TYPE).1.calls =
      (dispatch0 ⟨0, 0, 1⟩ 0 "").calls ++ [⟨"disk full", 1, 0, "diskmon", ITEM_LOGTYPE_ERROR, 7⟩] ∧
    (dispatch_record { demo_env ⟨"", "", "", ""⟩ 10 with filter := ⟨"disk.*", "", "disk.*", "8"⟩ }
        1 (dispatch0 ⟨0, 0, 1⟩ 0 "") 1 ⟨"disk full", 1, 0, "diskmon", ITEM_LOGTYPE_ERROR, 7⟩
        ERROR_TYPE).1.calls =
      (dispatch0 ⟨0, 0, 1⟩ 0 "").calls :=
  filter_and_semantics (demo_env ⟨"", "", "", ""⟩ 10) 1 (dispatch0 ⟨0, 0, 1⟩ 0 "") 1 1 0
    (fun _ _ => rfl) (by decide) (by decide) (by decide) (by decide)

/-! ## Rate budget (C5) -/

theorem sent_count_append (steps : List Step) (s : Step) :
    sent_count (steps ++ [s]) =
      sent_count steps + (if s.matched = true ∧ SUCCEED = s.send_err then 1 else 0) := by
  unfold sent_count
  rw [List.filter_append, List.length_append]
  by_cases h : s.matched = true ∧ SUCCEED = s.send_err
  · simp [h]
  · rw [if_neg h]
    have : (s.matched && decide (SUCCEED = s.send_err)) = false := by
      simpa [Bool.and_eq_true] using h
    simp [List.filter_cons, this]

theorem BudgetRunning.final {env : Env} {refresh : Int} {d : Dispatch}
    (h : BudgetRunning env refresh d) : BudgetFinal env refresh d := by
  obtain ⟨h1, h2, h3⟩ := h
  refine ⟨h1, h2, ?_, ?_⟩
  · rcases h3 with h3 | h3
    · rw [h1, h3]; simp [sent_count]
    · exact le_trans (le_of_lt h3.1) (le_max_right _ _)
  · rcases h3 with h3 | h3
    · rw [h2, h3]; simp
    · exact le_trans (le_of_lt h3.2) (le_max_right _ _)

theorem dispatch_record_budget (env : Env) (refresh : Int) (d : Dispatch) (id : Nat)
    (ev : SinkCall) (sev : String) (h : BudgetRunning env refresh d) :
    ((dispatch_record env refresh d id ev sev).2 = Flow.next →
      BudgetRunning env refresh (dispatch_record env refresh d id ev sev).1) ∧
    ((dispatch_record env refresh d id ev sev).2 = Flow.stop →
      BudgetFinal env refresh (dispatch_record env refresh d id ev sev).1) := by
  obtain ⟨hs, -, hp, hsc, -, -, -, -, hflow⟩ := dispatch_record_facts env refresh d id ev sev
  obtain ⟨h1, h2, h3⟩ := h
  have hcount : (dispatch_record env refresh d id ev sev).1.s_count =
      sent_count (dispatch_record env refresh d id ev sev).1.steps := by
    rw [hs, hsc, sent_count_append, h1]
    simp only
    split_ifs <;> simp
  have hlen : (dispatch_record env refresh d id ev sev).1.p_count =
      (dispatch_record env refresh d id ev sev).1.steps.length := by
    rw [hs, hp, h2]; simp
  have hsle : (dispatch_record env refresh d id ev sev).1.s_count ≤ d.s_count + 1 := by
    rw [hsc]; split_ifs <;> omega
  constructor
  · intro hn
    have := hflow.1 hn
    exact ⟨hcount, hlen, Or.inr ⟨this.2.1, this.2.2⟩⟩
  · intro _
    refine ⟨hcount, hlen, ?_, ?_⟩
    · rcases h3 with h3 | h3
      · have : d.s_count = 0 := by rw [h1, h3]; simp [sent_count]
        have : (dispatch_record env refresh d id ev sev).1.s_count ≤ 1 := by omega
        exact le_trans this (le_max_left _ _)
      · have : (dispatch_record env refresh d id ev sev).1.s_count ≤
            sent_budget env.rate refresh := by
          omega
        exact le_trans this (le_max_right _ _)
    · rw [hp]
      rcases h3 with h3 | h3
      · have : d.p_count = 0 := by rw [h2, h3]; simp
        have : d.p_count + 1 ≤ 1 := by omega
        exact le_trans this (le_max_left _ _)
      · have : d.p_count + 1 ≤ processed_budget env.rate refresh := by omega
        exact le_trans this (le_max_right _ _)

theorem budget_of_final (env : Env) (metric : ZBX_ACTIVE_METRIC) (sent : Nat) (sev0 : String)
    (o : Outcome) (d : Dispatch) (hd : BudgetFinal env metric.refresh d)
    (hr : ReadsOff metric sent sev0 o d) : Budget env metric o := by
  obtain ⟨h1, -, h3, h4, -⟩ := hr
  unfold Budget
  rw [h1, h3, h4]
  exact hd

/-- The budget expressions have their mathematical value when no `int`
operation overflows. -/
theorem budgets_of_fits (rate refresh : Int) (h : IntFits rate refresh) :
    sent_budget rate refresh = rate * refresh ∧
    processed_budget rate refresh = 4 * rate * refresh := by
  obtain ⟨h1, h2, -, -, h5, h6⟩ := h
  constructor
  · exact toInt32_fits _ h1 h2
  · rw [processed_budget_eq]
    exact toInt32_fits _ h5 h6

/-- The bounds of a cycle in terms of the products themselves. -/
theorem budget_fits (env : Env) (metric : ZBX_ACTIVE_METRIC) (o : Outcome)
    (hb : Budget env metric o) (hfit : IntFits env.rate metric.refresh) :
    o.s_count ≤ max 1 (env.rate * metric.refresh) ∧
    o.p_count ≤ max 1 (4 * env.rate * metric.refresh) := by
  obtain ⟨e1, e2⟩ := budgets_of_fits env.rate metric.refresh hfit
  rw [← e1, ← e2]
  exact ⟨hb.2.2.1, hb.2.2.2⟩

/-- C5 (amended). Rate budget bound: in every cycle of `process_eventslog` and
every call of `process_eventslog6` the counters `s_count` and `p_count` are
the number of records the sink accepted and the number of records decoded and
filtered, and each is at most the larger of 1 and the value of the `int`
expression it is compared with (`Budget`).  For every rate and refresh
interval for which no `int` operation of `rate * refresh` and
`4 * rate * refresh` overflows, `s_count` is therefore at most
`max 1 (rate * refresh)` and `p_count` at most `max 1 (4 * rate * refresh)`:
the budgets are checked after a record, so the first record of a cycle is
processed whatever the budget is. -/
theorem rate_budget_bound (env : Env) (os : EventLogOS) (name : Option String)
    (os6 : EventLog6OS) (query : Option (List EVENT6)) (checkpoint FirstID LastID : Nat)
    (metric : ZBX_ACTIVE_METRIC) (sent : Nat) (error : Option String) (sev0 : String) :
    (∃ o, process_eventslog env os name metric sent error sev0 = some o ∧ Budget env metric o ∧
      (IntFits env.rate metric.refresh →
        o.s_count ≤ max 1 (env.rate * metric.refresh) ∧
        o.p_count ≤ max 1 (4 * env.rate * metric.refresh))) ∧
    (∃ o, process_eventslog6 env os6 query checkpoint FirstID LastID metric sent error sev0 =
      some o ∧ Budget env metric o ∧
      (IntFits env.rate metric.refresh →
        o.s_count ≤ max 1 (env.rate * metric.refresh) ∧
        o.p_count ≤ max 1 (4 * env.rate * metric.refresh))) := by
  have h0 : BudgetRunning env metric.refresh (dispatch0 metric sent sev0) :=
    ⟨rfl, rfl, Or.inl rfl⟩
  constructor
  · obtain ⟨o, ho⟩ := process_eventslog_total env os name metric sent error sev0
    obtain ⟨d, hd, hr⟩ := process_eventslog_inv env os name metric sent error sev0 o
      (BudgetRunning env metric.refresh) (BudgetFinal env metric.refresh)
      (fun d id ev sev hP => dispatch_record_budget env _ d id ev sev hP) h0 ho
    have hb : Budget env metric o := by
      rcases hd with hd | hd
      · exact budget_of_final env metric sent sev0 o d hd.final hr
      · exact budget_of_final env metric sent sev0 o d hd.1 hr
    exact ⟨o, ho, hb, budget_fits env metric o hb⟩
  · obtain ⟨o, ho⟩ := process_eventslog6_total env os6 query checkpoint FirstID LastID metric
      sent error sev0
    obtain ⟨d, hd, hr⟩ := process_eventslog6_inv env os6 query checkpoint FirstID LastID metric
      sent error sev0 o
      (BudgetRunning env metric.refresh) (BudgetFinal env metric.refresh)
      (fun d id ev sev hP => dispatch_record_budget env _ d id ev sev hP) h0 ho
    have hb : Budget env metric o := by
      rcases hd with hd | hd
      · exact budget_of_final env metric sent sev0 o d hd.final hr
      · exact budget_of_final env metric sent sev0 o d hd.1 hr
    exact ⟨o, ho, hb, budget_fits env metric o hb⟩

/-- Witness for `rate_budget_bound`: `rate = 10` and `refresh = 1` on the
example log and channel `[100, 150]` read from checkpoint 120; at most 10
records are sent and at most 40 processed. -/
theorem rate_budget_bound_witness :
    IntFits 10 1 ∧
    (∃ o, process_eventslog (demo_env ⟨"", "", "", ""⟩ 10) (demo_os 100 51 []) (some "System")
        ⟨120, 0, 1⟩ 0 none "" = some o ∧ o.s_count ≤ 10 ∧ o.p_count ≤ 40) ∧
    (∃ o, process_eventslog6 (demo_env ⟨"", "", "", ""⟩ 10) (demo_os6 100 51 [])
        (some ((demo_os6 100 51 []).events.drop 21)) 120 100 151 ⟨120, 0, 1⟩ 0 none "" = some o ∧
      o.s_count ≤ 10 ∧ o.p_count ≤ 40) :=
  have h := rate_budget_bound (demo_env ⟨"", "", "", ""⟩ 10) (demo_os 100 51 []) (some "System")
    (demo_os6 100 51 []) (some ((demo_os6 100 51 []).events.drop 21)) 120 100 151 ⟨120, 0, 1⟩ 0
    none ""
  have hfit : IntFits 10 1 := by unfold IntFits; decide
  ⟨hfit, h.1.imp (fun _ ho => ⟨ho.1, ho.2.2 hfit⟩), h.2.imp (fun _ ho => ⟨ho.1, ho.2.2 hfit⟩)⟩

/-- The budget expressions when an `int` operation overflows.  With
`rate = 2 ^ 30` and `refresh = 1` the product `4 * rate` is 0 in `int`, so
the processed budget is 0 and the cycle on the log `[100, 150]` from
checkpoint 120 stops after one record.  With `rate = -2000000000` and
`refresh = 2` both expressions are large positive values in `int` and the
cycle sends all thirty records, although `rate * refresh` is negative. -/
theorem budget_overflow_examples :
    processed_budget (2 ^ 30) 1 = 0 ∧
    (∃ o, process_eventslog (demo_env ⟨"", "", "", ""⟩ (2 ^ 30)) (demo_os 100 51 [])
        (some "System") ⟨120, 0, 1⟩ 0 none "" = some o ∧ o.s_count = 1 ∧ o.p_count = 1) ∧
    sent_budget (-2000000000) 2 = 294967296 ∧ processed_budget (-2000000000) 2 = 1179869184 ∧
    (∃ o, process_eventslog (demo_env ⟨"", "", "", ""⟩ (-2000000000)) (demo_os 100 51 [])
        (some "System") ⟨120, 0, 2⟩ 0 none "" = some o ∧ o.s_count = 30 ∧ o.p_count = 30) :=
  ⟨by decide, ⟨_, rfl, rfl, rfl⟩, by decide, by decide, ⟨_, rfl, rfl, rfl⟩⟩

/-- C5 (counterexample). With `rate * refresh = 0` a cycle on the log
`[100, 150]` from checkpoint 120 still sends one record: the number of events
sent exceeds `maxSent = 0` and the number of records processed exceeds
`maxProcessed = 0`. -/
theorem rate_budget_zero_counterexample :
    ∃ o, process_eventslog (demo_env ⟨"", "", "", ""⟩ 0) (demo_os 100 51 []) (some "System")
        ⟨120, 0, 1⟩ 0 none "" = some o ∧
      sent_count o.steps = 1 ∧ o.steps.length = 1 ∧
      ¬ ((sent_count o.steps : Int) ≤ (demo_env ⟨"", "", "", ""⟩ 0).rate * 1) ∧
      ¬ ((o.steps.length : Int) ≤ 4 * (demo_env ⟨"", "", "", ""⟩ 0).rate * 1) :=
  ⟨_, rfl, rfl, rfl, by decide, by decide⟩

/-! ## Back-pressure: invariants -/

theorem last_id_concat (m0 : Nat) (steps : List Step) (s : Step) :
    last_id m0 (steps ++ [s]) = s.call.lastlogsize := by
  unfold last_id
  rw [List.getLast?_append]
  simp

theorem dispatch_record_flowing (env : Env) (refresh : Int) (m0 : Nat) (d : Dispatch) (id : Nat)
    (ev : SinkCall) (sev : String) (h : Flowing m0 d) :
    ((dispatch_record env refresh d id ev sev).2 = Flow.next →
      Flowing m0 (dispatch_record env refresh d id ev sev).1) ∧
    ((dispatch_record env refresh d id ev sev).2 = Flow.stop →
      Halted m0 (dispatch_record env refresh d id ev sev).1) := by
  obtain ⟨hs, hc, -, -, he, hm, -, -, hflow⟩ := dispatch_record_facts env refresh d id ev sev
  obtain ⟨h1, h2, h3⟩ := h
  have hgood : SUCCEED = send_result env d ev sev →
      Flowing m0 (dispatch_record env refresh d id ev sev).1 := by
    intro hok
    refine ⟨by rw [he]; exact hok, ?_, ?_⟩
    · rw [hs]
      intro x hx
      rcases List.mem_append.1 hx with hx | hx
      · exact h2 x hx
      · simp only [List.mem_singleton] at hx
        subst hx
        exact hok
    · rw [hm, hs, last_id_concat, if_pos hok]
  constructor
  · intro hn
    exact hgood (hflow.1 hn).1
  · intro _
    by_cases hok : SUCCEED = send_result env d ev sev
    · exact Or.inl (hgood hok)
    · right
      have hmatch : filter_match env ev.value sev ev.source ev.logeventid = true := by
        by_contra hne
        apply hok
        unfold send_result
        rw [if_neg hne]
        exact h1
      refine ⟨d.steps, _, hs, hmatch, hok, h2, ?_, ?_⟩
      · rw [hm, if_neg hok, h3]
      · rw [hc, if_pos hmatch]
        simp

theorem failing_step_is_last (pre pre' post : List Step) (s s' : Step)
    (h : pre ++ s :: post = pre' ++ [s']) (hgood : ∀ x ∈ pre', SUCCEED = x.send_err)
    (hbad : SUCCEED ≠ s.send_err) : post = [] ∧ pre = pre' ∧ s = s' := by
  have h1 : (pre ++ s :: post).dropLast = pre' := by rw [h, List.dropLast_concat]
  by_cases hp : post = []
  · subst hp
    rw [List.dropLast_concat] at h1
    subst h1
    have := List.append_cancel_left h
    simp only [List.cons.injEq, and_true] at this
    exact ⟨rfl, rfl, this⟩
  · exfalso
    rw [List.dropLast_append_of_ne_nil _ (by simp), List.dropLast_cons_of_ne_nil hp] at h1
    apply hbad
    apply hgood
    rw [← h1]
    simp

theorem back_pressure_of (m0 : Nat) (metric : ZBX_ACTIVE_METRIC) (sent : Nat) (sev0 : String)
    (o : Outcome) (d : Dispatch)
    (hd : Flowing m0 d ∨ (Halted m0 d ∧ o.ret = SUCCEED))
    (hr : ReadsOff metric sent sev0 o d) : BackPressure m0 o := by
  obtain ⟨h1, h2, -, -, -, h6⟩ := hr
  intro pre s post hsteps hbad
  rw [h1] at hsteps
  have hflow : Flowing m0 d → False := by
    intro hf
    apply hbad
    apply hf.2.1
    rw [hsteps]
    simp
  rcases hd with hd | ⟨hd | ⟨pre', s', hs', hm', -, hg', hl', hc'⟩, hret⟩
  · exact (hflow hd).elim
  · exact (hflow hd).elim
  · rw [hs'] at hsteps
    obtain ⟨hp, hpre, hs⟩ := failing_step_is_last pre pre' post s s' hsteps.symm hg' hbad
    subst hp hpre hs
    refine ⟨rfl, hm', by rw [h2]; exact hc', hret, ?_⟩
    rcases h6 with h6 | h6
    · rw [h6]; exact hl'
    · rw [h6.2] at hs'
      simp [dispatch0] at hs'

/-! ## Normalisation of the checkpoint at session open (C10) -/

/-- C10 (counterexample). The working checkpoint is not always the stored one
inside `[FirstID - 1, LastID]` nor `FirstID` outside: for the legacy window
`[100, 150]` the checkpoint 99 becomes 100 and the checkpoint `2^32 + 120`
becomes 120; for the modern log with ids 100..150 (`LastID = 151`) the
checkpoints 151 and 200 become 99 and the checkpoint 5 is kept. -/
theorem checkpoint_normalisation_counterexample :
    (normalise 100 150 99).1 = 100 ∧
    (normalise 100 150 (2 ^ 32 + 120)).1 = 120 ∧
    (zbx_open_eventlog6 (demo_env ⟨"", "", "", ""⟩ 10) (demo_os6 100 51 []) "System" 151
      none).LastID = 151 ∧
    (zbx_open_eventlog6 (demo_env ⟨"", "", "", ""⟩ 10) (demo_os6 100 51 []) "System" 151
      none).lastlogsize = 99 ∧
    (zbx_open_eventlog6 (demo_env ⟨"", "", "", ""⟩ 10) (demo_os6 100 51 []) "System" 200
      none).lastlogsize = 99 ∧
    (zbx_open_eventlog6 (demo_env ⟨"", "", "", ""⟩ 10) (demo_os6 100 51 []) "System" 5
      none).lastlogsize = 5 :=
  ⟨rfl, rfl, rfl, rfl, rfl, rfl⟩

/-- C10 (amended). Legacy back end (lines 1242-1256): the working checkpoint
is the stored checkpoint `c` when `FirstID ≤ c ≤ LastID`, and the first record
to read is then `c + 1`; it is `FirstID`, which is then also the first record
to read, when `c < FirstID` (also for `c = FirstID - 1`) or when `c > LastID`
and `(DWORD)c` lies outside the window; when `c > LastID` and `(DWORD)c` lies
inside the window it is `(DWORD)c`.  Modern back end: `zbx_open_eventlog6`, on
a log whose first event is fetched and renders, computes
`LastID = FirstID + numIDs`, keeps
the stored checkpoint `c` when `c < LastID` and replaces it by `FirstID - 1`
when `c ≥ LastID`; `reading_startpoint` is then `c + 1` when
`FirstID ≤ c < LastID` and `FirstID` otherwise. -/
theorem checkpoint_normalisation (FirstID LastID c : Nat) (env : Env) (os : EventLog6OS)
    (name : String) (error : Option String) (e : EVENT6) (rest : List EVENT6)
    (hopen : os.open_err = none) (hinfo : os.info_err = none) (hctx : os.context_err = none)
    (hq : os.query_all_err = none) (hnext : os.first_next_err = none)
    (hev : os.events = e :: rest) (hr : e.render_err = none) :
    (FirstID ≤ c → c ≤ LastID →
      (normalise FirstID LastID c).1 = c ∧ (normalise FirstID LastID c).2.1 = add64 c 1) ∧
    (c < FirstID → c ≤ LastID → normalise FirstID LastID c = (FirstID, FirstID, 0)) ∧
    (LastID < c → (toDWORD c > LastID ∨ toDWORD c < FirstID) →
      normalise FirstID LastID c = (FirstID, FirstID, 0)) ∧
    (LastID < c → FirstID ≤ toDWORD c → toDWORD c ≤ LastID →
      (normalise FirstID LastID c).1 = toDWORD c ∧
      (normalise FirstID LastID c).2.1 = add64 (toDWORD c) 1) ∧
    (zbx_open_eventlog6 env os name c error).ret = SUCCEED ∧
    (zbx_open_eventlog6 env os name c error).FirstID = e.EventRecordID % 2 ^ 64 ∧
    (zbx_open_eventlog6 env os name c error).LastID =
      add64 (e.EventRecordID % 2 ^ 64) (os.numIDs % 2 ^ 64) ∧
    (c < (zbx_open_eventlog6 env os name c error).LastID →
      (zbx_open_eventlog6 env os name c error).lastlogsize = c) ∧
    ((zbx_open_eventlog6 env os name c error).LastID ≤ c →
      (zbx_open_eventlog6 env os name c error).lastlogsize =
        sub64 (zbx_open_eventlog6 env os name c error).FirstID 1) ∧
    reading_startpoint (zbx_open_eventlog6 env os name c error).lastlogsize
        (zbx_open_eventlog6 env os name c error).FirstID
        (zbx_open_eventlog6 env os name c error).LastID =
      (if (zbx_open_eventlog6 env os name c error).FirstID ≤ c ∧
          c < (zbx_open_eventlog6 env os name c error).LastID then add64 c 1
        else (zbx_open_eventlog6 env os name c error).FirstID) := by
  have hopen6 : zbx_open_eventlog6 env os name c error =
      (if c ≥ add64 (e.EventRecordID % 2 ^ 64) (os.numIDs % 2 ^ 64) then
        ⟨SUCCEED, sub64 (e.EventRecordID % 2 ^ 64) 1, e.EventRecordID % 2 ^ 64,
          add64 (e.EventRecordID % 2 ^ 64) (os.numIDs % 2 ^ 64), error⟩
      else ⟨SUCCEED, c, e.EventRecordID % 2 ^ 64,
        add64 (e.EventRecordID % 2 ^ 64) (os.numIDs % 2 ^ 64), error⟩) := by
    unfold zbx_open_eventlog6
    simp only [hopen, hinfo, hctx, hq, hnext, hev, hr]
  refine ⟨?_, ?_, ?_, ?_, ?_⟩
  · intro h1 h2
    have hw : (if c > LastID then toDWORD c else c) = c := if_neg (by omega)
    unfold normalise
    simp only [hw]
    rw [if_neg (by omega)]
    exact ⟨rfl, rfl⟩
  · intro h1 h2
    have hw : (if c > LastID then toDWORD c else c) = c := if_neg (by omega)
    unfold normalise
    simp only [hw]
    rw [if_pos (Or.inr h1)]
  · intro h1 h2
    have hw : (if c > LastID then toDWORD c else c) = toDWORD c := if_pos h1
    unfold normalise
    simp only [hw]
    rw [if_pos h2]
  · intro h1 h2 h3
    have hw : (if c > LastID then toDWORD c else c) = toDWORD c := if_pos h1
    unfold normalise
    simp only [hw]
    rw [if_neg (by omega)]
    exact ⟨rfl, rfl⟩
  · rw [hopen6]
    by_cases hge : c ≥ add64 (e.EventRecordID % 2 ^ 64) (os.numIDs % 2 ^ 64)
    · rw [if_pos hge]
      refine ⟨rfl, rfl, rfl, fun h => absurd hge (by simp only at h; omega), fun _ => rfl, ?_⟩
      simp only
      rw [if_neg (by omega)]
      unfold reading_startpoint
      rw [if_neg]
      unfold sub64 add64 at *
      omega
    · rw [if_neg hge]
      refine ⟨rfl, rfl, rfl, fun _ => rfl, fun h => absurd h (by simp only; omega), ?_⟩
      simp only
      unfold reading_startpoint
      simp only [ge_iff_le]

/-- Witness for `checkpoint_normalisation`: the window `[100, 150]` and the
modern log with the ids 100..150. -/
theorem checkpoint_normalisation_witness :
    (normalise 100 150 99 = (100, 100, 0)) ∧
    (zbx_open_eventlog6 (demo_env ⟨"", "", "", ""⟩ 10) (demo_os6 100 51 []) "System" 99
      none).ret = SUCCEED :=
  ⟨((checkpoint_normalisation 100 150 99 (demo_env ⟨"", "", "", ""⟩ 10) (demo_os6 100 51 [])
      "System" none (demo_event6 100) ((List.range 50).map (fun i => demo_event6 (101 + i)))
      rfl rfl rfl rfl rfl (by decide) rfl).2.1) (by decide) (by decide),
    (checkpoint_normalisation 100 150 99 (demo_env ⟨"", "", "", ""⟩ 10) (demo_os6 100 51 [])
      "System" none (demo_event6 100) ((List.range 50).map (fun i => demo_event6 (101 + i)))
      rfl rfl rfl rfl rfl (by decide) rfl).2.2.2.2.1⟩

/-! ## The checkpoint is not decreased (C9) -/

/-- C9 (counterexample). Modern back end, log with the ids 100..150, window
`FirstID = 100`, `LastID = 151`, flag `skip_old_data` off, checkpoint
`c = 151 = LastID`: the session open replaces the checkpoint by 99 and the
cycle ends with the checkpoint 109, below `c`. -/
theorem checkpoint_decreased_counterexample :
    (initialize_eventlog6 (demo_env ⟨"", "", "", ""⟩ 10) (demo_os6 100 51 []) (some "System")
      151 0 0 none none).FirstID = 100 ∧
    (initialize_eventlog6 (demo_env ⟨"", "", "", ""⟩ 10) (demo_os6 100 51 []) (some "System")
      151 0 0 none none).LastID = 151 ∧
    ∃ o, eventlog6_cycle (demo_env ⟨"", "", "", ""⟩ 10) (demo_os6 100 51 []) (some "System")
        ⟨151, 0, 1⟩ 0 none "" = some o ∧
      o.metric.lastlogsize = 109 ∧ ¬ (151 ≤ o.metric.lastlogsize) :=
  ⟨rfl, rfl, _, rfl, rfl, by decide⟩

theorem process_record_fields (env : Env) (refresh : Int) (FirstID : Nat) (r : EVENTLOGRECORD)
    (l : Locals) :
    (process_record env refresh FirstID r l).1.lastlogsize =
      (if 0 = l.timestamp then FirstID else add64 l.lastlogsize 1) ∧
    (process_record env refresh FirstID r l).1.timestamp = r.TimeGenerated ∧
    (process_record env refresh FirstID r l).1.d =
      (dispatch_record env refresh l.d r.RecordNumber
        (legacy_event r (if 0 = l.timestamp then FirstID else add64 l.lastlogsize 1)
          l.d.str_severity)
        (severity_switch r.EventType l.d.str_severity).2).1 ∧
    (process_record env refresh FirstID r l).2 =
      (dispatch_record env refresh l.d r.RecordNumber
        (legacy_event r (if 0 = l.timestamp then FirstID else add64 l.lastlogsize 1)
          l.d.str_severity)
        (severity_switch r.EventType l.d.str_severity).2).2 :=
  ⟨rfl, rfl, rfl, rfl⟩

theorem zbx_open_eventlog_range (os : EventLogOS) (F L : Nat)
    (h : zbx_open_eventlog os = Except.ok (F, L)) : F < 2 ^ 32 ∧ L < 2 ^ 32 := by
  unfold zbx_open_eventlog at h
  split at h
  · simp at h
  · simp only [Except.ok.injEq, Prod.mk.injEq] at h
    rw [← h.1, ← h.2]
    unfold toDWORD
    constructor <;> exact Nat.mod_lt _ (by norm_num)

theorem process_record_climbing (env : Env) (refresh : Int) (c : Nat) (r : EVENTLOGRECORD)
    (l : Locals) (hc : c < 2 ^ 32) (_hb : 4 * env.rate * refresh < 2 ^ 63)
    (h : Climbing env refresh c l) :
    ((process_record env refresh (add64 c 1) r l).2 = Flow.next →
      Climbing env refresh c (process_record env refresh (add64 c 1) r l).1) ∧
    ((process_record env refresh (add64 c 1) r l).2 = Flow.stop →
      c ≤ (process_record env refresh (add64 c 1) r l).1.d.metric_lastlogsize) := by
  obtain ⟨hl, -, hd, hf⟩ := process_record_fields env refresh (add64 c 1) r l
  obtain ⟨-, -, hp, -, -, hm, -, -, hflow⟩ := dispatch_record_facts env refresh l.d r.RecordNumber
    (legacy_event r (if 0 = l.timestamp then add64 c 1 else add64 l.lastlogsize 1)
      l.d.str_severity) (severity_switch r.EventType l.d.str_severity).2
  obtain ⟨h1, h2, h3, h4, h5⟩ := h
  have hc1 : add64 c 1 = c + 1 := by unfold add64; omega
  have hnew : c ≤ (if 0 = l.timestamp then add64 c 1 else add64 l.lastlogsize 1) ∧
      ((if 0 = l.timestamp then add64 c 1 else add64 l.lastlogsize 1 : Nat) : Int) ≤
        c + 1 + (l.d.p_count + 1) := by
    split_ifs
    · rw [hc1]; constructor <;> omega
    · have : add64 l.lastlogsize 1 = l.lastlogsize + 1 := by
        unfold add64
        have hpb : processed_budget env.rate refresh < 2 ^ 31 := toInt32_lt _
        have : l.lastlogsize + 1 < 2 ^ 64 := by
          rcases h5 with h5 | h5 <;> omega
        omega
      rw [this]; constructor <;> omega
  generalize (if 0 = l.timestamp then add64 c 1 else add64 l.lastlogsize 1) = ll
    at hl hd hf hp hm hflow hnew
  have hev : (legacy_event r ll l.d.str_severity).lastlogsize = ll := rfl
  rw [hev] at hm
  have hmet : c ≤ (process_record env refresh (add64 c 1) r l).1.d.metric_lastlogsize := by
    rw [hd, hm]
    split_ifs
    · exact hnew.1
    · exact h1
  constructor
  · intro hn
    rw [hf] at hn
    have := (hflow.1 hn).2.2
    refine ⟨hmet, by rw [hl]; exact hnew.1, ?_, ?_, ?_⟩
    · rw [hl, hd, hp]; exact hnew.2
    · rw [hd, hp]; omega
    · rw [hd]; exact Or.inr this
  · intro _
    exact hmet

theorem normalise_in_range (F L c : Nat) (h1 : F ≤ c) (h2 : c ≤ L) :
    (normalise F L c).1 = c ∧ (normalise F L c).2.1 = add64 c 1 := by
  have hw : (if c > L then toDWORD c else c) = c := if_neg (by omega)
  unfold normalise
  simp only [hw]
  rw [if_neg (by omega)]
  exact ⟨rfl, rfl⟩

theorem parse6_which (env : Env) (e : EVENT6) (w : Nat) (p : Parsed6)
    (h : zbx_parse_eventlog_message6 env e w = Except.ok p) :
    p.which = e.EventRecordID % 2 ^ 64 := by
  unfold zbx_parse_eventlog_message6 at h
  split at h
  · simp at h
  · simp only [Except.ok.injEq] at h
    rw [← h]
    simp only
    split_ifs with h1
    · rfl
    · simp only [ne_eq, not_not] at h1
      exact h1.symm

/-- The session open of the modern back end keeps a checkpoint below `LastID`. -/
theorem open6_keeps (env : Env) (os : EventLog6OS) (name : String) (c : Nat)
    (error : Option String) (h : c < (zbx_open_eventlog6 env os name c error).LastID) :
    (zbx_open_eventlog6 env os name c error).lastlogsize = c := by
  unfold zbx_open_eventlog6 at h ⊢
  rcases h1 : os.open_err with _ | x1
  swap
  · simp only [h1] at h ⊢
  rcases h2 : os.info_err with _ | x2
  swap
  · simp only [h1, h2] at h ⊢
  rcases h3 : os.context_err with _ | x3
  swap
  · simp only [h1, h2, h3] at h ⊢
  rcases h4 : os.query_all_err with _ | x4
  swap
  · simp only [h1, h2, h3, h4] at h ⊢
  rcases h4n : os.first_next_err with _ | x4n
  swap
  · simp only [h1, h2, h3, h4, h4n] at h ⊢
    omega
  rcases h5 : os.events with _ | ⟨e, rest⟩
  · simp only [h1, h2, h3, h4, h4n, h5] at h ⊢
    omega
  rcases h6 : e.render_err with _ | x6
  swap
  · simp only [h1, h2, h3, h4, h4n, h5, h6] at h ⊢
  simp only [h1, h2, h3, h4, h4n, h5, h6] at h ⊢
  split_ifs at h ⊢ with h7
  · simp only at h
    omega
  · rfl

theorem initialize6_keeps (env : Env) (os : EventLog6OS) (source : Option String) (c : Nat)
    (error : Option String)
    (h : c < (initialize_eventlog6 env os source c 0 0 none error).LastID) :
    (initialize_eventlog6 env os source c 0 0 none error).lastlogsize = c ∧
    ((initialize_eventlog6 env os source c 0 0 none error).ret = SUCCEED →
      (initialize_eventlog6 env os source c 0 0 none error).query =
        some (os.events.filter (fun e => decide (e.EventRecordID % 2 ^ 64 > c)))) := by
  unfold initialize_eventlog6 at h ⊢
  rcases source with _ | nm
  · simp at h
  simp only at h ⊢
  by_cases h0 : nm = ""
  · rw [if_pos h0] at h; simp at h
  rw [if_neg h0] at h ⊢
  by_cases h1 : (zbx_open_eventlog6 env os nm c error).ret ≠ SUCCEED
  · rw [if_pos h1] at h ⊢
    simp only at h
    exact ⟨open6_keeps env os nm c error h, fun hr => by simp [FAIL, SUCCEED] at hr⟩
  rw [if_neg h1] at h ⊢
  have hk : (zbx_open_eventlog6 env os nm c error).lastlogsize = c := by
    apply open6_keeps
    rcases hq : zbx_get_handle_eventlog6 env os
      (zbx_open_eventlog6 env os nm c error).lastlogsize with msg | q
    · rw [hq] at h; exact h
    · rw [hq] at h; exact h
  rw [hk]
  unfold zbx_get_handle_eventlog6
  rcases os.query_err with _ | x
  · exact ⟨rfl, fun _ => rfl⟩
  · exact ⟨rfl, fun hr => by simp [FAIL, SUCCEED] at hr⟩

theorem process_event6_above (env : Env) (refresh : Int) (c : Nat) (e : EVENT6) (l : Locals6)
    (he : e.EventRecordID % 2 ^ 64 > c) (h : c ≤ l.d.metric_lastlogsize) :
    c ≤ (process_event6 env refresh e l).1.d.metric_lastlogsize := by
  unfold process_event6
  simp only
  split
  · exact h
  · rename_i p hp
    have hw := parse6_which env e _ p hp
    obtain ⟨-, -, -, -, -, hm, -⟩ := dispatch_record_facts env refresh l.d e.EventRecordID
      (modern_event p l.d.str_severity)
      (severity_switch6 p.out_severity p.out_keywords l.d.str_severity).2
    have hev : (modern_event p l.d.str_severity).lastlogsize = p.which := rfl
    rw [hev, hw] at hm
    have hres : c ≤ (dispatch_record env refresh l.d e.EventRecordID
        (modern_event p l.d.str_severity)
        (severity_switch6 p.out_severity p.out_keywords l.d.str_severity).2).1.metric_lastlogsize := by
      rw [hm]
      split_ifs
      · omega
      · exact h
    split
    · rename_i d1 hd; rw [hd] at hres; exact hres
    · rename_i d1 hd; rw [hd] at hres; exact hres

/-- C9 (amended). Checkpoint monotonicity: with `skip_old_data` off and a
budget `4 * rate * refresh` that fits a C integer, a legacy cycle that starts
with a checkpoint `c` inside the window computed at session open,
`FirstID ≤ c ≤ LastID`, ends with a stored checkpoint that is at least `c`; a
modern cycle does so when `FirstID ≤ c < LastID`, where `LastID` is the bound
`FirstID + numIDs` the session open computes (a checkpoint equal to that bound
is reset to `FirstID - 1` by design).  This holds whatever the sink returns
and whatever read error occurs. -/
theorem checkpoint_not_decreased (env : Env) (os : EventLogOS) (name : Option String)
    (os6 : EventLog6OS) (source : Option String) (metric : ZBX_ACTIVE_METRIC) (sent : Nat)
    (error : Option String) (sev0 : String) (F L : Nat)
    (hskip : ¬ 1 = metric.skip_old_data)
    (hbudget : 4 * env.rate * metric.refresh < 2 ^ 63) :
    (zbx_open_eventlog os = Except.ok (F, L) → F ≤ metric.lastlogsize → metric.lastlogsize ≤ L →
      ∃ o, process_eventslog env os name metric sent error sev0 = some o ∧
        metric.lastlogsize ≤ o.metric.lastlogsize) ∧
    ((initialize_eventlog6 env os6 source metric.lastlogsize 0 0 none error).FirstID ≤
        metric.lastlogsize →
      metric.lastlogsize < (initialize_eventlog6 env os6 source metric.lastlogsize 0 0
        none error).LastID →
      ∃ o, eventlog6_cycle env os6 source metric sent error sev0 = some o ∧
        metric.lastlogsize ≤ o.metric.lastlogsize) := by
  constructor
  · intro hopen hF hL
    obtain ⟨o, ho⟩ := process_eventslog_total env os name metric sent error sev0
    refine ⟨o, ho, ?_⟩
    rcases process_eventslog_shape env os name metric sent error sev0 o ho with
      ⟨-, -, -, -, -, h6⟩ | ⟨nm, F0, L0, st1, ret, st2, l, -, hopen', -, -, -, -, hloop, ho'⟩
    · rcases h6 with h6 | h6
      · rw [h6]
      · exact absurd h6.1 hskip
    · rw [hopen] at hopen'
      simp only [Except.ok.injEq, Prod.mk.injEq] at hopen'
      obtain ⟨hF0, hL0⟩ := hopen'
      subst hF0 hL0
      have hrange := (zbx_open_eventlog_range os F L hopen).2
      have hn := normalise_in_range F L metric.lastlogsize hF hL
      rw [hn.1, hn.2] at hloop
      have := read_loop_inv env nm metric.refresh (add64 metric.lastlogsize 1)
        (Climbing env metric.refresh metric.lastlogsize)
        (fun l => metric.lastlogsize ≤ l.d.metric_lastlogsize) (fun _ => True)
        (fun r l _ hP _ => process_record_climbing env metric.refresh metric.lastlogsize r l
          (by omega) hbudget hP)
        (enough os) st1 _ ret st2 l (fun _ _ => trivial) (fun _ _ => trivial)
        ⟨le_refl _, le_refl _, by simp [dispatch0], le_refl _, Or.inl rfl⟩ hloop
      subst ho'
      rcases this with h | h
      · exact h.1
      · exact h.1
  · intro hF hL
    obtain ⟨o, ho⟩ := eventlog6_cycle_total env os6 source metric sent error sev0
    refine ⟨o, ho, ?_⟩
    obtain ⟨hk, hq⟩ := initialize6_keeps env os6 source metric.lastlogsize error hL
    unfold eventlog6_cycle at ho
    simp only at ho
    rw [hk] at ho
    by_cases hret : (initialize_eventlog6 env os6 source metric.lastlogsize 0 0 none error).ret ≠
        SUCCEED
    · rw [if_pos hret] at ho
      simp only [Option.some.injEq] at ho
      rw [← ho]
    · rw [if_neg hret] at ho
      rcases process_eventslog6_shape env os6 _ _ _ _ _ sent _ sev0 o ho with
        ⟨-, -, -, -, -, -, h6⟩ | ⟨q, ret, l, hquery, -, hloop, ho'⟩
      · rcases h6 with h6 | h6
        · rw [h6.1]
        · exact absurd h6.1 hskip
      · rw [hq (not_not.1 hret)] at hquery
        simp only [Option.some.injEq] at hquery
        have := read_loop6_inv env metric.refresh
          (fun l => metric.lastlogsize ≤ l.d.metric_lastlogsize)
          (fun l => metric.lastlogsize ≤ l.d.metric_lastlogsize)
          (fun l => metric.lastlogsize ≤ l.d.metric_lastlogsize)
          (fun e => e.EventRecordID % 2 ^ 64 > metric.lastlogsize)
          (fun e l he hP =>
            ⟨fun _ => process_event6_above env _ _ e l he hP,
              fun _ => process_event6_above env _ _ e l he hP,
              fun _ => process_event6_above env _ _ e l he hP⟩)
          (fun _ _ hP => hP) (q.length + 1) q os6.faults _ ret l
          (by
            intro e he
            rw [← hquery] at he
            simpa using (List.mem_filter.1 he).2)
          (le_refl _) hloop
        subst ho'
        rcases this with h | h | h
        · exact h
        · exact h.1
        · exact h.1

/-- Witness for `checkpoint_not_decreased`: the window `[100, 150]`,
checkpoint 120, rate 10 and refresh 1, on both back ends. -/
theorem checkpoint_not_decreased_witness :
    (∃ o, process_eventslog (demo_env ⟨"", "", "", ""⟩ 10) (demo_os 100 51 []) (some "System")
        ⟨120, 0, 1⟩ 0 none "" = some o ∧ 120 ≤ o.metric.lastlogsize) ∧
    (∃ o, eventlog6_cycle (demo_env ⟨"", "", "", ""⟩ 10) (demo_os6 100 51 []) (some "System")
        ⟨120, 0, 1⟩ 0 none "" = some o ∧ 120 ≤ o.metric.lastlogsize) :=
  ⟨(checkpoint_not_decreased (demo_env ⟨"", "", "", ""⟩ 10) (demo_os 100 51 []) (some "System")
      (demo_os6 100 51 []) (some "System") ⟨120, 0, 1⟩ 0 none "" 100 150 (by decide)
      (by decide)).1 rfl (by decide) (by decide),
    (checkpoint_not_decreased (demo_env ⟨"", "", "", ""⟩ 10) (demo_os 100 51 []) (some "System")
      (demo_os6 100 51 []) (some "System") ⟨120, 0, 1⟩ 0 none "" 100 150 (by decide)
      (by decide)).2 (by decide) (by decide)⟩

/-! ## The read loop on a log without faults -/

theorem parse_buffer_cons (env : Env) (refresh : Int) (F : Nat) (r : EVENTLOGRECORD)
    (rest : List EVENTLOGRECORD) (l : Locals) :
    parse_buffer env refresh F (r :: rest) l =
      (if 0 ≠ l.timestamp ∨ toDWORD F = r.RecordNumber then
        (if (process_record env refresh F r l).2 = Flow.stop then process_record env refresh F r l
          else parse_buffer env refresh F rest (process_record env refresh F r l).1)
        else parse_buffer env refresh F rest l) := by
  rw [parse_buffer]
  split_ifs with h1 h2
  · rcases hx : process_record env refresh F r l with ⟨l1, f⟩
    rw [hx] at h2
    simp only at h2
    subst h2
    rfl
  · rcases hx : process_record env refresh F r l with ⟨l1, f⟩
    rw [hx] at h2
    cases f with
    | stop => exact absurd rfl h2
    | next => rfl
  · rfl

theorem parse_buffer_append (env : Env) (refresh : Int) (F : Nat) :
    ∀ (a b : List EVENTLOGRECORD) (l : Locals),
      parse_buffer env refresh F (a ++ b) l =
        (if (parse_buffer env refresh F a l).2 = Flow.stop then parse_buffer env refresh F a l
          else parse_buffer env refresh F b (parse_buffer env refresh F a l).1) := by
  intro a
  induction a with
  | nil => intro b l; simp [parse_buffer]
  | cons r rest ih =>
    intro b l
    simp only [List.cons_append]
    rw [parse_buffer_cons, parse_buffer_cons]
    by_cases hc : 0 ≠ l.timestamp ∨ toDWORD F = r.RecordNumber
    · rw [if_pos hc, if_pos hc]
      by_cases hs : (process_record env refresh F r l).2 = Flow.stop
      · rw [if_pos hs, if_pos hs, if_pos hs]
      · rw [if_neg hs, if_neg hs]
        exact ih b _
    · rw [if_neg hc, if_neg hc]
      exact ih b l

theorem parse_buffer_append_stop (env : Env) (refresh : Int) (F : Nat)
    (a b : List EVENTLOGRECORD) (l l1 : Locals)
    (h : parse_buffer env refresh F a l = (l1, Flow.stop)) :
    parse_buffer env refresh F (a ++ b) l = (l1, Flow.stop) := by
  rw [parse_buffer_append, h]
  simp

theorem parse_buffer_append_next (env : Env) (refresh : Int) (F : Nat)
    (a b : List EVENTLOGRECORD) (l l1 : Locals)
    (h : parse_buffer env refresh F a l = (l1, Flow.next)) :
    parse_buffer env refresh F (a ++ b) l = parse_buffer env refresh F b l1 := by
  rw [parse_buffer_append, h]
  simp

theorem fit_prefix : ∀ (xs : List EVENTLOGRECORD) (room : Nat),
    fit room xs ++ xs.drop (fit room xs).length = xs := by
  intro xs
  induction xs with
  | nil => intro room; simp [fit]
  | cons x rest ih =>
    intro room
    unfold fit
    split_ifs
    · simp only [List.cons_append, List.length_cons, List.drop_succ_cons]
      rw [ih]
    · simp

theorem ahead_mk (os : EventLogOS) (b : Nat) (p : List EVENTLOGRECORD) (dr de : Nat)
    (er : Option String) :
    ahead ⟨os, b, p, dr, de, er⟩ = (if dr = 0 then [] else p) ++ os.records.drop (fpos os) := rfl

/-- Without injected faults the main read loop processes the records ahead of
it as one buffer, batch borders and buffer growth being invisible, and returns
`SUCCEED` with the error text untouched. -/
theorem read_loop_flat (env : Env) (name : String) (refresh : Int) (F : Nat) :
    ∀ (fuel : Nat) (st : ReadState) (l : Locals), st.os.faults = [] →
      ERROR_SUCCESS = st.dwErr → loop_measure st < fuel →
      ∃ st', read_loop env name refresh F fuel st l =
          some (SUCCEED, st', (parse_buffer env refresh F (ahead st) l).1) ∧
        st'.error = st.error := by
  intro fuel
  induction fuel with
  | zero => intro st l _ _ h; omega
  | succ n ih =>
    intro st l hfl h1 hm
    unfold read_loop
    rw [if_pos h1]
    by_cases h2 : 0 = st.dwRead
    swap
    · rw [if_neg h2]
      have hne : ¬ st.dwRead = 0 := fun h => h2 h.symm
      have hah : ahead st = st.pELRs ++ st.os.records.drop (fpos st.os) := by
        unfold ahead; rw [if_neg hne]
      rw [hah]
      rcases hy : parse_buffer env refresh F st.pELRs l with ⟨l1, f⟩
      cases f with
      | stop =>
        rw [parse_buffer_append_stop env refresh F _ _ l l1 hy]
        exact ⟨_, rfl, rfl⟩
      | next =>
        rw [parse_buffer_append_next env refresh F _ _ l l1 hy]
        simp only
        obtain ⟨st', he, herr⟩ := ih ⟨st.os, st.buffer_size, st.pELRs, 0, st.dwErr, st.error⟩ l1
          hfl h1 (by
            rw [loop_measure_mk]
            unfold loop_measure at hm
            rw [if_neg hne] at hm
            simp only [if_true]
            omega)
        rw [ahead_mk] at he
        simp only [if_true, List.nil_append] at he
        exact ⟨st', he, herr⟩
    rw [if_pos h2]
    have hah : ahead st = st.os.records.drop (fpos st.os) := by
      unfold ahead; rw [if_pos h2.symm]; simp
    rw [hah]
    have hts : ∀ os b, too_small os b ≤ 1 := too_small_le
    have hd0 : (if st.dwRead = 0 then 0 else 1) = 0 := by rw [if_pos h2.symm]
    unfold loop_measure at hm
    rw [hd0, hfl] at hm
    have htail : st.os.faults.tail = [] := by rw [hfl]; rfl
    rcases forward_read_cases st.os st.buffer_size with
      ⟨_, _, ⟨f, hf, _⟩ | ⟨_, ⟨hd, he⟩ | ⟨r, rs, hd, hb, he⟩ | ⟨r, rs, hd, hb, he⟩⟩⟩
    · rw [hfl] at hf; simp at hf
    · rw [he, hd]
      have hne : ¬ ERROR_HANDLE_EOF = ERROR_INSUFFICIENT_BUFFER := by decide
      simp only [if_neg hne, if_true]
      exact ⟨_, rfl, rfl⟩
    · rw [he]
      simp only [if_true]
      obtain ⟨st', he', herr⟩ := ih ⟨⟨st.os.open_err, st.os.dwNumRecords, st.os.dwOldestRecord,
          st.os.records, st.os.cur, st.os.faults.tail⟩, r.Length, st.pELRs, st.dwRead,
          ERROR_SUCCESS, st.error⟩ l htail rfl (by
        rw [loop_measure_mk]
        have h5 : ∀ fs, too_small ⟨st.os.open_err, st.os.dwNumRecords, st.os.dwOldestRecord,
            st.os.records, st.os.cur, fs⟩ r.Length = 0 := by
          intro fs
          unfold too_small; simp only [fpos_faults, hd, lt_irrefl, if_false]
        have h6 : too_small st.os st.buffer_size = 1 := by
          unfold too_small; simp only [hd, if_pos hb]
        simp only [fpos_faults, hd0, h5, h6, htail] at hm ⊢
        simp only [List.length_nil] at hm ⊢
        omega)
      rw [ahead_mk, if_pos h2.symm] at he'
      simp only [List.nil_append, fpos_faults] at he'
      exact ⟨st', he', herr⟩
    · rw [he]
      simp only
      have hk := fit_length_pos r rs st.buffer_size hb
      have hlt := drop_cons_lt _ _ _ _ hd
      have hsplit : st.os.records.drop (fpos st.os) =
          fit st.buffer_size (r :: rs) ++
            st.os.records.drop (fpos st.os + (fit st.buffer_size (r :: rs)).length) := by
        have := fit_prefix (r :: rs) st.buffer_size
        rw [← hd, List.drop_drop] at this
        rw [hd] at this
        rw [hd]
        exact this.symm
      rw [hsplit]
      rcases hy : parse_buffer env refresh F (fit st.buffer_size (r :: rs)) l with ⟨l1, f⟩
      cases f with
      | stop =>
        rw [parse_buffer_append_stop env refresh F _ _ l l1 hy]
        exact ⟨_, rfl, rfl⟩
      | next =>
        rw [parse_buffer_append_next env refresh F _ _ l l1 hy]
        simp only
        obtain ⟨st', he', herr⟩ := ih ⟨⟨st.os.open_err, st.os.dwNumRecords,
            st.os.dwOldestRecord, st.os.records,
            some ((fpos st.os : Int) + (fit st.buffer_size (r :: rs)).length),
            st.os.faults.tail⟩, st.buffer_size, fit st.buffer_size (r :: rs), 0, st.dwErr,
            st.error⟩ l1 htail h1 (by
          rw [loop_measure_mk]
          simp only [fpos_moved, if_true, htail]
          have h8 := hts ⟨st.os.open_err, st.os.dwNumRecords, st.os.dwOldestRecord,
            st.os.records, some ((fpos st.os : Int) + (fit st.buffer_size (r :: rs)).length),
            st.os.faults.tail⟩ st.buffer_size
          rw [htail] at h8
          simp only [List.length_nil] at hm ⊢
          omega)
        rw [ahead_mk] at he'
        simp only [if_true, List.nil_append, fpos_moved] at he'
        exact ⟨st', he', herr⟩

/-! ## Well-kept logs -/

theorem Sound.length {os : EventLogOS} {F n : Nat} (h : Sound os F n) :
    os.records.length = n := by
  have := congrArg List.length h.numbered
  simpa using this

/-- The window of a well-kept log with at least one record. -/
theorem Sound.window {os : EventLogOS} {F n : Nat} (h : Sound os F n) (hn : 0 < n) :
    zbx_open_eventlog os = Except.ok (F, F + n - 1) := by
  unfold zbx_open_eventlog
  rw [h.open_ok, h.oldest, h.count]
  have hb := h.below
  have h1 : toDWORD F = F := Nat.mod_eq_of_lt (by omega)
  have h2 : toDWORD n = n := Nat.mod_eq_of_lt (by omega)
  have h3 : toDWORD (F + n + 2 ^ 32 - 1) = F + n - 1 := by
    unfold toDWORD
    omega
  simp only [h1, h2, h3]

theorem find_record_numbered : ∀ (rs : List EVENTLOGRECORD) (F j : Nat),
    rs.map (fun r => r.RecordNumber) = List.range' F rs.length → j < rs.length →
    find_record (F + j) rs = some j := by
  intro rs
  induction rs with
  | nil => intro F j _ h; simp at h
  | cons r rest ih =>
    intro F j hnum hj
    simp only [List.map_cons, List.length_cons, List.range'_succ, List.cons.injEq] at hnum
    unfold find_record
    cases j with
    | zero => simp [hnum.1]
    | succ k =>
      have hne : ¬ r.RecordNumber = F + (k + 1) := by rw [hnum.1]; omega
      rw [if_neg hne]
      have := ih (F + 1) k hnum.2 (by simpa using hj)
      rw [show F + (k + 1) = F + 1 + k by omega, this]
      rfl

/-- In a list of records numbered from `N`, a loop that has not found its
start record `t` yet skips the records before it. -/
theorem parse_buffer_skip (env : Env) (refresh : Int) (t : Nat) (ht : t < 2 ^ 32) :
    ∀ (xs : List EVENTLOGRECORD) (N : Nat) (l : Locals),
      xs.map (fun r => r.RecordNumber) = List.range' N xs.length → N ≤ t → l.timestamp = 0 →
      parse_buffer env refresh t xs l = parse_buffer env refresh t (xs.drop (t - N)) l := by
  intro xs
  induction xs with
  | nil => intro N l _ _ _; simp
  | cons r rest ih =>
    intro N l hnum hN hts
    simp only [List.map_cons, List.length_cons, List.range'_succ, List.cons.injEq] at hnum
    by_cases heq : N = t
    · subst heq; simp
    · have hlt : N < t := by omega
      rw [parse_buffer_cons]
      have hc : ¬ (0 ≠ l.timestamp ∨ toDWORD t = r.RecordNumber) := by
        rw [hts, hnum.1]
        unfold toDWORD
        rw [Nat.mod_eq_of_lt ht]
        intro h
        rcases h with h | h
        · exact h rfl
        · omega
      rw [if_neg hc, ih (N + 1) l hnum.2 (by omega) hts]
      rw [show t - N = (t - (N + 1)) + 1 by omega, List.drop_succ_cons]

theorem drop_numbered (rs : List EVENTLOGRECORD) (F p : Nat)
    (h : rs.map (fun r => r.RecordNumber) = List.range' F rs.length) :
    (rs.drop p).map (fun r => r.RecordNumber) = List.range' (F + p) (rs.drop p).length := by
  induction p generalizing rs F with
  | zero => simpa using h
  | succ k ih =>
    cases rs with
    | nil => simp
    | cons r rest =>
      simp only [List.map_cons, List.length_cons, List.range'_succ, List.cons.injEq] at h
      simp only [List.drop_succ_cons]
      have := ih rest (F + 1) h.2
      rw [show F + (k + 1) = F + 1 + k by omega]
      exact this

/-! ## The seek on a well-kept log -/

theorem bytes_fit_pos (r : EVENTLOGRECORD) (rs : List EVENTLOGRECORD) (b : Nat)
    (hb : ¬ b < r.Length) (hpos : 0 < r.Length) : ¬ bytes (fit b (r :: rs)) = 0 := by
  unfold fit
  rw [if_pos (Nat.le_of_not_lt hb)]
  unfold bytes
  omega

/-- A positioned read that finds its record in a buffer that is large enough. -/
theorem seek_direct_accept_now (env : Env) (name : String) (num fuel : Nat) (st : ReadState)
    (j : Nat) (r : EVENTLOGRECORD) (rs : List EVENTLOGRECORD) (hfl : st.os.faults = [])
    (hfind : find_record num st.os.records = some j) (hd : st.os.records.drop j = r :: rs)
    (hpos : 0 < r.Length) (hb : ¬ st.buffer_size < r.Length) (herr : st.dwErr = ERROR_SUCCESS) :
    ∃ st1, seek_direct env name num (fuel + 1) st = some (SeekExit.returned SUCCEED, st1) ∧
      Positioned st st1 j := by
  unfold seek_direct
  have htail : st.os.faults.tail = [] := by rw [hfl]; rfl
  rcases ReadEventLog_eq st.os (EVENTLOG_SEEK_READ ||| EVENTLOG_FORWARDS_READ) num
    st.buffer_size with ⟨f, hf, _⟩ | ⟨_, he⟩
  · rw [hfl] at hf; simp at hf
  rw [he]
  rcases seek_normal_cases ⟨st.os.open_err, st.os.dwNumRecords, st.os.dwOldestRecord,
    st.os.records, st.os.cur, st.os.faults.tail⟩ num st.buffer_size with
    ⟨h0, _⟩ | ⟨i, h0, h1, _⟩ | ⟨i, r', rs', h0, h1, h2, _⟩ | ⟨i, r', rs', h0, h1, h2, h⟩
  · simp only at h0; rw [hfind] at h0; simp at h0
  · simp only at h0 h1
    rw [hfind] at h0
    simp only [Option.some.injEq] at h0
    subst h0
    rw [hd] at h1; simp at h1
  · simp only at h0 h1
    rw [hfind] at h0
    simp only [Option.some.injEq] at h0
    subst h0
    rw [hd] at h1
    simp only [List.cons.injEq] at h1
    rw [← h1.1] at h2
    exact absurd h2 hb
  · simp only at h0 h1
    rw [hfind] at h0
    simp only [Option.some.injEq] at h0
    subst h0
    rw [hd] at h1
    simp only [List.cons.injEq] at h1
    obtain ⟨hr, hrs⟩ := h1
    subst hr hrs
    rw [h]
    refine ⟨_, rfl, htail, rfl, herr, rfl, ?_⟩
    rw [ahead_mk, if_neg (bytes_fit_pos r rs st.buffer_size hb hpos)]
    have hfp : fpos ⟨st.os.open_err, st.os.dwNumRecords, st.os.dwOldestRecord, st.os.records,
        some ((j : Int) + (fit st.buffer_size (r :: rs)).length), st.os.faults.tail⟩ =
        j + (fit st.buffer_size (r :: rs)).length := by
      rw [fpos_mk]; simp only; omega
    simp only [hfp]
    have := fit_prefix (r :: rs) st.buffer_size
    rw [← hd, List.drop_drop] at this
    rw [hd] at this
    rw [this]
    exact hd.symm

/-- A positioned read on a log without faults finds its record, after at
most one growth of the buffer. -/
theorem seek_direct_accept (env : Env) (name : String) (num fuel : Nat) (st : ReadState)
    (j : Nat) (r : EVENTLOGRECORD) (rs : List EVENTLOGRECORD) (hfl : st.os.faults = [])
    (hfind : find_record num st.os.records = some j) (hd : st.os.records.drop j = r :: rs)
    (hpos : 0 < r.Length) (herr : st.dwErr = ERROR_SUCCESS) :
    ∃ st1, seek_direct env name num (fuel + 2) st = some (SeekExit.returned SUCCEED, st1) ∧
      Positioned st st1 j := by
  by_cases hb : st.buffer_size < r.Length
  swap
  · exact seek_direct_accept_now env name num (fuel + 1) st j r rs hfl hfind hd hpos hb herr
  unfold seek_direct
  have htail : st.os.faults.tail = [] := by rw [hfl]; rfl
  rcases ReadEventLog_eq st.os (EVENTLOG_SEEK_READ ||| EVENTLOG_FORWARDS_READ) num
    st.buffer_size with ⟨f, hf, _⟩ | ⟨_, he⟩
  · rw [hfl] at hf; simp at hf
  rw [he]
  rcases seek_normal_cases ⟨st.os.open_err, st.os.dwNumRecords, st.os.dwOldestRecord,
    st.os.records, st.os.cur, st.os.faults.tail⟩ num st.buffer_size with
    ⟨h0, _⟩ | ⟨i, h0, h1, _⟩ | ⟨i, r', rs', h0, h1, h2, h⟩ | ⟨i, r', rs', h0, h1, h2, _⟩
  · simp only at h0; rw [hfind] at h0; simp at h0
  · simp only at h0 h1
    rw [hfind] at h0
    simp only [Option.some.injEq] at h0
    subst h0
    rw [hd] at h1; simp at h1
  · simp only at h0 h1
    rw [hfind] at h0
    simp only [Option.some.injEq] at h0
    subst h0
    rw [hd] at h1
    simp only [List.cons.injEq] at h1
    obtain ⟨hr, hrs⟩ := h1
    subst hr hrs
    rw [h]
    have hne1 : ¬ ERROR_INSUFFICIENT_BUFFER = ERROR_INVALID_PARAMETER := by decide
    have hne2 : ¬ ERROR_INSUFFICIENT_BUFFER = ERROR_HANDLE_EOF := by decide
    simp only [if_neg hne1, if_neg hne2, if_true]
    obtain ⟨st1, hs, h1, h2, h3, h4, h5⟩ := seek_direct_accept_now env name num fuel
      ⟨⟨st.os.open_err, st.os.dwNumRecords, st.os.dwOldestRecord, st.os.records, st.os.cur,
        st.os.faults.tail⟩, r.Length, st.pELRs, st.dwRead, ERROR_SUCCESS, st.error⟩ j r rs
      htail hfind hd hpos (lt_irrefl _) rfl
    exact ⟨st1, hs, h1, h2, h3, h4, h5⟩
  · simp only at h0 h1
    rw [hfind] at h0
    simp only [Option.some.injEq] at h0
    subst h0
    rw [hd] at h1
    simp only [List.cons.injEq] at h1
    rw [← h1.1] at h2
    exact absurd hb h2

/-- A positioned read that the system rejects with `ERROR_INVALID_PARAMETER`. -/
theorem seek_direct_reject (env : Env) (name : String) (num fuel : Nat) (st : ReadState)
    (k : Nat) (hfl : st.os.faults = [some ⟨ERROR_INVALID_PARAMETER, k⟩]) :
    seek_direct env name num (fuel + 1) st =
      some (SeekExit.fallthrough,
        ⟨⟨st.os.open_err, st.os.dwNumRecords, st.os.dwOldestRecord, st.os.records, st.os.cur, []⟩,
          st.buffer_size, st.pELRs, st.dwRead, ERROR_INVALID_PARAMETER, st.error⟩) := by
  unfold seek_direct
  rcases ReadEventLog_eq st.os (EVENTLOG_SEEK_READ ||| EVENTLOG_FORWARDS_READ) num
    st.buffer_size with ⟨f, hf, he⟩ | ⟨h, _⟩
  · rw [he]
    rw [hfl] at hf
    simp only [List.head?_cons, Option.some.injEq] at hf
    subst hf
    simp only [if_true, hfl, List.tail_cons]
  · rw [hfl] at h
    simp at h

theorem skip_records_eq : ∀ (batch : List EVENTLOGRECORD) (skip : Nat), 0 < skip →
    skip_records skip batch = skip - batch.length := by
  intro batch
  induction batch with
  | nil => intro skip _; simp [skip_records]
  | cons x rest ih =>
    intro skip hs
    unfold skip_records
    split_ifs with h
    · simp only [List.length_cons]; omega
    · rw [ih (skip - 1) (by omega)]
      simp only [List.length_cons]; omega

theorem CurAt.bpos {os : EventLogOS} {a : Nat} (h : CurAt os a) (ha : 0 < a) :
    bpos os = some (a - 1) := by
  unfold Eventlog.bpos
  rcases h with ⟨h1, h2⟩ | ⟨h1, h2⟩
  · rw [h1]
    simp only
    rw [if_neg (by omega), h2]
  · rw [h1]
    simp only
    rw [if_neg (by omega)]
    congr 1
    have : ((a : Int) - 1).toNat = a - 1 := by omega
    rw [this]
    exact Nat.min_eq_left (by omega)

theorem CurAt.fpos_le {os : EventLogOS} {a : Nat} (h : CurAt os a) (j : Nat) (ha : a ≤ j + 1) :
    fpos os ≤ j := by
  unfold fpos
  rcases h with ⟨h1, _⟩ | ⟨h1, _⟩
  · rw [h1]; simp
  · rw [h1]; simp only; omega

/-- The fallback loop on a log without faults: it ends with `SUCCEED` and no
error after it has read at least `skip` records backwards. -/
theorem seek_fallback_sound (env : Env) (name : String) :
    ∀ (fuel skip : Nat) (st : ReadState) (a : Nat), st.os.faults = [] →
      st.dwErr = ERROR_SUCCESS → st.dwRead = 0 → CurAt st.os a → skip ≤ a →
      2 * a + back_small st.os st.buffer_size < fuel →
      ∃ st1 a', seek_fallback env name EVENTLOG_BACKWARDS_READ fuel skip st = some (SUCCEED, st1) ∧
        st1.os.faults = [] ∧ st1.os.records = st.os.records ∧ st1.dwErr = ERROR_SUCCESS ∧
        st1.error = st.error ∧ st1.dwRead = 0 ∧ CurAt st1.os a' ∧ a' + skip ≤ a := by
  intro fuel
  induction fuel with
  | zero => intro skip st a _ _ _ _ _ h; omega
  | succ n ih =>
    intro skip st a hfl herr hread hcur hskip hm
    unfold seek_fallback
    by_cases hs : 0 < skip
    swap
    · have hc : ¬ (0 < skip ∧ ERROR_SUCCESS = st.dwErr ∧
          EVENTLOG_BACKWARDS_READ = EVENTLOG_BACKWARDS_READ) := fun h => hs h.1
      rw [if_neg hc]
      have hc2 : ¬ (EVENTLOG_BACKWARDS_READ = EVENTLOG_BACKWARDS_READ ∧
          ERROR_HANDLE_EOF = st.dwErr) := by
        rw [herr]; intro h; exact absurd h.2 (by decide)
      rw [if_neg hc2]
      exact ⟨st, a, rfl, hfl, rfl, herr, rfl, hread, hcur, by omega⟩
    have hc : 0 < skip ∧ ERROR_SUCCESS = st.dwErr ∧
        EVENTLOG_BACKWARDS_READ = EVENTLOG_BACKWARDS_READ := ⟨hs, herr.symm, rfl⟩
    rw [if_pos hc]
    have htail : st.os.faults.tail = [] := by rw [hfl]; rfl
    have ha : 0 < a := by omega
    have hbp := hcur.bpos ha
    have hlen : a ≤ st.os.records.length := by
      rcases hcur with ⟨_, h2⟩ | ⟨_, h2⟩ <;> omega
    rcases ReadEventLog_eq st.os (EVENTLOG_SEQUENTIAL_READ ||| EVENTLOG_BACKWARDS_READ) 0
      st.buffer_size with ⟨f, hf, _⟩ | ⟨_, he⟩
    · rw [hfl] at hf; simp at hf
    rw [he]
    rcases backward_normal_cases ⟨st.os.open_err, st.os.dwNumRecords, st.os.dwOldestRecord,
      st.os.records, st.os.cur, st.os.faults.tail⟩ st.buffer_size with
      ⟨h0, _⟩ | ⟨i, r, rs, hi, hd, hb, h⟩ | ⟨i, r, rs, hi, hd, hb, h⟩
    · exfalso
      rw [bpos_faults, hbp] at h0
      rcases h0 with h0 | ⟨i, hi, h0⟩
      · simp at h0
      · simp only [Option.some.injEq] at hi
        subst hi
        simp only [List.reverse_eq_nil_iff, List.take_eq_nil_iff] at h0
        rcases h0 with h0 | h0
        · omega
        · rw [h0] at hlen; simp at hlen; omega
    · rw [h]
      simp only [if_true]
      rw [bpos_faults, hbp] at hi
      simp only [Option.some.injEq] at hi
      subst hi
      simp only at hd
      have h5 : back_small ⟨st.os.open_err, st.os.dwNumRecords, st.os.dwOldestRecord,
          st.os.records, st.os.cur, st.os.faults.tail⟩ r.Length = 0 := by
        rw [back_small_faults]
        unfold back_small; simp only [hbp, hd, lt_irrefl, if_false]
      have h6 : back_small st.os st.buffer_size = 1 := by
        unfold back_small; simp only [hbp, hd, if_pos hb]
      obtain ⟨st1, a', hs1, h1, h2, h3, h4, h7, h8, h9⟩ := ih skip
        ⟨⟨st.os.open_err, st.os.dwNumRecords, st.os.dwOldestRecord, st.os.records, st.os.cur,
          st.os.faults.tail⟩, r.Length, st.pELRs, st.dwRead, ERROR_SUCCESS, st.error⟩ a htail rfl
        hread hcur hskip (by simp only [h5]; omega)
      exact ⟨st1, a', hs1, h1, h2, h3, h4, h7, h8, h9⟩
    · rw [h]
      simp only
      rw [bpos_faults, hbp] at hi
      simp only [Option.some.injEq] at hi
      subst hi
      simp only at hd
      have hk := fit_length_pos r rs st.buffer_size hb
      have hk2 : (fit st.buffer_size (r :: rs)).length ≤ a := by
        have h1 := fit_length_le (r :: rs) st.buffer_size
        have h2 : (r :: rs).length ≤ a := by
          rw [← hd]
          simp only [List.length_reverse, List.length_take]
          omega
        omega
      rw [skip_records_eq _ _ hs]
      have hcur' : CurAt ⟨st.os.open_err, st.os.dwNumRecords, st.os.dwOldestRecord,
          st.os.records, some (((a - 1 : Nat) : Int) - (fit st.buffer_size (r :: rs)).length),
          st.os.faults.tail⟩ (a - (fit st.buffer_size (r :: rs)).length) := by
        right
        refine ⟨?_, by simp only; omega⟩
        simp only
        congr 1
        omega
      have hbs := back_small_le ⟨st.os.open_err, st.os.dwNumRecords, st.os.dwOldestRecord,
          st.os.records, some (((a - 1 : Nat) : Int) - (fit st.buffer_size (r :: rs)).length),
          st.os.faults.tail⟩ st.buffer_size
      obtain ⟨st1, a', hs1, h1, h2, h3, h4, h7, h8, h9⟩ := ih
        (skip - (fit st.buffer_size (r :: rs)).length)
        ⟨⟨st.os.open_err, st.os.dwNumRecords, st.os.dwOldestRecord, st.os.records,
          some (((a - 1 : Nat) : Int) - (fit st.buffer_size (r :: rs)).length),
          st.os.faults.tail⟩, st.buffer_size, fit st.buffer_size (r :: rs), 0, st.dwErr,
          st.error⟩ (a - (fit st.buffer_size (r :: rs)).length) htail herr rfl hcur' (by omega)
        (by simp only; omega)
      exact ⟨st1, a', hs1, h1, h2, h3, h4, h7, h8, by omega⟩

/-- On a well-kept log the function `seek_eventlog` succeeds on each of its
three paths (direct read accepted, direct read rejected with the forward
direction, backward fallback) and leaves the main loop at or before the record
sought, which has index `j`. -/
theorem seek_eventlog_sound (env : Env) (name : String) (fuel t dir L : Nat) (os : EventLogOS)
    (b0 : Nat) (error : Option String) (F n j : Nat) (hS : Sound os F n) (hf : SeekAnswer os)
    (hj : j < n) (ht : t = F + j) (hL : L = F + n - 1)
    (hdir : dir = EVENTLOG_FORWARDS_READ ∨ dir = EVENTLOG_BACKWARDS_READ)
    (hfuel : 2 * n + 4 ≤ fuel) :
    ∃ st1 p,
      seek_eventlog env name fuel t dir L
          ⟨⟨os.open_err, os.dwNumRecords, os.dwOldestRecord, os.records, none, os.faults⟩, b0, [],
            0, ERROR_SUCCESS, error⟩ = some (SUCCEED, st1) ∧
        Positioned ⟨⟨os.open_err, os.dwNumRecords, os.dwOldestRecord, os.records, none,
          os.faults⟩, b0, [], 0, ERROR_SUCCESS, error⟩ st1 p ∧ p ≤ j := by
  have hlen := hS.length
  have hb := hS.below
  have htd : toDWORD t = t := Nat.mod_eq_of_lt (by omega)
  unfold seek_eventlog
  rw [htd]
  obtain ⟨fuel2, hfuel2⟩ : ∃ m, fuel = m + 2 := ⟨fuel - 2, by omega⟩
  rcases hf with hf | ⟨k, hf⟩
  · -- the direct read is accepted
    have hfind : find_record t os.records = some j := by
      rw [ht]
      exact find_record_numbered os.records F j (by rw [hlen]; exact hS.numbered) (by omega)
    obtain ⟨r, rs, hd⟩ : ∃ r rs, os.records.drop j = r :: rs := by
      rcases hdr : os.records.drop j with _ | ⟨r, rs⟩
      · have := congrArg List.length hdr
        simp only [List.length_drop, List.length_nil] at this
        omega
      · exact ⟨r, rs, rfl⟩
    have hpos : 0 < r.Length := by
      apply hS.sized
      have hmem : r ∈ os.records.drop j := by rw [hd]; simp
      exact List.mem_of_mem_drop hmem
    rw [hfuel2]
    obtain ⟨st1, hs, hp⟩ := seek_direct_accept env name t fuel2
      ⟨⟨os.open_err, os.dwNumRecords, os.dwOldestRecord, os.records, none, os.faults⟩, b0, [], 0,
        ERROR_SUCCESS, error⟩ j r rs hf hfind hd hpos rfl
    rw [hs]
    exact ⟨st1, j, rfl, hp, le_refl _⟩
  · -- the direct read is rejected
    rw [hfuel2]
    rw [seek_direct_reject env name t (fuel2 + 1)
      ⟨⟨os.open_err, os.dwNumRecords, os.dwOldestRecord, os.records, none, os.faults⟩, b0, [], 0,
        ERROR_SUCCESS, error⟩ k hf]
    simp only [true_and]
    rcases hdir with hdir | hdir
    · subst hdir
      have hne : ¬ EVENTLOG_BACKWARDS_READ = EVENTLOG_FORWARDS_READ := by decide
      rw [if_neg hne]
      unfold seek_fallback
      simp only [lt_irrefl, false_and, if_false, hne]
      refine ⟨_, 0, rfl, ⟨rfl, rfl, rfl, rfl, ?_⟩, Nat.zero_le _⟩
      rw [ahead_mk]
      simp [fpos]
    · subst hdir
      simp only [if_true]
      obtain ⟨st1, a', hs, h1, h2, h3, h4, h5, h6, h7⟩ := seek_fallback_sound env name
        (fuel2 + 2) (if L = t then 1 else sub64 L t)
        ⟨⟨os.open_err, os.dwNumRecords, os.dwOldestRecord, os.records, none, []⟩, b0, [], 0,
          ERROR_SUCCESS, error⟩ n rfl rfl rfl (Or.inl ⟨rfl, hlen.symm⟩)
        (by
          split_ifs
          · omega
          · unfold sub64; omega)
        (by
          have := back_small_le ⟨os.open_err, os.dwNumRecords, os.dwOldestRecord, os.records,
            none, []⟩ b0
          simp only
          omega)
      rw [hs]
      refine ⟨st1, fpos st1.os, rfl, ⟨h1, h2, h3, h4, ?_⟩, ?_⟩
      · unfold ahead
        rw [if_pos h5, h2]
        simp
      · apply h6.fpos_le
        split_ifs at h7 with heq
        · omega
        · have : sub64 L t = L - t := by unfold sub64; omega
          rw [this] at h7
          omega

/-- A cycle of the legacy back end on a well-kept log, from a checkpoint `c`
with `FirstID - 1 ≤ c < LastID`: whichever of the three seek paths is taken,
the cycle returns `SUCCEED`, leaves the error text untouched, and its result
is that of the record loop run over the records from number `c + 1` on. -/
theorem legacy_cycle_sound (env : Env) (os : EventLogOS) (name : String)
    (metric : ZBX_ACTIVE_METRIC) (sent : Nat) (error : Option String) (sev0 : String)
    (F n : Nat) (hname : name ≠ "") (hskip : ¬ 1 = metric.skip_old_data) (hS : Sound os F n)
    (hf : SeekAnswer os) (hreset : metric.lastlogsize < F → os.faults = [])
    (h1 : F ≤ metric.lastlogsize + 1) (h2 : metric.lastlogsize + 1 ≤ F + n - 1) :
    ∃ w bs, process_eventslog env os (some name) metric sent error sev0 =
      some (outcome_of metric SUCCEED error
        (parse_buffer env metric.refresh (metric.lastlogsize + 1)
          (os.records.drop (metric.lastlogsize + 1 - F))
          ⟨w, 0, dispatch0 metric sent sev0⟩).1.d bs) := by
  have hn : 0 < n := by omega
  have hb := hS.below
  have hlen := hS.length
  unfold process_eventslog
  simp only
  rw [if_neg hname, hS.window hn]
  simp only
  rw [if_neg hskip]
  -- the state after the seek
  have hsought : ∃ st1 p w,
      (if 0 = (normalise F (F + n - 1) metric.lastlogsize).2.2 then
          some (SUCCEED, ({ (⟨{ os with cur := none }, 64 * ZBX_KIBIBYTE, [], 0,
            ERROR_SUCCESS, error⟩ : ReadState) with dwErr := ERROR_SUCCESS }))
        else if F + n - 1 < (normalise F (F + n - 1) metric.lastlogsize).2.1 then
          some (SUCCEED, ({ (⟨{ os with cur := none }, 64 * ZBX_KIBIBYTE, [], 0,
            ERROR_SUCCESS, error⟩ : ReadState) with dwErr := ERROR_HANDLE_EOF }))
        else seek_eventlog env name (enough os) (normalise F (F + n - 1) metric.lastlogsize).2.1
          (normalise F (F + n - 1) metric.lastlogsize).2.2 (F + n - 1)
          ⟨{ os with cur := none }, 64 * ZBX_KIBIBYTE, [], 0, ERROR_SUCCESS, error⟩) =
        some (SUCCEED, st1) ∧
      Positioned ⟨⟨os.open_err, os.dwNumRecords, os.dwOldestRecord, os.records, none,
        os.faults⟩, 64 * ZBX_KIBIBYTE, [], 0, ERROR_SUCCESS, error⟩ st1 p ∧
      p ≤ metric.lastlogsize + 1 - F ∧
      (normalise F (F + n - 1) metric.lastlogsize).1 = w ∧
      (normalise F (F + n - 1) metric.lastlogsize).2.1 = metric.lastlogsize + 1 ∧
      st1.os.faults.length ≤ os.faults.length := by
    by_cases hlow : metric.lastlogsize < F
    · -- the checkpoint is `FirstID - 1`: the log is read from its first record
      have hw : (if metric.lastlogsize > F + n - 1 then toDWORD metric.lastlogsize
          else metric.lastlogsize) = metric.lastlogsize := if_neg (by omega)
      have hnorm : normalise F (F + n - 1) metric.lastlogsize = (F, F, 0) := by
        unfold normalise
        simp only [hw]
        rw [if_pos (Or.inr hlow)]
      rw [hnorm]
      simp only [if_true]
      refine ⟨_, 0, F, rfl, ⟨?_, rfl, rfl, rfl, ?_⟩, Nat.zero_le _, rfl, by omega, ?_⟩
      · exact hreset hlow
      · rw [ahead_mk]; simp [fpos]
      · simp
    · have hn1 := normalise_in_range F (F + n - 1) metric.lastlogsize (by omega) (by omega)
      have hadd : add64 metric.lastlogsize 1 = metric.lastlogsize + 1 := by
        unfold add64; omega
      have hdir : (normalise F (F + n - 1) metric.lastlogsize).2.2 = EVENTLOG_FORWARDS_READ ∨
          (normalise F (F + n - 1) metric.lastlogsize).2.2 = EVENTLOG_BACKWARDS_READ := by
        have hw : (if metric.lastlogsize > F + n - 1 then toDWORD metric.lastlogsize
            else metric.lastlogsize) = metric.lastlogsize := if_neg (by omega)
        unfold normalise
        simp only [hw]
        rw [if_neg (by omega)]
        simp only
        split_ifs
        · exact Or.inl rfl
        · exact Or.inr rfl
      have hne0 : ¬ 0 = (normalise F (F + n - 1) metric.lastlogsize).2.2 := by
        rcases hdir with h | h <;> rw [h] <;> decide
      rw [if_neg hne0, hn1.2, hadd, if_neg (by omega)]
      obtain ⟨st1, p, hs, hp, hpj⟩ := seek_eventlog_sound env name (enough os)
        (metric.lastlogsize + 1) (normalise F (F + n - 1) metric.lastlogsize).2.2 (F + n - 1) os
        (64 * ZBX_KIBIBYTE) error F n (metric.lastlogsize + 1 - F) hS hf (by omega) (by omega)
        rfl hdir (by unfold enough; rw [hlen]; omega)
      refine ⟨st1, p, metric.lastlogsize, hs, hp, hpj, hn1.1, rfl, ?_⟩
      have := seek_eventlog_preserved _ _ _ _ _ _ _ _ _ hs
      exact this.2.1
  obtain ⟨st1, p, w, hs, ⟨hp1, hp2, hp3, hp4, hp5⟩, hpj, hw, ht, hfl⟩ := hsought
  rw [hs]
  simp only
  rw [if_neg (fun h => h rfl), hp3, if_neg (by decide), hw, ht]
  obtain ⟨st2, hloop, herr⟩ := read_loop_flat env name metric.refresh (metric.lastlogsize + 1)
    (enough os) st1 ⟨w, 0, dispatch0 metric sent sev0⟩ hp1 hp3.symm (by
      have := loop_measure_le st1
      have hl : st1.os.records.length = n := by rw [hp2]; exact hlen
      rw [hp1] at this
      simp only [List.length_nil] at this
      unfold enough
      omega)
  rw [show (⟨metric.lastlogsize, sent, 0, 0, SUCCEED, sev0, [], []⟩ : Dispatch) =
    dispatch0 metric sent sev0 from rfl, hloop]
  simp only
  refine ⟨w, st2.buffer_size, ?_⟩
  rw [herr, hp4, hp5]
  have hskipped := parse_buffer_skip env metric.refresh (metric.lastlogsize + 1) (by omega)
    (os.records.drop p) (F + p) ⟨w, 0, dispatch0 metric sent sev0⟩
    (drop_numbered os.records F p (by rw [hlen]; exact hS.numbered)) (by omega) rfl
  simp only at hskipped ⊢
  rw [hskipped, List.drop_drop]
  rw [show p + (metric.lastlogsize + 1 - (F + p)) = metric.lastlogsize + 1 - F by omega]
  rfl

/-! ## Resumability (C1) -/

theorem process_record_steps (env : Env) (refresh : Int) (F : Nat) (r : EVENTLOGRECORD)
    (l : Locals) :
    ∃ s, (process_record env refresh F r l).1.d.steps = l.d.steps ++ [s] ∧
      s.id = r.RecordNumber ∧
      s.call = legacy_event r (if 0 = l.timestamp then F else add64 l.lastlogsize 1)
        l.d.str_severity := by
  obtain ⟨-, -, hd, -⟩ := process_record_fields env refresh F r l
  obtain ⟨hs, -⟩ := dispatch_record_facts env refresh l.d r.RecordNumber
    (legacy_event r (if 0 = l.timestamp then F else add64 l.lastlogsize 1) l.d.str_severity)
    (severity_switch r.EventType l.d.str_severity).2
  rw [hd, hs]
  exact ⟨_, rfl, rfl, rfl⟩

/-- The record loop only appends to the list of processed records. -/
theorem parse_buffer_steps_prefix (env : Env) (refresh : Int) (F : Nat) :
    ∀ (xs : List EVENTLOGRECORD) (l : Locals),
      ∃ ext, (parse_buffer env refresh F xs l).1.d.steps = l.d.steps ++ ext := by
  intro xs
  induction xs with
  | nil => intro l; exact ⟨[], by simp [parse_buffer]⟩
  | cons r rest ih =>
    intro l
    rw [parse_buffer_cons]
    split_ifs with hc hs
    · obtain ⟨s, h, -⟩ := process_record_steps env refresh F r l
      exact ⟨[s], h⟩
    · obtain ⟨s, h, -⟩ := process_record_steps env refresh F r l
      obtain ⟨ext, he⟩ := ih (process_record env refresh F r l).1
      exact ⟨s :: ext, by rw [he, h]; simp⟩
    · exact ih l

theorem drop_head_numbered (rs : List EVENTLOGRECORD) (F n j : Nat)
    (h : rs.map (fun r => r.RecordNumber) = List.range' F n) (hj : j < n) :
    ∃ r rest, rs.drop j = r :: rest ∧ rs[j]? = some r ∧ r.RecordNumber = F + j := by
  have hlen : rs.length = n := by
    have := congrArg List.length h
    simpa using this
  rcases hd : rs.drop j with _ | ⟨r, rest⟩
  · have := congrArg List.length hd
    simp only [List.length_drop, List.length_nil] at this
    omega
  · refine ⟨r, rest, rfl, ?_, ?_⟩
    · have := congrArg List.head? hd
      simp only [List.head?_drop, List.head?_cons] at this
      exact this
    · have hn := drop_numbered rs F j (by rw [hlen]; exact h)
      rw [hd] at hn
      simp only [List.map_cons, List.length_cons, List.range'_succ, List.cons.injEq] at hn
      exact hn.1

/-- C1. Resumability (legacy back end): on every log whose `n ≥ 1` records
carry the contiguous record numbers `FirstID = F, …, LastID = F + n - 1`, for
every checkpoint `c` with `FirstID - 1 ≤ c < LastID` and on each of the three
paths (direct seek accepted, direct seek rejected with the forward direction,
backward skip-and-count fallback after a rejected seek), the cycle returns and
the first record it decodes and offers to the filter is the record of the log
whose `RecordNumber` is `c + 1`, carrying the checkpoint value `c + 1`; for
`c = LastID` the cycle returns `SUCCEED` without decoding any record. -/
theorem resumability (env : Env) (os : EventLogOS) (name : String)
    (metric : ZBX_ACTIVE_METRIC) (sent : Nat) (error : Option String) (sev0 : String)
    (F n : Nat) (hname : name ≠ "") (hskip : ¬ 1 = metric.skip_old_data) (hS : Sound os F n)
    (hn : 0 < n) (hf : SeekAnswer os) (hreset : metric.lastlogsize < F → os.faults = []) :
    (F ≤ metric.lastlogsize + 1 → metric.lastlogsize + 1 ≤ F + n - 1 →
      ∃ o r s rest, process_eventslog env os (some name) metric sent error sev0 = some o ∧
        os.records[metric.lastlogsize + 1 - F]? = some r ∧
        r.RecordNumber = metric.lastlogsize + 1 ∧
        o.steps = s :: rest ∧ s.id = metric.lastlogsize + 1 ∧
        s.call = legacy_event r (metric.lastlogsize + 1) sev0) ∧
    (metric.lastlogsize = F + n - 1 →
      ∃ o, process_eventslog env os (some name) metric sent error sev0 = some o ∧
        o.steps = [] ∧ o.calls = [] ∧ o.ret = SUCCEED ∧ o.metric = metric) := by
  constructor
  · intro h1 h2
    obtain ⟨w, bs, ho⟩ := legacy_cycle_sound env os name metric sent error sev0 F n hname hskip
      hS hf hreset h1 h2
    obtain ⟨r, rest, hd, hget, hnum⟩ := drop_head_numbered os.records F n
      (metric.lastlogsize + 1 - F) hS.numbered (by omega)
    have hnum' : r.RecordNumber = metric.lastlogsize + 1 := by rw [hnum]; omega
    have hb := hS.below
    have hmatch : (0 : Nat) ≠ 0 ∨ toDWORD (metric.lastlogsize + 1) = r.RecordNumber := by
      right
      rw [hnum']
      exact Nat.mod_eq_of_lt (by omega)
    obtain ⟨s, hs, hid, hcall⟩ := process_record_steps env metric.refresh
      (metric.lastlogsize + 1) r ⟨w, 0, dispatch0 metric sent sev0⟩
    have hsteps : ∃ ext, (parse_buffer env metric.refresh (metric.lastlogsize + 1)
        (os.records.drop (metric.lastlogsize + 1 - F))
        ⟨w, 0, dispatch0 metric sent sev0⟩).1.d.steps = s :: ext := by
      rw [hd, parse_buffer_cons, if_pos hmatch]
      split_ifs with hstop
      · exact ⟨[], by rw [hs]; rfl⟩
      · obtain ⟨ext, he⟩ := parse_buffer_steps_prefix env metric.refresh
          (metric.lastlogsize + 1) rest
          (process_record env metric.refresh (metric.lastlogsize + 1) r
            ⟨w, 0, dispatch0 metric sent sev0⟩).1
        exact ⟨ext, by rw [he, hs]; rfl⟩
    obtain ⟨ext, hext⟩ := hsteps
    refine ⟨_, r, s, ext, ho, hget, hnum', hext, by rw [hid, hnum'], ?_⟩
    rw [hcall]
    rfl
  · intro hc
    have hb := hS.below
    have hn1 := normalise_in_range F (F + n - 1) metric.lastlogsize (by omega) (by omega)
    have hadd : add64 metric.lastlogsize 1 = metric.lastlogsize + 1 := by
      unfold add64; omega
    have hne0 : ¬ 0 = (normalise F (F + n - 1) metric.lastlogsize).2.2 := by
      have hw : (if metric.lastlogsize > F + n - 1 then toDWORD metric.lastlogsize
          else metric.lastlogsize) = metric.lastlogsize := if_neg (by omega)
      unfold normalise
      simp only [hw]
      rw [if_neg (by omega)]
      simp only
      split_ifs <;> decide
    unfold process_eventslog
    simp only
    rw [if_neg hname, hS.window hn]
    simp only
    rw [if_neg hskip, if_neg hne0, hn1.2, hadd, if_pos (by omega)]
    simp only
    rw [if_neg (fun h => h rfl)]
    simp only [if_true]
    exact ⟨_, rfl, rfl, rfl, rfl, rfl⟩

/-- The example logs are well kept. -/
theorem demo_os_sound (F n : Nat) (faults : List (Option Fault)) (h : F + n < 2 ^ 32) :
    Sound (demo_os F n faults) F n := by
  refine ⟨rfl, rfl, rfl, ?_, h, ?_⟩
  · simp only [demo_os, demo_log, List.map_map]
    rw [List.range'_eq_map_range]
    rfl
  · intro r hr
    simp only [demo_os, demo_log, List.mem_map] at hr
    obtain ⟨i, -, hi⟩ := hr
    rw [← hi]
    simp [demo_record]

/-- Witness for `resumability`: the log `[100, 150]` read from checkpoint 120
when the system rejects the positioned read, which is the backward fallback. -/
theorem resumability_witness :
    ∃ o r s rest,
      process_eventslog (demo_env ⟨"", "", "", ""⟩ 10)
        (demo_os 100 51 [some ⟨ERROR_INVALID_PARAMETER, 0⟩]) (some "System") ⟨120, 0, 1⟩ 0 none
        "" = some o ∧
      (demo_os 100 51 [some ⟨ERROR_INVALID_PARAMETER, 0⟩]).records[120 + 1 - 100]? = some r ∧
      r.RecordNumber = 120 + 1 ∧ o.steps = s :: rest ∧ s.id = 120 + 1 ∧
      s.call = legacy_event r (120 + 1) "" :=
  (resumability (demo_env ⟨"", "", "", ""⟩ 10)
    (demo_os 100 51 [some ⟨ERROR_INVALID_PARAMETER, 0⟩]) "System" ⟨120, 0, 1⟩ 0 none "" 100 51
    (by decide) (by decide) (demo_os_sound 100 51 _ (by norm_num)) (by decide)
    (Or.inr ⟨0, rfl⟩) (fun h => absurd h (by decide))).1 (by decide) (by decide)

/-! ## Cycles in which every record is sent -/

theorem range'_concat (t i : Nat) : List.range' t i ++ [t + i] = List.range' t (i + 1) := by
  rw [List.range'_concat]
  simp

/-- One record of a willing cycle. -/
theorem process_record_delivered (env : Env) (refresh : Int) (t c0 i m : Nat)
    (r : EVENTLOGRECORD) (l : Locals) (hw : Willing env) (hR : Budgeted env refresh m)
    (hnum : r.RecordNumber = t + i) (hts : r.TimeGenerated ≠ 0)
    (hb : t + i < 2 ^ 32) (h : Delivered t c0 i l) :
    Delivered t c0 (i + 1) (process_record env refresh t r l).1 ∧
    ((process_record env refresh t r l).2 = Flow.next ↔ i + 1 < m) := by
  obtain ⟨hl, hts', hd, hf⟩ := process_record_fields env refresh t r l
  have hnew : (if 0 = l.timestamp then t else add64 l.lastlogsize 1) = t + i := by
    by_cases h0 : i = 0
    · rw [if_pos (h.idle h0).1.symm, h0]; rfl
    · have hg := h.going (by omega)
      rw [if_neg (fun e => hg.1 e.symm), hg.2.1]
      unfold add64
      omega
  rw [hnew] at hl hd hf
  obtain ⟨hs, hc, hp, hsc, -, hm, -, -, hflow⟩ := dispatch_record_facts env refresh l.d
    r.RecordNumber (legacy_event r (t + i) l.d.str_severity)
    (severity_switch r.EventType l.d.str_severity).2
  have hpass := hw.pass (legacy_event r (t + i) l.d.str_severity).value
    (severity_switch r.EventType l.d.str_severity).2
    (legacy_event r (t + i) l.d.str_severity).source
    (legacy_event r (t + i) l.d.str_severity).logeventid
  have hres : send_result env l.d (legacy_event r (t + i) l.d.str_severity)
      (severity_switch r.EventType l.d.str_severity).2 = SUCCEED := by
    unfold send_result
    rw [if_pos hpass]
    exact hw.sink _ _
  have hev : (legacy_event r (t + i) l.d.str_severity).lastlogsize = t + i := rfl
  rw [hpass, hres] at hs hsc
  rw [hpass] at hc
  rw [hres] at hm hflow
  simp only [if_true, and_self, true_and] at hc hsc hm hflow
  constructor
  · refine ⟨?_, ?_, ?_, ?_, ?_, ?_, ?_⟩
    · rw [hd, hsc, h.s_count]; push_cast; ring
    · rw [hd, hp, h.p_count]; push_cast; ring
    · rw [hd, hs, List.map_append, h.ids]
      simp only [List.map_cons, List.map_nil, hev]
      exact range'_concat t i
    · rw [hd, hs, List.map_append, h.numbers]
      simp only [List.map_cons, List.map_nil, hnum]
      exact range'_concat t i
    · rw [hd, hc, List.map_append, h.calls]
      simp only [List.map_cons, List.map_nil, hev]
      exact range'_concat t i
    · intro h0; omega
    · intro _
      refine ⟨by rw [hts']; exact hts, by rw [hl]; omega, ?_⟩
      rw [hd, hm, hev]; omega
  · rw [hf, hflow, hsc, hp, h.s_count, h.p_count, hR.1]
    constructor
    · intro hlt
      have := hlt.1
      omega
    · intro hlt
      constructor
      · omega
      · have : processed_budget env.rate refresh = 4 * (m : Int) := hR.2
        rw [this]
        omega

/-- A buffer of consecutively numbered records in a willing cycle: records
are sent one after the other until the buffer ends or `m` records were
sent, whichever comes first. -/
theorem parse_buffer_delivered (env : Env) (refresh : Int) (t c0 m : Nat) (hw : Willing env)
    (hR : Budgeted env refresh m) :
    ∀ (xs : List EVENTLOGRECORD) (i : Nat) (l : Locals), Delivered t c0 i l → i < m →
      xs.map (fun r => r.RecordNumber) = List.range' (t + i) xs.length →
      (∀ r ∈ xs, r.TimeGenerated ≠ 0) → t + i + xs.length ≤ 2 ^ 32 →
      Delivered t c0 (i + min (m - i) xs.length) (parse_buffer env refresh t xs l).1 ∧
      ((parse_buffer env refresh t xs l).2 = Flow.stop ↔ m - i ≤ xs.length) := by
  intro xs
  induction xs with
  | nil =>
    intro i l h hi _ _ _
    simp only [parse_buffer, List.length_nil, Nat.min_zero, Nat.add_zero]
    refine ⟨h, ?_⟩
    constructor
    · intro hh; cases hh
    · intro hh; omega
  | cons r rest ih =>
    intro i l h hi hnum hts hb
    simp only [List.map_cons, List.length_cons, List.range'_succ, List.cons.injEq] at hnum
    simp only [List.length_cons] at hb ⊢
    obtain ⟨hr, hrest⟩ := hnum
    have hcond : 0 ≠ l.timestamp ∨ toDWORD t = r.RecordNumber := by
      by_cases h0 : i = 0
      · right
        rw [hr, h0]
        unfold toDWORD
        omega
      · left
        exact fun e => (h.going (by omega)).1 e.symm
    obtain ⟨hD, hflow⟩ := process_record_delivered env refresh t c0 i m r l hw hR hr
      (hts r (List.mem_cons_self _ _)) (by omega) h
    rw [parse_buffer_cons, if_pos hcond]
    by_cases hlast : i + 1 < m
    · have hne : ¬ (process_record env refresh t r l).2 = Flow.stop := by
        rw [hflow.2 hlast]
        intro hh; cases hh
      rw [if_neg hne]
      have := ih (i + 1) (process_record env refresh t r l).1 hD hlast
        (by rw [hrest, Nat.add_assoc]) (fun x hx => hts x (List.mem_cons_of_mem _ hx))
        (by omega)
      have e1 : i + 1 + min (m - (i + 1)) rest.length = i + min (m - i) (rest.length + 1) := by
        omega
      rw [e1] at this
      refine ⟨this.1, ?_⟩
      rw [this.2]
      omega
    · have hst : (process_record env refresh t r l).2 = Flow.stop := by
        rcases hx : (process_record env refresh t r l).2 with _ | _
        · exact absurd (hflow.1 hx) hlast
        · rfl
      rw [if_pos hst]
      have e1 : i + min (m - i) (rest.length + 1) = i + 1 := by omega
      rw [e1]
      refine ⟨hD, ?_⟩
      constructor
      · intro _; omega
      · intro _; exact hst

/-- One record of a willing cycle, at the level of the dispatch variables. -/
theorem dispatch_record_sent (env : Env) (refresh : Int) (t c0 i m : Nat) (d : Dispatch)
    (id : Nat) (ev : SinkCall) (sev : String) (hw : Willing env)
    (hR : Budgeted env refresh m) (hid : id = t + i) (hev : ev.lastlogsize = t + i)
    (h : Sent t c0 i d) :
    Sent t c0 (i + 1) (dispatch_record env refresh d id ev sev).1 ∧
    ((dispatch_record env refresh d id ev sev).2 = Flow.next ↔ i + 1 < m) := by
  obtain ⟨hs, hc, hp, hsc, -, hm, -, -, hflow⟩ := dispatch_record_facts env refresh d id ev sev
  have hpass := hw.pass ev.value sev ev.source ev.logeventid
  have hres : send_result env d ev sev = SUCCEED := by
    unfold send_result
    rw [if_pos hpass]
    exact hw.sink _ _
  rw [hpass, hres] at hs hsc
  rw [hpass] at hc
  rw [hres] at hm hflow
  simp only [if_true, and_self, true_and] at hc hsc hm hflow
  constructor
  · refine ⟨?_, ?_, ?_, ?_, ?_, ?_, ?_⟩
    · rw [hsc, h.s_count]; push_cast; ring
    · rw [hp, h.p_count]; push_cast; ring
    · rw [hs, List.map_append, h.ids]
      simp only [List.map_cons, List.map_nil, hev]
      exact range'_concat t i
    · rw [hs, List.map_append, h.numbers]
      simp only [List.map_cons, List.map_nil, hid]
      exact range'_concat t i
    · rw [hc, List.map_append, h.calls]
      simp only [List.map_cons, List.map_nil, hev]
      exact range'_concat t i
    · intro h0; omega
    · intro _
      rw [hm, hev]; omega
  · rw [hflow, hsc, hp, h.s_count, h.p_count, hR.1]
    constructor
    · intro hlt
      have := hlt.1
      omega
    · intro hlt
      constructor
      · omega
      · have : processed_budget env.rate refresh = 4 * (m : Int) := hR.2
        rw [this]
        omega

/-- An event that `EvtRender` decodes is numbered with its own record id and
handed to the dispatch step. -/
theorem process_event6_ok (env : Env) (refresh : Int) (e : EVENT6) (l : Locals6)
    (h : e.render_err = none) :
    ∃ p, p.which = e.EventRecordID % 2 ^ 64 ∧
      (process_event6 env refresh e l).1.d = (dispatch_record env refresh l.d e.EventRecordID
        (modern_event p l.d.str_severity)
        (severity_switch6 p.out_severity p.out_keywords l.d.str_severity).2).1 ∧
      (process_event6 env refresh e l).1.error = l.error ∧
      (process_event6 env refresh e l).2 ≠ Flow6.out ∧
      ((process_event6 env refresh e l).2 = Flow6.next ↔
        (dispatch_record env refresh l.d e.EventRecordID (modern_event p l.d.str_severity)
          (severity_switch6 p.out_severity p.out_keywords l.d.str_severity).2).2 = Flow.next) := by
  rcases hz : zbx_parse_eventlog_message6 env e (add64 l.lastlogsize 1) with msg | p
  · unfold zbx_parse_eventlog_message6 at hz
    rw [h] at hz
    simp at hz
  · refine ⟨p, parse6_which env e _ p hz, ?_⟩
    unfold process_event6
    simp only [hz]
    rcases hd : dispatch_record env refresh l.d e.EventRecordID (modern_event p l.d.str_severity)
      (severity_switch6 p.out_severity p.out_keywords l.d.str_severity).2 with ⟨d1, f⟩
    cases f
    · simp
    · simp

/-- The loop over a batch, one event unfolded. -/
theorem parse_batch6_cons (env : Env) (refresh : Int) (e : EVENT6) (rest : List EVENT6)
    (l : Locals6) :
    parse_batch6 env refresh (e :: rest) l =
      (if (process_event6 env refresh e l).2 = Flow6.next then
        parse_batch6 env refresh rest (process_event6 env refresh e l).1
        else process_event6 env refresh e l) := by
  rw [parse_batch6]
  rcases hx : process_event6 env refresh e l with ⟨l1, f⟩
  cases f <;> simp

/-- Two batches in a row are one batch, unless the first one ends the loop. -/
theorem parse_batch6_append (env : Env) (refresh : Int) :
    ∀ (xs ys : List EVENT6) (l : Locals6),
      parse_batch6 env refresh (xs ++ ys) l =
        (if (parse_batch6 env refresh xs l).2 = Flow6.next then
          parse_batch6 env refresh ys (parse_batch6 env refresh xs l).1
          else parse_batch6 env refresh xs l) := by
  intro xs
  induction xs with
  | nil => intro ys l; simp [parse_batch6]
  | cons e rest ih =>
    intro ys l
    rw [List.cons_append, parse_batch6_cons, parse_batch6_cons]
    by_cases h : (process_event6 env refresh e l).2 = Flow6.next
    · rw [if_pos h, if_pos h]
      exact ih ys _
    · rw [if_neg h, if_neg h, if_neg h]

/-- Without failures of `EvtNext`, the reading loop of the modern back end is
the loop over all events of the query taken as one batch. -/
theorem read_loop6_flat (env : Env) (refresh : Int) :
    ∀ (fuel : Nat) (q : List EVENT6) (l : Locals6), q.length < fuel →
      read_loop6 env refresh fuel q [] l =
        some (if (parse_batch6 env refresh q l).2 = Flow6.out then FAIL else SUCCEED,
          (parse_batch6 env refresh q l).1) := by
  intro fuel
  induction fuel with
  | zero => intro q l h; omega
  | succ k ih =>
    intro q l h
    rcases q with _ | ⟨e, rest⟩
    · simp [read_loop6, EvtNext, parse_batch6]
    · have hsplit : e :: rest = (e :: rest).take EVT_ARRAY_SIZE ++ (e :: rest).drop EVT_ARRAY_SIZE :=
        (List.take_append_drop _ _).symm
      have hdrop : ((e :: rest).drop EVT_ARRAY_SIZE).length < k := by
        simp only [List.length_drop, List.length_cons, EVT_ARRAY_SIZE] at h ⊢
        omega
      have hnext := ih ((e :: rest).drop EVT_ARRAY_SIZE)
        (parse_batch6 env refresh ((e :: rest).take EVT_ARRAY_SIZE) l).1 hdrop
      have happ := parse_batch6_append env refresh ((e :: rest).take EVT_ARRAY_SIZE)
        ((e :: rest).drop EVT_ARRAY_SIZE) l
      rw [← hsplit] at happ
      rw [happ]
      unfold read_loop6 EvtNext
      simp only [List.tail_nil]
      rcases hb : parse_batch6 env refresh ((e :: rest).take EVT_ARRAY_SIZE) l with ⟨l1, f⟩
      rw [hb] at hnext
      cases f
      · simpa using hnext
      · simp
      · simp

theorem Sound6.events_length {os : EventLog6OS} {F n : Nat} (h : Sound6 os F n) :
    os.events.length = n := by
  have := congrArg List.length h.numbered
  simpa using this

/-- The query `EventRecordID > c` on contiguously numbered events drops the
events up to `c`. -/
theorem filter_numbered (c : Nat) :
    ∀ (xs : List EVENT6) (F : Nat),
      xs.map (fun e => e.EventRecordID) = List.range' F xs.length → F + xs.length < 2 ^ 64 →
      xs.filter (fun e => decide (e.EventRecordID % 2 ^ 64 > c)) = xs.drop (c + 1 - F) := by
  intro xs
  induction xs with
  | nil => intro F _ _; simp
  | cons e rest ih =>
    intro F hnum hb
    simp only [List.map_cons, List.length_cons, List.range'_succ, List.cons.injEq] at hnum hb
    obtain ⟨he, hrest⟩ := hnum
    have hmod : e.EventRecordID % 2 ^ 64 = F := by
      rw [he]
      exact Nat.mod_eq_of_lt (by omega)
    by_cases hc : F > c
    · have hall : ∀ x ∈ rest, decide (x.EventRecordID % 2 ^ 64 > c) = true := by
        intro x hx
        have hx1 : x.EventRecordID ∈ List.range' (F + 1) rest.length := by
          rw [← hrest]
          exact List.mem_map_of_mem _ hx
        rw [List.mem_range'_1] at hx1
        rw [Nat.mod_eq_of_lt (by omega)]
        exact decide_eq_true (by omega)
      rw [show c + 1 - F = 0 by omega, List.drop_zero, List.filter_cons, hmod,
        if_pos (decide_eq_true hc), List.filter_eq_self.2 hall]
    · rw [List.filter_cons, hmod, if_neg (by simpa using hc), ih (F + 1) hrest (by omega)]
      rw [show c + 1 - F = (c + 1 - (F + 1)) + 1 by omega, List.drop_succ_cons]

/-- The events left after the first `p` of a contiguously numbered list. -/
theorem drop_numbered6 (es : List EVENT6) (F p : Nat)
    (h : es.map (fun e => e.EventRecordID) = List.range' F es.length) :
    (es.drop p).map (fun e => e.EventRecordID) = List.range' (F + p) (es.drop p).length := by
  induction p generalizing es F with
  | zero => simpa using h
  | succ k ih =>
    cases es with
    | nil => simp
    | cons e rest =>
      simp only [List.map_cons, List.length_cons, List.range'_succ, List.cons.injEq] at h
      rw [List.drop_succ_cons, show F + (k + 1) = (F + 1) + k by omega]
      exact ih rest (F + 1) h.2

/-- Opening a well-kept channel with a checkpoint below `FirstID + numIDs`:
the window is `(F, F + n)`, the checkpoint is kept and the query holds the
events after it. -/
theorem initialize6_sound (env : Env) (os : EventLog6OS) (name : String) (c : Nat)
    (error : Option String) (F n : Nat) (hname : name ≠ "") (hS : Sound6 os F n) (hn : 0 < n)
    (hc : c < F + n) :
    initialize_eventlog6 env os (some name) c 0 0 none error =
      ⟨SUCCEED, c, F, F + n, some (os.events.drop (c + 1 - F)), error⟩ := by
  have hb := hS.below
  have hlen := hS.events_length
  obtain ⟨e, rest, he⟩ : ∃ e rest, os.events = e :: rest := by
    rcases hx : os.events with _ | ⟨e, rest⟩
    · rw [hx] at hlen
      simp at hlen
      omega
    · exact ⟨e, rest, rfl⟩
  have hnum := hS.numbered
  rw [he, ← hlen, he] at hnum
  simp only [List.map_cons, List.length_cons, List.range'_succ, List.cons.injEq] at hnum
  have hr : e.render_err = none := hS.rendered e (by rw [he]; exact List.mem_cons_self _ _)
  have hF : e.EventRecordID % 2 ^ 64 = F := by
    rw [hnum.1]
    exact Nat.mod_eq_of_lt (by omega)
  have hL : add64 F (n % 2 ^ 64) = F + n := by
    unfold add64
    rw [Nat.mod_eq_of_lt (show n < 2 ^ 64 by omega)]
    exact Nat.mod_eq_of_lt hb
  have hopen : zbx_open_eventlog6 env os name c error = ⟨SUCCEED, c, F, F + n, error⟩ := by
    unfold zbx_open_eventlog6
    simp only [hS.open_ok, hS.info_ok, hS.context_ok, hS.query_all_ok, hS.first_next_ok, he, hr,
      hF, hS.count, hL]
    rw [if_neg (by omega)]
  have hq : zbx_get_handle_eventlog6 env os c = Except.ok (os.events.drop (c + 1 - F)) := by
    unfold zbx_get_handle_eventlog6
    simp only [hS.query_ok]
    rw [filter_numbered c os.events F (by rw [hlen]; exact hS.numbered) (by omega)]
  unfold initialize_eventlog6
  simp only [hopen, hq]
  rw [if_neg hname, if_neg (fun h => h rfl)]

/-- A cycle of the modern back end on a well-kept channel, from a checkpoint
`c` with at least one event after it: the result is that of the loop run over
the events after `c` taken as one batch. -/
theorem modern_cycle_sound (env : Env) (os : EventLog6OS) (name : String)
    (metric : ZBX_ACTIVE_METRIC) (sent : Nat) (error : Option String) (sev0 : String)
    (F n : Nat) (hname : name ≠ "") (hskip : ¬ 1 = metric.skip_old_data) (hS : Sound6 os F n)
    (hn : 0 < n) (hc : metric.lastlogsize + 1 < F + n) :
    eventlog6_cycle env os (some name) metric sent error sev0 =
      some (outcome_of metric
        (if (parse_batch6 env metric.refresh (os.events.drop (metric.lastlogsize + 1 - F))
            ⟨metric.lastlogsize, error, dispatch0 metric sent sev0⟩).2 = Flow6.out then FAIL
          else SUCCEED)
        (parse_batch6 env metric.refresh (os.events.drop (metric.lastlogsize + 1 - F))
            ⟨metric.lastlogsize, error, dispatch0 metric sent sev0⟩).1.error
        (parse_batch6 env metric.refresh (os.events.drop (metric.lastlogsize + 1 - F))
            ⟨metric.lastlogsize, error, dispatch0 metric sent sev0⟩).1.d 0) := by
  have hb := hS.below
  have hstart : ¬ reading_startpoint metric.lastlogsize F (F + n) = F + n := by
    unfold reading_startpoint add64
    split_ifs <;> omega
  unfold eventlog6_cycle
  simp only
  rw [initialize6_sound env os name metric.lastlogsize error F n hname hS hn (by omega)]
  simp only
  rw [if_neg (fun h => h rfl)]
  unfold process_eventslog6
  simp only
  rw [if_neg hskip, if_neg hstart, hS.quiet, read_loop6_flat env metric.refresh _ _ _ (Nat.lt_succ_self _)]
  rfl

/-- A batch of consecutively numbered events in a willing cycle: events are
sent one after the other until the batch ends or `m` events were sent,
whichever comes first; no decode fails. -/
theorem parse_batch6_delivered (env : Env) (refresh : Int) (t c0 m : Nat) (hw : Willing env)
    (hR : Budgeted env refresh m) :
    ∀ (xs : List EVENT6) (i : Nat) (l : Locals6), Sent t c0 i l.d → i < m →
      xs.map (fun e => e.EventRecordID) = List.range' (t + i) xs.length →
      (∀ e ∈ xs, e.render_err = none) → t + i + xs.length ≤ 2 ^ 64 →
      Sent t c0 (i + min (m - i) xs.length) (parse_batch6 env refresh xs l).1.d ∧
      (parse_batch6 env refresh xs l).1.error = l.error ∧
      (parse_batch6 env refresh xs l).2 ≠ Flow6.out := by
  intro xs
  induction xs with
  | nil =>
    intro i l h hi _ _ _
    have e0 : i + min (m - i) ([] : List EVENT6).length = i := by simp
    rw [e0]
    exact ⟨h, rfl, by simp [parse_batch6]⟩
  | cons e rest ih =>
    intro i l h hi hnum hr hb
    simp only [List.map_cons, List.length_cons, List.range'_succ, List.cons.injEq] at hnum
    simp only [List.length_cons] at hb ⊢
    obtain ⟨he, hrest⟩ := hnum
    obtain ⟨p, hp, hd, herr, hout, hflow⟩ := process_event6_ok env refresh e l
      (hr e (List.mem_cons_self _ _))
    have hev : (modern_event p l.d.str_severity).lastlogsize = t + i := by
      show p.which = t + i
      rw [hp, he]
      exact Nat.mod_eq_of_lt (by omega)
    obtain ⟨hD, hnext⟩ := dispatch_record_sent env refresh t c0 i m l.d e.EventRecordID
      (modern_event p l.d.str_severity)
      (severity_switch6 p.out_severity p.out_keywords l.d.str_severity).2 hw hR he hev h
    rw [← hd] at hD
    rw [parse_batch6_cons]
    by_cases hlast : i + 1 < m
    · rw [if_pos (hflow.2 (hnext.2 hlast))]
      have := ih (i + 1) (process_event6 env refresh e l).1 hD hlast
        (by rw [hrest, Nat.add_assoc]) (fun x hx => hr x (List.mem_cons_of_mem _ hx))
        (by omega)
      have e1 : i + 1 + min (m - (i + 1)) rest.length = i + min (m - i) (rest.length + 1) := by
        omega
      rw [e1, herr] at this
      exact this
    · have hst : ¬ (process_event6 env refresh e l).2 = Flow6.next :=
        fun hh => hlast (hnext.1 (hflow.1 hh))
      rw [if_neg hst]
      have e1 : i + min (m - i) (rest.length + 1) = i + 1 := by omega
      rw [e1]
      exact ⟨hD, herr, hout⟩

/-- Rate limiting on the modern back end: on a well-kept channel with at
least one event after the checkpoint `c`, a willing cycle with the budget
`m = rate * refresh ≥ 1` sends the first `min m r` of the `r` events after
`c`, in order, and ends with the id of the last of them as checkpoint. -/
theorem modern_rate_limited (env : Env) (os : EventLog6OS) (name : String)
    (metric : ZBX_ACTIVE_METRIC) (sent : Nat) (error : Option String) (sev0 : String)
    (F n m : Nat) (hname : name ≠ "") (hskip : ¬ 1 = metric.skip_old_data) (hS : Sound6 os F n)
    (hw : Willing env) (hR : Budgeted env metric.refresh m) (hm : 0 < m) (hn : 0 < n)
    (hc : metric.lastlogsize + 1 < F + n) :
    ∃ o, eventlog6_cycle env os (some name) metric sent error sev0 = some o ∧
      Report o (max (metric.lastlogsize + 1) F)
        (min m (F + n - max (metric.lastlogsize + 1) F)) := by
  have hb := hS.below
  have hlen := hS.events_length
  refine ⟨_, modern_cycle_sound env os name metric sent error sev0 F n hname hskip hS hn hc, ?_⟩
  have hdl : (os.events.drop (metric.lastlogsize + 1 - F)).length =
      F + n - max (metric.lastlogsize + 1) F := by
    rw [List.length_drop, hlen]
    omega
  have hnum := drop_numbered6 os.events F (metric.lastlogsize + 1 - F)
    (by rw [hlen]; exact hS.numbered)
  rw [show F + (metric.lastlogsize + 1 - F) = max (metric.lastlogsize + 1) F + 0 by omega] at hnum
  obtain ⟨hD, -, hout⟩ := parse_batch6_delivered env metric.refresh
    (max (metric.lastlogsize + 1) F) metric.lastlogsize m hw hR
    (os.events.drop (metric.lastlogsize + 1 - F)) 0
    ⟨metric.lastlogsize, error, dispatch0 metric sent sev0⟩
    ⟨rfl, rfl, rfl, rfl, rfl, fun _ => rfl, fun h => absurd h (by decide)⟩ hm hnum
    (fun e he => hS.rendered e (List.mem_of_mem_drop he)) (by rw [hdl]; omega)
  rw [hdl, Nat.zero_add, Nat.sub_zero] at hD
  rw [if_neg hout]
  refine ⟨rfl, hD.ids, hD.numbers, hD.calls, hD.s_count, ?_⟩
  exact hD.going (by omega)

/-- A cycle of the legacy back end on a well-kept log, from a checkpoint
below `FirstID - 1`: the checkpoint is reset and the result is that of the
record loop run over the whole log. -/
theorem legacy_cycle_below (env : Env) (os : EventLogOS) (name : String)
    (metric : ZBX_ACTIVE_METRIC) (sent : Nat) (error : Option String) (sev0 : String)
    (F n : Nat) (hname : name ≠ "") (hskip : ¬ 1 = metric.skip_old_data) (hS : Sound os F n)
    (hn : 0 < n) (hq : os.faults = []) (hlow : metric.lastlogsize < F) :
    ∃ bs, process_eventslog env os (some name) metric sent error sev0 =
      some (outcome_of metric SUCCEED error
        (parse_buffer env metric.refresh F os.records ⟨F, 0, dispatch0 metric sent sev0⟩).1.d
        bs) := by
  have hb := hS.below
  have hlen := hS.length
  have hw : (if metric.lastlogsize > F + n - 1 then toDWORD metric.lastlogsize
      else metric.lastlogsize) = metric.lastlogsize := if_neg (by omega)
  have hnorm : normalise F (F + n - 1) metric.lastlogsize = (F, F, 0) := by
    unfold normalise
    simp only [hw]
    rw [if_pos (Or.inr hlow)]
  unfold process_eventslog
  simp only
  rw [if_neg hname, hS.window hn]
  simp only
  rw [if_neg hskip, hnorm]
  simp only [if_true]
  rw [if_neg (fun h => h rfl), if_neg (by decide)]
  obtain ⟨st2, hloop, herr⟩ := read_loop_flat env name metric.refresh F (enough os)
    ⟨⟨os.open_err, os.dwNumRecords, os.dwOldestRecord, os.records, none, os.faults⟩,
      64 * ZBX_KIBIBYTE, [], 0, ERROR_SUCCESS, error⟩ ⟨F, 0, dispatch0 metric sent sev0⟩ hq rfl (by
      have := loop_measure_le (⟨⟨os.open_err, os.dwNumRecords, os.dwOldestRecord, os.records,
        none, os.faults⟩, 64 * ZBX_KIBIBYTE, [], 0, ERROR_SUCCESS, error⟩ : ReadState)
      simp only [List.length_nil] at this
      unfold enough
      omega)
  rw [ahead_mk] at hloop
  simp only [if_true, List.nil_append] at hloop
  rw [show fpos (⟨os.open_err, os.dwNumRecords, os.dwOldestRecord, os.records, none,
    os.faults⟩ : EventLogOS) = 0 from by simp [fpos], List.drop_zero] at hloop
  rw [show (⟨metric.lastlogsize, sent, 0, 0, SUCCEED, sev0, [], []⟩ : Dispatch) =
    dispatch0 metric sent sev0 from rfl]
  refine ⟨st2.buffer_size, ?_⟩
  have hl2 : read_loop env name metric.refresh F (enough os)
      { (⟨{ os with cur := none }, 64 * ZBX_KIBIBYTE, [], 0, ERROR_SUCCESS, error⟩ : ReadState)
        with dwErr := ERROR_SUCCESS } ⟨F, 0, dispatch0 metric sent sev0⟩ =
      some (SUCCEED, st2, (parse_buffer env metric.refresh F os.records
        ⟨F, 0, dispatch0 metric sent sev0⟩).1) := hloop
  rw [hl2]
  simp only
  rw [herr]
  rfl

/-- The report of a willing legacy cycle whose record loop runs over the
records `xs`, numbered from `t`. -/
theorem report_of_buffer (env : Env) (metric : ZBX_ACTIVE_METRIC) (sent : Nat)
    (error : Option String) (sev0 : String) (t m w bs : Nat) (xs : List EVENTLOGRECORD)
    (hw : Willing env) (hR : Budgeted env metric.refresh m) (hm : 0 < m)
    (hnum : xs.map (fun r => r.RecordNumber) = List.range' t xs.length)
    (hts : ∀ r ∈ xs, r.TimeGenerated ≠ 0) (hb : t + xs.length ≤ 2 ^ 32) (hx : xs ≠ []) :
    Report (outcome_of metric SUCCEED error
      (parse_buffer env metric.refresh t xs ⟨w, 0, dispatch0 metric sent sev0⟩).1.d bs) t
      (min m xs.length) := by
  obtain ⟨hD, -⟩ := parse_buffer_delivered env metric.refresh t metric.lastlogsize m hw hR xs 0
    ⟨w, 0, dispatch0 metric sent sev0⟩
    ⟨rfl, rfl, rfl, rfl, rfl, fun _ => ⟨rfl, rfl⟩, fun h => absurd h (by decide)⟩ hm
    (by simpa using hnum) hts (by omega)
  rw [Nat.zero_add, Nat.sub_zero] at hD
  have hpos : 0 < xs.length := List.length_pos.2 hx
  exact ⟨rfl, hD.ids, hD.numbers, hD.calls, hD.s_count, (hD.going (by omega)).2.2⟩

/-- Rate limiting on the legacy back end: on a well-kept log whose records
have a non-zero `TimeGenerated`, with at least one record after the checkpoint
`c`, a willing cycle with the budget `m = rate * refresh ≥ 1` sends the first
`min m r` of the `r` records after `c`, in order, and ends with the id of the
last of them as checkpoint. -/
theorem legacy_rate_limited (env : Env) (os : EventLogOS) (name : String)
    (metric : ZBX_ACTIVE_METRIC) (sent : Nat) (error : Option String) (sev0 : String)
    (F n m : Nat) (hname : name ≠ "") (hskip : ¬ 1 = metric.skip_old_data) (hS : Sound os F n)
    (hts : ∀ r ∈ os.records, r.TimeGenerated ≠ 0) (hf : SeekAnswer os)
    (hreset : metric.lastlogsize < F → os.faults = [])
    (hw : Willing env) (hR : Budgeted env metric.refresh m) (hm : 0 < m) (hn : 0 < n)
    (hc : metric.lastlogsize + 1 < F + n) :
    ∃ o, process_eventslog env os (some name) metric sent error sev0 = some o ∧
      Report o (max (metric.lastlogsize + 1) F)
        (min m (F + n - max (metric.lastlogsize + 1) F)) := by
  have hb := hS.below
  have hlen := hS.length
  by_cases hlow : metric.lastlogsize < F
  · obtain ⟨bs, ho⟩ := legacy_cycle_below env os name metric sent error sev0 F n hname hskip hS
      hn (hreset hlow) hlow
    refine ⟨_, ho, ?_⟩
    have := report_of_buffer env metric sent error sev0 F m F bs os.records hw hR hm
      (by rw [hlen]; exact hS.numbered) hts (by omega)
      (fun h => by rw [h] at hlen; simp at hlen; omega)
    rw [hlen] at this
    rw [show max (metric.lastlogsize + 1) F = F by omega, show F + n - F = n by omega]
    exact this
  · obtain ⟨w, bs, ho⟩ := legacy_cycle_sound env os name metric sent error sev0 F n hname hskip
      hS hf hreset (by omega) (by omega)
    refine ⟨_, ho, ?_⟩
    have hdl : (os.records.drop (metric.lastlogsize + 1 - F)).length =
        F + n - (metric.lastlogsize + 1) := by
      rw [List.length_drop, hlen]
      omega
    have hnum := drop_numbered os.records F (metric.lastlogsize + 1 - F)
      (by rw [hlen]; exact hS.numbered)
    rw [show F + (metric.lastlogsize + 1 - F) = metric.lastlogsize + 1 by omega] at hnum
    have := report_of_buffer env metric sent error sev0 (metric.lastlogsize + 1) m w bs
      (os.records.drop (metric.lastlogsize + 1 - F)) hw hR hm hnum
      (fun r hr => hts r (List.mem_of_mem_drop hr)) (by rw [hdl]; omega)
      (fun h => by rw [h] at hdl; simp at hdl; omega)
    rw [hdl] at this
    rw [show max (metric.lastlogsize + 1) F = metric.lastlogsize + 1 by omega]
    exact this

/-- With empty patterns the example environment is willing. -/
theorem demo_env_willing (rate : Int) : Willing (demo_env ⟨"", "", "", ""⟩ rate) := by
  constructor
  · intro value sev source id
    simp [filter_match, demo_env, demo_regexp]
  · intro calls ev
    rfl

/-- The records of the example logs have non-zero times. -/
theorem demo_os_times (F n : Nat) (faults : List (Option Fault)) :
    ∀ r ∈ (demo_os F n faults).records, r.TimeGenerated ≠ 0 := by
  intro r hr
  simp only [demo_os, demo_log, List.mem_map] at hr
  obtain ⟨i, -, hi⟩ := hr
  rw [← hi]
  simp [demo_record]

/-- The example channels are well kept. -/
theorem demo_os6_sound (F n : Nat) (h : F + n < 2 ^ 64) : Sound6 (demo_os6 F n []) F n := by
  refine ⟨rfl, rfl, rfl, rfl, rfl, rfl, rfl, ?_, h, ?_, rfl⟩
  · simp only [demo_os6, List.map_map]
    rw [List.range'_eq_map_range]
    rfl
  · intro e he
    simp only [demo_os6, List.mem_map] at he
    obtain ⟨i, -, hi⟩ := he
    rw [← hi]
    rfl

/-! ## Rate limiting, first cycle (C3) -/

/-- C3 (counterexample). Window `[100, 150]`, checkpoint 50, `rate = 10`,
`refresh = 1`, every record passing the filter and the sink never failing:
more than `maxSent = 10` records lie after the checkpoint and the cycle of
either back end sends exactly 10 events, the oldest ones, but the checkpoint
ends at 109, not at `50 + 10`. -/
theorem rate_limit_first_cycle_counterexample :
    (∃ o, process_eventslog (demo_env ⟨"", "", "", ""⟩ 10) (demo_os 100 51 []) (some "System")
        ⟨50, 0, 1⟩ 0 none "" = some o ∧
      o.s_count = 10 ∧ o.calls.length = 10 ∧ ids o = List.range' 100 10 ∧
      o.metric.lastlogsize = 109 ∧ ¬ o.metric.lastlogsize = 50 + 10) ∧
    (∃ o, eventlog6_cycle (demo_env ⟨"", "", "", ""⟩ 10) (demo_os6 100 51 []) (some "System")
        ⟨50, 0, 1⟩ 0 none "" = some o ∧
      o.s_count = 10 ∧ o.calls.length = 10 ∧ ids o = List.range' 100 10 ∧
      o.metric.lastlogsize = 109 ∧ ¬ o.metric.lastlogsize = 50 + 10) :=
  ⟨⟨_, rfl, rfl, rfl, rfl, rfl, by decide⟩, ⟨_, rfl, rfl, rfl, rfl, rfl, by decide⟩⟩

/-- C3 (amended). Rate limiting, first cycle: let the log be well kept with
the window `[F, F + n - 1]` (contiguous ids; on the legacy back end records
with a non-zero `TimeGenerated` and a system that answers the positioned read
or rejects it once), let every record pass the filter and the sink never
fail, and let at least `m = rate * refresh ≥ 1` records lie after the
checkpoint `c`, the oldest of them having the id `t = max (c + 1) F`, where
`4 * m` is in the range of the C type `int`, so that neither budget
expression overflows.  Then the cycle of either back end returns `SUCCEED`, sends exactly `m` events, the
records `t, …, t + m - 1` in order, and ends with the checkpoint `t + m - 1`,
the id of the last record sent; that is `c + m` when `FirstID - 1 ≤ c`. -/
theorem rate_limit_first_cycle (env : Env) (name : String) (metric : ZBX_ACTIVE_METRIC)
    (sent : Nat) (error : Option String) (sev0 : String) (F n m : Nat) (hname : name ≠ "")
    (hskip : ¬ 1 = metric.skip_old_data) (hw : Willing env)
    (hR : env.rate * metric.refresh = (m : Int)) (hm : 1 ≤ m)
    (hfit : 4 * (m : Int) < 2 ^ 31)
    (hroom : max (metric.lastlogsize + 1) F + m ≤ F + n) :
    (∀ os : EventLogOS, Sound os F n → (∀ r ∈ os.records, r.TimeGenerated ≠ 0) →
      SeekAnswer os → (metric.lastlogsize < F → os.faults = []) →
      ∃ o, process_eventslog env os (some name) metric sent error sev0 = some o ∧
        Report o (max (metric.lastlogsize + 1) F) m ∧
        (F ≤ metric.lastlogsize + 1 → o.metric.lastlogsize = metric.lastlogsize + m)) ∧
    (∀ os : EventLog6OS, Sound6 os F n →
      ∃ o, eventlog6_cycle env os (some name) metric sent error sev0 = some o ∧
        Report o (max (metric.lastlogsize + 1) F) m ∧
        (F ≤ metric.lastlogsize + 1 → o.metric.lastlogsize = metric.lastlogsize + m)) := by
  have hk : min m (F + n - max (metric.lastlogsize + 1) F) = m := by omega
  have hB : Budgeted env metric.refresh m := budgets_fit env.rate metric.refresh m hR hfit
  constructor
  · intro os hS hts hf hreset
    obtain ⟨o, ho, hrep⟩ := legacy_rate_limited env os name metric sent error sev0 F n m hname
      hskip hS hts hf hreset hw hB hm (by omega) (by omega)
    rw [hk] at hrep
    refine ⟨o, ho, hrep, fun h => ?_⟩
    rw [hrep.checkpoint]
    omega
  · intro os hS
    obtain ⟨o, ho, hrep⟩ := modern_rate_limited env os name metric sent error sev0 F n m hname
      hskip hS hw hB hm (by omega) (by omega)
    rw [hk] at hrep
    refine ⟨o, ho, hrep, fun h => ?_⟩
    rw [hrep.checkpoint]
    omega

/-- Witness for `rate_limit_first_cycle`: window `[100, 150]`, checkpoint 120,
`rate = 10`, `refresh = 1`; the cycle sends the ten records 121 to 130 and
ends with the checkpoint 130. -/
theorem rate_limit_first_cycle_witness :
    (∃ o, process_eventslog (demo_env ⟨"", "", "", ""⟩ 10) (demo_os 100 51 []) (some "System")
        ⟨120, 0, 1⟩ 0 none "" = some o ∧ Report o 121 10 ∧ o.metric.lastlogsize = 130) ∧
    (∃ o, eventlog6_cycle (demo_env ⟨"", "", "", ""⟩ 10) (demo_os6 100 51 []) (some "System")
        ⟨120, 0, 1⟩ 0 none "" = some o ∧ Report o 121 10 ∧ o.metric.lastlogsize = 130) :=
  have h := rate_limit_first_cycle (demo_env ⟨"", "", "", ""⟩ 10) "System" ⟨120, 0, 1⟩ 0 none ""
    100 51 10 (by decide) (by decide) (demo_env_willing 10) rfl (by decide) (by decide)
    (by decide)
  ⟨(h.1 (demo_os 100 51 []) (demo_os_sound 100 51 [] (by norm_num)) (demo_os_times 100 51 [])
      (Or.inl rfl) (fun _ => rfl)).imp (fun _ ho => ⟨ho.1, ho.2.1, ho.2.2 (by decide)⟩),
    (h.2 (demo_os6 100 51 []) (demo_os6_sound 100 51 (by norm_num))).imp
      (fun _ ho => ⟨ho.1, ho.2.1, ho.2.2 (by decide)⟩)⟩

/-! ## Rate limiting, following cycle (C4) -/

/-- C4 (counterexample). Window `[100, 150]`, `rate = 10`, `refresh = 1`,
every record passing the filter and the sink never failing: the cycle started
at checkpoint 130 invokes the sink ten times, for the ids 131 to 140, and ends
with the checkpoint 140 on either back end; the records 141 to 150 are not
sent in that cycle. -/
theorem following_cycle_counterexample :
    (∃ o, process_eventslog (demo_env ⟨"", "", "", ""⟩ 10) (demo_os 100 51 []) (some "System")
        ⟨130, 0, 1⟩ 0 none "" = some o ∧
      o.calls.map (fun c => c.lastlogsize) = List.range' 131 10 ∧
      o.metric.lastlogsize = 140 ∧ ¬ o.metric.lastlogsize = 150 ∧
      ¬ 150 ∈ o.calls.map (fun c => c.lastlogsize)) ∧
    (∃ o, eventlog6_cycle (demo_env ⟨"", "", "", ""⟩ 10) (demo_os6 100 51 []) (some "System")
        ⟨130, 0, 1⟩ 0 none "" = some o ∧
      o.calls.map (fun c => c.lastlogsize) = List.range' 131 10 ∧
      o.metric.lastlogsize = 140 ∧ ¬ o.metric.lastlogsize = 150 ∧
      ¬ 150 ∈ o.calls.map (fun c => c.lastlogsize)) :=
  ⟨⟨_, rfl, rfl, rfl, by decide, by decide⟩, ⟨_, rfl, rfl, rfl, by decide, by decide⟩⟩

/-- C4 (amended). Rate limiting, following cycles: on every well-kept log
with the window `[100, 150]`, with a budget `rate * refresh = 10`, every
record passing the filter and the sink never failing, the cycle started at
checkpoint 130 sends the ten records 131 to 140 and ends with the checkpoint
140, and one more cycle, started from that checkpoint, sends the ten records
141 to 150 and ends with the checkpoint 150: the two cycles together drain
the ids 131 to 150.  This holds for both back ends. -/
theorem following_cycles_drain (env : Env) (name : String) (refresh : Int) (sent : Nat)
    (error : Option String) (sev0 : String) (hname : name ≠ "") (hw : Willing env)
    (hR : env.rate * refresh = 10) :
    (∀ os : EventLogOS, Sound os 100 51 → (∀ r ∈ os.records, r.TimeGenerated ≠ 0) →
      SeekAnswer os →
      ∃ o1 o2, process_eventslog env os (some name) ⟨130, 0, refresh⟩ sent error sev0 = some o1 ∧
        Report o1 131 10 ∧ o1.metric.lastlogsize = 140 ∧
        process_eventslog env os (some name) ⟨o1.metric.lastlogsize, 0, refresh⟩
          o1.lastlogsize_sent o1.error sev0 = some o2 ∧
        Report o2 141 10 ∧ o2.metric.lastlogsize = 150) ∧
    (∀ os : EventLog6OS, Sound6 os 100 51 →
      ∃ o1 o2, eventlog6_cycle env os (some name) ⟨130, 0, refresh⟩ sent error sev0 = some o1 ∧
        Report o1 131 10 ∧ o1.metric.lastlogsize = 140 ∧
        eventlog6_cycle env os (some name) ⟨o1.metric.lastlogsize, 0, refresh⟩
          o1.lastlogsize_sent o1.error sev0 = some o2 ∧
        Report o2 141 10 ∧ o2.metric.lastlogsize = 150) := by
  have hR : Budgeted env refresh 10 :=
    budgets_fit env.rate refresh 10 (by rw [hR]; rfl) (by decide)
  constructor
  · intro os hS hts hf
    obtain ⟨o1, h1, r1⟩ := legacy_rate_limited env os name ⟨130, 0, refresh⟩ sent error sev0
      100 51 10 hname (by simp) hS hts hf (fun h => absurd h (by simp)) hw hR (by decide)
      (by decide) (by simp)
    have c1 : o1.metric.lastlogsize = 140 := r1.checkpoint
    obtain ⟨o2, h2, r2⟩ := legacy_rate_limited env os name ⟨140, 0, refresh⟩ o1.lastlogsize_sent
      o1.error sev0 100 51 10 hname (by simp) hS hts hf (fun h => absurd h (by simp)) hw hR
      (by decide) (by decide) (by simp)
    refine ⟨o1, o2, h1, r1, c1, ?_, r2, r2.checkpoint⟩
    rw [c1]
    exact h2
  · intro os hS
    obtain ⟨o1, h1, r1⟩ := modern_rate_limited env os name ⟨130, 0, refresh⟩ sent error sev0
      100 51 10 hname (by simp) hS hw hR (by decide) (by decide) (by simp)
    have c1 : o1.metric.lastlogsize = 140 := r1.checkpoint
    obtain ⟨o2, h2, r2⟩ := modern_rate_limited env os name ⟨140, 0, refresh⟩ o1.lastlogsize_sent
      o1.error sev0 100 51 10 hname (by simp) hS hw hR (by decide) (by decide) (by simp)
    refine ⟨o1, o2, h1, r1, c1, ?_, r2, r2.checkpoint⟩
    rw [c1]
    exact h2

/-- Witness for `following_cycles_drain`: the example log and channel
`[100, 150]` with `rate = 10` and `refresh = 1`. -/
theorem following_cycles_drain_witness :
    (∃ o1 o2, process_eventslog (demo_env ⟨"", "", "", ""⟩ 10) (demo_os 100 51 [])
        (some "System") ⟨130, 0, 1⟩ 0 none "" = some o1 ∧
      Report o1 131 10 ∧ o1.metric.lastlogsize = 140 ∧
      process_eventslog (demo_env ⟨"", "", "", ""⟩ 10) (demo_os 100 51 []) (some "System")
        ⟨o1.metric.lastlogsize, 0, 1⟩ o1.lastlogsize_sent o1.error "" = some o2 ∧
      Report o2 141 10 ∧ o2.metric.lastlogsize = 150) ∧
    (∃ o1 o2, eventlog6_cycle (demo_env ⟨"", "", "", ""⟩ 10) (demo_os6 100 51 [])
        (some "System") ⟨130, 0, 1⟩ 0 none "" = some o1 ∧
      Report o1 131 10 ∧ o1.metric.lastlogsize = 140 ∧
      eventlog6_cycle (demo_env ⟨"", "", "", ""⟩ 10) (demo_os6 100 51 []) (some "System")
        ⟨o1.metric.lastlogsize, 0, 1⟩ o1.lastlogsize_sent o1.error "" = some o2 ∧
      Report o2 141 10 ∧ o2.metric.lastlogsize = 150) :=
  have h := following_cycles_drain (demo_env ⟨"", "", "", ""⟩ 10) "System" 1 0 none ""
    (by decide) (demo_env_willing 10) rfl
  ⟨h.1 (demo_os 100 51 []) (demo_os_sound 100 51 [] (by norm_num)) (demo_os_times 100 51 [])
      (Or.inl rfl),
    h.2 (demo_os6 100 51 []) (demo_os6_sound 100 51 (by norm_num))⟩

/-! ## Idempotence (C7) -/

/-- C7 (failing input). Legacy log `[100, 150]` whose record 130 has
`TimeGenerated = 0`, checkpoint 120, a budget of 100 events, every record
passing the filter, the sink never failing.  The first cycle sends the records
121 to 130, skips the records 131 to 150 (none of them has the record number
121 the loop falls back to comparing with) and ends at the end of the log,
well within its budget, with the checkpoint 130.  The second cycle, on the
same log, started from that checkpoint, invokes the sink twenty times and
moves the checkpoint to 150. -/
theorem idempotence_zero_time :
    ∃ o1 o2, process_eventslog (demo_env ⟨"", "", "", ""⟩ 100) (demo_os_zero 100 51 130)
        (some "System") ⟨120, 0, 1⟩ 0 none "" = some o1 ∧
      o1.ret = SUCCEED ∧ o1.s_count = 10 ∧ o1.p_count = 10 ∧
      o1.steps.map (fun s => s.send_err) = List.replicate 10 SUCCEED ∧
      ids o1 = List.range' 121 10 ∧ o1.metric.lastlogsize = 130 ∧
      process_eventslog (demo_env ⟨"", "", "", ""⟩ 100) (demo_os_zero 100 51 130)
        (some "System") ⟨o1.metric.lastlogsize, 0, 1⟩ o1.lastlogsize_sent o1.error "" = some o2 ∧
      o2.calls.length = 20 ∧ ids o2 = List.range' 131 20 ∧ o2.metric.lastlogsize = 150 ∧
      ¬ o2.metric.lastlogsize = o1.metric.lastlogsize :=
  ⟨_, _, rfl, rfl, rfl, rfl, rfl, rfl, rfl, rfl, rfl, rfl, rfl, by decide⟩

/-! ## Wraparound (C8) -/

theorem snoc_inj {α : Type} (xs ys : List α) (a b : α) (h : xs ++ [a] = ys ++ [b]) :
    xs = ys ∧ a = b := by
  have h1 := congrArg List.dropLast h
  have h2 := congrArg List.getLast? h
  simp only [List.dropLast_concat] at h1
  simp at h2
  exact ⟨h1, h2⟩

/-- One record keeps the locals tied to the trace. -/
theorem process_record_tied (env : Env) (refresh : Int) (F : Nat) (r : EVENTLOGRECORD)
    (l : Locals) (h : Tied l) : Tied (process_record env refresh F r l).1 := by
  obtain ⟨hl, hts, -, -⟩ := process_record_fields env refresh F r l
  obtain ⟨s, hs, -, hcall⟩ := process_record_steps env refresh F r l
  have hsl : s.call.lastlogsize = (if 0 = l.timestamp then F else add64 l.lastlogsize 1) := by
    rw [hcall]; rfl
  have hst : s.call.timestamp = r.TimeGenerated := by
    rw [hcall]; rfl
  constructor
  · intro pre a b post hsteps hne
    rw [hs] at hsteps
    rcases List.eq_nil_or_concat post with hp | ⟨post1, x, hp⟩
    · subst hp
      have he : l.d.steps ++ [s] = (pre ++ [a]) ++ [b] := by rw [hsteps]; simp
      obtain ⟨h1, h2⟩ := snoc_inj _ _ _ _ he
      obtain ⟨ha1, ha2⟩ := h.2 pre a h1
      rw [← h2, hsl, ← ha1, if_neg (fun e => hne (by rw [ha2]; exact e.symm))]
    · rw [List.concat_eq_append] at hp
      subst hp
      have he : l.d.steps ++ [s] = (pre ++ a :: b :: post1) ++ [x] := by rw [hsteps]; simp
      obtain ⟨h1, -⟩ := snoc_inj _ _ _ _ he
      exact h.1 pre a b post1 h1 hne
  · intro pre s1 hsteps
    rw [hs] at hsteps
    obtain ⟨-, h2⟩ := snoc_inj _ _ _ _ hsteps
    rw [← h2, hsl, hst, hl, hts]
    exact ⟨rfl, rfl⟩

/-- C8 (counterexample). A legacy log holds the 32 records numbered
`0xFFFFFFF0, …, 0xFFFFFFFF, 0, …, 15`; the cycle that processes the crossing
ends with the 64-bit checkpoint `4294967311 = 2^32 + 15`.  Later the log holds
the records 3 to 42 (window `[3, 42]`): the following cycle, started from the
stored checkpoint, truncates it to 15, gives the records 16 to 42 the
checkpoint values 16 to 42 and ends with the checkpoint 42, smaller than the
value held before. -/
theorem wraparound_backward_counterexample :
    ∃ o1 o2, process_eventslog (demo_env ⟨"", "", "", ""⟩ 100) (demo_os_wrap 4294967280 32)
        (some "System") ⟨4294967279, 0, 1⟩ 0 none "" = some o1 ∧
      o1.metric.lastlogsize = 4294967311 ∧
      process_eventslog (demo_env ⟨"", "", "", ""⟩ 100) (demo_os 3 40 []) (some "System")
        ⟨o1.metric.lastlogsize, 0, 1⟩ o1.lastlogsize_sent o1.error "" = some o2 ∧
      ids o2 = List.range' 16 27 ∧ o2.metric.lastlogsize = 42 ∧
      o2.metric.lastlogsize < o1.metric.lastlogsize :=
  ⟨_, _, rfl, rfl, rfl, rfl, rfl, by decide⟩

/-- C8 (amended). Wraparound, legacy back end: within every cycle, each
processed record that follows a processed record with a non-zero time is given
the checkpoint value of its predecessor plus one, computed in 64 bits, whatever
the 32-bit record numbers are; so within the cycle that processes the crossing
the checkpoint goes on increasing by one past `0xFFFFFFFF`: for the log of 32
records numbered `0xFFFFFFF0, …, 0xFFFFFFFF, 0, …, 15`, read from its first
record, the values are `4294967280, …, 4294967311` and the cycle ends with the
checkpoint `4294967311`.  (Nothing is said about the cycles that follow: they
truncate a stored checkpoint above `LastID` to 32 bits.) -/
theorem wraparound_consecutive :
    (∀ (env : Env) (os : EventLogOS) (name : Option String) (metric : ZBX_ACTIVE_METRIC)
        (sent : Nat) (error : Option String) (sev0 : String),
      ∃ o, process_eventslog env os name metric sent error sev0 = some o ∧
        ∀ pre a b post, o.steps = pre ++ a :: b :: post → a.call.timestamp ≠ 0 →
          b.call.lastlogsize = add64 a.call.lastlogsize 1) ∧
    (∃ o, process_eventslog (demo_env ⟨"", "", "", ""⟩ 100) (demo_os_wrap 4294967280 32)
        (some "System") ⟨4294967279, 0, 1⟩ 0 none "" = some o ∧
      o.steps.map (fun s => s.id) =
        List.range' 4294967280 16 ++ List.range' 0 16 ∧
      ids o = List.range' 4294967280 32 ∧ o.metric.lastlogsize = 4294967311) := by
  constructor
  · intro env os name metric sent error sev0
    obtain ⟨o, ho⟩ := process_eventslog_total env os name metric sent error sev0
    refine ⟨o, ho, ?_⟩
    rcases process_eventslog_shape env os name metric sent error sev0 o ho with h | h
    · intro pre a b post hsteps
      rw [h.1] at hsteps
      simp at hsteps
    · obtain ⟨nm, F0, L, st1, ret, st2, l, -, -, -, -, -, -, hloop, hout⟩ := h
      have hinv := read_loop_inv env nm metric.refresh (normalise F0 L metric.lastlogsize).2.1
        Tied Tied (fun _ => True)
        (fun r l1 _ hP _ => ⟨fun _ => process_record_tied env metric.refresh _ r l1 hP,
          fun _ => process_record_tied env metric.refresh _ r l1 hP⟩)
        (enough os) st1 ⟨(normalise F0 L metric.lastlogsize).1, 0, dispatch0 metric sent sev0⟩
        ret st2 l (fun _ _ => trivial) (fun _ _ => trivial)
        ⟨fun pre a b post hs => by simp [dispatch0] at hs,
          fun pre s hs => by simp [dispatch0] at hs⟩ hloop
      have ht : Tied l := by
        rcases hinv with h1 | h1
        · exact h1
        · exact h1.1
      rw [hout]
      exact ht.1
  · exact ⟨_, rfl, rfl, rfl, rfl⟩

/-! ## Skipping old data (C11) -/

/-- C11 (counterexample). Modern channel with the events 100 to 150: the
session opens with the window `FirstID = 100`, `LastID = 151`; with
`skip_old_data` set the cycle returns `SUCCEED`, sends nothing and clears the
flag, but the checkpoint is set to 150, not to `LastID`. -/
theorem skip_old_data_counterexample :
    (initialize_eventlog6 (demo_env ⟨"", "", "", ""⟩ 10) (demo_os6 100 51 []) (some "System")
      120 0 0 none none).LastID = 151 ∧
    ∃ o, eventlog6_cycle (demo_env ⟨"", "", "", ""⟩ 10) (demo_os6 100 51 []) (some "System")
        ⟨120, 1, 1⟩ 0 none "" = some o ∧
      o.ret = SUCCEED ∧ o.calls = [] ∧ o.metric.skip_old_data = 0 ∧
      o.metric.lastlogsize = 150 ∧ ¬ o.metric.lastlogsize = 151 :=
  ⟨rfl, _, rfl, rfl, rfl, rfl, rfl, by decide⟩

/-- C11 (amended). Skipping old data: when `skip_old_data` is set at cycle
start and the session opens, the cycle returns `SUCCEED` without processing
any record or invoking the sink and clears the flag; the legacy back end sets
`metric->lastlogsize` to the `LastID` of the window, the modern back end to
`LastID - 1` (in 64 bits), `LastID = FirstID + numIDs` being its upper bound.
The error text and `lastlogsize_sent` are left as they were. -/
theorem skip_old_data (env : Env) (metric : ZBX_ACTIVE_METRIC) (sent : Nat)
    (error : Option String) (sev0 : String) (hskip : 1 = metric.skip_old_data) :
    (∀ (os : EventLogOS) (name : String) (F L : Nat), name ≠ "" →
      zbx_open_eventlog os = Except.ok (F, L) →
      process_eventslog env os (some name) metric sent error sev0 =
        some ⟨SUCCEED, error, { metric with lastlogsize := L, skip_old_data := 0 }, sent, 0, 0,
          [], [], 64 * ZBX_KIBIBYTE⟩) ∧
    (∀ (os : EventLog6OS) (query : Option (List EVENT6)) (lastlogsize FirstID LastID : Nat),
      process_eventslog6 env os query lastlogsize FirstID LastID metric sent error sev0 =
        some ⟨SUCCEED, error, { metric with lastlogsize := sub64 LastID 1, skip_old_data := 0 },
          sent, 0, 0, [], [], 0⟩) := by
  constructor
  · intro os name F L hname hopen
    unfold process_eventslog
    simp only
    rw [if_neg hname, hopen]
    simp only
    rw [if_pos hskip]
  · intro os query lastlogsize FirstID LastID
    unfold process_eventslog6
    rw [if_pos hskip]

/-- Witness for `skip_old_data`: the example log and channel `[100, 150]`. -/
theorem skip_old_data_witness :
    process_eventslog (demo_env ⟨"", "", "", ""⟩ 10) (demo_os 100 51 []) (some "System")
        ⟨120, 1, 1⟩ 0 none "" =
      some ⟨SUCCEED, none, ⟨150, 0, 1⟩, 0, 0, 0, [], [], 64 * ZBX_KIBIBYTE⟩ ∧
    process_eventslog6 (demo_env ⟨"", "", "", ""⟩ 10) (demo_os6 100 51 []) (some []) 120 100 151
        ⟨120, 1, 1⟩ 0 none "" =
      some ⟨SUCCEED, none, ⟨150, 0, 1⟩, 0, 0, 0, [], [], 0⟩ :=
  have h := skip_old_data (demo_env ⟨"", "", "", ""⟩ 10) ⟨120, 1, 1⟩ 0 none "" rfl
  ⟨h.1 (demo_os 100 51 []) "System" 100 150 (by decide) rfl, h.2 (demo_os6 100 51 []) (some []) 120 100 151⟩

/-! ## Failure to open the session (C12) -/

/-- A failed `zbx_open_eventlog6` sets the error text and leaves the
checkpoint as it was. -/
theorem open6_fail (env : Env) (os : EventLog6OS) (name : String) (c : Nat)
    (error : Option String) (h : (zbx_open_eventlog6 env os name c error).ret ≠ SUCCEED) :
    (zbx_open_eventlog6 env os name c error).lastlogsize = c ∧
    ∃ msg, (zbx_open_eventlog6 env os name c error).error = some msg := by
  unfold zbx_open_eventlog6 at h ⊢
  rcases h1 : os.open_err with _ | x1
  swap
  · simp only [h1]; exact ⟨trivial, _, rfl⟩
  rcases h2 : os.info_err with _ | x2
  swap
  · simp only [h1, h2]; exact ⟨trivial, _, rfl⟩
  rcases h3 : os.context_err with _ | x3
  swap
  · simp only [h1, h2, h3]; exact ⟨trivial, _, rfl⟩
  rcases h4 : os.query_all_err with _ | x4
  swap
  · simp only [h1, h2, h3, h4]; exact ⟨trivial, _, rfl⟩
  rcases h4n : os.first_next_err with _ | x4n
  swap
  · simp only [h1, h2, h3, h4, h4n] at h
    exact absurd rfl h
  rcases h5 : os.events with _ | ⟨e, rest⟩
  · simp only [h1, h2, h3, h4, h4n, h5] at h
    exact absurd rfl h
  rcases h6 : e.render_err with _ | x6
  swap
  · simp only [h1, h2, h3, h4, h4n, h5, h6]; exact ⟨trivial, _, rfl⟩
  simp only [h1, h2, h3, h4, h4n, h5, h6] at h
  split_ifs at h <;> exact absurd rfl h

/-- The function `zbx_open_eventlog6` returns `FAIL` exactly when one of the
calls of `OpenFails` fails. -/
theorem open6_fail_iff (env : Env) (os : EventLog6OS) (name : String) (c : Nat)
    (error : Option String) :
    (zbx_open_eventlog6 env os name c error).ret ≠ SUCCEED ↔ OpenFails os := by
  unfold zbx_open_eventlog6 OpenFails
  rcases h1 : os.open_err with _ | x1
  swap
  · simp [FAIL, SUCCEED]
  rcases h2 : os.info_err with _ | x2
  swap
  · simp [FAIL, SUCCEED]
  rcases h3 : os.context_err with _ | x3
  swap
  · simp [FAIL, SUCCEED]
  rcases h4 : os.query_all_err with _ | x4
  swap
  · simp [FAIL, SUCCEED]
  rcases h4n : os.first_next_err with _ | x4n
  swap
  · simp
  rcases h5 : os.events with _ | ⟨e, rest⟩
  · simp
  rcases h6 : e.render_err with _ | x6
  swap
  · simp only [ne_eq, not_true_eq_false, false_or, true_and, List.cons.injEq, h6]
    constructor
    · intro _
      exact ⟨e, rest, ⟨rfl, rfl⟩, by rw [h6]; simp⟩
    · intro _ h
      simp [FAIL, SUCCEED] at h
  simp only [ne_eq, not_true_eq_false, false_or, true_and, List.cons.injEq, h6]
  constructor
  · intro h
    split_ifs at h <;> exact absurd rfl h
  · rintro ⟨e1, rest1, ⟨he, -⟩, hr⟩
    subst he
    exact absurd h6 hr

/-- A failure of the first `EvtNext` of `zbx_open_eventlog6`, or a channel
without events, is taken for an empty channel. -/
theorem open6_no_data (env : Env) (os : EventLog6OS) (name : String) (c : Nat)
    (error : Option String) (h1 : os.open_err = none) (h2 : os.info_err = none)
    (h3 : os.context_err = none) (h4 : os.query_all_err = none)
    (h5 : os.first_next_err ≠ none ∨ os.events = []) :
    zbx_open_eventlog6 env os name c error = ⟨SUCCEED, 0, 1, 1, error⟩ := by
  unfold zbx_open_eventlog6
  simp only [h1, h2, h3, h4]
  rcases h4n : os.first_next_err with _ | x
  · rcases h5 with h5 | h5
    · exact absurd h4n h5
    · simp only [h5]
  · rfl

/-- C12 (counterexample). Modern channel with the events 100 to 150.  With
the stored checkpoint 200, `zbx_open_eventlog6` succeeds and resets the
checkpoint to `FirstID - 1 = 99`; the `EvtQuery` call of
`zbx_get_handle_eventlog6` then fails (channel not found), and
`initialize_eventlog6` returns `FAIL` with an error text while the caller's
checkpoint is 99, not 200.  With the stored checkpoint 120 and a first
`EvtNext` of `zbx_open_eventlog6` that fails with the code 5, the window
cannot be obtained, yet `initialize_eventlog6` returns `SUCCEED` without an
error text, with the window `[1, 1]` and the caller's checkpoint set to 0. -/
theorem open_failure_counterexample :
    (initialize_eventlog6 (demo_env ⟨"", "", "", ""⟩ 10) (demo_os6_noquery 100 51 15007)
      (some "System") 200 0 0 none none).ret = FAIL ∧
    (initialize_eventlog6 (demo_env ⟨"", "", "", ""⟩ 10) (demo_os6_noquery 100 51 15007)
      (some "System") 200 0 0 none none).error = some "EvtQuery channel missed:error" ∧
    (initialize_eventlog6 (demo_env ⟨"", "", "", ""⟩ 10) (demo_os6_noquery 100 51 15007)
      (some "System") 200 0 0 none none).lastlogsize = 99 ∧
    ¬ (initialize_eventlog6 (demo_env ⟨"", "", "", ""⟩ 10) (demo_os6_noquery 100 51 15007)
      (some "System") 200 0 0 none none).lastlogsize = 200 ∧
    (initialize_eventlog6 (demo_env ⟨"", "", "", ""⟩ 10) (demo_os6_nonext 100 51 5)
      (some "System") 120 0 0 none none).ret = SUCCEED ∧
    (initialize_eventlog6 (demo_env ⟨"", "", "", ""⟩ 10) (demo_os6_nonext 100 51 5)
      (some "System") 120 0 0 none none).error = none ∧
    (initialize_eventlog6 (demo_env ⟨"", "", "", ""⟩ 10) (demo_os6_nonext 100 51 5)
      (some "System") 120 0 0 none none).FirstID = 1 ∧
    (initialize_eventlog6 (demo_env ⟨"", "", "", ""⟩ 10) (demo_os6_nonext 100 51 5)
      (some "System") 120 0 0 none none).LastID = 1 ∧
    (initialize_eventlog6 (demo_env ⟨"", "", "", ""⟩ 10) (demo_os6_nonext 100 51 5)
      (some "System") 120 0 0 none none).lastlogsize = 0 :=
  ⟨rfl, rfl, rfl, by decide, rfl, rfl, rfl, rfl, rfl⟩

/-- C12 (amended). Failure to open the session.  Legacy back end: a null or
empty log name and a failure of `zbx_open_eventlog` make `process_eventslog`
return `FAIL` with an error text, without any record processed or sent, the
metric (checkpoint and `skip_old_data`) and `lastlogsize_sent` unchanged.
Modern back end: a null or empty name makes `initialize_eventlog6` return
`FAIL` with an error text and every output parameter as it was on entry.
`zbx_open_eventlog6` returns `FAIL` exactly when `EvtOpenLog`,
`EvtGetLogInfo`, `EvtCreateRenderContext`, its `EvtQuery` or the `EvtRender`
of the first event fails; `initialize_eventlog6` then returns `FAIL` with an
error text, the query handle as it was on entry and the caller's checkpoint
unchanged.  A failure of the first `EvtNext` is not such a failure: the
channel is taken to be empty, `zbx_open_eventlog6` returns `SUCCEED` with the
window `[1, 1]` and the caller's checkpoint set to 0, and
`initialize_eventlog6` goes on to create the query.  When
`zbx_open_eventlog6` has succeeded and the `EvtQuery` call of
`zbx_get_handle_eventlog6` fails, `initialize_eventlog6` returns `FAIL` with
an error text and a null query handle, and the caller's checkpoint is the
value `zbx_open_eventlog6` left: unchanged when it was below `LastID`. -/
theorem open_failure (env : Env) :
    (∀ (os : EventLogOS) (name : Option String) (metric : ZBX_ACTIVE_METRIC) (sent : Nat)
        (error : Option String) (sev0 : String), name = none ∨ name = some "" →
      process_eventslog env os name metric sent error sev0 =
        some ⟨FAIL, some "Cannot open eventlog with empty name.", metric, sent, 0, 0, [], [],
          64 * ZBX_KIBIBYTE⟩) ∧
    (∀ (os : EventLogOS) (nm : String) (metric : ZBX_ACTIVE_METRIC) (sent : Nat)
        (error : Option String) (sev0 : String) (e : Nat), nm ≠ "" →
      zbx_open_eventlog os = Except.error e →
      process_eventslog env os (some nm) metric sent error sev0 =
        some ⟨FAIL, some ("Cannot open eventlog '" ++ nm ++ "': " ++
          env.strerror_from_system e ++ "."), metric, sent, 0, 0, [], [], 64 * ZBX_KIBIBYTE⟩) ∧
    (∀ (os : EventLog6OS) (source : Option String) (c F0 L0 : Nat)
        (query0 : Option (List EVENT6)) (error : Option String),
      source = none ∨ source = some "" →
      initialize_eventlog6 env os source c F0 L0 query0 error =
        ⟨FAIL, c, F0, L0, query0, some "cannot open eventlog with empty name."⟩) ∧
    (∀ (os : EventLog6OS) (nm : String) (c : Nat) (error : Option String),
      ((zbx_open_eventlog6 env os nm c error).ret ≠ SUCCEED ↔ OpenFails os)) ∧
    (∀ (os : EventLog6OS) (nm : String) (c F0 L0 : Nat) (query0 : Option (List EVENT6))
        (error : Option String), nm ≠ "" → OpenFails os →
      (initialize_eventlog6 env os (some nm) c F0 L0 query0 error).ret = FAIL ∧
      (initialize_eventlog6 env os (some nm) c F0 L0 query0 error).lastlogsize = c ∧
      (initialize_eventlog6 env os (some nm) c F0 L0 query0 error).query = query0 ∧
      ∃ msg, (initialize_eventlog6 env os (some nm) c F0 L0 query0 error).error = some msg) ∧
    (∀ (os : EventLog6OS) (nm : String) (c F0 L0 : Nat) (query0 : Option (List EVENT6))
        (error : Option String), nm ≠ "" → os.open_err = none → os.info_err = none →
      os.context_err = none → os.query_all_err = none →
      (os.first_next_err ≠ none ∨ os.events = []) →
      zbx_open_eventlog6 env os nm c error = ⟨SUCCEED, 0, 1, 1, error⟩ ∧
      (os.query_err = none →
        initialize_eventlog6 env os (some nm) c F0 L0 query0 error =
          ⟨SUCCEED, 0, 1, 1,
            some (os.events.filter (fun e => decide (e.EventRecordID % 2 ^ 64 > 0))), error⟩)) ∧
    (∀ (os : EventLog6OS) (nm : String) (c F0 L0 : Nat) (query0 : Option (List EVENT6))
        (error : Option String) (status : Nat),
      nm ≠ "" → (zbx_open_eventlog6 env os nm c error).ret = SUCCEED →
      os.query_err = some status →
      (initialize_eventlog6 env os (some nm) c F0 L0 query0 error).ret = FAIL ∧
      (initialize_eventlog6 env os (some nm) c F0 L0 query0 error).query = none ∧
      (∃ msg, (initialize_eventlog6 env os (some nm) c F0 L0 query0 error).error = some msg) ∧
      (initialize_eventlog6 env os (some nm) c F0 L0 query0 error).lastlogsize =
        (zbx_open_eventlog6 env os nm c error).lastlogsize ∧
      (c < (zbx_open_eventlog6 env os nm c error).LastID →
        (initialize_eventlog6 env os (some nm) c F0 L0 query0 error).lastlogsize = c)) := by
  refine ⟨?_, ?_, ?_, ?_, ?_, ?_, ?_⟩
  · intro os name metric sent error sev0 hname
    rcases hname with h | h <;> subst h <;> simp [process_eventslog]
  · intro os nm metric sent error sev0 e hnm hopen
    unfold process_eventslog
    simp only
    rw [if_neg hnm, hopen]
  · intro os source c F0 L0 query0 error hname
    rcases hname with h | h <;> subst h <;> simp [initialize_eventlog6]
  · intro os nm c error
    exact open6_fail_iff env os nm c error
  · intro os nm c F0 L0 query0 error hnm hfails
    have hopen := (open6_fail_iff env os nm c error).2 hfails
    obtain ⟨hc, msg, hmsg⟩ := open6_fail env os nm c error hopen
    unfold initialize_eventlog6
    simp only
    rw [if_neg hnm, if_pos hopen]
    exact ⟨rfl, hc, rfl, msg, hmsg⟩
  · intro os nm c F0 L0 query0 error hnm h1 h2 h3 h4 h5
    have hopen := open6_no_data env os nm c error h1 h2 h3 h4 h5
    refine ⟨hopen, fun hq => ?_⟩
    unfold initialize_eventlog6
    simp only
    rw [if_neg hnm, hopen]
    simp only [ne_eq, not_true_eq_false, if_false]
    unfold zbx_get_handle_eventlog6
    simp only [hq]
  · intro os nm c F0 L0 query0 error status hnm hopen hq
    have hh : zbx_get_handle_eventlog6 env os (zbx_open_eventlog6 env os nm c error).lastlogsize =
        Except.error ((if status = 15007 then "EvtQuery channel missed:" else "EvtQuery failed:") ++
          env.strerror_from_system status) := by
      unfold zbx_get_handle_eventlog6
      simp only [hq]
    have hinit : initialize_eventlog6 env os (some nm) c F0 L0 query0 error =
        ⟨FAIL, (zbx_open_eventlog6 env os nm c error).lastlogsize,
          (zbx_open_eventlog6 env os nm c error).FirstID,
          (zbx_open_eventlog6 env os nm c error).LastID, none,
          some ((if status = 15007 then "EvtQuery channel missed:" else "EvtQuery failed:") ++
            env.strerror_from_system status)⟩ := by
      unfold initialize_eventlog6
      simp only
      rw [if_neg hnm, if_neg (fun h => h hopen), hh]
    rw [hinit]
    exact ⟨rfl, rfl, ⟨_, rfl⟩, rfl, fun h => open6_keeps env os nm c error h⟩

/-- Witness for `open_failure`: an empty log name on either back end, a log
that cannot be opened, a channel that cannot be opened (the query handle given
on entry is kept), a channel whose first `EvtNext` fails, and the example
channel whose reading query cannot be created, opened with a checkpoint
inside the window. -/
theorem open_failure_witness :
    process_eventslog (demo_env ⟨"", "", "", ""⟩ 10) (demo_os 100 51 []) (some "") ⟨120, 1, 1⟩ 7
        none "" =
      some ⟨FAIL, some "Cannot open eventlog with empty name.", ⟨120, 1, 1⟩, 7, 0, 0, [], [],
        64 * ZBX_KIBIBYTE⟩ ∧
    process_eventslog (demo_env ⟨"", "", "", ""⟩ 10) ⟨some 5, 0, 0, [], none, []⟩ (some "System")
        ⟨120, 1, 1⟩ 7 none "" =
      some ⟨FAIL, some "Cannot open eventlog 'System': error.", ⟨120, 1, 1⟩, 7, 0, 0, [], [],
        64 * ZBX_KIBIBYTE⟩ ∧
    initialize_eventlog6 (demo_env ⟨"", "", "", ""⟩ 10) (demo_os6 100 51 []) none 120 3 4
        (some []) none =
      ⟨FAIL, 120, 3, 4, some [], some "cannot open eventlog with empty name."⟩ ∧
    ((initialize_eventlog6 (demo_env ⟨"", "", "", ""⟩ 10)
        ⟨some 5, none, 51, none, none, none, none, [], []⟩ (some "System") 120 0 0 (some [])
        none).ret = FAIL ∧
      (initialize_eventlog6 (demo_env ⟨"", "", "", ""⟩ 10)
        ⟨some 5, none, 51, none, none, none, none, [], []⟩ (some "System") 120 0 0 (some [])
        none).lastlogsize = 120 ∧
      (initialize_eventlog6 (demo_env ⟨"", "", "", ""⟩ 10)
        ⟨some 5, none, 51, none, none, none, none, [], []⟩ (some "System") 120 0 0 (some [])
        none).query = some []) ∧
    zbx_open_eventlog6 (demo_env ⟨"", "", "", ""⟩ 10) (demo_os6_nonext 100 51 5) "System" 120
        none = ⟨SUCCEED, 0, 1, 1, none⟩ ∧
    (initialize_eventlog6 (demo_env ⟨"", "", "", ""⟩ 10) (demo_os6_noquery 100 51 15007)
      (some "System") 120 0 0 none none).lastlogsize = 120 :=
  have h := open_failure (demo_env ⟨"", "", "", ""⟩ 10)
  have h5 := h.2.2.2.2.1 ⟨some 5, none, 51, none, none, none, none, [], []⟩ "System" 120 0 0
    (some []) none (by decide) (Or.inl (by decide))
  ⟨h.1 (demo_os 100 51 []) (some "") ⟨120, 1, 1⟩ 7 none "" (Or.inr rfl),
    h.2.1 ⟨some 5, 0, 0, [], none, []⟩ "System" ⟨120, 1, 1⟩ 7 none "" 5 (by decide) rfl,
    h.2.2.1 (demo_os6 100 51 []) none 120 3 4 (some []) none (Or.inl rfl),
    ⟨h5.1, h5.2.1, h5.2.2.1⟩,
    (h.2.2.2.2.2.1 (demo_os6_nonext 100 51 5) "System" 120 0 0 none none (by decide) rfl rfl rfl
      rfl (Or.inl (by decide))).1,
    (h.2.2.2.2.2.2 (demo_os6_noquery 100 51 15007) "System" 120 0 0 none none 15007 (by decide)
      rfl rfl).2.2.2.2 (by decide)⟩

/-! ## The window of an empty log (C13) -/

/-- The events of the query handle are events of the channel. -/
theorem initialize6_query_mem (env : Env) (os : EventLog6OS) (source : Option String)
    (c F0 L0 : Nat) (error : Option String) (q : List EVENT6)
    (h : (initialize_eventlog6 env os source c F0 L0 none error).query = some q) :
    ∀ e ∈ q, e ∈ os.events := by
  unfold initialize_eventlog6 at h
  rcases source with _ | nm
  · simp at h
  simp only at h
  by_cases h0 : nm = ""
  · rw [if_pos h0] at h; simp at h
  rw [if_neg h0] at h
  by_cases h1 : (zbx_open_eventlog6 env os nm c error).ret ≠ SUCCEED
  · rw [if_pos h1] at h; simp at h
  rw [if_neg h1] at h
  unfold zbx_get_handle_eventlog6 at h
  rcases h2 : os.query_err with _ | x
  · simp only [h2, Option.some.injEq] at h
    intro e he
    rw [← h] at he
    exact List.mem_of_mem_filter he
  · simp only [h2] at h
    simp at h

/-- A cycle of the modern back end processes events of the channel only: on
a channel without events no record is processed and the sink is not invoked. -/
theorem eventlog6_cycle_empty (env : Env) (os : EventLog6OS) (source : Option String)
    (metric : ZBX_ACTIVE_METRIC) (sent : Nat) (error : Option String) (sev0 : String)
    (o : Outcome) (hempty : os.events = [])
    (h : eventlog6_cycle env os source metric sent error sev0 = some o) :
    o.steps = [] ∧ o.calls = [] := by
  unfold eventlog6_cycle at h
  simp only at h
  by_cases hret : (initialize_eventlog6 env os source metric.lastlogsize 0 0 none error).ret ≠ SUCCEED
  · rw [if_pos hret] at h
    simp only [Option.some.injEq] at h
    rw [← h]
    exact ⟨rfl, rfl⟩
  rw [if_neg hret] at h
  rcases process_eventslog6_shape env os _ _ _ _ _ sent _ sev0 o h with
    ⟨h1, h2, -⟩ | ⟨q, ret, l, hq, -, hloop, ho⟩
  · exact ⟨h1, h2⟩
  · have hmem := initialize6_query_mem env os source metric.lastlogsize 0 0 error q hq
    have hnil : ∀ e ∈ q, False := by
      intro e he
      have := hmem e he
      rw [hempty] at this
      simp at this
    have hP := read_loop6_inv env metric.refresh
      (fun l => l.d.steps = [] ∧ l.d.calls = []) (fun l => l.d.steps = [] ∧ l.d.calls = [])
      (fun l => l.d.steps = [] ∧ l.d.calls = []) (fun _ => False)
      (fun e l hf _ => absurd hf id) (fun l msg hl => hl) _ q os.faults _ ret l hnil
      ⟨rfl, rfl⟩ hloop
    have hl : l.d.steps = [] ∧ l.d.calls = [] := by
      rcases hP with h1 | h1 | h1
      · exact h1
      · exact h1.1
      · exact h1.1
    rw [ho]
    exact ⟨hl.1, hl.2⟩

/-- A cycle of the legacy back end on a log without records processes no
record and does not invoke the sink. -/
theorem process_eventslog_empty (env : Env) (os : EventLogOS) (name : Option String)
    (metric : ZBX_ACTIVE_METRIC) (sent : Nat) (error : Option String) (sev0 : String)
    (o : Outcome) (hempty : os.records = [])
    (h : process_eventslog env os name metric sent error sev0 = some o) :
    o.steps = [] ∧ o.calls = [] := by
  rcases process_eventslog_shape env os name metric sent error sev0 o h with
    ⟨h1, h2, -⟩ | ⟨nm, F0, L, st1, ret, st2, l, -, -, -, hrec, -, hbuf, hloop, ho⟩
  · exact ⟨h1, h2⟩
  · have hP := read_loop_inv env nm metric.refresh (normalise F0 L metric.lastlogsize).2.1
      (fun l => l.d.steps = [] ∧ l.d.calls = []) (fun l => l.d.steps = [] ∧ l.d.calls = [])
      (fun _ => False) (fun r l hf _ _ => absurd hf id) (enough os) st1 _ ret st2 l
      (fun r hr => by rw [hrec, hempty] at hr; simp at hr)
      (fun r hr => by have := hbuf r hr; rw [hempty] at this; simp at this)
      ⟨rfl, rfl⟩ hloop
    have hl : l.d.steps = [] ∧ l.d.calls = [] := by
      rcases hP with h1 | h1
      · exact h1
      · exact h1.1
    rw [ho]
    exact ⟨hl.1, hl.2⟩

/-- C13 (counterexample). A legacy log for which the system reports zero
records and the oldest record number 1: `zbx_open_eventlog` succeeds with
`FirstID = 1` and `LastID = 0`, not with the window `[1, 1]`. -/
theorem empty_log_window_counterexample :
    ∃ F L, zbx_open_eventlog ⟨none, 0, 1, [], none, []⟩ = Except.ok (F, L) ∧
      F = 1 ∧ L = 0 ∧ ¬ L = 1 :=
  ⟨1, 0, rfl, rfl, rfl, by decide⟩

/-- C13 (amended). Empty log.  Legacy back end: for a log with zero records
and an oldest record number `k` with `1 ≤ k < 2^32`, `zbx_open_eventlog`
succeeds and reports `FirstID = k`, `LastID = k - 1`; the cycle on a log
without records returns, processes no record and sends no event.  Modern back
end: when the first fetch of `zbx_open_eventlog6` returns nothing, it succeeds,
reports `FirstID = 1`, `LastID = 1` and sets the checkpoint to 0; the cycle on
a channel without events returns, processes no record and sends no event. -/
theorem empty_log_window (env : Env) :
    (∀ os : EventLogOS, os.open_err = none → os.dwNumRecords = 0 → 1 ≤ os.dwOldestRecord →
      os.dwOldestRecord < 2 ^ 32 →
      zbx_open_eventlog os = Except.ok (os.dwOldestRecord, os.dwOldestRecord - 1)) ∧
    (∀ (os : EventLogOS) (name : Option String) (metric : ZBX_ACTIVE_METRIC) (sent : Nat)
        (error : Option String) (sev0 : String), os.records = [] →
      ∃ o, process_eventslog env os name metric sent error sev0 = some o ∧
        o.steps = [] ∧ o.calls = []) ∧
    (∀ (os : EventLog6OS) (nm : String) (c : Nat) (error : Option String),
      os.open_err = none → os.info_err = none → os.context_err = none →
      os.query_all_err = none → os.events = [] →
      zbx_open_eventlog6 env os nm c error = ⟨SUCCEED, 0, 1, 1, error⟩) ∧
    (∀ (os : EventLog6OS) (source : Option String) (metric : ZBX_ACTIVE_METRIC) (sent : Nat)
        (error : Option String) (sev0 : String), os.events = [] →
      ∃ o, eventlog6_cycle env os source metric sent error sev0 = some o ∧
        o.steps = [] ∧ o.calls = []) := by
  refine ⟨?_, ?_, ?_, ?_⟩
  · intro os hopen hnum h1 h2
    unfold zbx_open_eventlog
    simp only [hopen, hnum]
    have e1 : toDWORD os.dwOldestRecord = os.dwOldestRecord := Nat.mod_eq_of_lt h2
    have e2 : toDWORD 0 = 0 := rfl
    rw [e1, e2]
    have e3 : toDWORD (os.dwOldestRecord + 0 + 2 ^ 32 - 1) = os.dwOldestRecord - 1 := by
      unfold toDWORD
      omega
    rw [e3]
  · intro os name metric sent error sev0 hempty
    obtain ⟨o, ho⟩ := process_eventslog_total env os name metric sent error sev0
    exact ⟨o, ho, process_eventslog_empty env os name metric sent error sev0 o hempty ho⟩
  · intro os nm c error h1 h2 h3 h4 h5
    unfold zbx_open_eventlog6
    simp only [h1, h2, h3, h4, h5]
    rcases os.first_next_err with _ | x <;> rfl
  · intro os source metric sent error sev0 hempty
    obtain ⟨o, ho⟩ := eventlog6_cycle_total env os source metric sent error sev0
    exact ⟨o, ho, eventlog6_cycle_empty env os source metric sent error sev0 o hempty ho⟩

/-- Witness for `empty_log_window`: an empty legacy log with the oldest record
number 5 and an empty modern channel, each read from checkpoint 120. -/
theorem empty_log_window_witness :
    zbx_open_eventlog ⟨none, 0, 5, [], none, []⟩ = Except.ok (5, 5 - 1) ∧
    (∃ o, process_eventslog (demo_env ⟨"", "", "", ""⟩ 10) ⟨none, 0, 5, [], none, []⟩
        (some "System") ⟨120, 0, 1⟩ 0 none "" = some o ∧ o.steps = [] ∧ o.calls = []) ∧
    zbx_open_eventlog6 (demo_env ⟨"", "", "", ""⟩ 10) (demo_os6 100 0 []) "System" 120 none =
      ⟨SUCCEED, 0, 1, 1, none⟩ ∧
    (∃ o, eventlog6_cycle (demo_env ⟨"", "", "", ""⟩ 10) (demo_os6 100 0 []) (some "System")
        ⟨120, 0, 1⟩ 0 none "" = some o ∧ o.steps = [] ∧ o.calls = []) :=
  have h := empty_log_window (demo_env ⟨"", "", "", ""⟩ 10)
  ⟨h.1 ⟨none, 0, 5, [], none, []⟩ rfl rfl (by decide) (by decide),
    h.2.1 ⟨none, 0, 5, [], none, []⟩ (some "System") ⟨120, 0, 1⟩ 0 none "" rfl,
    h.2.2.1 (demo_os6 100 0 []) "System" 120 none rfl rfl rfl rfl rfl,
    h.2.2.2 (demo_os6 100 0 []) (some "System") ⟨120, 0, 1⟩ 0 none "" rfl⟩

/-! ## The window of the legacy back end (C14) -/

/-- When the sum does not leave the 32-bit range, `zbx_open_eventlog` reports
the exact window. -/
theorem zbx_open_eventlog_exact (os : EventLogOS) (h0 : os.open_err = none)
    (h3 : os.dwOldestRecord < 2 ^ 32) (h4 : os.dwNumRecords < 2 ^ 32)
    (h1 : 1 ≤ os.dwOldestRecord + os.dwNumRecords)
    (h2 : os.dwOldestRecord + os.dwNumRecords - 1 < 2 ^ 32) :
    zbx_open_eventlog os =
      Except.ok (os.dwOldestRecord, os.dwOldestRecord + os.dwNumRecords - 1) := by
  unfold zbx_open_eventlog
  simp only [h0]
  have e1 : toDWORD os.dwOldestRecord = os.dwOldestRecord := Nat.mod_eq_of_lt h3
  have e2 : toDWORD os.dwNumRecords = os.dwNumRecords := Nat.mod_eq_of_lt h4
  rw [e1, e2]
  have e3 : toDWORD (os.dwOldestRecord + os.dwNumRecords + 2 ^ 32 - 1) =
      os.dwOldestRecord + os.dwNumRecords - 1 := by
    unfold toDWORD
    omega
  rw [e3]

/-- C14 (failing input). The system reports the oldest record number
`4294967280 = 0xFFFFFFF0` and 32 records (the record numbers run through
`0xFFFFFFFF` and go on from 0 to 15).  `zbx_open_eventlog` returns
`FirstID = 4294967280` and `LastID = 15`: the sum was reduced modulo `2^32`
before it was stored in 64 bits.  The exact value is `4294967311`, and
`LastID ≥ FirstID - 1` does not hold. -/
theorem legacy_window_wraps :
    ∃ F L, zbx_open_eventlog (demo_os_wrap 4294967280 32) = Except.ok (F, L) ∧
      F = 4294967280 ∧ L = 15 ∧ 4294967280 + 32 - 1 = 4294967311 ∧
      ¬ L = 4294967280 + 32 - 1 ∧ ¬ F - 1 ≤ L :=
  ⟨4294967280, 15, rfl, rfl, rfl, rfl, by decide, by decide⟩

/-! ## Read failures (C15, C16) -/

/-- A call of `ReadEventLog` that meets an injected fault fails with it. -/
theorem ReadEventLog_fault (os : EventLogOS) (flags offset nBytes : Nat) (f : Fault)
    (rest : List (Option Fault)) (h : os.faults = some f :: rest) :
    ReadEventLog os flags offset nBytes =
      (ReadOutcome.fail f.code f.dwNeeded, { os with faults := rest }) := by
  unfold ReadEventLog
  rw [h]

/-- The main read loop: a read that fails with a code other than
`ERROR_INSUFFICIENT_BUFFER` and `ERROR_HANDLE_EOF` ends the loop with `FAIL`
and the error text; the locals of the record loop are left as they are. -/
theorem read_loop_read_fails (env : Env) (nm : String) (refresh : Int) (F fuel : Nat)
    (st : ReadState) (l : Locals) (e n : Nat) (os1 : EventLogOS)
    (h1 : ERROR_SUCCESS = st.dwErr) (h2 : 0 = st.dwRead)
    (hr : ReadEventLog st.os (EVENTLOG_SEQUENTIAL_READ ||| EVENTLOG_FORWARDS_READ) 0
      st.buffer_size = (ReadOutcome.fail e n, os1))
    (he1 : e ≠ ERROR_INSUFFICIENT_BUFFER) (he2 : e ≠ ERROR_HANDLE_EOF) :
    read_loop env nm refresh F (fuel + 1) st l =
      some (FAIL, { st with os := os1, dwErr := e, error := some (cannot_read env nm e) }, l) := by
  unfold read_loop
  rw [if_pos h1, if_pos h2, hr]
  simp only
  rw [if_neg he1, if_neg he2]

/-- The direct positioned read: a read that fails with a code other than
`ERROR_INVALID_PARAMETER`, `ERROR_HANDLE_EOF` and `ERROR_INSUFFICIENT_BUFFER`
makes the seek return `FAIL` with the error text. -/
theorem seek_direct_read_fails (env : Env) (nm : String) (rn fuel : Nat) (st : ReadState)
    (e n : Nat) (os1 : EventLogOS)
    (hr : ReadEventLog st.os (EVENTLOG_SEEK_READ ||| EVENTLOG_FORWARDS_READ) rn st.buffer_size =
      (ReadOutcome.fail e n, os1))
    (he0 : e ≠ ERROR_INVALID_PARAMETER) (he1 : e ≠ ERROR_INSUFFICIENT_BUFFER)
    (he2 : e ≠ ERROR_HANDLE_EOF) :
    seek_direct env nm rn (fuel + 1) st =
      some (SeekExit.returned FAIL,
        { st with os := os1, dwErr := e, error := some (cannot_read env nm e) }) := by
  unfold seek_direct
  rw [hr]
  simp only
  rw [if_neg he0, if_neg he2, if_neg he1]

/-- The fallback loop: a backward read that reports the end of the log makes
the seek return `FAIL` with an error text. -/
theorem seek_fallback_eof (env : Env) (nm : String) (fuel skip_count : Nat) (st : ReadState)
    (n : Nat) (os1 : EventLogOS) (hs : 0 < skip_count) (h1 : ERROR_SUCCESS = st.dwErr)
    (hr : ReadEventLog st.os (EVENTLOG_SEQUENTIAL_READ ||| EVENTLOG_BACKWARDS_READ) 0
      st.buffer_size = (ReadOutcome.fail ERROR_HANDLE_EOF n, os1)) :
    seek_fallback env nm EVENTLOG_BACKWARDS_READ (fuel + 1) skip_count st =
      some (FAIL,
        { st with os := os1, dwErr := 38, error := some (cannot_read env nm ERROR_HANDLE_EOF) }) := by
  unfold seek_fallback
  rw [if_pos ⟨hs, h1, rfl⟩, hr]
  simp only
  rw [if_neg (by decide), if_neg (by decide)]
  rfl

/-- The fallback loop: a backward read that fails with a code other than
`ERROR_INSUFFICIENT_BUFFER` and `ERROR_HANDLE_EOF` ends the loop, and the seek
returns `SUCCEED` without an error text, the code being left in `dwErr`. -/
theorem seek_fallback_other (env : Env) (nm : String) (fuel skip_count : Nat) (st : ReadState)
    (e n : Nat) (os1 : EventLogOS) (hs : 0 < skip_count) (h1 : ERROR_SUCCESS = st.dwErr)
    (hr : ReadEventLog st.os (EVENTLOG_SEQUENTIAL_READ ||| EVENTLOG_BACKWARDS_READ) 0
      st.buffer_size = (ReadOutcome.fail e n, os1))
    (he1 : e ≠ ERROR_INSUFFICIENT_BUFFER) (he2 : e ≠ ERROR_HANDLE_EOF) :
    seek_fallback env nm EVENTLOG_BACKWARDS_READ (fuel + 1) skip_count st =
      some (SUCCEED, { st with os := os1, dwErr := e }) := by
  unfold seek_fallback
  rw [if_pos ⟨hs, h1, rfl⟩, hr]
  simp only
  rw [if_neg he1, if_pos he2]

/-- A cycle whose first read is the first read of the main loop (the log is
read from its first record) and fails. -/
theorem first_read_fails_main (env : Env) (os : EventLogOS) (nm : String)
    (metric : ZBX_ACTIVE_METRIC) (sent : Nat) (error : Option String) (sev0 : String)
    (F L e n : Nat) (rest : List (Option Fault)) (hname : nm ≠ "")
    (hskip : ¬ 1 = metric.skip_old_data) (hopen : zbx_open_eventlog os = Except.ok (F, L))
    (hdir : 0 = (normalise F L metric.lastlogsize).2.2)
    (hf : os.faults = some ⟨e, n⟩ :: rest)
    (he1 : e ≠ ERROR_INSUFFICIENT_BUFFER) (he2 : e ≠ ERROR_HANDLE_EOF) :
    process_eventslog env os (some nm) metric sent error sev0 =
      some ⟨FAIL, some (cannot_read env nm e), metric, sent, 0, 0, [], [], 64 * ZBX_KIBIBYTE⟩ := by
  have hfuel : enough os = (enough os - 1) + 1 := by unfold enough; omega
  have hloop := read_loop_read_fails env nm metric.refresh (normalise F L metric.lastlogsize).2.1
    (enough os - 1)
    ⟨⟨os.open_err, os.dwNumRecords, os.dwOldestRecord, os.records, none, os.faults⟩,
      64 * ZBX_KIBIBYTE, [], 0, ERROR_SUCCESS, error⟩
    ⟨(normalise F L metric.lastlogsize).1, 0, dispatch0 metric sent sev0⟩ e n
    ⟨os.open_err, os.dwNumRecords, os.dwOldestRecord, os.records, none, rest⟩ rfl rfl
    (ReadEventLog_fault _ _ _ _ ⟨e, n⟩ rest hf) he1 he2
  rw [← hfuel] at hloop
  unfold process_eventslog
  simp only
  rw [if_neg hname, hopen]
  simp only
  rw [if_neg hskip, if_pos hdir]
  simp only
  rw [if_neg (fun h => h rfl), if_neg (by decide)]
  have hl2 : read_loop env nm metric.refresh (normalise F L metric.lastlogsize).2.1 (enough os)
      { (⟨{ os with cur := none }, 64 * ZBX_KIBIBYTE, [], 0, ERROR_SUCCESS, error⟩ : ReadState)
        with dwErr := ERROR_SUCCESS }
      ⟨(normalise F L metric.lastlogsize).1, 0, ⟨metric.lastlogsize, sent, 0, 0, SUCCEED, sev0,
        [], []⟩⟩ = _ := hloop
  rw [hl2]
  rfl

/-- A cycle whose first read is the direct positioned read of `seek_eventlog`
and fails. -/
theorem first_read_fails_seek (env : Env) (os : EventLogOS) (nm : String)
    (metric : ZBX_ACTIVE_METRIC) (sent : Nat) (error : Option String) (sev0 : String)
    (F L e n : Nat) (rest : List (Option Fault)) (hname : nm ≠ "")
    (hskip : ¬ 1 = metric.skip_old_data) (hopen : zbx_open_eventlog os = Except.ok (F, L))
    (hdir : ¬ 0 = (normalise F L metric.lastlogsize).2.2)
    (hnew : ¬ L < (normalise F L metric.lastlogsize).2.1)
    (hf : os.faults = some ⟨e, n⟩ :: rest) (he0 : e ≠ ERROR_INVALID_PARAMETER)
    (he1 : e ≠ ERROR_INSUFFICIENT_BUFFER) (he2 : e ≠ ERROR_HANDLE_EOF) :
    process_eventslog env os (some nm) metric sent error sev0 =
      some ⟨FAIL, some (cannot_read env nm e), metric, sent, 0, 0, [], [], 64 * ZBX_KIBIBYTE⟩ := by
  have hfuel : enough os = (enough os - 1) + 1 := by unfold enough; omega
  have hseek := seek_direct_read_fails env nm (toDWORD (normalise F L metric.lastlogsize).2.1)
    (enough os - 1)
    ⟨⟨os.open_err, os.dwNumRecords, os.dwOldestRecord, os.records, none, os.faults⟩,
      64 * ZBX_KIBIBYTE, [], 0, ERROR_SUCCESS, error⟩ e n
    ⟨os.open_err, os.dwNumRecords, os.dwOldestRecord, os.records, none, rest⟩
    (ReadEventLog_fault _ _ _ _ ⟨e, n⟩ rest hf) he0 he1 he2
  rw [← hfuel] at hseek
  have hs2 : seek_eventlog env nm (enough os) (normalise F L metric.lastlogsize).2.1
      (normalise F L metric.lastlogsize).2.2 L
      ⟨{ os with cur := none }, 64 * ZBX_KIBIBYTE, [], 0, ERROR_SUCCESS, error⟩ =
      some (FAIL, ⟨⟨os.open_err, os.dwNumRecords, os.dwOldestRecord, os.records, none, rest⟩,
        64 * ZBX_KIBIBYTE, [], 0, e, some (cannot_read env nm e)⟩) := by
    unfold seek_eventlog
    have hs3 : seek_direct env nm (toDWORD (normalise F L metric.lastlogsize).2.1) (enough os)
        { (⟨{ os with cur := none }, 64 * ZBX_KIBIBYTE, [], 0, ERROR_SUCCESS, error⟩ :
          ReadState) with dwErr := ERROR_SUCCESS } = _ := hseek
    rw [hs3]
  unfold process_eventslog
  simp only
  rw [if_neg hname, hopen]
  simp only
  rw [if_neg hskip, if_neg hdir, if_neg hnew, hs2]
  simp only
  rw [if_pos (by decide)]

/-- C15 (counterexample). Log `[100, 150]`, checkpoint 140: the direct
positioned read of `seek_eventlog` fails with `ERROR_INVALID_PARAMETER`, a
read error that is neither insufficient-buffer nor end-of-log.  The cycle does
not fail: the seek falls back to the backward skip, the records 141 to 150 are
sent and the cycle returns `SUCCEED` without an error text. -/
theorem terminal_read_failure_counterexample :
    ERROR_INVALID_PARAMETER ≠ ERROR_INSUFFICIENT_BUFFER ∧
    ERROR_INVALID_PARAMETER ≠ ERROR_HANDLE_EOF ∧
    ∃ o, process_eventslog (demo_env ⟨"", "", "", ""⟩ 10)
        (demo_os 100 51 [some ⟨ERROR_INVALID_PARAMETER, 0⟩]) (some "System") ⟨140, 0, 1⟩ 0 none
        "" = some o ∧
      o.ret = SUCCEED ∧ o.error = none ∧ ids o = List.range' 141 10 ∧
      o.metric.lastlogsize = 150 ∧ ¬ o.ret = FAIL :=
  ⟨by decide, by decide, _, rfl, rfl, rfl, rfl, rfl, by decide⟩

/-- C15 (amended). Terminal read failure, legacy back end.  A read error
other than insufficient-buffer and end-of-log in the main sequential read
loop, and a read error other than invalid-parameter (which starts the
fallback), insufficient-buffer and end-of-log in the direct positioned read of
`seek_eventlog`, end the loop with `FAIL` and the text
`Cannot read eventlog '<name>': <system text>.`, leaving the locals of the
record loop, and with them `metric->lastlogsize`, as the last processed record
left them.  When the failing read is the first read of the cycle, the cycle
returns `FAIL` with that text, no record processed and the metric unchanged.
On a log whose records fill the buffer one at a time, read from checkpoint 120,
a failure of the third read ends the cycle with `FAIL`, the records 121 and
122 sent and the checkpoint 122. -/
theorem terminal_read_failure (env : Env) (nm : String) :
    (∀ (os : EventLogOS) (metric : ZBX_ACTIVE_METRIC) (sent : Nat) (error : Option String)
        (sev0 : String) (F L e n : Nat) (rest : List (Option Fault)), nm ≠ "" →
      ¬ 1 = metric.skip_old_data → zbx_open_eventlog os = Except.ok (F, L) →
      0 = (normalise F L metric.lastlogsize).2.2 → os.faults = some ⟨e, n⟩ :: rest →
      e ≠ ERROR_INSUFFICIENT_BUFFER → e ≠ ERROR_HANDLE_EOF →
      process_eventslog env os (some nm) metric sent error sev0 =
        some ⟨FAIL, some (cannot_read env nm e), metric, sent, 0, 0, [], [],
          64 * ZBX_KIBIBYTE⟩) ∧
    (∀ (os : EventLogOS) (metric : ZBX_ACTIVE_METRIC) (sent : Nat) (error : Option String)
        (sev0 : String) (F L e n : Nat) (rest : List (Option Fault)), nm ≠ "" →
      ¬ 1 = metric.skip_old_data → zbx_open_eventlog os = Except.ok (F, L) →
      ¬ 0 = (normalise F L metric.lastlogsize).2.2 →
      ¬ L < (normalise F L metric.lastlogsize).2.1 → os.faults = some ⟨e, n⟩ :: rest →
      e ≠ ERROR_INVALID_PARAMETER → e ≠ ERROR_INSUFFICIENT_BUFFER → e ≠ ERROR_HANDLE_EOF →
      process_eventslog env os (some nm) metric sent error sev0 =
        some ⟨FAIL, some (cannot_read env nm e), metric, sent, 0, 0, [], [],
          64 * ZBX_KIBIBYTE⟩) ∧
    (∀ (refresh : Int) (F fuel : Nat) (st : ReadState) (l : Locals) (e n : Nat)
        (os1 : EventLogOS), ERROR_SUCCESS = st.dwErr → 0 = st.dwRead →
      ReadEventLog st.os (EVENTLOG_SEQUENTIAL_READ ||| EVENTLOG_FORWARDS_READ) 0
        st.buffer_size = (ReadOutcome.fail e n, os1) →
      e ≠ ERROR_INSUFFICIENT_BUFFER → e ≠ ERROR_HANDLE_EOF →
      read_loop env nm refresh F (fuel + 1) st l =
        some (FAIL, { st with os := os1, dwErr := e, error := some (cannot_read env nm e) }, l)) ∧
    (∀ (rn fuel : Nat) (st : ReadState) (e n : Nat) (os1 : EventLogOS),
      ReadEventLog st.os (EVENTLOG_SEEK_READ ||| EVENTLOG_FORWARDS_READ) rn st.buffer_size =
        (ReadOutcome.fail e n, os1) →
      e ≠ ERROR_INVALID_PARAMETER → e ≠ ERROR_INSUFFICIENT_BUFFER → e ≠ ERROR_HANDLE_EOF →
      seek_direct env nm rn (fuel + 1) st =
        some (SeekExit.returned FAIL,
          { st with os := os1, dwErr := e, error := some (cannot_read env nm e) })) ∧
    (∃ o, process_eventslog (demo_env ⟨"", "", "", ""⟩ 10)
        (demo_big_os 100 51 [none, none, some ⟨5, 0⟩]) (some "System") ⟨120, 0, 1⟩ 0 none "" =
        some o ∧
      o.ret = FAIL ∧ o.error = some "Cannot read eventlog 'System': error." ∧
      ids o = [121, 122] ∧ o.calls.length = 2 ∧ o.metric.lastlogsize = 122) :=
  ⟨fun os metric sent error sev0 F L e n rest h1 h2 h3 h4 h5 h6 h7 =>
      first_read_fails_main env os nm metric sent error sev0 F L e n rest h1 h2 h3 h4 h5 h6 h7,
    fun os metric sent error sev0 F L e n rest h1 h2 h3 h4 h5 h6 h7 h8 h9 =>
      first_read_fails_seek env os nm metric sent error sev0 F L e n rest h1 h2 h3 h4 h5 h6 h7 h8
        h9,
    fun refresh F fuel st l e n os1 h1 h2 h3 h4 h5 =>
      read_loop_read_fails env nm refresh F fuel st l e n os1 h1 h2 h3 h4 h5,
    fun rn fuel st e n os1 h1 h2 h3 h4 =>
      seek_direct_read_fails env nm rn fuel st e n os1 h1 h2 h3 h4,
    ⟨_, rfl, rfl, rfl, rfl, rfl, rfl⟩⟩

/-- Witness for `terminal_read_failure`: on the log `[100, 150]` the first
read fails with code 5, in the main loop when the cycle starts from checkpoint
50 (below the window) and in the direct positioned read when it starts from
checkpoint 140. -/
theorem terminal_read_failure_witness :
    process_eventslog (demo_env ⟨"", "", "", ""⟩ 10) (demo_os 100 51 [some ⟨5, 0⟩])
        (some "System") ⟨50, 0, 1⟩ 0 none "" =
      some ⟨FAIL, some "Cannot read eventlog 'System': error.", ⟨50, 0, 1⟩, 0, 0, 0, [], [],
        64 * ZBX_KIBIBYTE⟩ ∧
    process_eventslog (demo_env ⟨"", "", "", ""⟩ 10) (demo_os 100 51 [some ⟨5, 0⟩])
        (some "System") ⟨140, 0, 1⟩ 0 none "" =
      some ⟨FAIL, some "Cannot read eventlog 'System': error.", ⟨140, 0, 1⟩, 0, 0, 0, [], [],
        64 * ZBX_KIBIBYTE⟩ :=
  have h := terminal_read_failure (demo_env ⟨"", "", "", ""⟩ 10) "System"
  ⟨h.1 (demo_os 100 51 [some ⟨5, 0⟩]) ⟨50, 0, 1⟩ 0 none "" 100 150 5 0 [] (by decide)
      (by decide) rfl (by decide) rfl (by decide) (by decide),
    h.2.1 (demo_os 100 51 [some ⟨5, 0⟩]) ⟨140, 0, 1⟩ 0 none "" 100 150 5 0 [] (by decide)
      (by decide) rfl (by decide) (by decide) rfl (by decide) (by decide) (by decide)⟩

/-- C16 (failing input). The system reports the window `[100, 150]` but only
the records 146 to 150 can still be read; the checkpoint is 140.  The direct
positioned read of record 141 is rejected with `ERROR_INVALID_PARAMETER`, the
fallback reads backward from the end of the log to skip `150 - 141 = 9`
records, gets the five records in one batch and, on its next read, the end of
the log.  `seek_eventlog` sets the error text and returns `FAIL`, and the cycle
returns `FAIL` with the checkpoint left at 140.  The same happens on the full
log `[100, 150]` when the first backward read reports the end of the log. -/
theorem fallback_end_of_log :
    (∃ o, process_eventslog (demo_env ⟨"", "", "", ""⟩ 10) (demo_os_stale 100 51 5)
        (some "System") ⟨140, 0, 1⟩ 0 none "" = some o ∧
      o.ret = FAIL ∧ o.error = some "Cannot read eventlog 'System': error." ∧
      o.steps = [] ∧ o.calls = [] ∧ o.metric.lastlogsize = 140 ∧ ¬ o.ret = SUCCEED) ∧
    (∃ o, process_eventslog (demo_env ⟨"", "", "", ""⟩ 10)
        (demo_os 100 51 [some ⟨ERROR_INVALID_PARAMETER, 0⟩, some ⟨ERROR_HANDLE_EOF, 0⟩])
        (some "System") ⟨140, 0, 1⟩ 0 none "" = some o ∧
      o.ret = FAIL ∧ o.error = some "Cannot read eventlog 'System': error." ∧
      o.steps = [] ∧ o.calls = [] ∧ o.metric.lastlogsize = 140 ∧ ¬ o.ret = SUCCEED) ∧
    (∃ st, seek_eventlog (demo_env ⟨"", "", "", ""⟩ 10) "System" 20 141 EVENTLOG_BACKWARDS_READ
        150 ⟨demo_os_stale 100 51 5, 64 * ZBX_KIBIBYTE, [], 0, ERROR_SUCCESS, none⟩ =
        some (FAIL, st) ∧
      st.dwErr = ERROR_HANDLE_EOF ∧
      st.error = some "Cannot read eventlog 'System': error.") :=
  ⟨⟨_, rfl, rfl, rfl, rfl, rfl, rfl, by decide⟩, ⟨_, rfl, rfl, rfl, rfl, rfl, rfl, by decide⟩,
    ⟨_, rfl, rfl, rfl⟩⟩

/-! ## Messages (C17, C18, C19) -/

/-- The dump of the insert strings is their concatenation with `"; "` between
two neighbours. -/
theorem join_strings_go : ∀ (l : List String) (a pre : String),
    String.intercalate.go (pre ++ a) "; " l = pre ++ join_strings (a :: l) := by
  intro l
  induction l with
  | nil => intro a pre; simp [String.intercalate.go, join_strings]
  | cons t rest ih =>
    intro a pre
    rw [String.intercalate.go]
    have := ih t (pre ++ a ++ "; ")
    rw [this, join_strings]
    simp only [String.append_assoc]

theorem join_strings_eq (l : List String) : join_strings l = String.intercalate "; " l := by
  cases l with
  | nil => rfl
  | cons a rest =>
    have := join_strings_go rest a ""
    simp only [String.empty_append] at this
    rw [String.intercalate, this]

theorem length_pos_ne_empty (s : String) (h : 0 < s.length) : s ≠ "" := by
  intro e
  rw [e] at h
  simp at h

/-- The fallback message of the legacy back end is not empty. -/
theorem fallback_message_ne (id : Nat) (src : String) (strs : List String) :
    fallback_message id src strs ≠ "" := by
  apply length_pos_ne_empty
  unfold fallback_message
  simp only
  split_ifs <;> simp only [String.length_append] <;>
    have : "The description for Event ID:".length = 29 := by decide
  all_goals omega

/-- The fallback message of the modern back end is not empty. -/
theorem fallback_message6_ne (id : Nat) (prov : String) (data : EventData) :
    fallback_message6 id prov data ≠ "" := by
  apply length_pos_ne_empty
  have h29 : "The description for Event ID:".length = 29 := by decide
  have happ : ∀ (xs : List (Option String)) (i : Nat) (msg : String), 0 < msg.length →
      0 < (append_array i xs msg).length := by
    intro xs
    induction xs with
    | nil => intro i msg h; simpa [append_array] using h
    | cons x rest ih =>
      intro i msg h
      cases x with
      | none => simpa [append_array] using ih (i + 1) msg h
      | some d =>
        rw [append_array]
        apply ih
        split_ifs <;> simp only [String.length_append] <;> omega
  rcases data with _ | s | xs
  · unfold fallback_message6
    simp only [String.length_append]
    omega
  · cases s with
    | none =>
      unfold fallback_message6
      simp only [String.length_append]
      omega
    | some d =>
      unfold fallback_message6
      simp only [String.length_append]
      omega
  · cases xs with
    | nil =>
      unfold fallback_message6
      simp only [String.length_append]
      omega
    | cons x rest =>
      unfold fallback_message6
      simp only
      apply happ
      simp only [String.length_append]
      omega

/-- C17 (counterexample). A legacy record whose message file formats the
event to a text of blanks and line ends only, which `zbx_format_message` trims
to the empty text (line 231): the loop over the message files succeeds with the
empty text and the decoded message is empty.  A modern event whose provider
formats the event to the empty text: the decode succeeds with an empty
message. -/
theorem message_empty_counterexample :
    (zbx_parse_eventlog_message
      ⟨100, 121, 1000, 7, EVENTLOG_ERROR_TYPE, "diskmon", ["a"], some ""⟩).out_message = "" ∧
    ∃ p, zbx_parse_eventlog_message6 (demo_env ⟨"", "", "", ""⟩ 10)
        ⟨"diskmon", none, 121, 7, WINEVENT_LEVEL_ERROR, 0, 116444736000000000,
          EventData.string (some "a"), none, some ""⟩ 121 = Except.ok p ∧
      p.out_message = "" :=
  ⟨rfl, _, rfl, rfl⟩

/-- C17 (amended). Message non-emptiness: the message produced by
`zbx_parse_eventlog_message`, and by a successful
`zbx_parse_eventlog_message6`, is empty exactly when message resolution
succeeded with the empty text; in particular, whenever resolution yields no
message the synthesized fallback message is produced and it is not empty. -/
theorem message_nonempty :
    (∀ r : EVENTLOGRECORD,
      ((zbx_parse_eventlog_message r).out_message = "" ↔ r.resolved = some "") ∧
      (r.resolved = none → (zbx_parse_eventlog_message r).out_message ≠ "")) ∧
    (∀ (env : Env) (e : EVENT6) (w : Nat) (p : Parsed6),
      zbx_parse_eventlog_message6 env e w = Except.ok p →
      (p.out_message = "" ↔ e.expanded = some "") ∧
      (e.expanded = none → p.out_message ≠ "")) := by
  constructor
  · intro r
    unfold zbx_parse_eventlog_message
    simp only
    rcases hr : r.resolved with _ | m
    · simp only
      have := fallback_message_ne (r.EventID &&& 0xffff) r.source r.strings
      exact ⟨⟨fun h => absurd h this, fun h => by simp at h⟩, fun _ => this⟩
    · simp
  · intro env e w p h
    unfold zbx_parse_eventlog_message6 at h
    rcases hr : e.render_err with _ | x
    swap
    · simp only [hr] at h
      simp at h
    simp only [hr, Except.ok.injEq] at h
    rw [← h]
    simp only
    rcases he : e.expanded with _ | m
    · simp only
      have := fallback_message6_ne (e.EventID % 2 ^ 16) e.ProviderName e.data
      exact ⟨⟨fun h => absurd h this, fun h => by simp at h⟩, fun _ => this⟩
    · simp

/-- Witness for `message_nonempty`: an event of the example channel whose
provider cannot format it. -/
theorem message_nonempty_witness :
    ∃ p, zbx_parse_eventlog_message6 (demo_env ⟨"", "", "", ""⟩ 10)
        ⟨"diskmon", none, 121, 7, WINEVENT_LEVEL_ERROR, 0, 116444736000000000,
          EventData.other, none, none⟩ 121 = Except.ok p ∧ p.out_message ≠ "" :=
  ⟨_, rfl, (message_nonempty.2 (demo_env ⟨"", "", "", ""⟩ 10)
    ⟨"diskmon", none, 121, 7, WINEVENT_LEVEL_ERROR, 0, 116444736000000000,
      EventData.other, none, none⟩ 121 _ rfl).2 rfl⟩

/-- C18. Legacy fallback message: when no message file yields a formatted
message, the message produced by `zbx_parse_eventlog_message` is the fixed
text with the decimal event id (the low 16 bits of `EventID`) and the source
name inserted, followed, when the record has insert strings, by
` The following information is part of the event: ` and all insert strings in
order, verbatim, joined by `; `; nothing follows the fixed text when the
record has no insert strings.  In both cases the message ends with the joined
insert strings. -/
theorem legacy_fallback_message (r : EVENTLOGRECORD) (h : r.resolved = none) :
    (zbx_parse_eventlog_message r).out_message =
      "The description for Event ID:" ++ toString (r.EventID % 2 ^ 16) ++ " in Source:'" ++
        r.source ++ "' cannot be found. The local computer may not have the necessary registry" ++
        " information or message DLL files to display messages from a remote computer." ++
        (if r.strings = [] then ""
          else " The following information is part of the event: " ++
            String.intercalate "; " r.strings) ∧
    ∃ pre, (zbx_parse_eventlog_message r).out_message = pre ++ String.intercalate "; " r.strings := by
  have hid : r.EventID &&& 0xffff = r.EventID % 2 ^ 16 := by
    have := Nat.and_pow_two_sub_one_eq_mod r.EventID 16
    simpa using this
  have hdec : ∀ n, dec n = toString n := fun _ => rfl
  have hmsg : (zbx_parse_eventlog_message r).out_message =
      fallback_message (r.EventID % 2 ^ 16) r.source r.strings := by
    unfold zbx_parse_eventlog_message
    simp only [h, hid]
  have h1 : fallback_message (r.EventID % 2 ^ 16) r.source r.strings =
      "The description for Event ID:" ++ toString (r.EventID % 2 ^ 16) ++ " in Source:'" ++
        r.source ++ "' cannot be found. The local computer may not have the necessary registry" ++
        " information or message DLL files to display messages from a remote computer." ++
        (if r.strings = [] then ""
          else " The following information is part of the event: " ++
            String.intercalate "; " r.strings) := by
    unfold fallback_message
    simp only [hdec, join_strings_eq]
    rcases hs : r.strings with _ | ⟨a, rest⟩
    · simp only [List.length_nil, Nat.lt_irrefl, if_false, if_true, String.append_empty]
    · simp only [List.length_cons, Nat.zero_lt_succ, if_true, String.append_assoc]
      simp
  rw [hmsg]
  refine ⟨h1, ?_⟩
  rw [h1]
  by_cases hs : r.strings = []
  · rw [if_pos hs, hs]
    have e0 : String.intercalate "; " [] = "" := rfl
    rw [e0]
    exact ⟨_, rfl⟩
  · rw [if_neg hs]
    exact ⟨_, (String.append_assoc _ _ _).symm⟩

/-- Witness for `legacy_fallback_message`: event id `0x10007`, source
`diskmon`, insert strings `a`, `b c` and `d`. -/
theorem legacy_fallback_message_witness :
    (zbx_parse_eventlog_message
      ⟨100, 121, 1000, 65543, EVENTLOG_ERROR_TYPE, "diskmon", ["a", "b c", "d"],
        none⟩).out_message =
      "The description for Event ID:7 in Source:'diskmon' cannot be found. The local computer" ++
      " may not have the necessary registry information or message DLL files to display" ++
      " messages from a remote computer. The following information is part of the event: " ++
      "a; b c; d" :=
  ((legacy_fallback_message
    ⟨100, 121, 1000, 65543, EVENTLOG_ERROR_TYPE, "diskmon", ["a", "b c", "d"], none⟩ rfl).1).trans
    rfl

set_option maxRecDepth 20000

/-- C19 (failing input). A modern event whose provider cannot format it and
whose event data is an array of two strings, the first entry being a null
pointer and the second `a`.  The fallback message ends with
`included with the event: ; a`: the separator is written before the first
entry that is appended, because the loop tests the index of the entry
(`0 < i`), not whether an entry was appended before.  With the entries `a`,
null, `b` the message ends with `a; b`. -/
theorem modern_fallback_separator :
    (∃ p, zbx_parse_eventlog_message6 (demo_env ⟨"", "", "", ""⟩ 10)
        ⟨"diskmon", none, 121, 7, WINEVENT_LEVEL_ERROR, 0, 116444736000000000,
          EventData.array [none, some "a"], none, none⟩ 121 = Except.ok p ∧
      p.out_message =
        "The description for Event ID:7 in Source:'diskmon' cannot be found. Either the" ++
        " component that raises this event is not installed on your local computer or the" ++
        " installation is corrupted. You can install or repair the component on the local" ++
        " computer. If the event originated on another computer, the display information had" ++
        " to be saved with the event. The following information was included with the event: " ++
        "; a") ∧
    (∃ p, zbx_parse_eventlog_message6 (demo_env ⟨"", "", "", ""⟩ 10)
        ⟨"diskmon", none, 121, 7, WINEVENT_LEVEL_ERROR, 0, 116444736000000000,
          EventData.array [some "a", none, some "b"], none, none⟩ 121 = Except.ok p ∧
      p.out_message =
        "The description for Event ID:7 in Source:'diskmon' cannot be found. Either the" ++
        " component that raises this event is not installed on your local computer or the" ++
        " installation is corrupted. You can install or repair the component on the local" ++
        " computer. If the event originated on another computer, the display information had" ++
        " to be saved with the event. The following information was included with the event: " ++
        "a; b") :=
  ⟨⟨_, rfl, rfl⟩, ⟨_, rfl, rfl⟩⟩

/-! ## The id of a record and its checkpoint value (C20) -/

/-- One event of the modern back end adds at most one processed record, which
carries the record id of the event. -/
theorem process_event6_own (env : Env) (refresh : Int) (e : EVENT6) (l : Locals6)
    (h : OwnId l.d) : OwnId (process_event6 env refresh e l).1.d := by
  rcases hr : e.render_err with _ | x
  · obtain ⟨p, hp, hd, -, -, -⟩ := process_event6_ok env refresh e l hr
    obtain ⟨hs, -⟩ := dispatch_record_facts env refresh l.d e.EventRecordID
      (modern_event p l.d.str_severity)
      (severity_switch6 p.out_severity p.out_keywords l.d.str_severity).2
    intro s hsmem
    rw [hd, hs] at hsmem
    rcases List.mem_append.1 hsmem with h1 | h1
    · exact h s h1
    · simp only [List.mem_singleton] at h1
      rw [h1]
      exact hp
  · have hz : zbx_parse_eventlog_message6 env e (add64 l.lastlogsize 1) =
        Except.error ("EvtRender failed: " ++ env.strerror_from_system x) := by
      unfold zbx_parse_eventlog_message6
      simp only [hr]
    unfold process_event6
    simp only [hz]
    exact h

/-- Events that can be rendered never make the loop over a batch fail. -/
theorem parse_batch6_no_out (env : Env) (refresh : Int) :
    ∀ (xs : List EVENT6) (l : Locals6), (∀ e ∈ xs, e.render_err = none) →
      (parse_batch6 env refresh xs l).2 ≠ Flow6.out := by
  intro xs
  induction xs with
  | nil => intro l _; simp [parse_batch6]
  | cons e rest ih =>
    intro l h
    obtain ⟨p, -, -, -, hout, -⟩ := process_event6_ok env refresh e l
      (h e (List.mem_cons_self _ _))
    rw [parse_batch6_cons]
    split_ifs with hn
    · exact ih _ (fun x hx => h x (List.mem_cons_of_mem _ hx))
    · exact hout

/-- One record keeps the start records of the legacy loop rooted. -/
theorem process_record_rooted (env : Env) (refresh : Int) (F : Nat) (r : EVENTLOGRECORD)
    (l : Locals) (hT : Tied l) (hR : Rooted l)
    (hg : 0 ≠ l.timestamp ∨ toDWORD F = r.RecordNumber) :
    Rooted (process_record env refresh F r l).1 := by
  obtain ⟨s, hs, hid, hcall⟩ := process_record_steps env refresh F r l
  have hsl : s.call.lastlogsize = (if 0 = l.timestamp then F else add64 l.lastlogsize 1) := by
    rw [hcall]; rfl
  have hstart : l.timestamp = 0 → toDWORD s.call.lastlogsize = s.id := by
    intro h0
    rw [hsl, if_pos h0.symm, hid]
    rcases hg with hg | hg
    · exact absurd h0.symm hg
    · exact hg
  constructor
  · intro hnil
    rw [hs] at hnil
    simp at hnil
  · intro pre x post hsteps hpre
    rw [hs] at hsteps
    rcases List.eq_nil_or_concat post with hp | ⟨post1, y, hp⟩
    · subst hp
      obtain ⟨h1, h2⟩ := snoc_inj _ _ _ _ hsteps
      rw [← h2]
      apply hstart
      rcases hpre with hpre | ⟨pre1, p, hpre, hp0⟩
      · exact hR.1 (by rw [h1, hpre])
      · rw [hpre] at h1
        rw [← (hT.2 pre1 p h1).2]
        exact hp0
    · rw [List.concat_eq_append] at hp
      subst hp
      have he : l.d.steps ++ [s] = (pre ++ x :: post1) ++ [y] := by rw [hsteps]; simp
      obtain ⟨h1, -⟩ := snoc_inj _ _ _ _ he
      exact hR.2 pre x post1 h1 hpre

/-- The stored checkpoint of a cycle in which the sink never failed is the
checkpoint value of the last processed record. -/
theorem stored_of (m0 : Nat) (metric : ZBX_ACTIVE_METRIC) (sent : Nat) (sev0 : String)
    (o : Outcome) (d : Dispatch) (hd : Flowing m0 d ∨ (Halted m0 d ∧ o.ret = SUCCEED))
    (hr : ReadsOff metric sent sev0 o d) (hskip : ¬ 1 = metric.skip_old_data)
    (hok : ∀ s ∈ o.steps, SUCCEED = s.send_err) :
    o.metric.lastlogsize = last_id m0 o.steps := by
  obtain ⟨h1, -, -, -, -, h6⟩ := hr
  have hm : o.metric.lastlogsize = d.metric_lastlogsize := by
    rcases h6 with h6 | h6
    · exact h6
    · exact absurd h6.1 hskip
  have hflow : Flowing m0 d := by
    rcases hd with hd | ⟨hd | ⟨pre, s, hs, -, hbad, -⟩, -⟩
    · exact hd
    · exact hd
    · exfalso
      apply hbad
      apply hok
      rw [h1, hs]
      simp
  rw [hm, h1]
  exact hflow.2.2

theorem flowing_start (metric : ZBX_ACTIVE_METRIC) (sent : Nat) (sev0 : String) :
    Flowing metric.lastlogsize (dispatch0 metric sent sev0) :=
  ⟨rfl, fun s hs => by simp [dispatch0] at hs, rfl⟩

/-- The trace of every cycle of the legacy back end: start records are
rooted, later records are counted. -/
theorem legacy_trace (env : Env) (os : EventLogOS) (name : Option String)
    (metric : ZBX_ACTIVE_METRIC) (sent : Nat) (error : Option String) (sev0 : String)
    (o : Outcome) (h : process_eventslog env os name metric sent error sev0 = some o) :
    (∀ pre s post, o.steps = pre ++ s :: post →
      (pre = [] ∨ ∃ pre1 p, pre = pre1 ++ [p] ∧ p.call.timestamp = 0) →
      toDWORD s.call.lastlogsize = s.id) ∧
    (∀ pre a b post, o.steps = pre ++ a :: b :: post → a.call.timestamp ≠ 0 →
      b.call.lastlogsize = add64 a.call.lastlogsize 1) := by
  rcases process_eventslog_shape env os name metric sent error sev0 o h with
    h1 | ⟨nm, F0, L, st1, ret, st2, l, -, -, -, -, -, -, hloop, hout⟩
  · constructor
    · intro pre s post hsteps
      rw [h1.1] at hsteps
      simp at hsteps
    · intro pre a b post hsteps
      rw [h1.1] at hsteps
      simp at hsteps
  · have hinv := read_loop_inv env nm metric.refresh (normalise F0 L metric.lastlogsize).2.1
      (fun l => Tied l ∧ Rooted l) (fun l => Tied l ∧ Rooted l) (fun _ => True)
      (fun r l1 _ hP hg =>
        ⟨fun _ => ⟨process_record_tied env metric.refresh _ r l1 hP.1,
            process_record_rooted env metric.refresh _ r l1 hP.1 hP.2 hg⟩,
          fun _ => ⟨process_record_tied env metric.refresh _ r l1 hP.1,
            process_record_rooted env metric.refresh _ r l1 hP.1 hP.2 hg⟩⟩)
      (enough os) st1 ⟨(normalise F0 L metric.lastlogsize).1, 0, dispatch0 metric sent sev0⟩
      ret st2 l (fun _ _ => trivial) (fun _ _ => trivial)
      ⟨⟨fun pre a b post hs => by simp [dispatch0] at hs,
          fun pre s hs => by simp [dispatch0] at hs⟩,
        ⟨fun _ => rfl, fun pre s post hs => by simp [dispatch0] at hs⟩⟩ hloop
    have ht : Tied l ∧ Rooted l := by
      rcases hinv with h1 | h1
      · exact h1
      · exact h1.1
    rw [hout]
    exact ⟨ht.2.2, ht.1.1⟩

/-- A cycle of the legacy back end in which no read meets an injected fault
returns `SUCCEED` once the record loop is reached. -/
theorem legacy_quiet_succeeds (env : Env) (os : EventLogOS) (name : Option String)
    (metric : ZBX_ACTIVE_METRIC) (sent : Nat) (error : Option String) (sev0 : String)
    (o : Outcome) (h : process_eventslog env os name metric sent error sev0 = some o)
    (hq : os.faults = []) (hsteps : o.steps ≠ []) : o.ret = SUCCEED := by
  rcases process_eventslog_shape env os name metric sent error sev0 o h with
    h1 | ⟨nm, F0, L, st1, ret, st2, l, -, -, -, hrec, hfl, -, hloop, hout⟩
  · exact absurd h1.1 hsteps
  · have hf1 : st1.os.faults = [] := by
      rw [hq] at hfl
      exact List.length_eq_zero.1 (Nat.le_zero.1 hfl)
    have hret : ret = SUCCEED := by
      by_cases hd : ERROR_SUCCESS = st1.dwErr
      · obtain ⟨st', hflat, -⟩ := read_loop_flat env nm metric.refresh
          (normalise F0 L metric.lastlogsize).2.1 (enough os) st1
          ⟨(normalise F0 L metric.lastlogsize).1, 0, dispatch0 metric sent sev0⟩ hf1 hd (by
            have := loop_measure_le st1
            rw [hf1, hrec] at this
            simp only [List.length_nil] at this
            unfold enough
            omega)
        rw [hflat] at hloop
        simp only [Option.some.injEq, Prod.mk.injEq] at hloop
        exact hloop.1.symm
      · have hfuel : enough os = (enough os - 1) + 1 := by unfold enough; omega
        rw [hfuel] at hloop
        unfold read_loop at hloop
        rw [if_neg hd] at hloop
        simp only [Option.some.injEq, Prod.mk.injEq] at hloop
        exact hloop.1.symm
    rw [hout, hret]
    rfl

/-- The trace of every call of `process_eventslog6`: each processed record
carries its own record id. -/
theorem modern_trace (env : Env) (os : EventLog6OS) (query : Option (List EVENT6))
    (lastlogsize FirstID LastID : Nat) (metric : ZBX_ACTIVE_METRIC) (sent : Nat)
    (error : Option String) (sev0 : String) (o : Outcome)
    (h : process_eventslog6 env os query lastlogsize FirstID LastID metric sent error sev0 =
      some o) :
    ∀ s ∈ o.steps, s.call.lastlogsize = s.id % 2 ^ 64 := by
  rcases process_eventslog6_shape env os query lastlogsize FirstID LastID metric sent error sev0
    o h with h1 | ⟨q, ret, l, -, -, hloop, ho⟩
  · intro s hs
    rw [h1.1] at hs
    simp at hs
  · have hP := read_loop6_inv env metric.refresh (fun l => OwnId l.d) (fun l => OwnId l.d)
      (fun l => OwnId l.d) (fun _ => True)
      (fun e l _ hl => ⟨fun _ => process_event6_own env metric.refresh e l hl,
        fun _ => process_event6_own env metric.refresh e l hl,
        fun _ => process_event6_own env metric.refresh e l hl⟩)
      (fun l msg hl => hl) _ q os.faults _ ret l (fun _ _ => trivial)
      (fun s hs => by simp [dispatch0] at hs) hloop
    have hl : OwnId l.d := by
      rcases hP with h1 | h1 | h1
      · exact h1
      · exact h1.1
      · exact h1.1
    rw [ho]
    exact hl

/-- A call of `process_eventslog6` with a query handle, without failures of
`EvtNext` and with events that can be rendered returns `SUCCEED`. -/
theorem modern_quiet_succeeds (env : Env) (os : EventLog6OS) (q : List EVENT6)
    (lastlogsize FirstID LastID : Nat) (metric : ZBX_ACTIVE_METRIC) (sent : Nat)
    (error : Option String) (sev0 : String) (o : Outcome)
    (h : process_eventslog6 env os (some q) lastlogsize FirstID LastID metric sent error sev0 =
      some o)
    (hq : os.faults = []) (hr : ∀ e ∈ q, e.render_err = none) : o.ret = SUCCEED := by
  rcases process_eventslog6_shape env os (some q) lastlogsize FirstID LastID metric sent error
    sev0 o h with ⟨-, -, -, -, -, -, h1⟩ | ⟨q1, ret, l, hq1, -, hloop, ho⟩
  · rcases h1 with ⟨-, h1 | h1⟩ | h1
    · exact h1
    · simp at h1
    · exact h1.2.1
  · simp only [Option.some.injEq] at hq1
    subst hq1
    rw [hq, read_loop6_flat env metric.refresh _ _ _ (Nat.lt_succ_self _)] at hloop
    simp only [Option.some.injEq, Prod.mk.injEq] at hloop
    rw [ho, ← hloop.1, if_neg (parse_batch6_no_out env metric.refresh q _ hr)]
    rfl

/-- C20 (counterexample). A legacy log holds two records numbered 121 and
123; the cycle starts from checkpoint 120.  Record 121 is the start record and
is sent with the checkpoint value 121; record 123 is sent with the checkpoint
value 122, whose low 32 bits are not its record number, and 122 is stored in
`metric->lastlogsize`.  The cycle returns `SUCCEED`. -/
theorem record_id_counterexample :
    ∃ o, process_eventslog (demo_env ⟨"", "", "", ""⟩ 10) (demo_os_gap 121) (some "System")
        ⟨120, 0, 1⟩ 0 none "" = some o ∧
      o.ret = SUCCEED ∧ o.steps.map (fun s => s.id) = [121, 123] ∧
      o.calls.map (fun c => c.lastlogsize) = [121, 122] ∧ o.metric.lastlogsize = 122 ∧
      ¬ toDWORD 122 = 123 :=
  ⟨_, rfl, rfl, rfl, rfl, rfl, by decide⟩

/-- C20 (amended). Record ids.  Modern back end: every processed record is
passed to the sink with its own `EventRecordID` as checkpoint value, whatever
the previous checkpoint was, and a call with a query handle, without failures
of `EvtNext` and with events that can be rendered returns `SUCCEED` whatever
the ids are.  Legacy back end: the first processed record of a cycle (and a
record processed after a record with the time 0) is the start record, and the
low 32 bits of its checkpoint value are its `RecordNumber`; every other
processed record is given the checkpoint value of its predecessor plus one, in
64 bits, whatever its `RecordNumber` is; a cycle in which no read meets an
injected fault returns `SUCCEED` once a record was processed.  In both back
ends, when the sink never failed and `skip_old_data` is off, the value stored
in `metric->lastlogsize` is the checkpoint value of the last processed record
(the stored value is left as it was when no record was processed). -/
theorem record_id (env : Env) :
    (∀ (os : EventLogOS) (name : Option String) (metric : ZBX_ACTIVE_METRIC) (sent : Nat)
        (error : Option String) (sev0 : String),
      ∃ o, process_eventslog env os name metric sent error sev0 = some o ∧
        (∀ pre s post, o.steps = pre ++ s :: post →
          (pre = [] ∨ ∃ pre1 p, pre = pre1 ++ [p] ∧ p.call.timestamp = 0) →
          toDWORD s.call.lastlogsize = s.id) ∧
        (∀ pre a b post, o.steps = pre ++ a :: b :: post → a.call.timestamp ≠ 0 →
          b.call.lastlogsize = add64 a.call.lastlogsize 1) ∧
        (¬ 1 = metric.skip_old_data → (∀ s ∈ o.steps, SUCCEED = s.send_err) →
          o.metric.lastlogsize = last_id metric.lastlogsize o.steps) ∧
        (os.faults = [] → o.steps ≠ [] → o.ret = SUCCEED)) ∧
    (∀ (os : EventLog6OS) (query : Option (List EVENT6)) (lastlogsize FirstID LastID : Nat)
        (metric : ZBX_ACTIVE_METRIC) (sent : Nat) (error : Option String) (sev0 : String),
      ∃ o, process_eventslog6 env os query lastlogsize FirstID LastID metric sent error sev0 =
          some o ∧
        (∀ s ∈ o.steps, s.call.lastlogsize = s.id % 2 ^ 64) ∧
        (¬ 1 = metric.skip_old_data → (∀ s ∈ o.steps, SUCCEED = s.send_err) →
          o.metric.lastlogsize = last_id metric.lastlogsize o.steps) ∧
        (∀ q, query = some q → os.faults = [] → (∀ e ∈ q, e.render_err = none) →
          o.ret = SUCCEED)) := by
  constructor
  · intro os name metric sent error sev0
    obtain ⟨o, ho⟩ := process_eventslog_total env os name metric sent error sev0
    obtain ⟨h1, h2⟩ := legacy_trace env os name metric sent error sev0 o ho
    obtain ⟨d, hd, hr⟩ := process_eventslog_inv env os name metric sent error sev0 o
      (Flowing metric.lastlogsize) (Halted metric.lastlogsize)
      (fun d id ev sev hP => dispatch_record_flowing env metric.refresh _ d id ev sev hP)
      (flowing_start metric sent sev0) ho
    exact ⟨o, ho, h1, h2,
      fun hskip hok => stored_of _ metric sent sev0 o d hd hr hskip hok,
      fun hq hs => legacy_quiet_succeeds env os name metric sent error sev0 o ho hq hs⟩
  · intro os query lastlogsize FirstID LastID metric sent error sev0
    obtain ⟨o, ho⟩ := process_eventslog6_total env os query lastlogsize FirstID LastID metric
      sent error sev0
    obtain ⟨d, hd, hr⟩ := process_eventslog6_inv env os query lastlogsize FirstID LastID metric
      sent error sev0 o (Flowing metric.lastlogsize) (Halted metric.lastlogsize)
      (fun d id ev sev hP => dispatch_record_flowing env metric.refresh _ d id ev sev hP)
      (flowing_start metric sent sev0) ho
    refine ⟨o, ho, modern_trace env os query lastlogsize FirstID LastID metric sent error sev0 o
      ho, fun hskip hok => stored_of _ metric sent sev0 o d hd hr hskip hok, ?_⟩
    intro q hq hf hrend
    subst hq
    exact modern_quiet_succeeds env os q lastlogsize FirstID LastID metric sent error sev0 o ho
      hf hrend

/-- Witness for `record_id`: a modern query that holds the events 121 and 125,
read after checkpoint 120. -/
theorem record_id_witness :
    ∃ o, process_eventslog6 (demo_env ⟨"", "", "", ""⟩ 10) (demo_os6 121 5 [])
        (some [demo_event6 121, demo_event6 125]) 120 121 126 ⟨120, 0, 1⟩ 0 none "" = some o ∧
      (∀ s ∈ o.steps, s.call.lastlogsize = s.id % 2 ^ 64) ∧ o.ret = SUCCEED :=
  match (record_id (demo_env ⟨"", "", "", ""⟩ 10)).2 (demo_os6 121 5 [])
    (some [demo_event6 121, demo_event6 125]) 120 121 126 ⟨120, 0, 1⟩ 0 none "" with
  | ⟨o, ho, h1, _, h3⟩ => ⟨o, ho, h1, h3 _ rfl rfl (by decide)⟩

/-! ## Severity of modern events (C21) -/

/-- Masking with a single bit gives zero exactly when that bit is clear. -/
theorem and_two_pow_eq_zero (x i : Nat) : x &&& 2 ^ i = 0 ↔ x.testBit i = false := by
  constructor
  · intro h
    have h1 : (x &&& 2 ^ i).testBit i = false := by rw [h]; exact Nat.zero_testBit i
    rw [Nat.testBit_and, Nat.testBit_two_pow_self, Bool.and_true] at h1
    exact h1
  · intro h
    apply Nat.eq_of_testBit_eq
    intro j
    rw [Nat.testBit_and, Nat.testBit_two_pow, Nat.zero_testBit]
    by_cases hij : i = j
    · subst hij
      rw [h]
      rfl
    · simp [hij]

/-- The keywords `zbx_parse_eventlog_message6` returns keep the audit-failure
bit (bit 52) and the audit-success bit (bit 53) of the raw keywords and no
other bit. -/
theorem out_keywords_bits (env : Env) (e : EVENT6) (w : Nat) (p : Parsed6)
    (h : zbx_parse_eventlog_message6 env e w = Except.ok p) :
    p.out_severity = e.Level % 2 ^ 8 ∧
    ∀ j, p.out_keywords.testBit j = (e.Keywords.testBit j && decide (j = 52 ∨ j = 53)) := by
  unfold zbx_parse_eventlog_message6 at h
  rcases hr : e.render_err with _ | x
  swap
  · simp only [hr] at h
    simp at h
  simp only [hr, Except.ok.injEq] at h
  rw [← h]
  refine ⟨rfl, ?_⟩
  intro j
  simp only
  have e1 : (0x20000000000000 : Nat) = 2 ^ 53 := by norm_num
  have e2 : (0x10000000000000 : Nat) = 2 ^ 52 := by norm_num
  rw [e1, e2, Nat.testBit_and, Nat.testBit_or, Nat.testBit_mod_two_pow, Nat.testBit_two_pow,
    Nat.testBit_two_pow]
  by_cases h52 : j = 52
  · subst h52; simp
  · by_cases h53 : j = 53
    · subst h53; simp
    · have h1 : ¬ 53 = j := fun h => h53 h.symm
      have h2 : ¬ 52 = j := fun h => h52 h.symm
      simp [h52, h53, h1, h2]

/-- C21. Audit classification, modern back end: for every event that can be
rendered and whose level is `WINEVENT_LEVEL_INFO` or
`WINEVENT_LEVEL_LOG_ALWAYS`, the severity passed to the sink and the severity
name depend only on bit 52 (audit failure, `0x10000000000000`) and bit 53
(audit success, `0x20000000000000`) of the raw keywords: failure audit when
bit 52 is set, whatever bit 53 is; otherwise success audit when bit 53 is set;
otherwise information. -/
theorem audit_classification (env : Env) (e : EVENT6) (w : Nat) (p : Parsed6) (str : String)
    (h : zbx_parse_eventlog_message6 env e w = Except.ok p)
    (hlevel : e.Level % 2 ^ 8 = WINEVENT_LEVEL_INFO ∨
      e.Level % 2 ^ 8 = WINEVENT_LEVEL_LOG_ALWAYS) :
    severity_switch6 p.out_severity p.out_keywords str =
      (if e.Keywords.testBit 52 = true then (ITEM_LOGTYPE_FAILURE_AUDIT, AUDIT_FAILURE)
        else if e.Keywords.testBit 53 = true then (ITEM_LOGTYPE_SUCCESS_AUDIT, AUDIT_SUCCESS)
        else (ITEM_LOGTYPE_INFORMATION, INFORMATION_TYPE)) ∧
    (modern_event p str).severity =
      (if e.Keywords.testBit 52 = true then ITEM_LOGTYPE_FAILURE_AUDIT
        else if e.Keywords.testBit 53 = true then ITEM_LOGTYPE_SUCCESS_AUDIT
        else ITEM_LOGTYPE_INFORMATION) := by
  obtain ⟨hsev, hbits⟩ := out_keywords_bits env e w p h
  have hf : (0 ≠ p.out_keywords &&& WINEVENT_KEYWORD_AUDIT_FAILURE) ↔
      e.Keywords.testBit 52 = true := by
    have e2 : WINEVENT_KEYWORD_AUDIT_FAILURE = 2 ^ 52 := by
      unfold WINEVENT_KEYWORD_AUDIT_FAILURE; norm_num
    have hz := and_two_pow_eq_zero p.out_keywords 52
    rw [hbits 52] at hz
    rw [e2]
    constructor
    · intro hne
      by_contra hb
      exact hne (hz.2 (by simp [hb])).symm
    · intro hb hzero
      have := hz.1 hzero.symm
      simp [hb] at this
  have hs : (0 ≠ p.out_keywords &&& WINEVENT_KEYWORD_AUDIT_SUCCESS) ↔
      e.Keywords.testBit 53 = true := by
    have e2 : WINEVENT_KEYWORD_AUDIT_SUCCESS = 2 ^ 53 := by
      unfold WINEVENT_KEYWORD_AUDIT_SUCCESS; norm_num
    have hz := and_two_pow_eq_zero p.out_keywords 53
    rw [hbits 53] at hz
    rw [e2]
    constructor
    · intro hne
      by_contra hb
      exact hne (hz.2 (by simp [hb])).symm
    · intro hb hzero
      have := hz.1 hzero.symm
      simp [hb] at this
  have hcond : p.out_severity = WINEVENT_LEVEL_LOG_ALWAYS ∨ p.out_severity = WINEVENT_LEVEL_INFO := by
    rw [hsev]
    exact hlevel.symm
  have hmain : severity_switch6 p.out_severity p.out_keywords str =
      (if e.Keywords.testBit 52 = true then (ITEM_LOGTYPE_FAILURE_AUDIT, AUDIT_FAILURE)
        else if e.Keywords.testBit 53 = true then (ITEM_LOGTYPE_SUCCESS_AUDIT, AUDIT_SUCCESS)
        else (ITEM_LOGTYPE_INFORMATION, INFORMATION_TYPE)) := by
    unfold severity_switch6
    rw [if_pos hcond]
    by_cases h52 : e.Keywords.testBit 52 = true
    · rw [if_pos (hf.2 h52), if_pos h52]
    · rw [if_neg (fun hh => h52 (hf.1 hh)), if_neg h52]
      by_cases h53 : e.Keywords.testBit 53 = true
      · rw [if_pos (hs.2 h53), if_pos h53]
      · rw [if_neg (fun hh => h53 (hs.1 hh)), if_neg h53]
  refine ⟨hmain, ?_⟩
  show (severity_switch6 p.out_severity p.out_keywords str).1 = _
  rw [hmain]
  split_ifs <;> rfl

/-- Witness for `audit_classification`: an informational event whose keywords
have the audit-failure bit, the audit-success bit and other bits set. -/
theorem audit_classification_witness :
    ∃ p, zbx_parse_eventlog_message6 (demo_env ⟨"", "", "", ""⟩ 10)
        ⟨"Security", none, 121, 4625, WINEVENT_LEVEL_INFO, 0x8030000000000001,
          116444736000000000, EventData.other, none, some "logon"⟩ 121 = Except.ok p ∧
      severity_switch6 p.out_severity p.out_keywords "" =
        (ITEM_LOGTYPE_FAILURE_AUDIT, AUDIT_FAILURE) :=
  ⟨_, rfl, (audit_classification (demo_env ⟨"", "", "", ""⟩ 10)
    ⟨"Security", none, 121, 4625, WINEVENT_LEVEL_INFO, 0x8030000000000001,
      116444736000000000, EventData.other, none, some "logon"⟩ 121 _ "" rfl
    (Or.inl (by decide))).1.trans (by decide)⟩

/-! ## Severity classification is not total (C22) -/

/-- C22 (evaluation of the code). Neither `switch` has a `default` label.
Legacy back end: in a log whose record 122 has the `EventType` 3, that record
reaches the filter and the sink with the severity 3, which is none of the seven
unified values, and with the severity name of record 121: `"Error"` when record
121 is an error record, `"Warning"` when it is a warning record; when the
record is the first of the cycle, the name is the indeterminate initial value
of the local `str_severity`.  Modern back end: the same with an event of
level 6 after an error or a warning event. -/
theorem severity_not_total :
    (∃ o, process_eventslog (demo_env ⟨"", "", "", ""⟩ 10)
        (demo_os_types EVENTLOG_ERROR_TYPE 3) (some "System") ⟨120, 0, 1⟩ 0 none "" = some o ∧
      severities o = [(ITEM_LOGTYPE_ERROR, ERROR_TYPE), (3, ERROR_TYPE)]) ∧
    (∃ o, process_eventslog (demo_env ⟨"", "", "", ""⟩ 10)
        (demo_os_types EVENTLOG_WARNING_TYPE 3) (some "System") ⟨120, 0, 1⟩ 0 none "" = some o ∧
      severities o = [(ITEM_LOGTYPE_WARNING, WARNING_TYPE), (3, WARNING_TYPE)]) ∧
    (∀ sev0, ∃ o, process_eventslog (demo_env ⟨"", "", "", ""⟩ 10)
        (demo_os_types 3 3) (some "System") ⟨120, 0, 1⟩ 0 none sev0 = some o ∧
      severities o = [(3, sev0), (3, sev0)]) ∧
    (∃ o, process_eventslog6 (demo_env ⟨"", "", "", ""⟩ 10)
        (demo_os6_levels WINEVENT_LEVEL_ERROR 6)
        (some (demo_os6_levels WINEVENT_LEVEL_ERROR 6).events) 120 121 123 ⟨120, 0, 1⟩ 0 none ""
          = some o ∧
      severities o = [(ITEM_LOGTYPE_ERROR, ERROR_TYPE), (6, ERROR_TYPE)]) ∧
    (∃ o, process_eventslog6 (demo_env ⟨"", "", "", ""⟩ 10)
        (demo_os6_levels WINEVENT_LEVEL_WARNING 6)
        (some (demo_os6_levels WINEVENT_LEVEL_WARNING 6).events) 120 121 123 ⟨120, 0, 1⟩ 0 none ""
          = some o ∧
      severities o = [(ITEM_LOGTYPE_WARNING, WARNING_TYPE), (6, WARNING_TYPE)]) ∧
    3 ∉ unified_severities ∧ 6 ∉ unified_severities :=
  ⟨⟨_, rfl, rfl⟩, ⟨_, rfl, rfl⟩, fun _ => ⟨_, rfl, rfl⟩, ⟨_, rfl, rfl⟩, ⟨_, rfl, rfl⟩,
    by decide, by decide⟩

/-! ## Timestamp conversion (C23) -/

/-- C23. Timestamp conversion, modern back end: for every event that
`EvtRender` renders and whose creation time `t` (a 64-bit count of
100-nanosecond ticks) is at least 116444736000000000 with
`(t - 116444736000000000) / 10000000` below `2 ^ 32`,
`zbx_parse_eventlog_message6` returns the timestamp
`(t - 116444736000000000) / 10000000` (rounded down), and this is the
timestamp the sink receives. -/
theorem timestamp_conversion (env : Env) (e : EVENT6) (w : Nat) (str : String)
    (hrender : e.render_err = none) (h64 : e.TimeCreated < 2 ^ 64)
    (hepoch : 116444736000000000 ≤ e.TimeCreated)
    (hfits : (e.TimeCreated - 116444736000000000) / 10000000 < 2 ^ 32) :
    ∃ p, zbx_parse_eventlog_message6 env e w = Except.ok p ∧
      p.out_timestamp = (e.TimeCreated - 116444736000000000) / 10000000 ∧
      (modern_event p str).timestamp = (e.TimeCreated - 116444736000000000) / 10000000 := by
  have hsub : sub64 (e.TimeCreated % 2 ^ 64) 116444736000000000 =
      e.TimeCreated - 116444736000000000 := by
    unfold sub64
    rw [Nat.mod_eq_of_lt h64]
    have hc : (116444736000000000 : Nat) % 2 ^ 64 = 116444736000000000 := by norm_num
    rw [hc]
    have h1 : e.TimeCreated + 2 ^ 64 - 116444736000000000 =
        (e.TimeCreated - 116444736000000000) + 2 ^ 64 := by omega
    rw [h1, Nat.add_mod_right]
    exact Nat.mod_eq_of_lt (by omega)
  have hval : (sub64 (e.TimeCreated % 2 ^ 64) 116444736000000000 / 10000000) % 2 ^ 32 =
      (e.TimeCreated - 116444736000000000) / 10000000 := by
    rw [hsub]
    exact Nat.mod_eq_of_lt hfits
  unfold zbx_parse_eventlog_message6
  simp only [hrender]
  exact ⟨_, rfl, hval, hval⟩

/-- Witness for `timestamp_conversion`: an event created 1000 seconds and
9999999 ticks after the Unix epoch has the timestamp 1000. -/
theorem timestamp_conversion_witness :
    ∃ p, zbx_parse_eventlog_message6 (demo_env ⟨"", "", "", ""⟩ 10)
        ⟨"diskmon", none, 121, 7, WINEVENT_LEVEL_ERROR, 0, 116444736000000000 + 10009999999,
          EventData.other, none, some "disk full"⟩ 121 = Except.ok p ∧
      p.out_timestamp = 1000 :=
  (timestamp_conversion (demo_env ⟨"", "", "", ""⟩ 10)
    ⟨"diskmon", none, 121, 7, WINEVENT_LEVEL_ERROR, 0, 116444736000000000 + 10009999999,
      EventData.other, none, some "disk full"⟩ 121 "" rfl (by decide) (by decide)
    (by decide)).imp (fun _ hp => ⟨hp.1, hp.2.1.trans (by decide)⟩)

/-! ## Transient read failures (C24) -/

theorem Grown.chain {records : List EVENTLOGRECORD} {a b c : Nat} (h1 : Grown records a b)
    (h2 : Grown records b c) : Grown records a c := by
  rcases h1 with h1 | ⟨h1, r1, hr1, e1⟩
  · rw [← h1]; exact h2
  · rcases h2 with h2 | ⟨h2, r2, hr2, e2⟩
    · rw [h2]; exact Or.inr ⟨h1, r1, hr1, e1⟩
    · exact Or.inr ⟨Nat.lt_trans h1 h2, r2, hr2, e2⟩

theorem Grown.le {records : List EVENTLOGRECORD} {a b : Nat} (h : Grown records a b) : a ≤ b := by
  rcases h with h | ⟨h, _⟩
  · exact Nat.le_of_eq h.symm
  · exact Nat.le_of_lt h

theorem Genuine.tail {os os1 : EventLogOS} (h : Genuine os) (ht : os1.faults = os.faults.tail) :
    Genuine os1 := by
  intro f hf
  rw [ht] at hf
  exact h f (List.mem_of_mem_tail hf)

/-- An insufficient-buffer result of a read at a position reports the length
of the record there, which is larger than the buffer. -/
theorem read_at_insufficient (os : EventLogOS) (b : Bool) (i nBytes needed : Nat)
    (os1 : EventLogOS)
    (h : read_at os b i nBytes = (ReadOutcome.fail ERROR_INSUFFICIENT_BUFFER needed, os1)) :
    nBytes < needed ∧ ∃ r ∈ os.records, needed = r.Length := by
  unfold read_at at h
  split at h
  · simp [ERROR_HANDLE_EOF, ERROR_INSUFFICIENT_BUFFER] at h
  · rename_i r rs hrf
    by_cases hlt : nBytes < r.Length
    · rw [if_pos hlt] at h
      simp only [Prod.mk.injEq, ReadOutcome.fail.injEq] at h
      have hmem : r ∈ records_from os.records b i := by rw [hrf]; exact List.mem_cons_self _ _
      exact ⟨h.1.2 ▸ hlt, r, records_from_subset _ _ _ _ hmem, h.1.2.symm⟩
    · rw [if_neg hlt] at h
      simp at h

theorem ReadEventLog_normal_insufficient (os : EventLogOS) (flags off nBytes needed : Nat)
    (os1 : EventLogOS)
    (h : ReadEventLog_normal os flags off nBytes =
      (ReadOutcome.fail ERROR_INSUFFICIENT_BUFFER needed, os1)) :
    nBytes < needed ∧ ∃ r ∈ os.records, needed = r.Length := by
  unfold ReadEventLog_normal at h
  simp only at h
  split_ifs at h <;> (try split at h) <;> (try split_ifs at h) <;>
    first
    | exact read_at_insufficient _ _ _ _ _ _ h
    | simp [ERROR_HANDLE_EOF, ERROR_INVALID_PARAMETER, ERROR_INSUFFICIENT_BUFFER] at h

/-- On a log without injected insufficient-buffer results, every
insufficient-buffer result of `ReadEventLog` reports a size that is larger than
the capacity passed and is the length of a record of the log. -/
theorem ReadEventLog_insufficient (os : EventLogOS) (flags off nBytes : Nat) (hg : Genuine os)
    (needed : Nat) (os1 : EventLogOS)
    (h : ReadEventLog os flags off nBytes =
      (ReadOutcome.fail ERROR_INSUFFICIENT_BUFFER needed, os1)) :
    nBytes < needed ∧ ∃ r ∈ os.records, needed = r.Length := by
  rcases ReadEventLog_eq os flags off nBytes with ⟨f, hf, he⟩ | ⟨_, he⟩
  · rw [he] at h
    simp only [Prod.mk.injEq, ReadOutcome.fail.injEq] at h
    exfalso
    apply hg f _ h.1.1
    rcases hfa : os.faults with _ | ⟨x, xs⟩
    · rw [hfa] at hf; simp at hf
    · rw [hfa] at hf
      simp only [List.head?_cons, Option.some.injEq] at hf
      rw [hf]
      exact List.mem_cons_self _ _
  · rw [he] at h
    exact ReadEventLog_normal_insufficient ⟨os.open_err, os.dwNumRecords, os.dwOldestRecord,
      os.records, os.cur, os.faults.tail⟩ _ _ _ _ _ h

/-- The direct positioned read leaves the capacity as it was or grows it to
the length of a record of the log. -/
theorem seek_direct_grown (env : Env) (name : String) (num : Nat) :
    ∀ (fuel : Nat) (st : ReadState) (e : SeekExit) (st1 : ReadState),
      Genuine st.os → seek_direct env name num fuel st = some (e, st1) →
      Grown st.os.records st.buffer_size st1.buffer_size ∧ Genuine st1.os ∧
        st1.os.records = st.os.records := by
  intro fuel
  induction fuel with
  | zero => intro st e st1 _ h; simp [seek_direct] at h
  | succ n ih =>
    intro st e st1 hg h
    unfold seek_direct at h
    have hspec := ReadEventLog_spec st.os (EVENTLOG_SEEK_READ ||| EVENTLOG_FORWARDS_READ) num
      st.buffer_size
    have hins := ReadEventLog_insufficient st.os (EVENTLOG_SEEK_READ ||| EVENTLOG_FORWARDS_READ)
      num st.buffer_size hg
    rcases hx : ReadEventLog st.os (EVENTLOG_SEEK_READ ||| EVENTLOG_FORWARDS_READ) num
      st.buffer_size with ⟨out, os1⟩
    rw [hx] at h hspec hins
    have hg1 : Genuine os1 := hg.tail hspec.2.1
    cases out with
    | ok batch =>
      simp only [Option.some.injEq, Prod.mk.injEq] at h
      rw [← h.2]
      exact ⟨Or.inl rfl, hg1, hspec.1⟩
    | fail err needed =>
      simp only at h
      split_ifs at h with h1 h2 h3
      · simp only [Option.some.injEq, Prod.mk.injEq] at h
        rw [← h.2]
        exact ⟨Or.inl rfl, hg1, hspec.1⟩
      · simp only [Option.some.injEq, Prod.mk.injEq] at h
        rw [← h.2]
        exact ⟨Or.inl rfl, hg1, hspec.1⟩
      · obtain ⟨hlt, r, hr, hn⟩ := hins needed os1 (by rw [h3])
        obtain ⟨g1, g2, g3⟩ := ih _ _ _ (by exact hg1) h
        simp only at g1 g3
        rw [hspec.1] at g1 g3
        exact ⟨Grown.chain (Or.inr ⟨hlt, r, hr, hn⟩) g1, g2, g3⟩
      · simp only [Option.some.injEq, Prod.mk.injEq] at h
        rw [← h.2]
        exact ⟨Or.inl rfl, hg1, hspec.1⟩

/-- The fallback loop leaves the capacity as it was or grows it to the length
of a record of the log. -/
theorem seek_fallback_grown (env : Env) (name : String) (dir : Nat) :
    ∀ (fuel skip : Nat) (st : ReadState) (ret : Int) (st1 : ReadState),
      Genuine st.os → seek_fallback env name dir fuel skip st = some (ret, st1) →
      Grown st.os.records st.buffer_size st1.buffer_size ∧ Genuine st1.os ∧
        st1.os.records = st.os.records := by
  intro fuel
  induction fuel with
  | zero => intro skip st ret st1 _ h; simp [seek_fallback] at h
  | succ n ih =>
    intro skip st ret st1 hg h
    unfold seek_fallback at h
    split_ifs at h with hc h6
    · have hspec := ReadEventLog_spec st.os (EVENTLOG_SEQUENTIAL_READ ||| dir) 0 st.buffer_size
      have hins := ReadEventLog_insufficient st.os (EVENTLOG_SEQUENTIAL_READ ||| dir) 0
        st.buffer_size hg
      rcases hx : ReadEventLog st.os (EVENTLOG_SEQUENTIAL_READ ||| dir) 0 st.buffer_size
        with ⟨out, os1⟩
      rw [hx] at h hspec hins
      have hg1 : Genuine os1 := hg.tail hspec.2.1
      cases out with
      | ok batch =>
        simp only at h
        obtain ⟨g1, g2, g3⟩ := ih _ _ _ _ (by exact hg1) h
        simp only at g1 g3
        rw [hspec.1] at g1 g3
        exact ⟨g1, g2, g3⟩
      | fail err needed =>
        simp only at h
        split_ifs at h with h1 h2
        · obtain ⟨hlt, r, hr, hn⟩ := hins needed os1 (by rw [h1])
          obtain ⟨g1, g2, g3⟩ := ih _ _ _ _ (by exact hg1) h
          simp only at g1 g3
          rw [hspec.1] at g1 g3
          exact ⟨Grown.chain (Or.inr ⟨hlt, r, hr, hn⟩) g1, g2, g3⟩
        · simp only [Option.some.injEq, Prod.mk.injEq] at h
          rw [← h.2]
          exact ⟨Or.inl rfl, hg1, hspec.1⟩
        · simp only [Option.some.injEq, Prod.mk.injEq] at h
          rw [← h.2]
          exact ⟨Or.inl rfl, hg1, hspec.1⟩
    · simp only [Option.some.injEq, Prod.mk.injEq] at h
      rw [← h.2]
      exact ⟨Or.inl rfl, hg, rfl⟩
    · simp only [Option.some.injEq, Prod.mk.injEq] at h
      rw [← h.2]
      exact ⟨Or.inl rfl, hg, rfl⟩

/-- The function `seek_eventlog` leaves the capacity as it was or grows it to
the length of a record of the log. -/
theorem seek_eventlog_grown (env : Env) (name : String) (fuel FirstID dir LastID : Nat)
    (st : ReadState) (ret : Int) (st1 : ReadState) (hg : Genuine st.os)
    (h : seek_eventlog env name fuel FirstID dir LastID st = some (ret, st1)) :
    Grown st.os.records st.buffer_size st1.buffer_size ∧ Genuine st1.os ∧
      st1.os.records = st.os.records := by
  unfold seek_eventlog at h
  split at h
  · simp at h
  · rename_i r s hd
    simp only [Option.some.injEq, Prod.mk.injEq] at h
    have := seek_direct_grown _ _ _ _ _ _ _ (by exact hg) hd
    rw [← h.2]
    exact this
  · rename_i s hd
    obtain ⟨d1, d2, d3⟩ := seek_direct_grown _ _ _ _ _ _ _ (by exact hg) hd
    obtain ⟨g1, g2, g3⟩ := seek_fallback_grown _ _ _ _ _ _ _ _ (by exact d2) h
    simp only at d1 d3 g1 g3
    rw [d3] at g1 g3
    exact ⟨Grown.chain d1 g1, g2, g3⟩

/-- The main read loop leaves the capacity as it was or grows it to the length
of a record of the log. -/
theorem read_loop_grown (env : Env) (name : String) (refresh : Int) (FirstID : Nat) :
    ∀ (fuel : Nat) (st : ReadState) (l : Locals) (ret : Int) (st1 : ReadState) (l1 : Locals),
      Genuine st.os → read_loop env name refresh FirstID fuel st l = some (ret, st1, l1) →
      Grown st.os.records st.buffer_size st1.buffer_size := by
  intro fuel
  induction fuel with
  | zero => intro st l ret st1 l1 _ h; simp [read_loop] at h
  | succ n ih =>
    intro st l ret st1 l1 hg h
    unfold read_loop at h
    by_cases h1 : ERROR_SUCCESS = st.dwErr
    · rw [if_pos h1] at h
      by_cases h2 : 0 = st.dwRead
      · rw [if_pos h2] at h
        have hspec := ReadEventLog_spec st.os
          (EVENTLOG_SEQUENTIAL_READ ||| EVENTLOG_FORWARDS_READ) 0 st.buffer_size
        have hins := ReadEventLog_insufficient st.os
          (EVENTLOG_SEQUENTIAL_READ ||| EVENTLOG_FORWARDS_READ) 0 st.buffer_size hg
        rcases hx : ReadEventLog st.os (EVENTLOG_SEQUENTIAL_READ ||| EVENTLOG_FORWARDS_READ) 0
          st.buffer_size with ⟨out, os1⟩
        rw [hx] at h hspec hins
        have hg1 : Genuine os1 := hg.tail hspec.2.1
        cases out with
        | fail err needed =>
          simp only at h
          split_ifs at h with h3 h4
          · obtain ⟨hlt, r, hr, hn⟩ := hins needed os1 (by rw [h3])
            have g1 := ih _ _ _ _ _ (by exact hg1) h
            simp only at g1
            rw [hspec.1] at g1
            exact Grown.chain (Or.inr ⟨hlt, r, hr, hn⟩) g1
          · simp only [Option.some.injEq, Prod.mk.injEq] at h
            rw [← h.2.1]
            exact Or.inl rfl
          · simp only [Option.some.injEq, Prod.mk.injEq] at h
            rw [← h.2.1]
            exact Or.inl rfl
        | ok batch =>
          simp only at h
          split at h
          · simp only [Option.some.injEq, Prod.mk.injEq] at h
            rw [← h.2.1]
            exact Or.inl rfl
          · have g1 := ih _ _ _ _ _ (by exact hg1) h
            simp only at g1
            rw [hspec.1] at g1
            exact g1
      · rw [if_neg h2] at h
        split at h
        · simp only [Option.some.injEq, Prod.mk.injEq] at h
          rw [← h.2.1]
          exact Or.inl rfl
        · exact ih { st with dwRead := 0 } _ _ _ _ hg h
    · rw [if_neg h1] at h
      simp only [Option.some.injEq, Prod.mk.injEq] at h
      rw [← h.2.1]
      exact Or.inl rfl

/-- A cycle on a log without injected insufficient-buffer results ends with
the initial capacity of 64 KiB or with a larger capacity that is the length of
a record of the log. -/
theorem process_eventslog_grown (env : Env) (os : EventLogOS) (name : Option String)
    (metric : ZBX_ACTIVE_METRIC) (sent : Nat) (error : Option String) (sev0 : String)
    (o : Outcome) (hg : Genuine os)
    (h : process_eventslog env os name metric sent error sev0 = some o) :
    Grown os.records (64 * ZBX_KIBIBYTE) o.buffer_size := by
  unfold process_eventslog at h
  simp only at h
  split at h
  · simp only [Option.some.injEq] at h; subst h; exact Or.inl rfl
  · rename_i nm
    by_cases h0 : nm = ""
    · rw [if_pos h0] at h
      simp only [Option.some.injEq] at h; subst h; exact Or.inl rfl
    · rw [if_neg h0] at h
      split at h
      · simp only [Option.some.injEq] at h; subst h; exact Or.inl rfl
      · rename_i F0 L hopen
        by_cases hskip : 1 = metric.skip_old_data
        · rw [if_pos hskip] at h
          simp only [Option.some.injEq] at h; subst h; exact Or.inl rfl
        · rw [if_neg hskip] at h
          split at h
          · simp at h
          · rename_i ret st1 hseek
            have hg0 : Genuine { os with cur := none } := fun f hf => hg f hf
            have hgrown : Grown os.records (64 * ZBX_KIBIBYTE) st1.buffer_size ∧ Genuine st1.os ∧
                st1.os.records = os.records := by
              split_ifs at hseek with h1 h2
              · simp only [Option.some.injEq, Prod.mk.injEq] at hseek
                rw [← hseek.2]; exact ⟨Or.inl rfl, hg0, rfl⟩
              · simp only [Option.some.injEq, Prod.mk.injEq] at hseek
                rw [← hseek.2]; exact ⟨Or.inl rfl, hg0, rfl⟩
              · exact seek_eventlog_grown _ _ _ _ _ _
                  ⟨{ os with cur := none }, 64 * ZBX_KIBIBYTE, [], 0, ERROR_SUCCESS, error⟩ _ _
                  hg0 hseek
            split_ifs at h with h3 h4
            · simp only [Option.some.injEq] at h; subst h; exact hgrown.1
            · simp only [Option.some.injEq] at h; subst h; exact hgrown.1
            · split at h
              · simp at h
              · rename_i ret2 st2 l hloop
                simp only [Option.some.injEq] at h
                subst h
                have g := read_loop_grown _ _ _ _ _ _ _ _ _ _ hgrown.2.1 hloop
                rw [hgrown.2.2] at g
                exact Grown.chain hgrown.1 g

/-- C24. Transient read failure.  At each of the three read sites of the
legacy back end an insufficient-buffer result of `ReadEventLog` sets the
capacity to the size the system reported, clears the error and runs the loop
again from its head, that is with the same read: the record number sought
(direct seek), the skip count (fallback loop) and the checkpoint, timestamp
and counters (main loop) are those of before.  When every
insufficient-buffer result comes from the log itself, the size reported is
larger than the capacity passed and is the length of a record of the log; then
neither `seek_eventlog` nor the main loop ends with a smaller capacity than it
was entered with.  Every cycle returns, and on such a log it ends with the
initial capacity of 64 KiB or with a larger one that is the length of a record
of the log. -/
theorem transient_read_failure (env : Env) (name : String) :
    (∀ (num fuel : Nat) (st : ReadState) (needed : Nat) (os1 : EventLogOS),
      ReadEventLog st.os (EVENTLOG_SEEK_READ ||| EVENTLOG_FORWARDS_READ) num st.buffer_size =
        (ReadOutcome.fail ERROR_INSUFFICIENT_BUFFER needed, os1) →
      seek_direct env name num (fuel + 1) st =
        seek_direct env name num fuel
          { st with os := os1, buffer_size := needed, dwErr := ERROR_SUCCESS }) ∧
    (∀ (fuel skip : Nat) (st : ReadState) (needed : Nat) (os1 : EventLogOS),
      0 < skip → ERROR_SUCCESS = st.dwErr →
      ReadEventLog st.os (EVENTLOG_SEQUENTIAL_READ ||| EVENTLOG_BACKWARDS_READ) 0
          st.buffer_size = (ReadOutcome.fail ERROR_INSUFFICIENT_BUFFER needed, os1) →
      seek_fallback env name EVENTLOG_BACKWARDS_READ (fuel + 1) skip st =
        seek_fallback env name EVENTLOG_BACKWARDS_READ fuel skip
          { st with os := os1, buffer_size := needed, dwErr := ERROR_SUCCESS }) ∧
    (∀ (refresh : Int) (FirstID fuel : Nat) (st : ReadState) (l : Locals) (needed : Nat)
        (os1 : EventLogOS),
      ERROR_SUCCESS = st.dwErr → 0 = st.dwRead →
      ReadEventLog st.os (EVENTLOG_SEQUENTIAL_READ ||| EVENTLOG_FORWARDS_READ) 0
          st.buffer_size = (ReadOutcome.fail ERROR_INSUFFICIENT_BUFFER needed, os1) →
      read_loop env name refresh FirstID (fuel + 1) st l =
        read_loop env name refresh FirstID fuel
          { st with os := os1, buffer_size := needed, dwErr := ERROR_SUCCESS } l) ∧
    (∀ (os : EventLogOS) (flags off nBytes needed : Nat) (os1 : EventLogOS), Genuine os →
      ReadEventLog os flags off nBytes =
        (ReadOutcome.fail ERROR_INSUFFICIENT_BUFFER needed, os1) →
      nBytes < needed ∧ (∃ r ∈ os.records, needed = r.Length) ∧ Genuine os1) ∧
    (∀ (fuel FirstID dir LastID : Nat) (st : ReadState) (ret : Int) (st1 : ReadState),
      Genuine st.os → seek_eventlog env name fuel FirstID dir LastID st = some (ret, st1) →
      st.buffer_size ≤ st1.buffer_size) ∧
    (∀ (refresh : Int) (FirstID fuel : Nat) (st : ReadState) (l : Locals) (ret : Int)
        (st1 : ReadState) (l1 : Locals),
      Genuine st.os → read_loop env name refresh FirstID fuel st l = some (ret, st1, l1) →
      st.buffer_size ≤ st1.buffer_size) ∧
    (∀ (os : EventLogOS) (metric : ZBX_ACTIVE_METRIC) (sent : Nat) (error : Option String)
        (sev0 : String),
      ∃ o, process_eventslog env os (some name) metric sent error sev0 = some o ∧
        (Genuine os → 64 * ZBX_KIBIBYTE ≤ o.buffer_size ∧
          (o.buffer_size = 64 * ZBX_KIBIBYTE ∨ ∃ r ∈ os.records, o.buffer_size = r.Length))) := by
  refine ⟨?_, ?_, ?_, ?_, ?_, ?_, ?_⟩
  · intro num fuel st needed os1 h
    rw [seek_direct, h]
    simp [ERROR_INSUFFICIENT_BUFFER, ERROR_INVALID_PARAMETER, ERROR_HANDLE_EOF]
  · intro fuel skip st needed os1 hs he h
    rw [seek_fallback, if_pos ⟨hs, he, rfl⟩, h]
    simp
  · intro refresh FirstID fuel st l needed os1 he hr h
    rw [read_loop, if_pos he, if_pos hr, h]
    simp
  · intro os flags off nBytes needed os1 hg h
    obtain ⟨h1, h2⟩ := ReadEventLog_insufficient os flags off nBytes hg needed os1 h
    have hspec := ReadEventLog_spec os flags off nBytes
    rw [h] at hspec
    exact ⟨h1, h2, hg.tail hspec.2.1⟩
  · intro fuel FirstID dir LastID st ret st1 hg h
    exact (seek_eventlog_grown env name fuel FirstID dir LastID st ret st1 hg h).1.le
  · intro refresh FirstID fuel st l ret st1 l1 hg h
    exact (read_loop_grown env name refresh FirstID fuel st l ret st1 l1 hg h).le
  · intro os metric sent error sev0
    obtain ⟨o, ho⟩ := process_eventslog_total env os (some name) metric sent error sev0
    refine ⟨o, ho, fun hg => ?_⟩
    have g := process_eventslog_grown env os (some name) metric sent error sev0 o hg ho
    refine ⟨g.le, ?_⟩
    rcases g with g | ⟨_, r, hr, e⟩
    · exact Or.inl g
    · exact Or.inr ⟨r, hr, e⟩

/-- Witness for `transient_read_failure`: a log whose second record is 70000
bytes long.  The read that meets it fails for lack of room, the capacity goes
from 65536 to 70000, and all three records are processed. -/
theorem transient_read_failure_witness :
    Genuine (demo_long_os 121 3 1 []) ∧
    (∃ o, process_eventslog (demo_env ⟨"", "", "", ""⟩ 10) (demo_long_os 121 3 1 [])
        (some "System") ⟨120, 0, 1⟩ 0 none "" = some o ∧
      o.ret = SUCCEED ∧ o.buffer_size = 70000 ∧ o.steps.map (fun s => s.id) = [121, 122, 123] ∧
      o.metric.lastlogsize = 123) ∧
    (∃ o, process_eventslog (demo_env ⟨"", "", "", ""⟩ 10) (demo_long_os 121 3 1 [])
        (some "System") ⟨120, 0, 1⟩ 0 none "" = some o ∧ 64 * ZBX_KIBIBYTE ≤ o.buffer_size) :=
  ⟨fun f hf => by simp [demo_long_os] at hf, ⟨_, rfl, rfl, rfl, rfl, rfl⟩,
    ((transient_read_failure (demo_env ⟨"", "", "", ""⟩ 10) "System").2.2.2.2.2.2
      (demo_long_os 121 3 1 []) ⟨120, 0, 1⟩ 0 none "").imp
      (fun _ ho => ⟨ho.1, (ho.2 (fun f hf => by simp [demo_long_os] at hf)).1⟩)⟩

/-! ## Direction heuristic (C25) -/

/-- C25 (evaluation of the code). Lines 1245-1256 compare half the length of
the window with the checkpoint itself, not with its distance from `FirstID`.
With the window `[100, 150]` and the checkpoint 101 the target id 102 lies in
the first half of the window (`102 < 100 + (150 - 100) / 2`), yet the direction
chosen is `EVENTLOG_BACKWARDS_READ`; the same holds for every checkpoint from
100 to 150, so no checkpoint of this window is read forwards.  With the window
`[1, 101]` and the checkpoint 10 the direction is `EVENTLOG_FORWARDS_READ`. -/
theorem direction_heuristic_absolute :
    normalise 100 150 101 = (101, 102, EVENTLOG_BACKWARDS_READ) ∧
    102 < 100 + (150 - 100) / 2 ∧
    (List.range' 100 51).all
      (fun c => decide ((normalise 100 150 c).2.2 = EVENTLOG_BACKWARDS_READ)) = true ∧
    normalise 1 101 10 = (10, 11, EVENTLOG_FORWARDS_READ) :=
  ⟨by decide, by decide, by decide, by decide⟩

/-! ## Fallback skip count (C26) -/

/-- The fallback loop entered with the skip count 0 fetches nothing. -/
theorem seek_fallback_zero (env : Env) (name : String) (fuel : Nat) (st : ReadState)
    (h : st.dwErr = ERROR_SUCCESS) :
    seek_fallback env name EVENTLOG_BACKWARDS_READ (fuel + 1) 0 st = some (SUCCEED, st) := by
  unfold seek_fallback
  rw [if_neg (fun hh => lt_irrefl 0 hh.1),
    if_neg (by rw [h]; intro hh; exact absurd hh.2 (by decide))]

/-- The fallback loop on a log without faults, entered with a positive skip
count that the records before the read position can satisfy: it returns
`SUCCEED` with `dwRead = 0` and no error; the batches it fetched hold at least
`skip` records, and without the last batch they hold fewer than `skip`. -/
theorem seek_fallback_counts (env : Env) (name : String) :
    ∀ (fuel skip : Nat) (st : ReadState) (a : Nat), st.os.faults = [] →
      st.dwErr = ERROR_SUCCESS → CurAt st.os a → 0 < skip → skip ≤ a →
      2 * a + back_small st.os st.buffer_size < fuel →
      ∃ st1 a', seek_fallback env name EVENTLOG_BACKWARDS_READ fuel skip st = some (SUCCEED, st1) ∧
        st1.os.faults = [] ∧ st1.os.records = st.os.records ∧ st1.dwErr = ERROR_SUCCESS ∧
        st1.error = st.error ∧ st1.dwRead = 0 ∧ CurAt st1.os a' ∧ a' + skip ≤ a ∧
        a < a' + skip + st1.pELRs.length := by
  intro fuel
  induction fuel with
  | zero => intro skip st a _ _ _ _ _ h; omega
  | succ n ih =>
    intro skip st a hfl herr hcur hs hskip hm
    unfold seek_fallback
    have hc : 0 < skip ∧ ERROR_SUCCESS = st.dwErr ∧
        EVENTLOG_BACKWARDS_READ = EVENTLOG_BACKWARDS_READ := ⟨hs, herr.symm, rfl⟩
    rw [if_pos hc]
    have htail : st.os.faults.tail = [] := by rw [hfl]; rfl
    have ha : 0 < a := by omega
    have hbp := hcur.bpos ha
    have hlen : a ≤ st.os.records.length := by
      rcases hcur with ⟨_, h2⟩ | ⟨_, h2⟩ <;> omega
    rcases ReadEventLog_eq st.os (EVENTLOG_SEQUENTIAL_READ ||| EVENTLOG_BACKWARDS_READ) 0
      st.buffer_size with ⟨f, hf, _⟩ | ⟨_, he⟩
    · rw [hfl] at hf; simp at hf
    rw [he]
    rcases backward_normal_cases ⟨st.os.open_err, st.os.dwNumRecords, st.os.dwOldestRecord,
      st.os.records, st.os.cur, st.os.faults.tail⟩ st.buffer_size with
      ⟨h0, _⟩ | ⟨i, r, rs, hi, hd, hb, h⟩ | ⟨i, r, rs, hi, hd, hb, h⟩
    · exfalso
      rw [bpos_faults, hbp] at h0
      rcases h0 with h0 | ⟨i, hi, h0⟩
      · simp at h0
      · simp only [Option.some.injEq] at hi
        subst hi
        simp only [List.reverse_eq_nil_iff, List.take_eq_nil_iff] at h0
        rcases h0 with h0 | h0
        · omega
        · rw [h0] at hlen; simp at hlen; omega
    · rw [h]
      simp only [if_true]
      rw [bpos_faults, hbp] at hi
      simp only [Option.some.injEq] at hi
      subst hi
      simp only at hd
      have h5 : back_small ⟨st.os.open_err, st.os.dwNumRecords, st.os.dwOldestRecord,
          st.os.records, st.os.cur, st.os.faults.tail⟩ r.Length = 0 := by
        rw [back_small_faults]
        unfold back_small; simp only [hbp, hd, lt_irrefl, if_false]
      have h6 : back_small st.os st.buffer_size = 1 := by
        unfold back_small; simp only [hbp, hd, if_pos hb]
      obtain ⟨st1, a', hs1, h1, h2, h3, h4, h7, h8, h9, h10⟩ := ih skip
        ⟨⟨st.os.open_err, st.os.dwNumRecords, st.os.dwOldestRecord, st.os.records, st.os.cur,
          st.os.faults.tail⟩, r.Length, st.pELRs, st.dwRead, ERROR_SUCCESS, st.error⟩ a htail rfl
        hcur hs hskip (by simp only [h5]; omega)
      exact ⟨st1, a', hs1, h1, h2, h3, h4, h7, h8, h9, h10⟩
    · rw [h]
      simp only
      rw [bpos_faults, hbp] at hi
      simp only [Option.some.injEq] at hi
      subst hi
      simp only at hd
      have hk := fit_length_pos r rs st.buffer_size hb
      have hk2 : (fit st.buffer_size (r :: rs)).length ≤ a := by
        have h1 := fit_length_le (r :: rs) st.buffer_size
        have h2 : (r :: rs).length ≤ a := by
          rw [← hd]
          simp only [List.length_reverse, List.length_take]
          omega
        omega
      rw [skip_records_eq _ _ hs]
      have hcur' : CurAt ⟨st.os.open_err, st.os.dwNumRecords, st.os.dwOldestRecord,
          st.os.records, some (((a - 1 : Nat) : Int) - (fit st.buffer_size (r :: rs)).length),
          st.os.faults.tail⟩ (a - (fit st.buffer_size (r :: rs)).length) := by
        right
        refine ⟨?_, by simp only; omega⟩
        simp only
        congr 1
        omega
      have hbs := back_small_le ⟨st.os.open_err, st.os.dwNumRecords, st.os.dwOldestRecord,
          st.os.records, some (((a - 1 : Nat) : Int) - (fit st.buffer_size (r :: rs)).length),
          st.os.faults.tail⟩ st.buffer_size
      by_cases hrest : 0 < skip - (fit st.buffer_size (r :: rs)).length
      · obtain ⟨st1, a', hs1, h1, h2, h3, h4, h7, h8, h9, h10⟩ := ih
          (skip - (fit st.buffer_size (r :: rs)).length)
          ⟨⟨st.os.open_err, st.os.dwNumRecords, st.os.dwOldestRecord, st.os.records,
            some (((a - 1 : Nat) : Int) - (fit st.buffer_size (r :: rs)).length),
            st.os.faults.tail⟩, st.buffer_size, fit st.buffer_size (r :: rs), 0, st.dwErr,
            st.error⟩ (a - (fit st.buffer_size (r :: rs)).length) htail herr hcur' hrest
          (by omega) (by simp only; omega)
        exact ⟨st1, a', hs1, h1, h2, h3, h4, h7, h8, by omega, by omega⟩
      · obtain ⟨m, hn⟩ : ∃ m, n = m + 1 := ⟨n - 1, by omega⟩
        have hzero : skip - (fit st.buffer_size (r :: rs)).length = 0 := by omega
        have hz := seek_fallback_zero env name m
          ⟨⟨st.os.open_err, st.os.dwNumRecords, st.os.dwOldestRecord, st.os.records,
            some (((a - 1 : Nat) : Int) - (fit st.buffer_size (r :: rs)).length),
            st.os.faults.tail⟩, st.buffer_size, fit st.buffer_size (r :: rs), 0, st.dwErr,
            st.error⟩ herr
        rw [hzero, hn]
        exact ⟨_, a - (fit st.buffer_size (r :: rs)).length, hz, htail, rfl, herr, rfl, rfl,
          hcur', by omega, by simp only; omega⟩

/-- The example log of large records is well kept. -/
theorem demo_big_os_sound (F n : Nat) (faults : List (Option Fault)) (h : F + n < 2 ^ 32) :
    Sound (demo_big_os F n faults) F n := by
  refine ⟨rfl, rfl, rfl, ?_, h, ?_⟩
  · simp only [demo_big_os, List.map_map]
    rw [List.range'_eq_map_range]
    rfl
  · intro r hr
    simp only [demo_big_os, List.mem_map] at hr
    obtain ⟨i, -, hi⟩ := hr
    rw [← hi]
    simp

/-- C26. Fallback skip count.  On a well-kept log with the window
`[F, F + n - 1] = [F, L]`, let `seek_eventlog` be called for a record `t` of
the window with the backward direction, and let the system reject the direct
positioned read with `ERROR_INVALID_PARAMETER`.  Then the skip count is
`L - t`, or 1 when `L = t`; it is positive and at most the number of records
of the log; the call is the fallback loop run with that count; the loop ends
and returns `SUCCEED` with `dwRead = 0` and no error; and the batches it read
backwards from the end of the log (the read position went from `n` to `a'`
records before it) hold at least as many records as the skip count, while
without the last batch (which the buffer still holds) they hold fewer, so no
batch is fetched once the count has reached zero. -/
theorem fallback_skip_count (env : Env) (name : String) (fuel t L : Nat) (os : EventLogOS)
    (b0 : Nat) (error : Option String) (F n j k : Nat) (hS : Sound os F n)
    (hf : os.faults = [some ⟨ERROR_INVALID_PARAMETER, k⟩]) (hj : j < n) (ht : t = F + j)
    (hL : L = F + n - 1) (hfuel : 2 * n + 4 ≤ fuel) :
    0 < (if L = t then 1 else L - t) ∧ (if L = t then 1 else L - t) ≤ n ∧
    seek_eventlog env name fuel t EVENTLOG_BACKWARDS_READ L
        ⟨⟨os.open_err, os.dwNumRecords, os.dwOldestRecord, os.records, none, os.faults⟩, b0, [],
          0, ERROR_SUCCESS, error⟩ =
      seek_fallback env name EVENTLOG_BACKWARDS_READ fuel (if L = t then 1 else L - t)
        ⟨⟨os.open_err, os.dwNumRecords, os.dwOldestRecord, os.records, none, []⟩, b0, [], 0,
          ERROR_SUCCESS, error⟩ ∧
    ∃ st1 a',
      seek_eventlog env name fuel t EVENTLOG_BACKWARDS_READ L
          ⟨⟨os.open_err, os.dwNumRecords, os.dwOldestRecord, os.records, none, os.faults⟩, b0, [],
            0, ERROR_SUCCESS, error⟩ = some (SUCCEED, st1) ∧
        st1.dwRead = 0 ∧ st1.dwErr = ERROR_SUCCESS ∧ st1.error = error ∧
        st1.os.records = os.records ∧ CurAt st1.os a' ∧
        a' + (if L = t then 1 else L - t) ≤ n ∧
        n < a' + (if L = t then 1 else L - t) + st1.pELRs.length := by
  have hlen := hS.length
  have hb := hS.below
  have htd : toDWORD t = t := Nat.mod_eq_of_lt (by omega)
  have hpos : 0 < (if L = t then 1 else L - t) := by
    split_ifs with heq
    · exact Nat.one_pos
    · omega
  have hle : (if L = t then 1 else L - t) ≤ n := by
    split_ifs with heq
    · omega
    · omega
  have hsub : (if L = t then 1 else sub64 L t) = (if L = t then 1 else L - t) := by
    split_ifs with heq
    · rfl
    · unfold sub64; omega
  obtain ⟨fuel2, hfuel2⟩ : ∃ m, fuel = m + 2 := ⟨fuel - 2, by omega⟩
  have hseek : seek_eventlog env name fuel t EVENTLOG_BACKWARDS_READ L
        ⟨⟨os.open_err, os.dwNumRecords, os.dwOldestRecord, os.records, none, os.faults⟩, b0, [],
          0, ERROR_SUCCESS, error⟩ =
      seek_fallback env name EVENTLOG_BACKWARDS_READ fuel (if L = t then 1 else L - t)
        ⟨⟨os.open_err, os.dwNumRecords, os.dwOldestRecord, os.records, none, []⟩, b0, [], 0,
          ERROR_SUCCESS, error⟩ := by
    unfold seek_eventlog
    rw [htd, hfuel2]
    rw [seek_direct_reject env name t (fuel2 + 1)
      ⟨⟨os.open_err, os.dwNumRecords, os.dwOldestRecord, os.records, none, os.faults⟩, b0, [], 0,
        ERROR_SUCCESS, error⟩ k hf]
    simp only [true_and, if_true, and_self]
    rw [hsub]
  refine ⟨hpos, hle, hseek, ?_⟩
  rw [hseek]
  obtain ⟨st1, a', hs, _, h2, h3, h4, h5, h6, h7, h8⟩ := seek_fallback_counts env name fuel
    (if L = t then 1 else L - t)
    ⟨⟨os.open_err, os.dwNumRecords, os.dwOldestRecord, os.records, none, []⟩, b0, [], 0,
      ERROR_SUCCESS, error⟩ n rfl rfl (Or.inl ⟨rfl, hlen.symm⟩) hpos hle
    (by
      have := back_small_le ⟨os.open_err, os.dwNumRecords, os.dwOldestRecord, os.records,
        none, []⟩ b0
      simp only
      omega)
  exact ⟨st1, a', hs, h5, h3, h4, h2, h6, h7, h8⟩

/-- Witness for `fallback_skip_count`: the log `[100, 150]` of records of
40000 bytes, of which a read returns one, and the record 140 sought after the
system rejected the positioned read: the skip count is 10. -/
theorem fallback_skip_count_witness :
    ∃ st1 a',
      seek_eventlog (demo_env ⟨"", "", "", ""⟩ 10) "System" 106 140 EVENTLOG_BACKWARDS_READ 150
          ⟨⟨none, 51, 100, (demo_big_os 100 51 []).records, none,
            [some ⟨ERROR_INVALID_PARAMETER, 0⟩]⟩, 64 * ZBX_KIBIBYTE, [], 0, ERROR_SUCCESS, none⟩ =
        some (SUCCEED, st1) ∧
      st1.dwRead = 0 ∧ a' + 10 ≤ 51 ∧ 51 < a' + 10 + st1.pELRs.length :=
  (fallback_skip_count (demo_env ⟨"", "", "", ""⟩ 10) "System" 106 140 150
    (demo_big_os 100 51 [some ⟨ERROR_INVALID_PARAMETER, 0⟩]) (64 * ZBX_KIBIBYTE) none 100 51 40 0
    (demo_big_os_sound 100 51 _ (by norm_num)) rfl (by decide) (by decide) (by decide)
    (by decide)).2.2.2.imp
    (fun _ h1 => h1.imp (fun _ h2 => ⟨h2.1, h2.2.1, h2.2.2.2.2.2.2.1, h2.2.2.2.2.2.2.2⟩))

/-! ## Parameter substitution (C27) -/

/-- C27 (evaluation of the code). The message `%%1` with a parameter file in
which message 1 is the empty text: the token at index 0 is replaced by
nothing, `zbx_replace_string` stores `0 + 0 - 1`, that is `2 ^ 64 - 1`, in
`offset`, and the next pass hands `strstr` the pointer `*message + offset`,
which lies before the start of the (now empty) message.  On other inputs the
function does what is expected of it: a token that resolves is replaced
(`disk %%2 full` gives `disk C: full`), a token that does not resolve stays,
a message without `%%` stays, an inserted text is not scanned again, and an
empty text inserted after the start of the message only moves the offset back
by one. -/
theorem translate_offset_before_start :
    zbx_translate_message_params demo_params "%%1".toList =
      some (Translated.outside [] (2 ^ 64 - 1)) ∧
    zbx_replace_string "%%1".toList 0 2 [] = ([], 2 ^ 64 - 1) ∧
    zbx_translate_message_params demo_params "disk %%2 full".toList =
      some (Translated.done "disk C: full".toList) ∧
    zbx_translate_message_params demo_params "disk %%9 full".toList =
      some (Translated.done "disk %%9 full".toList) ∧
    zbx_translate_message_params demo_params "disk 100% full".toList =
      some (Translated.done "disk 100% full".toList) ∧
    zbx_translate_message_params demo_params "disk %%3 full".toList =
      some (Translated.done "disk %%2 full".toList) ∧
    zbx_translate_message_params demo_params "disk%%1 full".toList =
      some (Translated.done "disk full".toList) :=
  ⟨by decide, by decide, by decide, by decide, by decide, by decide, by decide⟩

/-! ## Filtered-out records advance the checkpoint (C28) -/

/-- One record that does not pass the filter, while `send_err` is `SUCCEED`:
the sink is not invoked, the record's checkpoint value is stored, the record
is counted as processed and nothing else changes. -/
theorem dispatch_record_rejected (env : Env) (refresh : Int) (d : Dispatch) (id : Nat)
    (ev : SinkCall) (sev : String) (hok : SUCCEED = d.send_err)
    (hm : filter_match env ev.value sev ev.source ev.logeventid = false) :
    (dispatch_record env refresh d id ev sev).1.calls = d.calls ∧
    (dispatch_record env refresh d id ev sev).1.metric_lastlogsize = ev.lastlogsize ∧
    (dispatch_record env refresh d id ev sev).1.p_count = d.p_count + 1 ∧
    (dispatch_record env refresh d id ev sev).1.lastlogsize_sent = d.lastlogsize_sent ∧
    (dispatch_record env refresh d id ev sev).1.s_count = d.s_count ∧
    (dispatch_record env refresh d id ev sev).1.send_err = SUCCEED := by
  obtain ⟨-, hc, hp, hsc, he, hml, hls, -, -⟩ := dispatch_record_facts env refresh d id ev sev
  have hres : send_result env d ev sev = SUCCEED := by
    unfold send_result
    rw [hm]
    exact hok.symm
  rw [hc, hp, hsc, he, hml, hls, hres, hm]
  simp

theorem dispatch_record_passing (env : Env) (refresh : Int) (sent : Nat) (d : Dispatch)
    (id : Nat) (ev : SinkCall) (sev : String) (h : SUCCEED = d.send_err ∧ Passing sent d) :
    ((dispatch_record env refresh d id ev sev).2 = Flow.next →
      SUCCEED = (dispatch_record env refresh d id ev sev).1.send_err ∧
        Passing sent (dispatch_record env refresh d id ev sev).1) ∧
    ((dispatch_record env refresh d id ev sev).2 = Flow.stop →
      Passing sent (dispatch_record env refresh d id ev sev).1) := by
  obtain ⟨hok, h1, h2, h3⟩ := h
  obtain ⟨hs, -, hp, -, he, -, -, -, hflow⟩ := dispatch_record_facts env refresh d id ev sev
  have hpass : Passing sent (dispatch_record env refresh d id ev sev).1 := by
    refine ⟨?_, ?_, ?_⟩
    · rw [hp, hs, h1]
      simp
    · intro s hmem hun
      rw [hs] at hmem
      rcases List.mem_append.1 hmem with hmem | hmem
      · exact h2 s hmem hun
      · simp only [List.mem_singleton] at hmem
        subst hmem
        simp only at hun
        unfold send_result
        simp only [hun]
        exact hok
    · intro hall
      rw [hs] at hall
      have hold : ∀ s ∈ d.steps, s.matched = false :=
        fun s hmem => hall s (List.mem_append_left _ hmem)
      have hnew : filter_match env ev.value sev ev.source ev.logeventid = false :=
        hall _ (List.mem_append_right _ (List.mem_singleton.2 rfl))
      obtain ⟨g1, g2, g3⟩ := h3 hold
      obtain ⟨r1, -, -, r4, r5, -⟩ := dispatch_record_rejected env refresh d id ev sev hok hnew
      rw [r1, r4, r5]
      exact ⟨g1, g2, g3⟩
  exact ⟨fun hn => ⟨by rw [he]; exact (hflow.1 hn).1, hpass⟩, fun _ => hpass⟩

/-- Every cycle whose result is read off dispatch variables that kept the
three invariants treats the filtered-out records as `FilteredAdvance` says. -/
theorem filtered_advance_of (env : Env) (metric : ZBX_ACTIVE_METRIC) (sent : Nat) (sev0 : String)
    (o : Outcome) (d1 d2 d3 : Dispatch)
    (hf : Flowing metric.lastlogsize d1 ∨ (Halted metric.lastlogsize d1 ∧ o.ret = SUCCEED))
    (hr1 : ReadsOff metric sent sev0 o d1)
    (hff : FilterFaithful env d2.calls d2.steps) (hr2 : ReadsOff metric sent sev0 o d2)
    (hp : Passing sent d3) (hr3 : ReadsOff metric sent sev0 o d3) :
    FilteredAdvance metric sent o := by
  obtain ⟨p1, p2, p3⟩ := hp
  have hstored : (∀ s ∈ o.steps, SUCCEED = s.send_err) → ¬ 1 = metric.skip_old_data →
      o.metric.lastlogsize = last_id metric.lastlogsize o.steps :=
    fun hok hskip => stored_of metric.lastlogsize metric sent sev0 o d1 hf hr1 hskip hok
  have hun : ∀ s ∈ o.steps, s.matched = false → SUCCEED = s.send_err := by
    intro s hmem
    rw [hr3.1] at hmem
    exact p2 s hmem
  refine ⟨?_, ?_, hun, hstored, ?_⟩
  · rw [hr3.2.2.2.1, hr3.1]
    exact p1
  · rw [hr2.1, hr2.2.1]
    exact hff.1
  · intro hall
    have hall3 : ∀ s ∈ d3.steps, s.matched = false := by
      intro s hmem
      rw [← hr3.1] at hmem
      exact hall s hmem
    obtain ⟨g1, g2, g3⟩ := p3 hall3
    refine ⟨by rw [hr3.2.1]; exact g1, by rw [hr3.2.2.1]; exact g2,
      by rw [hr3.2.2.2.2.1]; exact g3, ?_⟩
    exact hstored (fun s hmem => hun s hmem (hall s hmem))

/-! ## Records after the start point (C29) -/

/-- C29 (evaluation of the code). Legacy log `[100, 150]` read from the
checkpoint 120 with a budget of 100 events, every record passing the filter
and the sink never failing.  When every record has a non-zero time, the
records 121 to 150 are processed in order and the records 100 to 120 before
the start point are not.  When record 125 has `TimeGenerated = 0`, the local
`timestamp` is 0 again after it, the test at line 1319 falls back to comparing
record numbers with 121, and the records 126 to 150 are neither decoded nor
sent: the cycle processes the records 121 to 125 only, returns `SUCCEED` and
stores the checkpoint 125.  When the start record 121 itself has the time 0,
it is the only record processed. -/
theorem start_flag_zero_time :
    (∃ o, process_eventslog (demo_env ⟨"", "", "", ""⟩ 100) (demo_os 100 51 [])
        (some "System") ⟨120, 0, 1⟩ 0 none "" = some o ∧
      o.steps.map (fun s => s.id) = List.range' 121 30 ∧ o.p_count = 30) ∧
    (∃ o, process_eventslog (demo_env ⟨"", "", "", ""⟩ 100) (demo_os_zero 100 51 125)
        (some "System") ⟨120, 0, 1⟩ 0 none "" = some o ∧
      o.ret = SUCCEED ∧ o.steps.map (fun s => s.id) = [121, 122, 123, 124, 125] ∧
      o.steps.map (fun s => s.call.timestamp) = [1021, 1022, 1023, 1024, 0] ∧
      o.p_count = 5 ∧ o.s_count = 5 ∧ o.metric.lastlogsize = 125) ∧
    (∃ o, process_eventslog (demo_env ⟨"", "", "", ""⟩ 100) (demo_os_zero 100 51 121)
        (some "System") ⟨120, 0, 1⟩ 0 none "" = some o ∧
      o.ret = SUCCEED ∧ o.steps.map (fun s => s.id) = [121] ∧ o.metric.lastlogsize = 121) ∧
    (demo_os_zero 100 51 125).records.map (fun r => r.RecordNumber) = List.range' 100 51 :=
  ⟨⟨_, rfl, rfl, rfl⟩, ⟨_, rfl, rfl, rfl, rfl, rfl, rfl, rfl⟩, ⟨_, rfl, rfl, rfl, rfl⟩, by decide⟩

/-! ## Failures without an error text (C30) -/

/-- C30 (evaluation of the code). `process_eventslog6` entered with a null
query handle (`skip_old_data` off) jumps to `out` at line 753: it returns
`FAIL` and the error output, which was a null pointer on entry, still is one.
The other failure paths of the function do set it: a failure of `EvtNext` with
the code 5 and an event that `EvtRender` cannot render both return `FAIL` with
an error text. -/
theorem null_query_no_error :
    (∃ o, process_eventslog6 (demo_env ⟨"", "", "", ""⟩ 10) (demo_os6 100 51 []) none 120 100 151
        ⟨120, 0, 1⟩ 0 none "" = some o ∧
      o.ret = FAIL ∧ o.error = none ∧ o.steps = [] ∧ o.metric.lastlogsize = 120) ∧
    (∃ o, process_eventslog6 (demo_env ⟨"", "", "", ""⟩ 10) (demo_os6 100 51 [some 5])
        (some ((demo_os6 100 51 []).events.drop 21)) 120 100 151 ⟨120, 0, 1⟩ 0 none "" = some o ∧
      o.ret = FAIL ∧ o.error = some "EvtNext failed: error, EventRecordID:121") ∧
    (∃ o, process_eventslog6 (demo_env ⟨"", "", "", ""⟩ 10) (demo_os6 100 51 [])
        (some [⟨"diskmon", none, 121, 7, WINEVENT_LEVEL_ERROR, 0, 116444736000000000,
          EventData.other, some 13, none⟩]) 120 100 151 ⟨120, 0, 1⟩ 0 none "" = some o ∧
      o.ret = FAIL ∧ o.error = some "EvtRender failed: error") :=
  ⟨⟨_, rfl, rfl, rfl, rfl, rfl⟩, ⟨_, rfl, rfl, rfl⟩, ⟨_, rfl, rfl, rfl⟩⟩

/-! ## Checkpoint values and record numbers of processed records -/

/-- One legacy record with the expected number and a non-zero time is given
its own record number as checkpoint value. -/
theorem process_record_aligned (env : Env) (refresh : Int) (t i : Nat)
    (r : EVENTLOGRECORD) (l : Locals) (hnum : r.RecordNumber = t + i)
    (hts : r.TimeGenerated ≠ 0) (hb : t + i < 2 ^ 32) (h : Aligned t i l) :
    Aligned t (i + 1) (process_record env refresh t r l).1 := by
  obtain ⟨hl, hts', -, -⟩ := process_record_fields env refresh t r l
  obtain ⟨s, hs, hid, hcall⟩ := process_record_steps env refresh t r l
  have hnew : (if 0 = l.timestamp then t else add64 l.lastlogsize 1) = t + i := by
    by_cases h0 : i = 0
    · rw [if_pos (h.idle h0).symm, h0]; rfl
    · have hg := h.going (by omega)
      rw [if_neg (fun e => hg.1 e.symm), hg.2]
      unfold add64
      omega
  rw [hnew] at hl hcall
  refine ⟨?_, fun h0 => by omega, fun _ => ⟨by rw [hts']; exact hts, by rw [hl]; omega⟩⟩
  intro x hx
  rw [hs, List.mem_append, List.mem_singleton] at hx
  rcases hx with hx | hx
  · exact h.own x hx
  · rw [hx, hcall, hid, hnum]
    rfl

/-- The record loop over consecutively numbered records with non-zero times
gives every processed record its own record number as checkpoint value. -/
theorem parse_buffer_aligned (env : Env) (refresh : Int) (t : Nat) :
    ∀ (xs : List EVENTLOGRECORD) (i : Nat) (l : Locals), Aligned t i l →
      xs.map (fun r => r.RecordNumber) = List.range' (t + i) xs.length →
      (∀ r ∈ xs, r.TimeGenerated ≠ 0) → t + i + xs.length ≤ 2 ^ 32 →
      ∀ s ∈ (parse_buffer env refresh t xs l).1.d.steps, s.call.lastlogsize = s.id := by
  intro xs
  induction xs with
  | nil =>
    intro i l h _ _ _
    rw [parse_buffer]
    exact h.own
  | cons r rest ih =>
    intro i l h hnum hts hb
    simp only [List.map_cons, List.length_cons, List.range'_succ, List.cons.injEq] at hnum
    simp only [List.length_cons] at hb
    have hcond : 0 ≠ l.timestamp ∨ toDWORD t = r.RecordNumber := by
      by_cases h0 : i = 0
      · right
        rw [hnum.1, h0]
        unfold toDWORD
        omega
      · left
        exact fun e => (h.going (by omega)).1 e.symm
    have hstep := process_record_aligned env refresh t i r l hnum.1
      (hts r (List.mem_cons_self _ _)) (by omega) h
    rw [parse_buffer_cons, if_pos hcond]
    split_ifs with hstop
    · exact hstep.own
    · exact ih (i + 1) _ hstep (by rw [show t + (i + 1) = t + i + 1 by ring]; exact hnum.2)
        (fun x hx => hts x (List.mem_cons_of_mem _ hx)) (by omega)

/-- On a well-kept legacy log with non-zero times and at least one record
after the checkpoint, the cycle returns and every processed record was given
its own record number as checkpoint value. -/
theorem legacy_own_numbers (env : Env) (os : EventLogOS) (name : String)
    (metric : ZBX_ACTIVE_METRIC) (sent : Nat) (error : Option String) (sev0 : String)
    (F n : Nat) (hname : name ≠ "") (hskip : ¬ 1 = metric.skip_old_data) (hS : Sound os F n)
    (hts : ∀ r ∈ os.records, r.TimeGenerated ≠ 0) (hf : SeekAnswer os)
    (hreset : metric.lastlogsize < F → os.faults = []) (hn : 0 < n)
    (hc : metric.lastlogsize + 1 < F + n) :
    ∃ o, process_eventslog env os (some name) metric sent error sev0 = some o ∧
      ∀ s ∈ o.steps, s.call.lastlogsize = s.id := by
  have hb := hS.below
  have hlen := hS.length
  by_cases hlow : metric.lastlogsize < F
  · obtain ⟨bs, ho⟩ := legacy_cycle_below env os name metric sent error sev0 F n hname hskip hS
      hn (hreset hlow) hlow
    refine ⟨_, ho, ?_⟩
    exact parse_buffer_aligned env metric.refresh F os.records 0
      ⟨F, 0, dispatch0 metric sent sev0⟩
      ⟨fun s hs => by simp [dispatch0] at hs, fun _ => rfl, fun h => by omega⟩
      (by rw [hlen]; exact hS.numbered) hts (by rw [hlen]; omega)
  · obtain ⟨w, bs, ho⟩ := legacy_cycle_sound env os name metric sent error sev0 F n hname hskip
      hS hf hreset (by omega) (by omega)
    refine ⟨_, ho, ?_⟩
    have hdl : (os.records.drop (metric.lastlogsize + 1 - F)).length =
        F + n - (metric.lastlogsize + 1) := by
      rw [List.length_drop, hlen]
      omega
    have hnum := drop_numbered os.records F (metric.lastlogsize + 1 - F)
      (by rw [hlen]; exact hS.numbered)
    rw [show F + (metric.lastlogsize + 1 - F) = metric.lastlogsize + 1 by omega] at hnum
    exact parse_buffer_aligned env metric.refresh (metric.lastlogsize + 1)
      (os.records.drop (metric.lastlogsize + 1 - F)) 0
      ⟨w, 0, dispatch0 metric sent sev0⟩
      ⟨fun s hs => by simp [dispatch0] at hs, fun _ => rfl, fun h => by omega⟩
      hnum (fun r hr => hts r (List.mem_of_mem_drop hr)) (by rw [hdl]; omega)

/-- Back-pressure read in record ids, when every processed record was given
the value `f` of its id as checkpoint value. -/
theorem preceding_of (m0 : Nat) (o : Outcome) (f : Nat → Nat) (hbp : BackPressure m0 o)
    (hown : ∀ s ∈ o.steps, s.call.lastlogsize = f s.id) :
    (∀ s post, o.steps = s :: post → SUCCEED ≠ s.send_err → o.metric.lastlogsize = m0) ∧
    (∀ pre p s post, o.steps = pre ++ p :: s :: post → SUCCEED ≠ s.send_err →
      o.metric.lastlogsize = f p.id) := by
  constructor
  · intro s post hsteps hbad
    exact (hbp [] s post hsteps hbad).2.2.2.2
  · intro pre p s post hsteps hbad
    have h := (hbp (pre ++ [p]) s post (by rw [hsteps]; simp) hbad).2.2.2.2
    rw [h, last_id_concat]
    exact hown p (by rw [hsteps]; simp)

/-- The end of a cycle read in record ids, when every processed record was
given the value `f` of its id as checkpoint value. -/
theorem ends_of (metric : ZBX_ACTIVE_METRIC) (sent : Nat) (o : Outcome) (f : Nat → Nat)
    (hfa : FilteredAdvance metric sent o)
    (hown : ∀ s ∈ o.steps, s.call.lastlogsize = f s.id) :
    ∀ pre p, o.steps = pre ++ [p] → (∀ s ∈ o.steps, SUCCEED = s.send_err) →
      ¬ 1 = metric.skip_old_data → o.metric.lastlogsize = f p.id := by
  intro pre p hsteps hok hskip
  rw [hfa.2.2.2.1 hok hskip, hsteps, last_id_concat]
  exact hown p (by rw [hsteps]; simp)

/-- Every cycle of the legacy back end keeps the back-pressure contract. -/
theorem legacy_back_pressure (env : Env) (os : EventLogOS) (name : Option String)
    (metric : ZBX_ACTIVE_METRIC) (sent : Nat) (error : Option String) (sev0 : String)
    (o : Outcome) (ho : process_eventslog env os name metric sent error sev0 = some o) :
    BackPressure metric.lastlogsize o := by
  obtain ⟨d, hd, hr⟩ := process_eventslog_inv env os name metric sent error sev0 o
    (Flowing metric.lastlogsize) (Halted metric.lastlogsize)
    (fun d id ev sev hP => dispatch_record_flowing env _ _ d id ev sev hP)
    (flowing_start metric sent sev0) ho
  exact back_pressure_of _ metric sent sev0 o d hd hr

/-- Every call of the modern back end keeps the back-pressure contract. -/
theorem modern_back_pressure (env : Env) (os : EventLog6OS) (query : Option (List EVENT6))
    (checkpoint FirstID LastID : Nat) (metric : ZBX_ACTIVE_METRIC) (sent : Nat)
    (error : Option String) (sev0 : String) (o : Outcome)
    (ho : process_eventslog6 env os query checkpoint FirstID LastID metric sent error sev0 =
      some o) :
    BackPressure metric.lastlogsize o := by
  obtain ⟨d, hd, hr⟩ := process_eventslog6_inv env os query checkpoint FirstID LastID metric
    sent error sev0 o
    (Flowing metric.lastlogsize) (Halted metric.lastlogsize)
    (fun d id ev sev hP => dispatch_record_flowing env _ _ d id ev sev hP)
    (flowing_start metric sent sev0) ho
  exact back_pressure_of _ metric sent sev0 o d hd hr

/-- Every cycle of the legacy back end treats the records that do not pass
the filter as `FilteredAdvance` says. -/
theorem legacy_filtered_advance (env : Env) (os : EventLogOS) (name : Option String)
    (metric : ZBX_ACTIVE_METRIC) (sent : Nat) (error : Option String) (sev0 : String)
    (o : Outcome) (ho : process_eventslog env os name metric sent error sev0 = some o) :
    FilteredAdvance metric sent o := by
  obtain ⟨d1, hd1, hr1⟩ := process_eventslog_inv env os name metric sent error sev0 o
    (Flowing metric.lastlogsize) (Halted metric.lastlogsize)
    (fun d id ev sev hP => dispatch_record_flowing env _ _ d id ev sev hP)
    (flowing_start metric sent sev0) ho
  obtain ⟨d2, hd2, hr2⟩ := process_eventslog_inv env os name metric sent error sev0 o
    (fun d => FilterFaithful env d.calls d.steps) (fun d => FilterFaithful env d.calls d.steps)
    (fun d id ev sev hP => ⟨fun _ => dispatch_record_filter env _ d id ev sev hP,
      fun _ => dispatch_record_filter env _ d id ev sev hP⟩)
    ⟨rfl, fun _ h => by simp [dispatch0] at h⟩ ho
  obtain ⟨d3, hd3, hr3⟩ := process_eventslog_inv env os name metric sent error sev0 o
    (fun d => SUCCEED = d.send_err ∧ Passing sent d) (Passing sent)
    (fun d id ev sev hP => dispatch_record_passing env _ sent d id ev sev hP)
    ⟨rfl, rfl, fun _ h => by simp [dispatch0] at h, fun _ => ⟨rfl, rfl, rfl⟩⟩ ho
  have hff : FilterFaithful env d2.calls d2.steps := by
    rcases hd2 with h | h
    · exact h
    · exact h.1
  have hp : Passing sent d3 := by
    rcases hd3 with h | h
    · exact h.2
    · exact h.1
  exact filtered_advance_of env metric sent sev0 o d1 d2 d3 hd1 hr1 hff hr2 hp hr3

/-- Every call of the modern back end treats the records that do not pass the
filter as `FilteredAdvance` says. -/
theorem modern_filtered_advance (env : Env) (os : EventLog6OS) (query : Option (List EVENT6))
    (checkpoint FirstID LastID : Nat) (metric : ZBX_ACTIVE_METRIC) (sent : Nat)
    (error : Option String) (sev0 : String) (o : Outcome)
    (ho : process_eventslog6 env os query checkpoint FirstID LastID metric sent error sev0 =
      some o) :
    FilteredAdvance metric sent o := by
  obtain ⟨d1, hd1, hr1⟩ := process_eventslog6_inv env os query checkpoint FirstID LastID
    metric sent error sev0 o
    (Flowing metric.lastlogsize) (Halted metric.lastlogsize)
    (fun d id ev sev hP => dispatch_record_flowing env _ _ d id ev sev hP)
    (flowing_start metric sent sev0) ho
  obtain ⟨d2, hd2, hr2⟩ := process_eventslog6_inv env os query checkpoint FirstID LastID
    metric sent error sev0 o
    (fun d => FilterFaithful env d.calls d.steps) (fun d => FilterFaithful env d.calls d.steps)
    (fun d id ev sev hP => ⟨fun _ => dispatch_record_filter env _ d id ev sev hP,
      fun _ => dispatch_record_filter env _ d id ev sev hP⟩)
    ⟨rfl, fun _ h => by simp [dispatch0] at h⟩ ho
  obtain ⟨d3, hd3, hr3⟩ := process_eventslog6_inv env os query checkpoint FirstID LastID
    metric sent error sev0 o
    (fun d => SUCCEED = d.send_err ∧ Passing sent d) (Passing sent)
    (fun d id ev sev hP => dispatch_record_passing env _ sent d id ev sev hP)
    ⟨rfl, rfl, fun _ h => by simp [dispatch0] at h, fun _ => ⟨rfl, rfl, rfl⟩⟩ ho
  have hff : FilterFaithful env d2.calls d2.steps := by
    rcases hd2 with h | h
    · exact h
    · exact h.1
  have hp : Passing sent d3 := by
    rcases hd3 with h | h
    · exact h.2
    · exact h.1
  exact filtered_advance_of env metric sent sev0 o d1 d2 d3 hd1 hr1 hff hr2 hp hr3

/-! ## Back-pressure (C2) -/

/-- C2 (counterexample). A legacy log holds three matching records numbered
121, 123 and 124; the cycle starts from checkpoint 120 and the sink fails on
the third record.  The cycle stops there and returns `SUCCEED`, but
`metric->lastlogsize` is 122, the value the loop counted for the second
record, and not 123, the id of the record processed immediately before the
failing one. -/
theorem back_pressure_counterexample :
    ∃ o, process_eventslog (demo_env_third 100) (demo_os_sparse 121) (some "System")
        ⟨120, 0, 1⟩ 0 none "" = some o ∧
      o.ret = SUCCEED ∧ o.steps.map (fun s => s.id) = [121, 123, 124] ∧
      o.steps.map (fun s => s.send_err) = [SUCCEED, SUCCEED, FAIL] ∧
      o.steps.map (fun s => s.matched) = [true, true, true] ∧
      o.metric.lastlogsize = 122 ∧ ¬ o.metric.lastlogsize = 123 :=
  ⟨_, rfl, rfl, rfl, rfl, rfl, rfl, by decide⟩

/-- C2 (amended). Back-pressure: in every cycle of `process_eventslog` and
every call of `process_eventslog6`, a record on which the sink fails is the
last record the cycle processes and the last invocation of the sink, the cycle
returns `SUCCEED`, and `metric->lastlogsize` is the checkpoint value of the
record processed immediately before it (the value stored on entry if there was
none).  In the modern back end the checkpoint value of a record is its
`EventRecordID`, so that the stored checkpoint is the id of the preceding
record (`PrecedingId6`).  In the legacy back end the checkpoint value of a
record is the value the loop counted for it; on a well-kept log (consecutive
record numbers below `2^32`) whose records have non-zero times, with
`skip_old_data` off and at least one record after the checkpoint, that value
is the record's `RecordNumber`, so that the stored checkpoint is the
`RecordNumber` of the preceding record (`PrecedingNumber`).  On a log of ten
matching records 100..109 read from checkpoint 99 with a sink that fails on
the sixth record, both back ends process the records 100 to 105, return
`SUCCEED` and leave the checkpoint at 104, the id of the fifth. -/
theorem back_pressure (env : Env) (os : EventLogOS) (name : Option String)
    (os6 : EventLog6OS) (query : Option (List EVENT6)) (checkpoint FirstID LastID : Nat)
    (metric : ZBX_ACTIVE_METRIC) (sent : Nat) (error : Option String) (sev0 : String) :
    (∃ o, process_eventslog env os name metric sent error sev0 = some o ∧
      BackPressure metric.lastlogsize o) ∧
    (∃ o, process_eventslog6 env os6 query checkpoint FirstID LastID metric sent error sev0 =
      some o ∧ BackPressure metric.lastlogsize o ∧
      (∀ s ∈ o.steps, s.call.lastlogsize = s.id % 2 ^ 64) ∧
      PrecedingId6 metric.lastlogsize o) ∧
    (∀ (nm : String) (F n : Nat), name = some nm → nm ≠ "" → ¬ 1 = metric.skip_old_data →
      Sound os F n → (∀ r ∈ os.records, r.TimeGenerated ≠ 0) → SeekAnswer os →
      (metric.lastlogsize < F → os.faults = []) → 0 < n → metric.lastlogsize + 1 < F + n →
      ∃ o, process_eventslog env os name metric sent error sev0 = some o ∧
        BackPressure metric.lastlogsize o ∧ (∀ s ∈ o.steps, s.call.lastlogsize = s.id) ∧
        PrecedingNumber metric.lastlogsize o) ∧
    (∃ o, process_eventslog (demo_env_full 100) (demo_os 100 10 []) (some "System") ⟨99, 0, 1⟩ 0
      none "" = some o ∧ ids o = [100, 101, 102, 103, 104, 105] ∧
      o.steps.map (fun s => s.id) = [100, 101, 102, 103, 104, 105] ∧ o.calls.length = 6 ∧
      o.ret = SUCCEED ∧ o.metric.lastlogsize = 104) ∧
    (∃ o, eventlog6_cycle (demo_env_full 100) (demo_os6 100 10 []) (some "System") ⟨99, 0, 1⟩ 0
      none "" = some o ∧ ids o = [100, 101, 102, 103, 104, 105] ∧
      o.steps.map (fun s => s.id) = [100, 101, 102, 103, 104, 105] ∧ o.calls.length = 6 ∧
      o.ret = SUCCEED ∧ o.metric.lastlogsize = 104) := by
  refine ⟨?_, ?_, ?_, ⟨_, rfl, rfl, rfl, rfl, rfl, rfl⟩, ⟨_, rfl, rfl, rfl, rfl, rfl, rfl⟩⟩
  · obtain ⟨o, ho⟩ := process_eventslog_total env os name metric sent error sev0
    exact ⟨o, ho, legacy_back_pressure env os name metric sent error sev0 o ho⟩
  · obtain ⟨o, ho⟩ := process_eventslog6_total env os6 query checkpoint FirstID LastID metric
      sent error sev0
    have hbp := modern_back_pressure env os6 query checkpoint FirstID LastID metric sent error
      sev0 o ho
    have hown := modern_trace env os6 query checkpoint FirstID LastID metric sent error sev0 o ho
    exact ⟨o, ho, hbp, hown, preceding_of _ o (fun x => x % 2 ^ 64) hbp hown⟩
  · intro nm F n hname hne hskip hS hts hf hreset hn hc
    subst hname
    obtain ⟨o, ho, hown⟩ := legacy_own_numbers env os nm metric sent error sev0 F n hne hskip
      hS hts hf hreset hn hc
    have hbp := legacy_back_pressure env os (some nm) metric sent error sev0 o ho
    exact ⟨o, ho, hbp, hown, preceding_of _ o (fun x => x) hbp hown⟩

/-- Witness for `back_pressure`: the legacy log `[100, 109]` read from the
checkpoint 99 with a sink that fails on the sixth record is well kept, its
records have non-zero times and ten records lie after the checkpoint; the
sink fails on record 105 and the stored checkpoint is 104. -/
theorem back_pressure_witness :
    ∃ o, process_eventslog (demo_env_full 100) (demo_os 100 10 []) (some "System") ⟨99, 0, 1⟩ 0
        none "" = some o ∧
      BackPressure 99 o ∧ (∀ s ∈ o.steps, s.call.lastlogsize = s.id) ∧ PrecedingNumber 99 o :=
  (back_pressure (demo_env_full 100) (demo_os 100 10 []) (some "System") (demo_os6 100 10 [])
    none 99 100 110 ⟨99, 0, 1⟩ 0 none "").2.2.1 "System" 100 10 rfl (by decide) (by decide)
    (demo_os_sound 100 10 [] (by norm_num)) (demo_os_times 100 10 []) (Or.inl rfl)
    (fun _ => rfl) (by decide) (by decide)

/-! ## Records that do not pass the filter (C28) -/

/-- C28 (counterexample). A legacy log holds three records numbered 121, 123
and 124, none of which passes the filter; the cycle starts from checkpoint
120, reads the whole log and no sink call fails.  The records are given the
checkpoint values 121, 122 and 123: after record 123 `metric->lastlogsize` is
122, and the cycle ends with the checkpoint 123, not with 124, the id of the
last record read. -/
theorem filtered_out_advances_counterexample :
    ∃ o, process_eventslog (demo_env ⟨"nomatch", "", "", ""⟩ 10) (demo_os_sparse 121)
        (some "System") ⟨120, 0, 1⟩ 7 none "" = some o ∧
      o.ret = SUCCEED ∧ o.calls = [] ∧ o.steps.map (fun s => s.id) = [121, 123, 124] ∧
      o.steps.map (fun s => s.matched) = [false, false, false] ∧ ids o = [121, 122, 123] ∧
      o.metric.lastlogsize = 123 ∧ ¬ o.metric.lastlogsize = 124 :=
  ⟨_, rfl, rfl, rfl, rfl, rfl, rfl, rfl, by decide⟩

/-- C28 (amended). Filtered-out records still advance the checkpoint.  For a
record that is decoded but does not pass the four filter predicates, while no
sink call has failed: the sink is not invoked, `metric->lastlogsize` receives
the checkpoint value of that record (legacy back end: the value the loop
counted for it; modern back end: its `EventRecordID`), the processed counter
grows by one, and `*lastlogsize_sent` and the sent counter stay as they were.
This is stated for the shared dispatch code, for one record of
`process_eventslog` and for one event of `process_eventslog6`.  For every
cycle of either back end `FilteredAdvance` holds: the sink is invoked for the
records that passed and for no other, every processed record is counted, a
record that did not pass never carries a sink failure, the stored checkpoint
of a cycle without sink failure is the checkpoint value of the last processed
record whether it passed or not, and when no record passed `*lastlogsize_sent`
is unchanged.  In the modern back end the checkpoint value of every processed
record is its `EventRecordID`, and a call without sink failure ends with the
id of the last processed record (`EndsAtId6`).  In the legacy back end, on a
well-kept log (consecutive record numbers below `2^32`) whose records have
non-zero times, with at least one record after the checkpoint, the checkpoint
value of every processed record is its `RecordNumber`, and a cycle without
sink failure ends with the `RecordNumber` of the last processed record
(`EndsAtNumber`). -/
theorem filtered_out_advances (env : Env) :
    (∀ (refresh : Int) (d : Dispatch) (id : Nat) (ev : SinkCall) (sev : String),
      SUCCEED = d.send_err → filter_match env ev.value sev ev.source ev.logeventid = false →
      (dispatch_record env refresh d id ev sev).1.calls = d.calls ∧
      (dispatch_record env refresh d id ev sev).1.metric_lastlogsize = ev.lastlogsize ∧
      (dispatch_record env refresh d id ev sev).1.p_count = d.p_count + 1 ∧
      (dispatch_record env refresh d id ev sev).1.lastlogsize_sent = d.lastlogsize_sent ∧
      (dispatch_record env refresh d id ev sev).1.s_count = d.s_count) ∧
    (∀ (refresh : Int) (F : Nat) (r : EVENTLOGRECORD) (l : Locals) (s : Step),
      SUCCEED = l.d.send_err →
      (process_record env refresh F r l).1.d.steps = l.d.steps ++ [s] → s.matched = false →
      s.id = r.RecordNumber ∧
      s.call.lastlogsize = (process_record env refresh F r l).1.lastlogsize ∧
      (process_record env refresh F r l).1.d.calls = l.d.calls ∧
      (process_record env refresh F r l).1.d.metric_lastlogsize =
        (process_record env refresh F r l).1.lastlogsize ∧
      (process_record env refresh F r l).1.d.p_count = l.d.p_count + 1 ∧
      (process_record env refresh F r l).1.d.lastlogsize_sent = l.d.lastlogsize_sent ∧
      (process_record env refresh F r l).1.d.s_count = l.d.s_count) ∧
    (∀ (refresh : Int) (e : EVENT6) (l : Locals6) (s : Step),
      e.render_err = none → SUCCEED = l.d.send_err →
      (process_event6 env refresh e l).1.d.steps = l.d.steps ++ [s] → s.matched = false →
      s.id = e.EventRecordID ∧
      (process_event6 env refresh e l).1.d.calls = l.d.calls ∧
      (process_event6 env refresh e l).1.d.metric_lastlogsize = e.EventRecordID % 2 ^ 64 ∧
      (process_event6 env refresh e l).1.d.p_count = l.d.p_count + 1 ∧
      (process_event6 env refresh e l).1.d.lastlogsize_sent = l.d.lastlogsize_sent ∧
      (process_event6 env refresh e l).1.d.s_count = l.d.s_count) ∧
    (∀ (os : EventLogOS) (name : Option String) (metric : ZBX_ACTIVE_METRIC) (sent : Nat)
        (error : Option String) (sev0 : String),
      ∃ o, process_eventslog env os name metric sent error sev0 = some o ∧
        FilteredAdvance metric sent o) ∧
    (∀ (os : EventLog6OS) (query : Option (List EVENT6)) (checkpoint FirstID LastID : Nat)
        (metric : ZBX_ACTIVE_METRIC) (sent : Nat) (error : Option String) (sev0 : String),
      ∃ o, process_eventslog6 env os query checkpoint FirstID LastID metric sent error sev0 =
          some o ∧
        FilteredAdvance metric sent o ∧ (∀ s ∈ o.steps, s.call.lastlogsize = s.id % 2 ^ 64) ∧
        EndsAtId6 metric o) ∧
    (∀ (os : EventLogOS) (name : String) (metric : ZBX_ACTIVE_METRIC) (sent : Nat)
        (error : Option String) (sev0 : String) (F n : Nat),
      name ≠ "" → ¬ 1 = metric.skip_old_data → Sound os F n →
      (∀ r ∈ os.records, r.TimeGenerated ≠ 0) → SeekAnswer os →
      (metric.lastlogsize < F → os.faults = []) → 0 < n → metric.lastlogsize + 1 < F + n →
      ∃ o, process_eventslog env os (some name) metric sent error sev0 = some o ∧
        FilteredAdvance metric sent o ∧ (∀ s ∈ o.steps, s.call.lastlogsize = s.id) ∧
        EndsAtNumber metric o) := by
  refine ⟨?_, ?_, ?_, ?_, ?_, ?_⟩
  · intro refresh d id ev sev hok hm
    obtain ⟨r1, r2, r3, r4, r5, -⟩ := dispatch_record_rejected env refresh d id ev sev hok hm
    exact ⟨r1, r2, r3, r4, r5⟩
  · intro refresh F r l s hok hsteps hun
    obtain ⟨hl, -, hd, -⟩ := process_record_fields env refresh F r l
    obtain ⟨hs, -⟩ := dispatch_record_facts env refresh l.d r.RecordNumber
      (legacy_event r (if 0 = l.timestamp then F else add64 l.lastlogsize 1) l.d.str_severity)
      (severity_switch r.EventType l.d.str_severity).2
    rw [hd, hs] at hsteps
    have hstep := List.append_cancel_left hsteps
    simp only [List.cons.injEq, and_true] at hstep
    subst hstep
    simp only at hun
    obtain ⟨r1, r2, r3, r4, r5, -⟩ := dispatch_record_rejected env refresh l.d r.RecordNumber
      (legacy_event r (if 0 = l.timestamp then F else add64 l.lastlogsize 1) l.d.str_severity)
      (severity_switch r.EventType l.d.str_severity).2 hok hun
    rw [hd, hl]
    exact ⟨rfl, rfl, r1, r2, r3, r4, r5⟩
  · intro refresh e l s hrender hok hsteps hun
    obtain ⟨p, hw, hd, -⟩ := process_event6_ok env refresh e l hrender
    obtain ⟨hs, -⟩ := dispatch_record_facts env refresh l.d e.EventRecordID
      (modern_event p l.d.str_severity)
      (severity_switch6 p.out_severity p.out_keywords l.d.str_severity).2
    rw [hd, hs] at hsteps
    have hstep := List.append_cancel_left hsteps
    simp only [List.cons.injEq, and_true] at hstep
    subst hstep
    simp only at hun
    obtain ⟨r1, r2, r3, r4, r5, -⟩ := dispatch_record_rejected env refresh l.d e.EventRecordID
      (modern_event p l.d.str_severity)
      (severity_switch6 p.out_severity p.out_keywords l.d.str_severity).2 hok hun
    rw [hd]
    refine ⟨rfl, r1, ?_, r3, r4, r5⟩
    rw [r2, ← hw]
    rfl
  · intro os name metric sent error sev0
    obtain ⟨o, ho⟩ := process_eventslog_total env os name metric sent error sev0
    exact ⟨o, ho, legacy_filtered_advance env os name metric sent error sev0 o ho⟩
  · intro os query checkpoint FirstID LastID metric sent error sev0
    obtain ⟨o, ho⟩ := process_eventslog6_total env os query checkpoint FirstID LastID metric
      sent error sev0
    have hfa := modern_filtered_advance env os query checkpoint FirstID LastID metric sent
      error sev0 o ho
    have hown := modern_trace env os query checkpoint FirstID LastID metric sent error sev0 o ho
    exact ⟨o, ho, hfa, hown, ends_of metric sent o (fun x => x % 2 ^ 64) hfa hown⟩
  · intro os name metric sent error sev0 F n hne hskip hS hts hf hreset hn hc
    obtain ⟨o, ho, hown⟩ := legacy_own_numbers env os name metric sent error sev0 F n hne hskip
      hS hts hf hreset hn hc
    have hfa := legacy_filtered_advance env os (some name) metric sent error sev0 o ho
    exact ⟨o, ho, hfa, hown, ends_of metric sent o (fun x => x) hfa hown⟩

/-- Witness for `filtered_out_advances`: with the message pattern `nomatch`
no record of the example logs passes the filter.  One rejected record stores
its checkpoint value 121 without a sink call; the legacy log `[100, 150]` is
well kept, its records have non-zero times and thirty records lie after the
checkpoint 120, so that every processed record carries its own record number;
a cycle over that log from checkpoint 120 and a call of the modern back end
on the events 121 to 150 process all thirty records, call the sink for none,
leave `*lastlogsize_sent` at 7 and store the checkpoint 150, the id of the
last record. -/
theorem filtered_out_advances_witness :
    ((dispatch_record (demo_env ⟨"nomatch", "", "", ""⟩ 10) 1 (dispatch0 ⟨120, 0, 1⟩ 7 "") 121
        ⟨"disk full", 121, 1000, "diskmon", ITEM_LOGTYPE_ERROR, 7⟩ ERROR_TYPE).1.calls =
        (dispatch0 ⟨120, 0, 1⟩ 7 "").calls ∧
      (dispatch_record (demo_env ⟨"nomatch", "", "", ""⟩ 10) 1 (dispatch0 ⟨120, 0, 1⟩ 7 "") 121
        ⟨"disk full", 121, 1000, "diskmon", ITEM_LOGTYPE_ERROR, 7⟩
        ERROR_TYPE).1.metric_lastlogsize = 121) ∧
    (∃ o, process_eventslog (demo_env ⟨"nomatch", "", "", ""⟩ 10) (demo_os 100 51 [])
        (some "System") ⟨120, 0, 1⟩ 7 none "" = some o ∧
      FilteredAdvance ⟨120, 0, 1⟩ 7 o ∧ (∀ s ∈ o.steps, s.call.lastlogsize = s.id) ∧
      EndsAtNumber ⟨120, 0, 1⟩ o) ∧
    (∃ o, process_eventslog (demo_env ⟨"nomatch", "", "", ""⟩ 10) (demo_os 100 51 [])
        (some "System") ⟨120, 0, 1⟩ 7 none "" = some o ∧
      o.ret = SUCCEED ∧ o.calls = [] ∧ o.p_count = 30 ∧ o.s_count = 0 ∧
      o.lastlogsize_sent = 7 ∧ o.metric.lastlogsize = 150 ∧
      o.steps.map (fun s => s.id) = List.range' 121 30) ∧
    (∃ o, process_eventslog6 (demo_env ⟨"nomatch", "", "", ""⟩ 10) (demo_os6 100 51 [])
        (some ((demo_os6 100 51 []).events.drop 21)) 120 100 151 ⟨120, 0, 1⟩ 7 none "" = some o ∧
      o.ret = SUCCEED ∧ o.calls = [] ∧ o.p_count = 30 ∧ o.s_count = 0 ∧
      o.lastlogsize_sent = 7 ∧ o.metric.lastlogsize = 150 ∧
      o.steps.map (fun s => s.id) = List.range' 121 30) :=
  ⟨((filtered_out_advances (demo_env ⟨"nomatch", "", "", ""⟩ 10)).1 1
      (dispatch0 ⟨120, 0, 1⟩ 7 "") 121 ⟨"disk full", 121, 1000, "diskmon", ITEM_LOGTYPE_ERROR, 7⟩
      ERROR_TYPE rfl (by decide)).imp id (fun h => h.1),
    (filtered_out_advances (demo_env ⟨"nomatch", "", "", ""⟩ 10)).2.2.2.2.2 (demo_os 100 51 [])
      "System" ⟨120, 0, 1⟩ 7 none "" 100 51 (by decide) (by decide)
      (demo_os_sound 100 51 [] (by norm_num)) (demo_os_times 100 51 []) (Or.inl rfl)
      (fun _ => rfl) (by decide) (by decide),
    ⟨_, rfl, rfl, rfl, rfl, rfl, rfl, rfl, rfl⟩, ⟨_, rfl, rfl, rfl, rfl, rfl, rfl, rfl, rfl⟩⟩

end Eventlog
